import Mathlib


/-!
Randomised parallel multi-dataset I/O test (`testpar/t_pmulti_dset.c`)

A shallow embedding of `test_pmdset`: the selection generator, the expected-buffer
bookkeeping and the operation loop, followed by the properties proved about them.

Conventions of the embedding

* `HDrandom()` is a stream: `Env.random n` is the value returned by the `n`-th call after
  `HDsrandom(seed)`; the state field `pos` counts the calls made so far.
* `unsigned` values are naturals reduced modulo `2 ^ 32`, `int` values are integers reduced
  to the two's-complement range; `size_t`/`hsize_t` values are naturals.
* The flat buffers `rbuf`, `erbuf`, `wbuf`, `efbuf` and `dset_usage` are maps from the flat
  offset to the value; `bufi[i][j][l]` is `buf[i * MAX_DSET_X * MAX_DSET_Y + j * MAX_DSET_Y + l]`
  (lines 156-163).
* Calls that leave the process (HDF5, MPI) are recorded in `log`; a call whose status the
  source tests runs `T_PMD_ERROR` when `Env.failed` says that call failed.
-/

namespace PMultiDset

/-! ## Constants (lines 41-59) -/

abbrev MAX_DSETS : Nat := 5
abbrev MAX_DSET_X : Nat := 15
abbrev MAX_DSET_Y : Nat := 10
abbrev MAX_CHUNK_X : Nat := 8
abbrev MAX_CHUNK_Y : Nat := 6
abbrev MAX_HS_X : Nat := 4
abbrev MAX_HS_Y : Nat := 2
abbrev MAX_HS : Nat := 2
abbrev MAX_POINTS : Nat := 6
abbrev MAX_SEL_RETRIES : Nat := 10
abbrev OPS_PER_FILE : Nat := 25

abbrev MDSET_FLAG_CHUNK : Nat := 0x01
abbrev MDSET_FLAG_SHAPESAME : Nat := 0x02
abbrev MDSET_FLAG_MDSET : Nat := 0x04
abbrev MDSET_FLAG_COLLECTIVE : Nat := 0x08

/-- The test `flags & bit` of the source. -/
def has_flag (flags bit : Nat) : Bool := flags &&& bit != 0

/-! ## Machine arithmetic -/

/-- Conversion to `unsigned` (32 bits). -/
def to_unsigned (i : Int) : Nat := (i % 4294967296).toNat

/-- Conversion to `int` (32 bits, two's complement). -/
def to_int (i : Int) : Int :=
  if i % 4294967296 < 2147483648 then i % 4294967296 else i % 4294967296 - 4294967296

/-! ## Environment and state -/

/-- Calls that cross the process boundary. The Boolean of a selection call tells whether the
memory dataspace (`true`) or the file dataspace (`false`) of dataset `k` is addressed;
`H5Screate_simple_mem`, `H5Scopy` and `H5Sclose_mem` are the calls on the memory dataspaces
(lines 185-190 and 546-547); the class of a property list is 0 for the file access, 1 for the
dataset creation and 2 for the transfer property list. -/
inductive Call where
  | MPI_Barrier
  | H5Fcreate
  | H5Fopen
  | H5Fclose
  | H5Screate_simple (k : Nat)
  | H5Pset_chunk
  | H5Dcreate2 (k : Nat)
  | H5Dopen2 (k : Nat)
  | H5Dclose (k : Nat)
  | H5Sclose (k : Nat)
  | H5Sselect_none (mem : Bool) (k : Nat)
  | H5Sselect_hyperslab (mem : Bool) (k : Nat)
  | H5Sselect_elements (mem : Bool) (k : Nat)
  | H5Dread
  | H5Dread_multi
  | H5Dwrite
  | H5Dwrite_multi
  | H5Screate_simple_mem
  | H5Scopy (k : Nat)
  | H5Sclose_mem (k : Nat)
  | H5Pcreate (cls : Nat)
  | H5Pset_fapl_mpio
  | H5Pset_fill_time
  | H5Pset_alloc_time
  | H5Pset_dxpl_mpio (collective : Bool)
  | H5Pclose (cls : Nat)
  | MPI_Init
  | MPI_Comm_size
  | MPI_Comm_rank
  | MPI_Bcast
  | MPI_File_delete
  | MPI_Allreduce
  | MPI_Finalize
  | H5close
  | h5_reset
  deriving DecidableEq, Repr

/-- One selection request held by a dataspace: the whole extent `dims` (what
`H5Screate_simple` leaves selected), a hyperslab or-ed into the selection (`start`, `count`),
or a list of `num` elements appended to it (`coord`, the flattened coordinate array). -/
inductive Sel where
  | all (dims : List Nat)
  | hyperslab (start count : List Nat)
  | elements (num : Nat) (coord : List Nat)
  deriving DecidableEq, Repr

/-- What a process receives from outside. -/
structure Env where
  /-- Value of the `n`-th `HDrandom()` call. -/
  random : Nat → Nat
  mpi_size : Nat
  mpi_rank : Nat
  /-- Whether the `n`-th boundary call of this process reports failure. -/
  failed : Nat → Bool

/-- The variables of `test_pmdset` that live across statements, with the global `nerrors`,
the number of `HDrandom()` calls made (`pos`), the boundary calls made (`log`) and the
selections currently held by the dataspaces of `multi_info`. -/
structure State where
  pos : Nat
  nerrors : Nat
  log : List Call
  ndsets : Nat
  dset_dims : Nat → Nat → Nat
  chunk_dims : Nat → Nat
  rbuf : Nat → Nat
  erbuf : Nat → Nat
  wbuf : Nat → Nat
  efbuf : Nat → Nat
  dset_usage : Nat → Nat
  start : Nat → Nat → Nat
  count : Nat → Nat → Nat
  points : Nat → Nat
  last_read : Bool
  mem_space : Nat → List Sel
  dset_space : Nat → List Sel

/-- What the per-rank body has settled on when it reaches the usage-mask update: the
hyperslabs `start[m]`, `count[m]` for `m < nhs` as `(start0, start1, count0, count1)`, or
the points `points[2m]`, `points[2m+1]` for `m < npoints`. -/
inductive Accepted where
  | hyperslabs (regions : List (Nat × Nat × Nat × Nat))
  | points (pts : List (Nat × Nat))
  deriving DecidableEq, Repr

/-! ## Small helpers -/

/-- Assignment `b[i] = v`. -/
@[macro_inline]
def set (b : Nat → Nat) (i v : Nat) : Nat → Nat := fun j => if j = i then v else b j

/-- Assignment `a[m][d] = v`. -/
def set2 (a : Nat → Nat → Nat) (m d v : Nat) : Nat → Nat → Nat :=
  fun m' d' => if m' = m ∧ d' = d then v else a m' d'

/-- Assignment `sp[k] = v` for a per-dataset table. -/
def set_at {α : Type} (sp : Nat → α) (k : Nat) (v : α) : Nat → α :=
  fun j => if j = k then v else sp j

/-- Offset of `bufi[i][j][l]` in the flat buffer (lines 156-163). -/
def idx (i j l : Nat) : Nat := i * (MAX_DSET_X * MAX_DSET_Y) + j * MAX_DSET_Y + l

/-- The variable `max_dsets` (line 135). -/
def max_dsets (flags : Nat) : Nat := if has_flag flags MDSET_FLAG_MDSET then MAX_DSETS else 1

/-- Number of elements of each flat buffer: `max_dsets * MAX_DSET_X * MAX_DSET_Y`. -/
def buf_len (flags : Nat) : Nat := max_dsets flags * MAX_DSET_X * MAX_DSET_Y

/-- The variable `op_data_incr` (line 138), an `unsigned`. -/
def op_data_incr (E : Env) (flags : Nat) : Nat :=
  to_unsigned (((max_dsets flags * MAX_DSET_X * MAX_DSET_Y * E.mpi_size : Nat) : Int))

/-- The variable `rank_data_diff` (lines 334-335), an `int`. -/
def rank_data_diff (E : Env) (flags : Nat) (l : Nat) : Int :=
  to_int (to_int ((max_dsets flags * MAX_DSET_X * MAX_DSET_Y : Nat) : Int) *
    ((l : Int) - (E.mpi_rank : Int)))

/-- The value lines 399 and 460-461 store in `efbuf` at offset `i` when the loop is at rank
`l`: `(unsigned)((int)wbuf[i] + rank_data_diff)`. -/
def efbuf_value (E : Env) (flags l : Nat) (wbuf : Nat → Nat) (i : Nat) : Nat :=
  to_unsigned (to_int (wbuf i) + rank_data_diff E flags l)

/-- The loop nest `for (n = s0; n < s0 + c0; n++) for (o = s1; o < s1 + c1; o++) body`. -/
def for_region {α : Type} (s0 c0 s1 c1 : Nat) (body : Nat → Nat → α → α) (a : α) : α :=
  (List.range' s0 c0).foldl (fun a n => (List.range' s1 c1).foldl (fun a o => body n o a) a) a

/-- The loop nest over all `[i][j][l]` with `i < n`, `j < MAX_DSET_X`, `l < MAX_DSET_Y`. -/
def for_cells {α : Type} (n : Nat) (body : Nat → Nat → Nat → α → α) (a : α) : α :=
  (List.range n).foldl (fun a i =>
    (List.range MAX_DSET_X).foldl (fun a j =>
      (List.range MAX_DSET_Y).foldl (fun a l => body i j l a) a) a) a

/-- The call `memset(buf, 0, n * sizeof(elem))`. -/
def memset0 (b : Nat → Nat) (n : Nat) : Nat → Nat := fun j => if j < n then 0 else b j

/-- The test `0 != memcmp(a, b, n * sizeof(unsigned))`. -/
def memcmp_ne (a b : Nat → Nat) (n : Nat) : Bool := (List.range n).any (fun i => a i != b i)

/-- A boundary call whose status is tested: on failure `T_PMD_ERROR` counts one error. -/
def checked (E : Env) (c : Call) (s : State) : State :=
  { s with
    log := s.log ++ [c]
    nerrors := if E.failed s.log.length then s.nerrors + 1 else s.nerrors }

/-- A boundary call whose status is discarded. -/
def unchecked (c : Call) (s : State) : State := { s with log := s.log ++ [c] }

/-- The cells a hyperslab `(start0, start1, count0, count1)` covers. -/
def region_cells (r : Nat × Nat × Nat × Nat) : List (Nat × Nat) :=
  (List.range' r.1 r.2.2.1).flatMap (fun n => (List.range' r.2.1 r.2.2.2).map (fun o => (n, o)))

/-- The cells of what was accepted for a rank. -/
def Accepted.cells : Accepted → List (Nat × Nat)
  | .hyperslabs regions => regions.flatMap region_cells
  | .points pts => pts

/-- Number of accepted regions or points (`nhs` / `npoints` after the generation loop). -/
def Accepted.num : Accepted → Nat
  | .hyperslabs regions => regions.length
  | .points pts => pts.length

/-- The cells selected by one request on a two-dimensional file dataspace. -/
def Sel.cells : Sel → List (Nat × Nat)
  | .all dims => region_cells (0, 0, dims.getD 0 0, dims.getD 1 0)
  | .hyperslab start count =>
      region_cells (start.getD 0 0, start.getD 1 0, count.getD 0 0, count.getD 1 0)
  | .elements num coord => (List.range num).map (fun m => (coord.getD (2 * m) 0, coord.getD (2 * m + 1) 0))

/-- The cells selected in a file dataspace. -/
def sel_cells (sp : List Sel) : List (Nat × Nat) := sp.flatMap Sel.cells

/-- The buffer `b` after `b[idx k x y] = g (idx k x y)` for every cell `(x, y)` of `cells`. -/
def fill (k : Nat) (cells : List (Nat × Nat)) (g : Nat → Nat) (b : Nat → Nat) : Nat → Nat :=
  fun j => if ∃ c ∈ cells, j = idx k c.1 c.2 then g j else b j

/-- The hyperslabs `start[m]`, `count[m]` for `a ≤ m < a + n`. -/
def regions_of (s : State) (a n : Nat) : List (Nat × Nat × Nat × Nat) :=
  (List.range' a n).map (fun m => (s.start m 0, s.start m 1, s.count m 0, s.count m 1))

/-- The points `points[2m]`, `points[2m+1]` for `a ≤ m < a + n`. -/
def points_of (s : State) (a n : Nat) : List (Nat × Nat) :=
  (List.range' a n).map (fun m => (s.points (2 * m), s.points (2 * m + 1)))

/-- The variables no statement of the selection phase (lines 318-484) assigns. -/
def Frame (s s' : State) : Prop :=
  s'.ndsets = s.ndsets ∧ s'.dset_dims = s.dset_dims ∧ s'.chunk_dims = s.chunk_dims ∧
  s'.rbuf = s.rbuf ∧ s'.wbuf = s.wbuf ∧ s'.last_read = s.last_read

/-- The variables the retry loops leave alone besides those of `Frame`. -/
def GenFrame (s s' : State) : Prop :=
  Frame s s' ∧ s'.nerrors = s.nerrors ∧ s'.log = s.log ∧ s'.erbuf = s.erbuf ∧
  s'.efbuf = s.efbuf ∧ s'.dset_usage = s.dset_usage ∧ s'.mem_space = s.mem_space ∧
  s'.dset_space = s.dset_space

/-- The request `H5Sselect_hyperslab` makes on a file dataspace for a hyperslab. -/
def sel_of_region (r : Nat × Nat × Nat × Nat) : Sel := .hyperslab [r.1, r.2.1] [r.2.2.1, r.2.2.2]

/-- The calls that only change a selection. -/
def Call.is_select : Call → Bool
  | .H5Sselect_none _ _ => true
  | .H5Sselect_hyperslab _ _ => true
  | .H5Sselect_elements _ _ => true
  | _ => false

/-- From `s` to `s'` the log grew by calls satisfying `p` and no error was taken back. -/
def LogExt (p : Call → Bool) (s s' : State) : Prop :=
  (∃ L, s'.log = s.log ++ L ∧ ∀ c ∈ L, p c = true) ∧ s.nerrors ≤ s'.nerrors

/-- The extent of dataset `k` is within the bounds of line 234-235. -/
def dims_ok (s : State) (k : Nat) : Prop :=
  (1 ≤ s.dset_dims k 0 ∧ s.dset_dims k 0 ≤ MAX_DSET_X) ∧
  (1 ≤ s.dset_dims k 1 ∧ s.dset_dims k 1 ≤ MAX_DSET_Y)

/-- The hyperslab `(start0, start1, count0, count1)` fits a dataset of extent `(X, Y)` and the
size limits of lines 341-346. -/
def region_fits (X Y : Nat) (r : Nat × Nat × Nat × Nat) : Prop :=
  (1 ≤ r.2.2.1 ∧ r.2.2.1 ≤ min MAX_HS_X X) ∧ (1 ≤ r.2.2.2 ∧ r.2.2.2 ≤ min MAX_HS_Y Y) ∧
  r.1 + r.2.2.1 ≤ X ∧ r.2.1 + r.2.2.2 ≤ Y

/-- Number of hyperslabs drawn (line 340). -/
def hs_draw_count (E : Env) (s : State) : Nat := E.random s.pos % MAX_HS + 1

/-- Number of points drawn (lines 411-412). -/
def pt_draw_count (E : Env) (s : State) : Nat := E.random s.pos % MAX_POINTS + 1

/-! ## Hyperslab selections (lines 339-408) -/

/-- Overlap test of lines 363-368: the candidate `start[m]`, `count[m]` against the usage
mask of dataset `k`. Once `overlap` is set the loop conditions `&& !overlap` skip every
remaining cell, so the flag is kept. -/
def hs_overlap (k m : Nat) (s : State) : Bool :=
  for_region (s.start m 0) (s.count m 0) (s.start m 1) (s.count m 1)
    (fun o p overlap => if overlap then true else decide (s.dset_usage (idx k o p) ≠ 0)) false

/-- One pass of the retry loop body (lines 351-368): draw `count[m]` and `start[m]`, then
test for overlap when writing. Returns the new state and `overlap`. -/
def hs_candidate (E : Env) (do_read : Bool) (k m max_hs_x max_hs_y : Nat) (s : State) :
    State × Bool :=
  let s1 := { s with count := set2 s.count m 0 (E.random s.pos % max_hs_x + 1), pos := s.pos + 1 }
  let s2 := { s1 with count := set2 s1.count m 1 (E.random s1.pos % max_hs_y + 1), pos := s1.pos + 1 }
  let s3 :=
    if s2.count m 0 = s2.dset_dims k 0 then { s2 with start := set2 s2.start m 0 0 }
    else { s2 with
      start := set2 s2.start m 0 (E.random s2.pos % (s2.dset_dims k 0 - s2.count m 0 + 1))
      pos := s2.pos + 1 }
  let s4 :=
    if s3.count m 1 = s3.dset_dims k 1 then { s3 with start := set2 s3.start m 1 0 }
    else { s3 with
      start := set2 s3.start m 1 (E.random s3.pos % (s3.dset_dims k 1 - s3.count m 1 + 1))
      pos := s3.pos + 1 }
  (s4, if do_read then false else hs_overlap k m s4)

/-- The retry loop `for (n = 0; overlap && (n < MAX_SEL_RETRIES); n++)` (lines 349-369),
entered with `overlap = TRUE`; the first argument is `MAX_SEL_RETRIES - n`. Returns the new
state and the final `overlap`. -/
def hs_retry (E : Env) (do_read : Bool) (k m max_hs_x max_hs_y : Nat) :
    Nat → State → State × Bool
  | 0, s => (s, true)
  | left + 1, s =>
    let r := hs_candidate E do_read k m max_hs_x max_hs_y s
    if r.2 then hs_retry E do_read k m max_hs_x max_hs_y left r.1 else (r.1, false)

/-- Lines 378-387: the accepted hyperslab is or-ed into both dataspaces of the own rank. -/
def hs_select (E : Env) (k l m : Nat) (s : State) : State :=
  if l = E.mpi_rank then
    let s1 := checked E (.H5Sselect_hyperslab true k)
      { s with
        mem_space := set_at s.mem_space k
          (s.mem_space k ++ [.hyperslab [s.start m 0, s.start m 1, s.start m 2]
            [s.count m 0, s.count m 1, s.count m 2]]) }
    checked E (.H5Sselect_hyperslab false k)
      { s1 with
        dset_space := set_at s1.dset_space k
          (s1.dset_space k ++ [.hyperslab [s1.start m 0, s1.start m 1]
            [s1.count m 0, s1.count m 1]]) }
  else s

/-- Lines 389-399: update of the expected buffers for the accepted hyperslab `m`. -/
def hs_expect (E : Env) (flags : Nat) (do_read : Bool) (k l m : Nat) (s : State) : State :=
  if do_read then
    if l = E.mpi_rank then
      { s with
        erbuf := for_region (s.start m 0) (s.count m 0) (s.start m 1) (s.count m 1)
          (fun n o erbuf => set erbuf (idx k n o) (s.efbuf (idx k n o))) s.erbuf }
    else s
  else
    { s with
      efbuf := for_region (s.start m 0) (s.count m 0) (s.start m 1) (s.count m 1)
        (fun n o efbuf => set efbuf (idx k n o) (efbuf_value E flags l s.wbuf (idx k n o)))
        s.efbuf }

/-- The loop `for (m = 0; m < nhs; m++)` (lines 348-400); the first argument is `nhs - m`.
Returns the new state and the value of `nhs` after the loop: `m` both when the loop runs to
its end and when it is left by `nhs = m; break`. -/
def hs_loop (E : Env) (flags : Nat) (do_read : Bool) (k l max_hs_x max_hs_y : Nat) :
    Nat → Nat → State → State × Nat
  | 0, m, s => (s, m)
  | left + 1, m, s =>
    let r := hs_retry E do_read k m max_hs_x max_hs_y MAX_SEL_RETRIES s
    if r.2 then (r.1, m)
    else
      hs_loop E flags do_read k l max_hs_x max_hs_y left (m + 1)
        (hs_expect E flags do_read k l m (hs_select E k l m r.1))

/-- Lines 402-407: the accepted hyperslabs are marked in the usage mask. -/
def hs_mark (k nhs : Nat) (s : State) : State :=
  { s with
    dset_usage := (List.range nhs).foldl (fun u m =>
      for_region (s.start m 0) (s.count m 0) (s.start m 1) (s.count m 1)
        (fun n o u => set u (idx k n o) 1) u) s.dset_usage }

/-- The hyperslab branch (lines 339-408), entered after the geometry draw. -/
def hs_branch (E : Env) (flags : Nat) (do_read : Bool) (k l : Nat) (s : State) :
    State × Accepted :=
  let nhs := hs_draw_count E s
  let s1 := { s with pos := s.pos + 1 }
  let max_hs_x := if MAX_HS_X ≤ s1.dset_dims k 0 then MAX_HS_X else s1.dset_dims k 0
  let max_hs_y := if MAX_HS_Y ≤ s1.dset_dims k 1 then MAX_HS_Y else s1.dset_dims k 1
  let r := hs_loop E flags do_read k l max_hs_x max_hs_y nhs 0 s1
  let s2 := if do_read then r.1 else hs_mark k r.2 r.1
  (s2, .hyperslabs (regions_of r.1 0 r.2))

/-! ## Point selections (lines 409-482) -/

/-- One pass of the retry loop body (lines 418-427). -/
def pt_candidate (E : Env) (do_read : Bool) (k m : Nat) (s : State) : State × Bool :=
  let s1 := { s with points := set s.points (2 * m) (E.random s.pos % s.dset_dims k 0), pos := s.pos + 1 }
  let s2 := { s1 with
    points := set s1.points (2 * m + 1) (E.random s1.pos % s1.dset_dims k 1), pos := s1.pos + 1 }
  (s2, if do_read then false
       else decide (s2.dset_usage (idx k (s2.points (2 * m)) (s2.points (2 * m + 1))) ≠ 0))

/-- The retry loop of lines 416-428; the first argument is `MAX_SEL_RETRIES - n`. -/
def pt_retry (E : Env) (do_read : Bool) (k m : Nat) : Nat → State → State × Bool
  | 0, s => (s, true)
  | left + 1, s =>
    let r := pt_candidate E do_read k m s
    if r.2 then pt_retry E do_read k m left r.1 else (r.1, false)

/-- The loop `for (m = 0; m < npoints; m++)` (lines 415-436); the first argument is
`npoints - m`. Returns the new state and `npoints` after the loop. -/
def pt_loop (E : Env) (do_read : Bool) (k : Nat) : Nat → Nat → State → State × Nat
  | 0, m, s => (s, m)
  | left + 1, m, s =>
    let r := pt_retry E do_read k m MAX_SEL_RETRIES s
    if r.2 then (r.1, m) else pt_loop E do_read k left (m + 1) r.1

/-- Lines 438-441: the accepted points are marked in the usage mask. -/
def pt_mark (k npoints : Nat) (s : State) : State :=
  { s with
    dset_usage := (List.range npoints).foldl (fun u m =>
      set u (idx k (s.points (2 * m)) (s.points (2 * m + 1))) 1) s.dset_usage }

/-- Lines 443-448: the points are appended to the file dataspace of the own rank. -/
def pt_select_file (E : Env) (k l npoints : Nat) (s : State) : State :=
  if l = E.mpi_rank ∧ npoints > 0 then
    checked E (.H5Sselect_elements false k)
      { s with
        dset_space := set_at s.dset_space k
          (s.dset_space k ++ [.elements npoints ((List.range (2 * npoints)).map s.points)]) }
  else s

/-- Lines 450-461: update of the expected buffers for the accepted points. -/
def pt_expect (E : Env) (flags : Nat) (do_read : Bool) (k l npoints : Nat) (s : State) : State :=
  if do_read then
    if l = E.mpi_rank then
      { s with
        erbuf := (List.range npoints).foldl (fun erbuf m =>
          set erbuf (idx k (s.points (2 * m)) (s.points (2 * m + 1)))
            (s.efbuf (idx k (s.points (2 * m)) (s.points (2 * m + 1))))) s.erbuf }
    else s
  else
    { s with
      efbuf := (List.range npoints).foldl (fun efbuf m =>
        set efbuf (idx k (s.points (2 * m)) (s.points (2 * m + 1)))
          (efbuf_value E flags l s.wbuf (idx k (s.points (2 * m)) (s.points (2 * m + 1)))))
        s.efbuf }

/-- The loop `for (m = npoints - 1; m > 0; m--)` of lines 469-473; the first argument is the
current `m`. -/
def pt_convert_loop : Nat → (Nat → Nat) → (Nat → Nat)
  | 0, points => points
  | m + 1, points =>
    let p1 := set points (3 * (m + 1) + 2) 0
    let p2 := set p1 (3 * (m + 1) + 1) (p1 (2 * (m + 1) + 1))
    let p3 := set p2 (3 * (m + 1)) (p2 (2 * (m + 1)))
    pt_convert_loop m p3

/-- Lines 463-481: conversion to three coordinates unless "shapesame", and selection of the
points in the memory dataspace of the own rank. -/
def pt_select_mem (E : Env) (flags : Nat) (k l npoints : Nat) (s : State) : State :=
  if l = E.mpi_rank ∧ npoints > 0 then
    let s1 :=
      if !has_flag flags MDSET_FLAG_SHAPESAME then
        { s with points := set (pt_convert_loop (npoints - 1) s.points) 2 0 }
      else s
    checked E (.H5Sselect_elements true k)
      { s1 with
        mem_space := set_at s1.mem_space k
          (s1.mem_space k ++ [.elements npoints
            ((List.range ((if has_flag flags MDSET_FLAG_SHAPESAME then 2 else 3) * npoints)).map
              s1.points)]) }
  else s

/-- The point branch (lines 409-482), entered after the geometry draw. -/
def pt_branch (E : Env) (flags : Nat) (do_read : Bool) (k l : Nat) (s : State) :
    State × Accepted :=
  let npoints := pt_draw_count E s
  let s1 := { s with pos := s.pos + 1 }
  let r := pt_loop E do_read k npoints 0 s1
  let s2 := if do_read then r.1 else pt_mark k r.2 r.1
  let s3 := pt_select_file E k l r.2 s2
  let s4 := pt_expect E flags do_read k l r.2 s3
  (pt_select_mem E flags k l r.2 s4, .points (points_of r.1 0 r.2))

/-! ## One operation (lines 274-529) -/

/-- Body of the loop over processes for rank `l` on dataset `k` (lines 331-483). -/
def rank_iter (E : Env) (flags : Nat) (do_read : Bool) (k l : Nat) (s : State) :
    State × Accepted :=
  if E.random s.pos % 2 ≠ 0 then hs_branch E flags do_read k l { s with pos := s.pos + 1 }
  else pt_branch E flags do_read k l { s with pos := s.pos + 1 }

/-- The loop `for (l = 0; l < mpi_size; l++)` (lines 331-483); the first argument is
`mpi_size - l`. Returns what was accepted for the ranks `l, l + 1, ...` in this order. -/
def rank_loop (E : Env) (flags : Nat) (do_read : Bool) (k : Nat) :
    Nat → Nat → State → State × List Accepted
  | 0, _, s => (s, [])
  | left + 1, l, s =>
    let r := rank_iter E flags do_read k l s
    let r' := rank_loop E flags do_read k left (l + 1) r.1
    (r'.1, r.2 :: r'.2)

/-- Body of the loop over datasets for dataset `k` (lines 319-484). -/
def dset_iter (E : Env) (flags : Nat) (do_read : Bool) (k : Nat) (s : State) :
    State × List Accepted :=
  let s1 := checked E (.H5Sselect_none true k) { s with mem_space := set_at s.mem_space k [] }
  let s2 := checked E (.H5Sselect_none false k) { s1 with dset_space := set_at s1.dset_space k [] }
  let s3 := if !do_read then { s2 with dset_usage := memset0 s2.dset_usage (buf_len flags) } else s2
  rank_loop E flags do_read k E.mpi_size 0 s3

/-- The loop `for (k = 0; k < ndsets; k++)` (lines 319-484); the first argument is
`ndsets - k`. Returns, per dataset, what was accepted for every rank. -/
def dset_loop (E : Env) (flags : Nat) (do_read : Bool) :
    Nat → Nat → State → State × List (List Accepted)
  | 0, _, s => (s, [])
  | left + 1, k, s =>
    let r := dset_iter E flags do_read k s
    let r' := dset_loop E flags do_read left (k + 1) r.1
    (r'.1, r.2 :: r'.2)

/-- Lines 285-313: close and reopen all datasets and the file. -/
def reopen (E : Env) (s : State) : State :=
  let s1 := (List.range s.ndsets).foldl (fun s k => checked E (.H5Dclose k) s) s
  let s2 := checked E .H5Fclose s1
  let s3 := unchecked .MPI_Barrier s2
  let s4 := checked E .H5Fopen s3
  let s5 := (List.range s.ndsets).foldl (fun s k => checked E (.H5Dopen2 k) s) s4
  unchecked .MPI_Barrier s5

/-- Lines 275-316: the read/write decision, the barrier, the close/reopen cycle when the last
operation was a write, and the update of `last_read`. Returns the new state and `do_read`. -/
def op_begin (E : Env) (s : State) : State × Bool :=
  let do_read := decide (E.random s.pos % 2 ≠ 0)
  let s1 := unchecked .MPI_Barrier { s with pos := s.pos + 1 }
  let s2 := if !s1.last_read then reopen E s1 else s1
  ({ s2 with last_read := do_read }, do_read)

/-- What `H5Dread`/`H5Dread_multi` leaves in the read buffer when the storage holds `file`:
every cell selected in the file dataspace of a dataset `k < n` arrives at the same
coordinates of the memory buffer of that dataset. -/
def read_into (file : Nat → Nat → Nat → Nat) (n : Nat) (dset_space : Nat → List Sel)
    (rbuf : Nat → Nat) : Nat → Nat :=
  (List.range n).foldl (fun b k =>
    (sel_cells (dset_space k)).foldl (fun b c => set b (idx k c.1 c.2) (file k c.1 c.2)) b) rbuf

/-- Lines 486-528: the I/O call, then the verification of a read or the update of `wbuf`
after a write. `file` is the content the storage delivers to a read. -/
def op_io (E : Env) (flags : Nat) (do_read : Bool) (file : Nat → Nat → Nat → Nat) (s : State) :
    State :=
  if do_read then
    let s1 :=
      if has_flag flags MDSET_FLAG_MDSET then
        checked E .H5Dread_multi { s with rbuf := read_into file s.ndsets s.dset_space s.rbuf }
      else
        checked E .H5Dread { s with rbuf := read_into file 1 s.dset_space s.rbuf }
    if memcmp_ne s1.rbuf s1.erbuf (buf_len flags) then { s1 with nerrors := s1.nerrors + 1 } else s1
  else
    let s1 :=
      if has_flag flags MDSET_FLAG_MDSET then checked E .H5Dwrite_multi s
      else checked E .H5Dwrite s
    { s1 with
      wbuf := for_cells (max_dsets flags)
        (fun l m n wbuf => set wbuf (idx l m n)
          (to_unsigned ((wbuf (idx l m n) : Int) + (op_data_incr E flags : Int)))) s1.wbuf }

/-- Lines 318-484 of one operation: the selections of all datasets. -/
def op_select (E : Env) (flags : Nat) (do_read : Bool) (s : State) :
    State × List (List Accepted) :=
  dset_loop E flags do_read s.ndsets 0 s

/-- One pass of the loop `for (j = 0; j < OPS_PER_FILE; j++)` (lines 274-529). -/
def operation (E : Env) (flags : Nat) (file : Nat → Nat → Nat → Nat) (s : State) : State :=
  let b := op_begin E s
  op_io E flags b.2 file (op_select E flags b.2 b.1).1

/-! ## One file lifetime (lines 223-271) -/

/-- Body of the loop creating dataset `j` (lines 232-253). -/
def create_dset (E : Env) (flags : Nat) (j : Nat) (s : State) : State :=
  let s1 := { s with
    dset_dims := set2 s.dset_dims j 0 (E.random s.pos % MAX_DSET_X + 1), pos := s.pos + 1 }
  let s2 := { s1 with
    dset_dims := set2 s1.dset_dims j 1 (E.random s1.pos % MAX_DSET_Y + 1), pos := s1.pos + 1 }
  let s3 := checked E (.H5Screate_simple j) { s2 with dset_space := set_at s2.dset_space j [.all [s2.dset_dims j 0, s2.dset_dims j 1]] }
  let s4 :=
    if has_flag flags MDSET_FLAG_CHUNK then
      let c1 := { s3 with
        chunk_dims := set s3.chunk_dims 0 (E.random s3.pos % MAX_CHUNK_X + 1), pos := s3.pos + 1 }
      let c2 := { c1 with
        chunk_dims := set c1.chunk_dims 1 (E.random c1.pos % MAX_CHUNK_Y + 1), pos := c1.pos + 1 }
      checked E .H5Pset_chunk c2
    else s3
  checked E (.H5Dcreate2 j) s4

/-- Lines 224-271: start of a lifetime, up to the operation loop. -/
def lifetime_init (E : Env) (flags : Nat) (s : State) : State :=
  let s1 :=
    if has_flag flags MDSET_FLAG_MDSET then
      { s with ndsets := E.random s.pos % max_dsets flags + 1, pos := s.pos + 1 }
    else { s with ndsets := 1 }
  let s2 := checked E .H5Fcreate s1
  let s3 := (List.range s2.ndsets).foldl (fun s j => create_dset E flags j s) s2
  let s4 := { s3 with rbuf := memset0 s3.rbuf (buf_len flags) }
  let s5 := { s4 with erbuf := memset0 s4.erbuf (buf_len flags) }
  let s6 := { s5 with
    wbuf := for_cells (max_dsets flags)
      (fun j k l wbuf => set wbuf (idx j k l)
        (to_unsigned ((E.mpi_rank * max_dsets flags * MAX_DSET_X * MAX_DSET_Y
          + j * MAX_DSET_X * MAX_DSET_Y + k * MAX_DSET_Y + l : Nat) : Int))) s5.wbuf }
  let s7 := { s6 with efbuf := memset0 s6.efbuf (buf_len flags) }
  { s7 with last_read := true }

/-- What one pass of the loop over processes (rank `l`, dataset `k`) does to the state `s`,
in terms of what it accepted: the usage mask and the expected buffers are filled on exactly
the accepted cells, the file selection of the own rank grows by them, a written cell was
free, and every accepted cell lies in the dataset. -/
def RankSpec (E : Env) (flags : Nat) (do_read : Bool) (k l : Nat) (s : State)
    (r : State × Accepted) : Prop :=
  Frame s r.1 ∧ s.pos ≤ r.1.pos ∧ LogExt Call.is_select s r.1 ∧
  r.1.dset_usage =
    (if do_read = true then s.dset_usage else fill k r.2.cells (fun _ => 1) s.dset_usage) ∧
  r.1.efbuf =
    (if do_read = true then s.efbuf
     else fill k r.2.cells (efbuf_value E flags l s.wbuf) s.efbuf) ∧
  r.1.erbuf =
    (if do_read = true ∧ l = E.mpi_rank then fill k r.2.cells s.efbuf s.erbuf else s.erbuf) ∧
  (∀ k', sel_cells (r.1.dset_space k') =
    if l = E.mpi_rank ∧ k' = k then sel_cells (s.dset_space k) ++ r.2.cells
    else sel_cells (s.dset_space k')) ∧
  (do_read = false → ∀ c ∈ r.2.cells, s.dset_usage (idx k c.1 c.2) = 0) ∧
  (dims_ok s k → ∀ c ∈ r.2.cells, c.1 < s.dset_dims k 0 ∧ c.2 < s.dset_dims k 1)

/-- The accepted cells of one dataset as `(dataset, rank, x, y)`, the list `accs` holding what
was accepted for the ranks `l, l + 1, ...`. -/
def rank_cells (k : Nat) : Nat → List Accepted → List (Nat × Nat × Nat × Nat)
  | _, [] => []
  | l, a :: rest => a.cells.map (fun c => (k, l, c.1, c.2)) ++ rank_cells k (l + 1) rest

/-- The accepted cells of an operation as `(dataset, rank, x, y)`, the list holding the
datasets `k, k + 1, ...`. -/
def op_cells : Nat → List (List Accepted) → List (Nat × Nat × Nat × Nat)
  | _, [] => []
  | k, accs :: rest => rank_cells k 0 accs ++ op_cells (k + 1) rest

/-- No cell of a dataset is accepted for two different ranks. -/
def NoOverlap (T : List (Nat × Nat × Nat × Nat)) : Prop :=
  ∀ t1 ∈ T, ∀ t2 ∈ T, t1.1 = t2.1 → t1.2.2 = t2.2.2 → t1.2.1 = t2.2.1

/-- The expected-file buffer `e'` is `e` with every offset covered by a cell of `T` set to the
value line 399/460 computes from `w` for a rank that accepted a cell at that offset. -/
def Written (E : Env) (flags : Nat) (w : Nat → Nat) (T : List (Nat × Nat × Nat × Nat))
    (e e' : Nat → Nat) : Prop :=
  ∀ j, (∃ t ∈ T, j = idx t.1 t.2.2.1 t.2.2.2 ∧ e' j = efbuf_value E flags t.2.1 w j) ∨
    ((∀ t ∈ T, j ≠ idx t.1 t.2.2.1 t.2.2.2) ∧ e' j = e j)

/-- The buffer `b'` is `b` with every offset covered by a cell that `T` holds for a rank
satisfying `p` set to the value of `g` there. -/
def Filled (p : Nat → Prop) (T : List (Nat × Nat × Nat × Nat)) (g b b' : Nat → Nat) : Prop :=
  ∀ j, ((∃ t ∈ T, p t.2.1 ∧ j = idx t.1 t.2.2.1 t.2.2.2) → b' j = g j) ∧
    ((∀ t ∈ T, p t.2.1 → j ≠ idx t.1 t.2.2.1 t.2.2.2) → b' j = b j)

/-- Two processes are at the same point of the random stream and see the same dataset `k`;
when writing they also agree on the usage mask over the extent of the dataset. -/
def Sync (do_read : Bool) (k : Nat) (s s' : State) : Prop :=
  s.pos = s'.pos ∧ s.dset_dims k 0 = s'.dset_dims k 0 ∧ s.dset_dims k 1 = s'.dset_dims k 1 ∧
  (do_read = false → ∀ c : Nat × Nat, c.1 < s.dset_dims k 0 → c.2 < s.dset_dims k 1 →
    s.dset_usage (idx k c.1 c.2) = s'.dset_usage (idx k c.1 c.2))

/-- Everything but the log and the error counter is the same in `s` and `s'`. -/
def SameData (s s' : State) : Prop :=
  s'.pos = s.pos ∧ s'.ndsets = s.ndsets ∧ s'.dset_dims = s.dset_dims ∧
  s'.chunk_dims = s.chunk_dims ∧ s'.rbuf = s.rbuf ∧ s'.erbuf = s.erbuf ∧ s'.wbuf = s.wbuf ∧
  s'.efbuf = s.efbuf ∧ s'.dset_usage = s.dset_usage ∧ s'.start = s.start ∧ s'.count = s.count ∧
  s'.points = s.points ∧ s'.last_read = s.last_read ∧ s'.mem_space = s.mem_space ∧
  s'.dset_space = s.dset_space

/-- The calls of one close/reopen cycle (lines 285-313) with `n` datasets. -/
def reopen_calls (n : Nat) : List Call :=
  (List.range n).map Call.H5Dclose ++ [Call.H5Fclose, Call.MPI_Barrier, Call.H5Fopen] ++
    (List.range n).map Call.H5Dopen2 ++ [Call.MPI_Barrier]

/-- The state after the first `n` operations of a lifetime that starts in `s` (the state
`lifetime_init` returns); `file j` is what the storage delivers to operation `j`. -/
def run_ops (E : Env) (flags : Nat) (file : Nat → Nat → Nat → Nat → Nat) : Nat → State → State
  | 0, s => s
  | n + 1, s => operation E flags (file n) (run_ops E flags file n s)

/-- Whether operation `j` of the lifetime is a read (`do_read` of line 276). -/
def op_is_read (E : Env) (flags : Nat) (file : Nat → Nat → Nat → Nat → Nat) (s : State)
    (j : Nat) : Bool :=
  (op_begin E (run_ops E flags file j s)).2

/-- Number of write operations among the first `n` operations of the lifetime. -/
def writes_done (E : Env) (flags : Nat) (file : Nat → Nat → Nat → Nat → Nat) (s : State) :
    Nat → Nat
  | 0 => 0
  | n + 1 => writes_done E flags file s n + (if op_is_read E flags file s n then 0 else 1)

/-- The boundary calls operation `j` of the lifetime makes. -/
def op_calls (E : Env) (flags : Nat) (file : Nat → Nat → Nat → Nat → Nat) (s : State)
    (j : Nat) : List Call :=
  (run_ops E flags file (j + 1) s).log.drop (run_ops E flags file j s).log.length

/-- Scanning a list of calls: whether data written since the last `H5Fopen` is pending. -/
def dirty_after : Bool → List Call → Bool
  | dirty, [] => dirty
  | _, Call.H5Dwrite :: cs => dirty_after true cs
  | _, Call.H5Dwrite_multi :: cs => dirty_after true cs
  | _, Call.H5Fopen :: cs => dirty_after false cs
  | dirty, _ :: cs => dirty_after dirty cs

/-- Scanning a list of calls: no read call is made while written data is pending, that is,
between any write and a later read the file was reopened. -/
def flushed_reads : Bool → List Call → Bool
  | _, [] => true
  | _, Call.H5Dwrite :: cs => flushed_reads true cs
  | _, Call.H5Dwrite_multi :: cs => flushed_reads true cs
  | _, Call.H5Fopen :: cs => flushed_reads false cs
  | dirty, Call.H5Dread :: cs => !dirty && flushed_reads dirty cs
  | dirty, Call.H5Dread_multi :: cs => !dirty && flushed_reads dirty cs
  | dirty, _ :: cs => flushed_reads dirty cs

/-! ## A group of processes over an ideal store

The processes of a group share the random stream and the group size and differ in their rank.
The shared storage is one cell array per dataset. -/

/-- The process of rank `r`. -/
def worker_env (random : Nat → Nat) (size : Nat) (failed : Nat → Nat → Bool) (r : Nat) : Env :=
  { random := random, mpi_size := size, mpi_rank := r, failed := failed r }

/-- The states of all processes, by rank, and the content of the storage. -/
structure Group where
  worker : Nat → State
  store : Nat → Nat → Nat → Nat

/-- The cells of dataset `k` handed to `H5Dwrite`/`H5Dread` by a process in state `s`: the
selection of the file dataspace of each of the `ndsets` datasets with `H5D*_multi`, and of
dataset 0 alone otherwise. -/
def io_cells (flags : Nat) (s : State) (k : Nat) : List (Nat × Nat) :=
  if k < (if has_flag flags MDSET_FLAG_MDSET then s.ndsets else 1) then sel_cells (s.dset_space k)
  else []

/-- Storage after a write operation: a cell selected by a writing process `a` holds the value
of the write buffer of `a` at that cell, any other cell keeps its content. -/
def ideal_write (size : Nat) (writes : Nat → Bool) (cells : Nat → Nat → List (Nat × Nat))
    (wbuf : Nat → Nat → Nat) (store : Nat → Nat → Nat → Nat) : Nat → Nat → Nat → Nat :=
  fun k x y =>
    match (List.range size).find? (fun a => writes a && decide ((x, y) ∈ cells a k)) with
    | some a => wbuf a (idx k x y)
    | none => store k x y

/-- One operation of the whole group: every process runs `operation`; reads are served from
the storage, writes land in it. -/
def group_op (env : Nat → Env) (flags size : Nat) (g : Group) : Group :=
  let b := fun r => op_begin (env r) (g.worker r)
  let sel := fun r => (op_select (env r) flags (b r).2 (b r).1).1
  { worker := fun r => op_io (env r) flags (b r).2 g.store (sel r)
    store := ideal_write size (fun a => !(b a).2) (fun a => io_cells flags (sel a))
      (fun a => (sel a).wbuf) g.store }

/-- The group at the start of a lifetime: every process has run `lifetime_init`, the datasets
are freshly created and hold the fill value 0. -/
def group_init (env : Nat → Env) (flags : Nat) (w : Nat → State) : Group :=
  { worker := fun r => lifetime_init (env r) flags (w r), store := fun _ _ _ => 0 }

/-- The group after `n` operations of a lifetime. -/
def group_run (env : Nat → Env) (flags size : Nat) (w : Nat → State) : Nat → Group
  | 0 => group_init env flags w
  | n + 1 => group_op env flags size (group_run env flags size w n)

/-- The value the write buffer of rank `r` holds at offset `p` after `t` write operations of a
lifetime: `r * buf_len + p + t * (buf_len * size)` as an `unsigned`. -/
def wbuf_value (flags size r t p : Nat) : Nat :=
  to_unsigned ((r * buf_len flags + p + t * (buf_len flags * size) : Nat) : Int)

/-- The processes of a group are in lockstep after `t` write operations of a lifetime and
their oracles agree with the storage. -/
def GroupInv (flags size t : Nat) (g : Group) : Prop :=
  (∀ r, r < size → 1 ≤ (g.worker r).ndsets ∧ (g.worker r).ndsets ≤ max_dsets flags ∧
    ∀ k, k < (g.worker r).ndsets → dims_ok (g.worker r) k) ∧
  (∀ r r', r < size → r' < size → (g.worker r).pos = (g.worker r').pos ∧
    (g.worker r).ndsets = (g.worker r').ndsets ∧
    ∀ k, k < (g.worker r).ndsets → (g.worker r).dset_dims k 0 = (g.worker r').dset_dims k 0 ∧
      (g.worker r).dset_dims k 1 = (g.worker r').dset_dims k 1) ∧
  (∀ r, r < size → ∀ p, p < buf_len flags → (g.worker r).wbuf p = wbuf_value flags size r t p) ∧
  (∀ r, r < size → ∀ k x y, k < (g.worker r).ndsets → x < (g.worker r).dset_dims k 0 →
    y < (g.worker r).dset_dims k 1 → (g.worker r).efbuf (idx k x y) = g.store k x y) ∧
  (∀ r, r < size → ∀ p, p < buf_len flags → (g.worker r).rbuf p = (g.worker r).erbuf p) ∧
  (∀ r r', r < size → r' < size → ∀ p, p < buf_len flags →
    (g.worker r).efbuf p = (g.worker r').efbuf p)

/-! ## Reading the accepted selections, and sample inputs -/

/-- The cells accepted for rank `l` on dataset `k` in an operation whose selection phase
returned `accss`. -/
def accepted_for (accss : List (List Accepted)) (k l : Nat) : List (Nat × Nat) :=
  ((accss.getD k []).getD l (.points [])).cells

/-- What the next operation of a process in state `s` accepts, per dataset and rank. -/
def op_accepted (E : Env) (flags : Nat) (s : State) : List (List Accepted) :=
  (op_select E flags (op_begin E s).2 (op_begin E s).1).2

/-- The state in which the next operation of a process in state `s` reaches its I/O call. -/
def op_selected (E : Env) (flags : Nat) (s : State) : State :=
  (op_select E flags (op_begin E s).2 (op_begin E s).1).1

/-- The I/O call of an operation (lines 490-494 and 509-513). -/
def io_call (flags : Nat) (do_read : Bool) : Call :=
  if do_read then (if has_flag flags MDSET_FLAG_MDSET then Call.H5Dread_multi else Call.H5Dread)
  else (if has_flag flags MDSET_FLAG_MDSET then Call.H5Dwrite_multi else Call.H5Dwrite)

/-- The calls that neither transfer data nor open the file. -/
def Call.is_neutral : Call → Bool
  | .H5Dwrite => false
  | .H5Dwrite_multi => false
  | .H5Dread => false
  | .H5Dread_multi => false
  | .H5Fopen => false
  | _ => true

/-- The hyperslab generation loop of a write operation after its first `m` passes: the state
in which it takes up region `m`, and the number of regions accepted so far. -/
def hs_first (E : Env) (flags k l : Nat) (s : State) (m : Nat) : State × Nat :=
  hs_loop E flags false k l
    (if MAX_HS_X ≤ s.dset_dims k 0 then MAX_HS_X else s.dset_dims k 0)
    (if MAX_HS_Y ≤ s.dset_dims k 1 then MAX_HS_Y else s.dset_dims k 1)
    m 0 { s with pos := s.pos + 1 }

/-- Whether all `MAX_SEL_RETRIES` candidates for region `m` overlap the usage mask. -/
def hs_exhausted (E : Env) (flags k l : Nat) (s : State) (m : Nat) : Bool :=
  (hs_retry E false k m
    (if MAX_HS_X ≤ s.dset_dims k 0 then MAX_HS_X else s.dset_dims k 0)
    (if MAX_HS_Y ≤ s.dset_dims k 1 then MAX_HS_Y else s.dset_dims k 1)
    MAX_SEL_RETRIES (hs_first E flags k l s m).1).2

/-- The point generation loop of a write operation after its first `m` passes. -/
def pt_first (E : Env) (k : Nat) (s : State) (m : Nat) : State × Nat :=
  pt_loop E false k m 0 { s with pos := s.pos + 1 }

/-- Whether all `MAX_SEL_RETRIES` candidates for point `m` overlap the usage mask. -/
def pt_exhausted (E : Env) (k : Nat) (s : State) (m : Nat) : Bool :=
  (pt_retry E false k m MAX_SEL_RETRIES (pt_first E k s m).1).2

/-- A state in which nothing has been assigned yet. -/
def blank : State :=
  { pos := 0, nerrors := 0, log := [], ndsets := 0, dset_dims := fun _ _ => 0,
    chunk_dims := fun _ => 0, rbuf := fun _ => 0, erbuf := fun _ => 0, wbuf := fun _ => 0,
    efbuf := fun _ => 0, dset_usage := fun _ => 0, start := fun _ _ => 0, count := fun _ _ => 0,
    points := fun _ => 0, last_read := true, mem_space := fun _ => [], dset_space := fun _ => [] }

/-- A sample random stream. -/
def sample_random (n : Nat) : Nat := (3 * n + 4) % 11

/-- No boundary call of any process fails. -/
def sample_ok (_ _ : Nat) : Bool := false

/-- Every process starts from the blank state. -/
def sample_blank (_ : Nat) : State := blank

/-- A sample group of two processes in which no call fails. -/
def sample_env : Nat → Env := worker_env sample_random 2 sample_ok

/-- The sample group at the start of a lifetime with a single dataset. -/
def sample_group : Group := group_run sample_env 0 2 sample_blank 0

/-- A storage that delivers 0 everywhere to every operation. -/
def sample_file (_ _ _ _ : Nat) : Nat := 0

/-- The sample state at a point of the random stream where the next operation is a read. -/
def sample_read_state : State := { blank with ndsets := 1, dset_dims := fun _ _ => 3, pos := 1 }

/-- A random stream under which generation is truncated in `trunc_state`. -/
def trunc_random (n : Nat) : Nat := if n = 0 then 1 else if n = 1 then 9 else if n = 3 then 4 else 3

/-- A state of a write operation in which earlier ranks hold the cells `(2, 0)`, `(3, 0)` and
`(4, 0)` of dataset 0, of extent 5 x 1. -/
def trunc_state : State :=
  { blank with
    ndsets := 1
    dset_dims := fun _ d => if d = 0 then 5 else 1
    dset_usage := fun j => if 20 ≤ j then 1 else 0 }

/-- A sample state with one dataset of extent 3 x 3 and nothing selected or written yet. -/
def sample_state : State := { blank with ndsets := 1, dset_dims := fun _ _ => 3 }

/-! ## The whole test (lines 131-221 and 531-565) and `main` (lines 591-668) -/

abbrev MDSET_ALL_FLAGS : Nat := 15
abbrev DSET_MAX_NAME_LEN : Nat := 8

/-- Lines 131-221 of `test_pmdset`: the third dimension of the extents and of `start`/`count`,
the memory dataspaces and the property lists. `max_dsets`, `op_data_incr` and `buf_size`
(lines 135-141) are functions of `flags`; the allocations of lines 143-153 are taken to
succeed, so the buffers start with whatever `s` holds; the buffer indices of lines 156-163 are
`idx`. -/
def setup (E : Env) (flags : Nat) (s : State) : State :=
  let s1 := (List.range (max_dsets flags)).foldl
    (fun s i => { s with dset_dims := set2 s.dset_dims i 2 1 }) s
  let s2 := (List.range MAX_HS).foldl
    (fun s i => { s with start := set2 s.start i 2 0, count := set2 s.count i 2 1 }) s1
  let s3 := { s2 with dset_dims := set2 (set2 s2.dset_dims 0 0 MAX_DSET_X) 0 1 MAX_DSET_Y }
  let s4 := checked E .H5Screate_simple_mem
    { s3 with
      mem_space := set_at s3.mem_space 0
        [.all (if has_flag flags MDSET_FLAG_SHAPESAME then [s3.dset_dims 0 0, s3.dset_dims 0 1]
          else [s3.dset_dims 0 0, s3.dset_dims 0 1, s3.dset_dims 0 2])] }
  let s5 := (List.range' 1 (max_dsets flags - 1)).foldl
    (fun s i => checked E (.H5Scopy i) { s with mem_space := set_at s.mem_space i (s.mem_space 0) })
    s4
  let s6 := checked E .H5Pset_fapl_mpio (checked E (.H5Pcreate 0) s5)
  let s7 := checked E (.H5Pcreate 1) s6
  let s8 := checked E .H5Pset_alloc_time (checked E .H5Pset_fill_time s7)
  let s9 := checked E (.H5Pcreate 2) s8
  checked E (.H5Pset_dxpl_mpio (has_flag flags MDSET_FLAG_COLLECTIVE)) s9

/-- Lines 531-542: the datasets, their file dataspaces and the file are closed. -/
def close_lifetime (E : Env) (s : State) : State :=
  let s1 := (List.range s.ndsets).foldl
    (fun s j => checked E (.H5Sclose j) (checked E (.H5Dclose j) s)) s
  checked E .H5Fclose s1

/-- One pass of the loop `for (i = 0; i < niter; i++)` (lines 223-543): a file lifetime with
`OPS_PER_FILE` operations; `file j` is what the storage delivers to operation `j`. -/
def lifetime (E : Env) (flags : Nat) (file : Nat → Nat → Nat → Nat → Nat) (s : State) : State :=
  close_lifetime E (run_ops E flags file OPS_PER_FILE (lifetime_init E flags s))

/-- The loop `for (i = 0; i < niter; i++)` (lines 223-543). -/
def lifetimes (E : Env) (flags : Nat) (file : Nat → Nat → Nat → Nat → Nat → Nat) :
    Nat → State → State
  | 0, s => s
  | n + 1, s => lifetime E flags (file n) (lifetimes E flags file n s)

/-- Lines 545-557: the memory dataspaces and the property lists are closed. -/
def teardown (E : Env) (flags : Nat) (s : State) : State :=
  let s1 := (List.range (max_dsets flags)).foldl (fun s i => checked E (.H5Sclose_mem i) s) s
  checked E (.H5Pclose 0) (checked E (.H5Pclose 1) (checked E (.H5Pclose 2) s1))

/-- The function `test_pmdset(niter, flags)` (lines 97-565). -/
def test_pmdset (E : Env) (niter flags : Nat) (file : Nat → Nat → Nat → Nat → Nat → Nat)
    (s : State) : State :=
  teardown E flags (lifetimes E flags file niter (setup E flags s))

/-- Lines 617-622 of `main`: `snprintf(dset_name[i], DSET_MAX_NAME_LEN, "dset%u", i)` returns
the length of `dset` followed by the decimal digits of `i`, never a negative value. -/
def fill_dset_names (s : State) : State :=
  (List.range MAX_DSETS).foldl
    (fun s i =>
      if 4 + (Nat.toDigits 10 i).length ≥ DSET_MAX_NAME_LEN then { s with nerrors := s.nerrors + 1 }
      else s) s

/-- The loop `for (i = 0; i <= MDSET_ALL_FLAGS; i++) test_pmdset(10, i)` (lines 624-635); the
first argument is `MDSET_ALL_FLAGS + 1 - i`. Returns the new state and the calls
`(niter, flags)` of `test_pmdset` made, in order. -/
def main_loop (E : Env) (file : Nat → Nat → Nat → Nat → Nat → Nat → Nat) :
    Nat → Nat → State → State × List (Nat × Nat)
  | 0, _, s => (s, [])
  | left + 1, i, s =>
    let r := main_loop E file left (i + 1) (test_pmdset E 10 i (file i) s)
    (r.1, (10, i) :: r.2)

/-- Lines 598-646 of `main` for one process, up to the reduction. The global `nerrors` starts
at 0 (line 72); `E.random` is the stream `HDsrandom(seed)` starts for the seed the process
holds after `MPI_Bcast`. -/
def main_local (E : Env) (file : Nat → Nat → Nat → Nat → Nat → Nat → Nat) (s : State) :
    State × List (Nat × Nat) :=
  let s1 := unchecked .h5_reset { s with nerrors := 0 }
  let s2 := unchecked .MPI_Comm_rank (unchecked .MPI_Comm_size (unchecked .MPI_Init s1))
  let s3 := checked E .MPI_Bcast s2
  let s4 := fill_dset_names { s3 with pos := 0 }
  let r := main_loop E file (MDSET_ALL_FLAGS + 1) 0 s4
  let s5 := checked E .MPI_Barrier r.1
  let s6 := if E.mpi_rank = 0 then checked E .MPI_File_delete s5 else s5
  (s6, r.2)

/-- The result of `MPI_Allreduce(.., MPI_MAX, ..)` over the values `v a` of the ranks
`a < size`. -/
def allreduce_max (size : Nat) (v : Nat → Nat) : Nat :=
  (List.range size).foldl (fun m a => max m (v a)) 0

/-- Lines 648-667 of `main` for the process of rank `r` in a group of `size` processes: the
reduction of the error counters, whose status is discarded, `H5close`, `MPI_Finalize`, and the
value `(nerrors != 0)` returned. -/
def main (env : Nat → Env) (size : Nat) (file : Nat → Nat → Nat → Nat → Nat → Nat → Nat → Nat)
    (w : Nat → State) (r : Nat) : State × Nat :=
  let ret := allreduce_max size (fun a => (main_local (env a) (file a) (w a)).1.nerrors)
  let s1 := { unchecked .MPI_Allreduce (main_local (env r) (file r) (w r)).1 with nerrors := ret }
  let s2 := unchecked .MPI_Finalize (unchecked .H5close s1)
  (s2, if s2.nerrors ≠ 0 then 1 else 0)

/-- A state whose buffers hold 7 everywhere, as a previous lifetime may leave them. -/
def dirty_state : State :=
  { blank with rbuf := fun _ => 7, erbuf := fun _ => 7, efbuf := fun _ => 7, wbuf := fun _ => 7 }

/-- Every boundary call of every process fails. -/
def all_fail (_ _ : Nat) : Bool := true

/-- A state holding the two points `(1, 2)` and `(0, 1)` in `points`. -/
def two_points_state : State :=
  { blank with
    ndsets := 1
    dset_dims := fun _ _ => 3
    points := fun j => if j = 0 then 1 else if j = 1 then 2 else if j = 3 then 1 else 0 }

/-! ## Comparing runs -/

/-- Two processes of a group are at the same point of the random stream and see the same
datasets, whose number and extents are within bounds. -/
def Lockstep (flags : Nat) (a b : State) : Prop :=
  a.pos = b.pos ∧ a.ndsets = b.ndsets ∧ a.ndsets ≤ max_dsets flags ∧
  ∀ k, k < a.ndsets →
    a.dset_dims k 0 = b.dset_dims k 0 ∧ a.dset_dims k 1 = b.dset_dims k 1 ∧ dims_ok a k

/-- The state without the error counter and the read buffer. -/
def erase (s : State) : State := { s with nerrors := 0, rbuf := fun _ => 0 }

/-- The process with the same random stream, group size and rank in which no call fails. -/
def quiet (E : Env) : Env := { E with failed := fun _ => false }

/-- The steps `f` and `g` take states that agree up to the error counter and the read buffer to
states that agree up to the error counter and the read buffer. -/
def Agree (f g : State → State) : Prop :=
  ∀ s s', erase s = erase s' → erase (f s) = erase (g s')

/-- The steps `f` and `g` take states that agree up to the error counter and the read buffer to
the same result and to states that agree up to the error counter and the read buffer. -/
def AgreeOut {α : Type} (f g : State → State × α) : Prop :=
  ∀ s s', erase s = erase s' → (f s).2 = (g s').2 ∧ erase (f s).1 = erase (g s').1

/-! ## The selections registered with the I/O boundary -/

/-- Number of dimensions of the memory dataspaces (lines 184-190): 2 with "shapesame", else 3
with a third extent of 1. -/
def mem_rank (flags : Nat) : Nat := if has_flag flags MDSET_FLAG_SHAPESAME then 2 else 3

/-- The cells `(n, o, p)` of the box that starts at `(x, y, z)` and has the extents
`(cx, cy, cz)`. -/
def box_cells (x y z cx cy cz : Nat) : List (Nat × Nat × Nat) :=
  (List.range' x cx).flatMap (fun n =>
    (List.range' y cy).flatMap (fun o => (List.range' z cz).map (fun p => (n, o, p))))

/-- The cells selected by one request on a memory dataspace of `rank` dimensions, as
`(x, y, z)`; on a two-dimensional dataspace only the first two entries of the arrays of a
request are read and `z` is 0. -/
def Sel.mem_cells (rank : Nat) : Sel → List (Nat × Nat × Nat)
  | .all dims =>
      box_cells 0 0 0 (dims.getD 0 0) (dims.getD 1 0) (if rank = 2 then 1 else dims.getD 2 0)
  | .hyperslab start count =>
      box_cells (start.getD 0 0) (start.getD 1 0) (if rank = 2 then 0 else start.getD 2 0)
        (count.getD 0 0) (count.getD 1 0) (if rank = 2 then 1 else count.getD 2 0)
  | .elements num coord =>
      (List.range num).map (fun m =>
        (coord.getD (rank * m) 0, coord.getD (rank * m + 1) 0,
          if rank = 2 then 0 else coord.getD (rank * m + 2) 0))

/-- The cells selected in a memory dataspace of `rank` dimensions. -/
def mem_sel_cells (rank : Nat) (sp : List Sel) : List (Nat × Nat × Nat) :=
  sp.flatMap (Sel.mem_cells rank)

/-- The place of the cell `(x, y)` of a dataset in its memory buffer. -/
def lift_cell (c : Nat × Nat) : Nat × Nat × Nat := (c.1, c.2, 0)

/-- The third entries of `start[m]` and `count[m]` are as lines 165-168 set them. -/
def third_ok (s : State) : Prop := ∀ m, m < MAX_HS → s.start m 2 = 0 ∧ s.count m 2 = 1

/-- From `s` to `s'` no entry of `start` or `count` with an index 2 or more in the second place
changed. -/
def SameThird (s s' : State) : Prop :=
  ∀ m d, 2 ≤ d → s'.start m d = s.start m d ∧ s'.count m d = s.count m d

/-- The memory request of hyperslab `m`: all three entries of `start[m]` and `count[m]`. -/
def mem_request (s : State) (m : Nat) : Sel :=
  .hyperslab [s.start m 0, s.start m 1, s.start m 2] [s.count m 0, s.count m 1, s.count m 2]

/-- The cells accepted for the own rank among what was accepted for the ranks `0, 1, ...`
of one dataset. -/
def own_accepted (E : Env) (accs : List Accepted) : List (Nat × Nat) :=
  (accs.getD E.mpi_rank (.points [])).cells

/-- What one pass of the loop over processes (rank `l`, dataset `k`) registers with the I/O
boundary, in terms of what it accepted: nothing for a rank other than the own one, nothing
when nothing was accepted, and in the memory dataspace of the own rank the accepted cells. -/
def RegSpec (E : Env) (flags : Nat) (k l : Nat) (s : State) (r : State × Accepted) : Prop :=
  SameThird s r.1 ∧
  (l ≠ E.mpi_rank →
    r.1.mem_space = s.mem_space ∧ r.1.dset_space = s.dset_space ∧ r.1.log = s.log) ∧
  (r.2.num = 0 →
    r.1.mem_space = s.mem_space ∧ r.1.dset_space = s.dset_space ∧ r.1.log = s.log) ∧
  (third_ok s → ∀ k', mem_sel_cells (mem_rank flags) (r.1.mem_space k') =
    if l = E.mpi_rank ∧ k' = k then
      mem_sel_cells (mem_rank flags) (s.mem_space k) ++ r.2.cells.map lift_cell
    else mem_sel_cells (mem_rank flags) (s.mem_space k'))

/-! ## The array accesses of an operation (lines 108-126 and 318-528) -/

/-- An access to one of the arrays of `test_pmdset`. -/
inductive Access where
  /-- The element `[k][x][y]` of `dset_usagei`, `efbufi`, `erbufi` or `wbufi`. -/
  | cell (k x y : Nat)
  /-- The row `[k][x]` of `rbufi` or `wbufi`. -/
  | row (k x : Nat)
  /-- The entry `start[m]` or `count[m]`. -/
  | slab (m : Nat)
  /-- The entry `points[j]`. -/
  | point (j : Nat)
  /-- The first `n` elements of a buffer, set by one `memset`. -/
  | block (n : Nat)
  deriving DecidableEq, Repr

/-- The access stays inside its array: the tables of lines 114-122 have `max_dsets` initialised
planes of `MAX_DSET_X` rows of `MAX_DSET_Y` elements, `start` and `count` have `MAX_HS` entries
and `points` has `3 * MAX_POINTS`; a buffer holds `max_dsets * MAX_DSET_X * MAX_DSET_Y`
elements (lines 141-153). -/
def Access.in_bounds (flags : Nat) : Access → Bool
  | .cell k x y => decide (k < max_dsets flags ∧ x < MAX_DSET_X ∧ y < MAX_DSET_Y)
  | .row k x => decide (k < max_dsets flags ∧ x < MAX_DSET_X)
  | .slab m => decide (m < MAX_HS)
  | .point j => decide (j < 3 * MAX_POINTS)
  | .block n => decide (n ≤ buf_len flags)

/-- Every access of the list stays inside its array. -/
def InBounds (flags : Nat) (L : List Access) : Prop := ∀ a ∈ L, a.in_bounds flags = true

/-- Every element in which `s'` differs from `s` is addressed by an access of `T`: an element
of the usage mask, the oracle, the read expectation or the write buffer by a table access at
its offset or by a `memset` reaching it, an entry of `start` or `count` by an access to its row
(and it is one of the first two entries of the row), an entry of `points` by an access to
it. -/
def Covers (T : List Access) (s s' : State) : Prop :=
  (∀ p, (s'.dset_usage p ≠ s.dset_usage p ∨ s'.efbuf p ≠ s.efbuf p ∨
      s'.erbuf p ≠ s.erbuf p ∨ s'.wbuf p ≠ s.wbuf p) →
    (∃ k x y, Access.cell k x y ∈ T ∧ p = idx k x y) ∨ ∃ n, Access.block n ∈ T ∧ p < n) ∧
  (∀ m d, (s'.start m d ≠ s.start m d ∨ s'.count m d ≠ s.count m d) →
    Access.slab m ∈ T ∧ d < 2) ∧
  (∀ j, s'.points j ≠ s.points j → Access.point j ∈ T)

/-- The cells of hyperslab `m` of `s` in the tables of dataset `k`. -/
def slab_cells (k m : Nat) (s : State) : List Access :=
  (region_cells (s.start m 0, s.start m 1, s.count m 0, s.count m 1)).map
    (fun c => Access.cell k c.1 c.2)

/-- Accesses of one pass of the retry loop body (lines 351-368): `count[m]` and `start[m]` are
assigned and read, and when writing the overlap test reads `dset_usagei[k][o][p]` on cells of
the candidate, all of them when none is marked. -/
def hs_candidate_trace (E : Env) (do_read : Bool) (k m max_hs_x max_hs_y : Nat) (s : State) :
    List Access :=
  Access.slab m ::
    (if do_read then [] else slab_cells k m (hs_candidate E do_read k m max_hs_x max_hs_y s).1)

/-- Accesses of the retry loop of lines 349-369. -/
def hs_retry_trace (E : Env) (do_read : Bool) (k m max_hs_x max_hs_y : Nat) :
    Nat → State → List Access
  | 0, _ => []
  | left + 1, s =>
    let r := hs_candidate E do_read k m max_hs_x max_hs_y s
    hs_candidate_trace E do_read k m max_hs_x max_hs_y s ++
      (if r.2 then hs_retry_trace E do_read k m max_hs_x max_hs_y left r.1 else [])

/-- Accesses of lines 378-399 for the accepted hyperslab `m` held by `s`: `start[m]` and
`count[m]` are read, and the expected buffers are updated on its cells. -/
def hs_accept_trace (E : Env) (do_read : Bool) (k l m : Nat) (s : State) : List Access :=
  Access.slab m ::
    (if do_read then (if l = E.mpi_rank then slab_cells k m s else []) else slab_cells k m s)

/-- Accesses of the loop `for (m = 0; m < nhs; m++)` (lines 348-400). -/
def hs_loop_trace (E : Env) (flags : Nat) (do_read : Bool) (k l max_hs_x max_hs_y : Nat) :
    Nat → Nat → State → List Access
  | 0, _, _ => []
  | left + 1, m, s =>
    let r := hs_retry E do_read k m max_hs_x max_hs_y MAX_SEL_RETRIES s
    hs_retry_trace E do_read k m max_hs_x max_hs_y MAX_SEL_RETRIES s ++
      (if r.2 then []
       else
        hs_accept_trace E do_read k l m r.1 ++
          hs_loop_trace E flags do_read k l max_hs_x max_hs_y left (m + 1)
            (hs_expect E flags do_read k l m (hs_select E k l m r.1)))

/-- Accesses of lines 402-407: the usage mask is set on the cells of the hyperslabs
`0, ..., nhs - 1`. -/
def hs_mark_trace (k nhs : Nat) (s : State) : List Access :=
  (List.range nhs).flatMap (fun m => Access.slab m :: slab_cells k m s)

/-- Accesses of the hyperslab branch (lines 339-408). -/
def hs_branch_trace (E : Env) (flags : Nat) (do_read : Bool) (k l : Nat) (s : State) :
    List Access :=
  let nhs := hs_draw_count E s
  let s1 := { s with pos := s.pos + 1 }
  let max_hs_x := if MAX_HS_X ≤ s1.dset_dims k 0 then MAX_HS_X else s1.dset_dims k 0
  let max_hs_y := if MAX_HS_Y ≤ s1.dset_dims k 1 then MAX_HS_Y else s1.dset_dims k 1
  let r := hs_loop E flags do_read k l max_hs_x max_hs_y nhs 0 s1
  hs_loop_trace E flags do_read k l max_hs_x max_hs_y nhs 0 s1 ++
    (if do_read then [] else hs_mark_trace k r.2 r.1)

/-- The element `[k][points[2m]][points[2m+1]]` of a table. -/
def pt_cell (k m : Nat) (s : State) : Access :=
  Access.cell k (s.points (2 * m)) (s.points (2 * m + 1))

/-- Accesses of one pass of the retry loop body (lines 418-427): the point is stored in
`points[2m]`, `points[2m+1]`, and when writing the usage mask is read at it. -/
def pt_candidate_trace (E : Env) (do_read : Bool) (k m : Nat) (s : State) : List Access :=
  [Access.point (2 * m), Access.point (2 * m + 1)] ++
    (if do_read then [] else [pt_cell k m (pt_candidate E do_read k m s).1])

/-- Accesses of the retry loop of lines 416-428. -/
def pt_retry_trace (E : Env) (do_read : Bool) (k m : Nat) : Nat → State → List Access
  | 0, _ => []
  | left + 1, s =>
    let r := pt_candidate E do_read k m s
    pt_candidate_trace E do_read k m s ++
      (if r.2 then pt_retry_trace E do_read k m left r.1 else [])

/-- Accesses of the loop `for (m = 0; m < npoints; m++)` (lines 415-436). -/
def pt_loop_trace (E : Env) (do_read : Bool) (k : Nat) : Nat → Nat → State → List Access
  | 0, _, _ => []
  | left + 1, m, s =>
    let r := pt_retry E do_read k m MAX_SEL_RETRIES s
    pt_retry_trace E do_read k m MAX_SEL_RETRIES s ++
      (if r.2 then [] else pt_loop_trace E do_read k left (m + 1) r.1)

/-- Accesses of a loop `for (m = 0; m < npoints; m++)` over the points held by `s` that
addresses a table at each of them (lines 438-441 and 450-461). -/
def pt_use_trace (k npoints : Nat) (s : State) : List Access :=
  (List.range npoints).flatMap (fun m =>
    [Access.point (2 * m), Access.point (2 * m + 1), pt_cell k m s])

/-- Accesses of the loop `for (m = npoints - 1; m > 0; m--)` of lines 469-473; the argument is
the current `m`. -/
def pt_convert_trace : Nat → List Access
  | 0 => []
  | m + 1 =>
    [Access.point (3 * (m + 1) + 2), Access.point (3 * (m + 1) + 1), Access.point (2 * (m + 1) + 1),
      Access.point (3 * (m + 1)), Access.point (2 * (m + 1))] ++ pt_convert_trace m

/-- Accesses of the point branch (lines 409-482). -/
def pt_branch_trace (E : Env) (flags : Nat) (do_read : Bool) (k l : Nat) (s : State) :
    List Access :=
  let npoints := pt_draw_count E s
  let s1 := { s with pos := s.pos + 1 }
  let r := pt_loop E do_read k npoints 0 s1
  let s2 := if do_read then r.1 else pt_mark k r.2 r.1
  let s3 := pt_select_file E k l r.2 s2
  pt_loop_trace E do_read k npoints 0 s1 ++
    (if do_read then [] else pt_use_trace k r.2 r.1) ++
    (if do_read then (if l = E.mpi_rank then pt_use_trace k r.2 s3 else [])
     else pt_use_trace k r.2 s3) ++
    (if l = E.mpi_rank ∧ r.2 > 0 ∧ (!has_flag flags MDSET_FLAG_SHAPESAME) = true then
      pt_convert_trace (r.2 - 1) ++ [Access.point 2]
     else [])

/-- Accesses of the body of the loop over processes (lines 331-483). -/
def rank_iter_trace (E : Env) (flags : Nat) (do_read : Bool) (k l : Nat) (s : State) :
    List Access :=
  if E.random s.pos % 2 ≠ 0 then hs_branch_trace E flags do_read k l { s with pos := s.pos + 1 }
  else pt_branch_trace E flags do_read k l { s with pos := s.pos + 1 }

/-- Accesses of the loop over processes (lines 331-483). -/
def rank_loop_trace (E : Env) (flags : Nat) (do_read : Bool) (k : Nat) :
    Nat → Nat → State → List Access
  | 0, _, _ => []
  | left + 1, l, s =>
    rank_iter_trace E flags do_read k l s ++
      rank_loop_trace E flags do_read k left (l + 1) (rank_iter E flags do_read k l s).1

/-- Accesses of the body of the loop over datasets (lines 319-484): the `memset` of the usage
mask when writing, then the loop over processes. -/
def dset_iter_trace (E : Env) (flags : Nat) (do_read : Bool) (k : Nat) (s : State) :
    List Access :=
  let s1 := checked E (.H5Sselect_none true k) { s with mem_space := set_at s.mem_space k [] }
  let s2 := checked E (.H5Sselect_none false k) { s1 with dset_space := set_at s1.dset_space k [] }
  let s3 := if !do_read then { s2 with dset_usage := memset0 s2.dset_usage (buf_len flags) } else s2
  (if !do_read then [Access.block (buf_len flags)] else []) ++
    rank_loop_trace E flags do_read k E.mpi_size 0 s3

/-- Accesses of the loop over datasets (lines 319-484). -/
def dset_loop_trace (E : Env) (flags : Nat) (do_read : Bool) :
    Nat → Nat → State → List Access
  | 0, _, _ => []
  | left + 1, k, s =>
    dset_iter_trace E flags do_read k s ++
      dset_loop_trace E flags do_read left (k + 1) (dset_iter E flags do_read k s).1

/-- Accesses of the selection phase of one operation (lines 318-484). -/
def op_select_trace (E : Env) (flags : Nat) (do_read : Bool) (s : State) : List Access :=
  dset_loop_trace E flags do_read s.ndsets 0 s

/-- Accesses of the loops over the whole write buffer (lines 262-266 and 524-527). -/
def wbuf_trace (flags : Nat) : List Access :=
  (List.range (max_dsets flags)).flatMap (fun l =>
    (List.range MAX_DSET_X).flatMap (fun m =>
      (List.range MAX_DSET_Y).map (fun n => Access.cell l m n)))

/-- Accesses of the initialisation of the buffers at the start of a lifetime (lines 255-267):
the `memset` of the read buffer, of the read expectation and of the oracle, and the loop over
the write buffer. -/
def lifetime_init_trace (flags : Nat) : List Access :=
  Access.block (buf_len flags) :: wbuf_trace flags

/-- Accesses of the initialisation of the buffer indices (lines 156-163). -/
def bufi_trace (flags : Nat) : List Access :=
  (List.range (max_dsets flags)).flatMap (fun i =>
    (List.range MAX_DSET_X).map (fun j => Access.row i j))

/-- Accesses of the loops "Set buffers" (lines 489-490 and 508-509), made for a "multi"
call. -/
def io_trace (flags : Nat) (s : State) : List Access :=
  if has_flag flags MDSET_FLAG_MDSET then (List.range s.ndsets).map (fun k => Access.row k 0)
  else []

/-- Accesses of one pass of the loop over operations (lines 274-529). -/
def operation_trace (E : Env) (flags : Nat) (s : State) : List Access :=
  let b := op_begin E s
  op_select_trace E flags b.2 b.1 ++ io_trace flags (op_select E flags b.2 b.1).1 ++
    (if b.2 then [] else wbuf_trace flags)

/-! ## The calls of the set-up seen in the log -/

/-- The call `H5Pset_dxpl_mpio`, which `test_pmdset` makes once, at the end of its set-up
(lines 215-221). -/
def Call.is_dxpl : Call → Bool
  | .H5Pset_dxpl_mpio _ => true
  | _ => false

/-- Any call other than `H5Pset_dxpl_mpio`. -/
def Call.not_dxpl (c : Call) : Bool := !c.is_dxpl

/-! # Properties -/

/-! ## Elementary facts -/

@[simp]
theorem set_same (b : Nat → Nat) (i v : Nat) : set b i v i = v := by simp [set]

theorem set_other (b : Nat → Nat) (i v j : Nat) (h : j ≠ i) : set b i v j = b j := by
  simp [set, h]

theorem set_apply (b : Nat → Nat) (i v j : Nat) : set b i v j = if j = i then v else b j := rfl

theorem set2_apply (a : Nat → Nat → Nat) (m d v m' d' : Nat) :
    set2 a m d v m' d' = if m' = m ∧ d' = d then v else a m' d' := rfl

theorem set_at_apply {α : Type} (sp : Nat → α) (k : Nat) (v : α) (j : Nat) :
    set_at sp k v j = if j = k then v else sp j := rfl

theorem fill_nil (k : Nat) (g b : Nat → Nat) : fill k [] g b = b := by
  funext j; simp [fill]

theorem fill_append (k : Nat) (c1 c2 : List (Nat × Nat)) (g b : Nat → Nat) :
    fill k c2 g (fill k c1 g b) = fill k (c1 ++ c2) g b := by
  funext j
  simp only [fill, List.mem_append]
  by_cases h1 : ∃ c ∈ c1, j = idx k c.1 c.2
  · by_cases h2 : ∃ c ∈ c2, j = idx k c.1 c.2
    · have : ∃ c, (c ∈ c1 ∨ c ∈ c2) ∧ j = idx k c.1 c.2 := by
        obtain ⟨c, hc, e⟩ := h1; exact ⟨c, Or.inl hc, e⟩
      simp [h2, this]
    · have : ∃ c, (c ∈ c1 ∨ c ∈ c2) ∧ j = idx k c.1 c.2 := by
        obtain ⟨c, hc, e⟩ := h1; exact ⟨c, Or.inl hc, e⟩
      simp [h1, h2, this]
  · by_cases h2 : ∃ c ∈ c2, j = idx k c.1 c.2
    · have : ∃ c, (c ∈ c1 ∨ c ∈ c2) ∧ j = idx k c.1 c.2 := by
        obtain ⟨c, hc, e⟩ := h2; exact ⟨c, Or.inr hc, e⟩
      simp [h2, this]
    · have : ¬ ∃ c, (c ∈ c1 ∨ c ∈ c2) ∧ j = idx k c.1 c.2 := by
        rintro ⟨c, hc | hc, e⟩
        · exact h1 ⟨c, hc, e⟩
        · exact h2 ⟨c, hc, e⟩
      simp [h1, h2, this]

theorem fill_single (k : Nat) (x y : Nat) (g b : Nat → Nat) :
    set b (idx k x y) (g (idx k x y)) = fill k [(x, y)] g b := by
  funext j
  by_cases h : j = idx k x y
  · simp [fill, set, h]
  · simp [fill, set, h]

theorem fill_hit (k : Nat) (cells : List (Nat × Nat)) (g b : Nat → Nat) (c : Nat × Nat)
    (h : c ∈ cells) : fill k cells g b (idx k c.1 c.2) = g (idx k c.1 c.2) := by
  have : ∃ c' ∈ cells, idx k c.1 c.2 = idx k c'.1 c'.2 := ⟨c, h, rfl⟩
  simp [fill, this]

theorem fill_miss (k : Nat) (cells : List (Nat × Nat)) (g b : Nat → Nat) (j : Nat)
    (h : ∀ c ∈ cells, j ≠ idx k c.1 c.2) : fill k cells g b j = b j := by
  have : ¬ ∃ c ∈ cells, j = idx k c.1 c.2 := by
    rintro ⟨c, hc, e⟩; exact h c hc e
  simp [fill, this]

theorem mem_region_cells (r : Nat × Nat × Nat × Nat) (c : Nat × Nat) :
    c ∈ region_cells r ↔ (r.1 ≤ c.1 ∧ c.1 < r.1 + r.2.2.1) ∧ (r.2.1 ≤ c.2 ∧ c.2 < r.2.1 + r.2.2.2) := by
  obtain ⟨x, y⟩ := c
  simp only [region_cells, List.mem_flatMap, List.mem_map, List.mem_range'_1, Prod.mk.injEq]
  constructor
  · rintro ⟨n, hn, o, ho, rfl, rfl⟩; exact ⟨hn, ho⟩
  · rintro ⟨hx, hy⟩; exact ⟨x, hx, y, hy, rfl, rfl⟩

/-- A list fold of cell assignments is a `fill`. -/
theorem foldl_set_fill {β : Type} (k : Nat) (g : Nat → Nat) (f : β → Nat × Nat) (l : List β)
    (b : Nat → Nat) :
    l.foldl (fun b m => set b (idx k (f m).1 (f m).2) (g (idx k (f m).1 (f m).2))) b
      = fill k (l.map f) g b := by
  induction l generalizing b with
  | nil => simp [fill_nil]
  | cons a l ih =>
    simp only [List.foldl_cons, List.map_cons]
    rw [ih, fill_single, fill_append]
    rfl

/-- The hyperslab loop nest with a cell assignment as body is a `fill`. -/
theorem for_region_fill (k s0 c0 s1 c1 : Nat) (g b : Nat → Nat) :
    for_region s0 c0 s1 c1 (fun n o b => set b (idx k n o) (g (idx k n o))) b
      = fill k (region_cells (s0, s1, c0, c1)) g b := by
  unfold for_region region_cells
  generalize List.range' s0 c0 = xs
  induction xs generalizing b with
  | nil => simp [fill_nil]
  | cons x xs ih =>
    simp only [List.foldl_cons, List.flatMap_cons]
    rw [ih]
    have := foldl_set_fill k g (fun o => (x, o)) (List.range' s1 c1) b
    simp only at this
    rw [this, fill_append]

/-- The overlap scan of a hyperslab finds exactly the marked cells. -/
theorem for_region_overlap (k s0 c0 s1 c1 : Nat) (u : Nat → Nat) :
    for_region s0 c0 s1 c1
      (fun o p overlap => if overlap then true else decide (u (idx k o p) ≠ 0)) false = true
      ↔ ∃ c ∈ region_cells (s0, s1, c0, c1), u (idx k c.1 c.2) ≠ 0 := by
  have inner : ∀ (x : Nat) (ys : List Nat) (a : Bool),
      ys.foldl (fun a o => if a then true else decide (u (idx k x o) ≠ 0)) a = true
        ↔ a = true ∨ ∃ o ∈ ys, u (idx k x o) ≠ 0 := by
    intro x ys
    induction ys with
    | nil => intro a; simp
    | cons y ys ih =>
      intro a
      simp only [List.foldl_cons, ih, List.mem_cons]
      cases a <;> simp
  have outer : ∀ (xs : List Nat) (a : Bool),
      xs.foldl (fun a n => (List.range' s1 c1).foldl
          (fun a o => if a then true else decide (u (idx k n o) ≠ 0)) a) a = true
        ↔ a = true ∨ ∃ n ∈ xs, ∃ o ∈ List.range' s1 c1, u (idx k n o) ≠ 0 := by
    intro xs
    induction xs with
    | nil => intro a; simp
    | cons x xs ih =>
      intro a
      simp only [List.foldl_cons, ih, inner, List.mem_cons]
      constructor
      · rintro ((h | ⟨o, ho, h⟩) | ⟨n, hn, o, ho, h⟩)
        · exact Or.inl h
        · exact Or.inr ⟨x, Or.inl rfl, o, ho, h⟩
        · exact Or.inr ⟨n, Or.inr hn, o, ho, h⟩
      · rintro (h | ⟨n, rfl | hn, o, ho, h⟩)
        · exact Or.inl (Or.inl h)
        · exact Or.inl (Or.inr ⟨o, ho, h⟩)
        · exact Or.inr ⟨n, hn, o, ho, h⟩
  unfold for_region
  rw [outer]
  simp only [Bool.false_eq_true, false_or]
  constructor
  · rintro ⟨n, hn, o, ho, h⟩
    refine ⟨(n, o), ?_, h⟩
    rw [mem_region_cells]
    simp only [List.mem_range'_1] at hn ho
    exact ⟨hn, ho⟩
  · rintro ⟨⟨n, o⟩, hc, h⟩
    rw [mem_region_cells] at hc
    exact ⟨n, by simpa [List.mem_range'_1] using hc.1, o, by simpa [List.mem_range'_1] using hc.2, h⟩

/-! ## Frames -/

theorem Frame.frame_refl (s : State) : Frame s s := ⟨rfl, rfl, rfl, rfl, rfl, rfl⟩

theorem Frame.frame_trans {s1 s2 s3 : State} (h1 : Frame s1 s2) (h2 : Frame s2 s3) : Frame s1 s3 := by
  obtain ⟨hn, hdim, hchunk, hrb, hwb, hlast⟩ := h1
  obtain ⟨hn2, hdim2, hchunk2, hrb2, hwb2, hlast2⟩ := h2
  exact ⟨hn2.trans hn, hdim2.trans hdim, hchunk2.trans hchunk, hrb2.trans hrb, hwb2.trans hwb,
    hlast2.trans hlast⟩

theorem GenFrame.gen_refl (s : State) : GenFrame s s := ⟨Frame.frame_refl s, rfl, rfl, rfl, rfl, rfl, rfl, rfl⟩

theorem GenFrame.gen_trans {s1 s2 s3 : State} (h1 : GenFrame s1 s2) (h2 : GenFrame s2 s3) :
    GenFrame s1 s3 := by
  obtain ⟨hfr, herr, hlog, herb, hefb, huse, hmem, hdsp⟩ := h1
  obtain ⟨hfr2, herr2, hlog2, herb2, hefb2, huse2, hmem2, hdsp2⟩ := h2
  exact ⟨hfr.frame_trans hfr2, herr2.trans herr, hlog2.trans hlog, herb2.trans herb,
    hefb2.trans hefb, huse2.trans huse, hmem2.trans hmem, hdsp2.trans hdsp⟩

theorem checked_frame (E : Env) (c : Call) (s : State) : Frame s (checked E c s) :=
  ⟨rfl, rfl, rfl, rfl, rfl, rfl⟩

/-! ## Hyperslab candidates -/

theorem hs_candidate_frame (E : Env) (do_read : Bool) (k m mx my : Nat) (s : State) :
    GenFrame s (hs_candidate E do_read k m mx my s).1 ∧
    (hs_candidate E do_read k m mx my s).1.points = s.points := by
  simp only [hs_candidate]
  split <;> split <;> exact ⟨⟨⟨rfl, rfl, rfl, rfl, rfl, rfl⟩, rfl, rfl, rfl, rfl, rfl, rfl, rfl⟩, rfl⟩

theorem hs_candidate_other (E : Env) (do_read : Bool) (k m mx my : Nat) (s : State)
    (m' d : Nat) (h : m' ≠ m ∨ 2 ≤ d) :
    (hs_candidate E do_read k m mx my s).1.start m' d = s.start m' d ∧
    (hs_candidate E do_read k m mx my s).1.count m' d = s.count m' d := by
  have h0 : ¬ (m' = m ∧ d = 0) := by rintro ⟨rfl, rfl⟩; omega
  have h1 : ¬ (m' = m ∧ d = 1) := by rintro ⟨rfl, rfl⟩; omega
  simp only [hs_candidate]
  split <;> split <;> simp [set2_apply, h0, h1]

theorem hs_candidate_overlap (E : Env) (do_read : Bool) (k m mx my : Nat) (s : State) :
    (hs_candidate E do_read k m mx my s).2 = true ↔
      do_read = false ∧ ∃ c ∈ regions_of (hs_candidate E do_read k m mx my s).1 m 1 |>.flatMap region_cells,
        s.dset_usage (idx k c.1 c.2) ≠ 0 := by
  have hu := (hs_candidate_frame E do_read k m mx my s).1.2.2.2.2.2.1
  have key : (hs_candidate E do_read k m mx my s).2 =
      if do_read then false else hs_overlap k m (hs_candidate E do_read k m mx my s).1 := by
    simp only [hs_candidate]
  rw [key]
  cases do_read
  · simp only [Bool.false_eq_true, if_false, true_and, hs_overlap, for_region_overlap, hu,
      regions_of, List.range'_one, List.map_cons, List.map_nil, List.flatMap_cons,
      List.flatMap_nil, List.append_nil]
  · simp

theorem hs_candidate_count (E : Env) (do_read : Bool) (k m mx my : Nat) (s : State) :
    (hs_candidate E do_read k m mx my s).1.count m 0 = E.random s.pos % mx + 1 ∧
    (hs_candidate E do_read k m mx my s).1.count m 1 = E.random (s.pos + 1) % my + 1 := by
  simp only [hs_candidate]
  split <;> split <;> simp [set2_apply]

theorem hs_candidate_start (E : Env) (do_read : Bool) (k m mx my : Nat) (s : State) :
    (∃ v, (hs_candidate E do_read k m mx my s).1.start m 0 =
      if E.random s.pos % mx + 1 = s.dset_dims k 0 then 0
      else v % (s.dset_dims k 0 - (E.random s.pos % mx + 1) + 1)) ∧
    (∃ v, (hs_candidate E do_read k m mx my s).1.start m 1 =
      if E.random (s.pos + 1) % my + 1 = s.dset_dims k 1 then 0
      else v % (s.dset_dims k 1 - (E.random (s.pos + 1) % my + 1) + 1)) := by
  simp only [hs_candidate]
  split <;> split <;> simp_all [set2_apply] <;>
    first
      | exact ⟨_, rfl⟩
      | exact ⟨⟨_, rfl⟩, ⟨_, rfl⟩⟩

theorem hs_candidate_pos (E : Env) (do_read : Bool) (k m mx my : Nat) (s : State) :
    s.pos + 2 ≤ (hs_candidate E do_read k m mx my s).1.pos ∧
    (hs_candidate E do_read k m mx my s).1.pos ≤ s.pos + 4 := by
  simp only [hs_candidate]
  split <;> split <;> simp

/-- Lines 352-359: every candidate hyperslab fits the dataset. -/
theorem hs_candidate_fits (E : Env) (do_read : Bool) (k m mx my : Nat) (s : State)
    (hd : dims_ok s k)
    (hmx : mx = if MAX_HS_X ≤ s.dset_dims k 0 then MAX_HS_X else s.dset_dims k 0)
    (hmy : my = if MAX_HS_Y ≤ s.dset_dims k 1 then MAX_HS_Y else s.dset_dims k 1) :
    ∀ reg ∈ regions_of (hs_candidate E do_read k m mx my s).1 m 1,
      region_fits (s.dset_dims k 0) (s.dset_dims k 1) reg := by
  obtain ⟨⟨hx1, hx2⟩, hy1, hy2⟩ := hd
  intro reg hreg
  simp only [regions_of, List.range'_one, List.map_cons, List.map_nil, List.mem_singleton] at hreg
  subst hreg
  obtain ⟨c0, c1⟩ := hs_candidate_count E do_read k m mx my s
  obtain ⟨⟨v0, s0⟩, v1, s1⟩ := hs_candidate_start E do_read k m mx my s
  simp only [region_fits]
  rw [c0, c1, s0, s1]
  simp only [MAX_HS_X, MAX_HS_Y, MAX_DSET_X, MAX_DSET_Y] at *
  have e1 := Nat.mod_lt (E.random s.pos) (show 0 < mx by rw [hmx]; split <;> omega)
  have e2 := Nat.mod_lt (E.random (s.pos + 1)) (show 0 < my by rw [hmy]; split <;> omega)
  generalize E.random s.pos % mx = a0 at *
  generalize E.random (s.pos + 1) % my = a1 at *
  have b0 : a0 + 1 ≤ min 4 (s.dset_dims k 0) := by
    split at hmx <;> omega
  have b1 : a1 + 1 ≤ min 2 (s.dset_dims k 1) := by
    split at hmy <;> omega
  have f0 := Nat.mod_lt v0 (show 0 < s.dset_dims k 0 - (a0 + 1) + 1 by omega)
  have f1 := Nat.mod_lt v1 (show 0 < s.dset_dims k 1 - (a1 + 1) + 1 by omega)
  generalize v0 % (s.dset_dims k 0 - (a0 + 1) + 1) = w0 at *
  generalize v1 % (s.dset_dims k 1 - (a1 + 1) + 1) = w1 at *
  refine ⟨⟨by omega, b0⟩, ⟨by omega, b1⟩, ?_, ?_⟩
  · split <;> omega
  · split <;> omega

/-! ## The hyperslab retry loop -/

theorem hs_retry_succ (E : Env) (do_read : Bool) (k m mx my : Nat) (n : Nat) (s : State) :
    hs_retry E do_read k m mx my (n + 1) s =
      if (hs_candidate E do_read k m mx my s).2 = true then
        hs_retry E do_read k m mx my n (hs_candidate E do_read k m mx my s).1
      else ((hs_candidate E do_read k m mx my s).1, false) := rfl

theorem hs_retry_frame (E : Env) (do_read : Bool) (k m mx my : Nat) (n : Nat) (s : State) :
    GenFrame s (hs_retry E do_read k m mx my n s).1 ∧
    (hs_retry E do_read k m mx my n s).1.points = s.points ∧
    s.pos ≤ (hs_retry E do_read k m mx my n s).1.pos := by
  induction n generalizing s with
  | zero => exact ⟨GenFrame.gen_refl s, rfl, Nat.le_refl _⟩
  | succ n ih =>
    have hc := hs_candidate_frame E do_read k m mx my s
    have hp := hs_candidate_pos E do_read k m mx my s
    rw [hs_retry_succ]
    by_cases hov : (hs_candidate E do_read k m mx my s).2 = true
    · rw [if_pos hov]
      obtain ⟨i1, i2, i3⟩ := ih (hs_candidate E do_read k m mx my s).1
      exact ⟨hc.1.gen_trans i1, i2.trans hc.2, by omega⟩
    · rw [if_neg hov]
      exact ⟨hc.1, hc.2, by show s.pos ≤ (hs_candidate E do_read k m mx my s).1.pos; omega⟩

theorem hs_retry_other (E : Env) (do_read : Bool) (k m mx my : Nat) (n : Nat) (s : State)
    (m' d : Nat) (h : m' ≠ m ∨ 2 ≤ d) :
    (hs_retry E do_read k m mx my n s).1.start m' d = s.start m' d ∧
    (hs_retry E do_read k m mx my n s).1.count m' d = s.count m' d := by
  induction n generalizing s with
  | zero => exact ⟨rfl, rfl⟩
  | succ n ih =>
    have hc := hs_candidate_other E do_read k m mx my s m' d h
    rw [hs_retry_succ]
    by_cases hov : (hs_candidate E do_read k m mx my s).2 = true
    · rw [if_pos hov]
      obtain ⟨i1, i2⟩ := ih (hs_candidate E do_read k m mx my s).1
      exact ⟨i1.trans hc.1, i2.trans hc.2⟩
    · rw [if_neg hov]
      exact hc

/-- A hyperslab that leaves the retry loop with `overlap` clear covers no marked cell. -/
theorem hs_retry_free (E : Env) (k m mx my : Nat) (n : Nat) (s : State)
    (h : (hs_retry E false k m mx my n s).2 = false) :
    ∀ c ∈ (regions_of (hs_retry E false k m mx my n s).1 m 1).flatMap region_cells,
      s.dset_usage (idx k c.1 c.2) = 0 := by
  induction n generalizing s with
  | zero => simp [hs_retry] at h
  | succ n ih =>
    have hc := hs_candidate_frame E false k m mx my s
    have ho := hs_candidate_overlap E false k m mx my s
    rw [hs_retry_succ] at h ⊢
    by_cases hov : (hs_candidate E false k m mx my s).2 = true
    · rw [if_pos hov] at h ⊢
      have := ih (hs_candidate E false k m mx my s).1 h
      rw [hc.1.2.2.2.2.2.1] at this
      exact this
    · rw [if_neg hov] at h ⊢
      intro c hcm
      by_contra hne
      exact hov (ho.2 ⟨rfl, c, hcm, hne⟩)

/-- A hyperslab that leaves the retry loop with `overlap` clear fits the dataset. -/
theorem hs_retry_fits (E : Env) (do_read : Bool) (k m mx my : Nat) (n : Nat) (s : State)
    (hd : dims_ok s k)
    (hmx : mx = if MAX_HS_X ≤ s.dset_dims k 0 then MAX_HS_X else s.dset_dims k 0)
    (hmy : my = if MAX_HS_Y ≤ s.dset_dims k 1 then MAX_HS_Y else s.dset_dims k 1)
    (h : (hs_retry E do_read k m mx my n s).2 = false) :
    ∀ reg ∈ regions_of (hs_retry E do_read k m mx my n s).1 m 1,
      region_fits (s.dset_dims k 0) (s.dset_dims k 1) reg := by
  induction n generalizing s with
  | zero => simp [hs_retry] at h
  | succ n ih =>
    have hc := hs_candidate_frame E do_read k m mx my s
    have hf := hs_candidate_fits E do_read k m mx my s hd hmx hmy
    have hdd := hc.1.1.2.1
    rw [hs_retry_succ] at h ⊢
    by_cases hov : (hs_candidate E do_read k m mx my s).2 = true
    · rw [if_pos hov] at h ⊢
      have hd' : dims_ok (hs_candidate E do_read k m mx my s).1 k := by
        simp only [dims_ok, hdd]; exact hd
      have := ih _ hd' (by rw [hdd]; exact hmx) (by rw [hdd]; exact hmy) h
      simp only [hdd] at this
      exact this
    · rw [if_neg hov] at h ⊢
      exact hf

theorem LogExt.log_refl (p : Call → Bool) (s : State) : LogExt p s s :=
  ⟨⟨[], by simp, by simp⟩, Nat.le_refl _⟩

theorem LogExt.log_trans {p : Call → Bool} {s1 s2 s3 : State} (h1 : LogExt p s1 s2)
    (h2 : LogExt p s2 s3) : LogExt p s1 s3 := by
  obtain ⟨⟨L1, e1, p1⟩, n1⟩ := h1
  obtain ⟨⟨L2, e2, p2⟩, n2⟩ := h2
  refine ⟨⟨L1 ++ L2, by rw [e2, e1, List.append_assoc], ?_⟩, Nat.le_trans n1 n2⟩
  intro c hc
  rcases List.mem_append.1 hc with h | h
  · exact p1 c h
  · exact p2 c h

theorem LogExt.of_eq {p : Call → Bool} {s s' : State} (h1 : s'.log = s.log)
    (h2 : s'.nerrors = s.nerrors) : LogExt p s s' :=
  ⟨⟨[], by simp [h1], by simp⟩, by omega⟩

theorem LogExt.mono {p q : Call → Bool} {s s' : State} (h : LogExt p s s')
    (hpq : ∀ c, p c = true → q c = true) : LogExt q s s' := by
  obtain ⟨⟨L, e, hp⟩, n⟩ := h
  exact ⟨⟨L, e, fun c hc => hpq c (hp c hc)⟩, n⟩

theorem checked_logext (p : Call → Bool) (E : Env) (c : Call) (s : State) (h : p c = true) :
    LogExt p s (checked E c s) := by
  refine ⟨⟨[c], rfl, by simpa using h⟩, ?_⟩
  simp only [checked]
  split <;> omega

theorem unchecked_logext (p : Call → Bool) (c : Call) (s : State) (h : p c = true) :
    LogExt p s (unchecked c s) :=
  ⟨⟨[c], rfl, by simpa using h⟩, Nat.le_refl _⟩

theorem regions_of_zero (s : State) (m : Nat) : regions_of s m 0 = [] := rfl

theorem regions_of_one (s : State) (m : Nat) :
    regions_of s m 1 = [(s.start m 0, s.start m 1, s.count m 0, s.count m 1)] := rfl

theorem regions_of_succ (s : State) (m n : Nat) :
    regions_of s m (n + 1) = regions_of s m 1 ++ regions_of s (m + 1) n := by
  simp [regions_of, List.range'_succ]

theorem regions_of_congr (s s' : State) (m n : Nat)
    (h : ∀ m', m ≤ m' → m' < m + n → ∀ d, d < 2 →
      s'.start m' d = s.start m' d ∧ s'.count m' d = s.count m' d) :
    regions_of s' m n = regions_of s m n := by
  simp only [regions_of]
  apply List.map_congr_left
  intro m' hm'
  simp only [List.mem_range'_1] at hm'
  have h0 := h m' hm'.1 hm'.2 0 (by omega)
  have h1 := h m' hm'.1 hm'.2 1 (by omega)
  rw [h0.1, h0.2, h1.1, h1.2]

theorem regions_of_length (s : State) (m n : Nat) : (regions_of s m n).length = n := by
  simp [regions_of]

/-! ## Accepting one hyperslab (lines 378-399) -/

theorem hs_accept_spec (E : Env) (flags : Nat) (do_read : Bool) (k l m : Nat) (s : State) :
    Frame s (hs_expect E flags do_read k l m (hs_select E k l m s)) ∧
    (hs_expect E flags do_read k l m (hs_select E k l m s)).pos = s.pos ∧
    (hs_expect E flags do_read k l m (hs_select E k l m s)).start = s.start ∧
    (hs_expect E flags do_read k l m (hs_select E k l m s)).count = s.count ∧
    (hs_expect E flags do_read k l m (hs_select E k l m s)).points = s.points ∧
    (hs_expect E flags do_read k l m (hs_select E k l m s)).dset_usage = s.dset_usage ∧
    (hs_expect E flags do_read k l m (hs_select E k l m s)).efbuf =
      (if do_read = true then s.efbuf
       else fill k ((regions_of s m 1).flatMap region_cells) (efbuf_value E flags l s.wbuf) s.efbuf) ∧
    (hs_expect E flags do_read k l m (hs_select E k l m s)).erbuf =
      (if do_read = true ∧ l = E.mpi_rank then
        fill k ((regions_of s m 1).flatMap region_cells) s.efbuf s.erbuf
       else s.erbuf) ∧
    (hs_expect E flags do_read k l m (hs_select E k l m s)).dset_space =
      (if l = E.mpi_rank then
        set_at s.dset_space k (s.dset_space k ++ (regions_of s m 1).map sel_of_region)
       else s.dset_space) ∧
    LogExt Call.is_select s (hs_expect E flags do_read k l m (hs_select E k l m s)) := by
  have hsel : Frame s (hs_select E k l m s) ∧ (hs_select E k l m s).pos = s.pos ∧
      (hs_select E k l m s).start = s.start ∧ (hs_select E k l m s).count = s.count ∧
      (hs_select E k l m s).points = s.points ∧
      (hs_select E k l m s).dset_usage = s.dset_usage ∧
      (hs_select E k l m s).efbuf = s.efbuf ∧ (hs_select E k l m s).erbuf = s.erbuf ∧
      (hs_select E k l m s).dset_space =
        (if l = E.mpi_rank then
          set_at s.dset_space k (s.dset_space k ++ (regions_of s m 1).map sel_of_region)
         else s.dset_space) ∧
      LogExt Call.is_select s (hs_select E k l m s) := by
    unfold hs_select
    by_cases hl : l = E.mpi_rank
    · rw [if_pos hl, if_pos hl]
      refine ⟨⟨rfl, rfl, rfl, rfl, rfl, rfl⟩, rfl, rfl, rfl, rfl, rfl, rfl, rfl, ?_, ?_⟩
      · simp [checked, regions_of_one, sel_of_region, set_at_apply]
      · exact (LogExt.of_eq rfl rfl).log_trans
          ((checked_logext Call.is_select E (.H5Sselect_hyperslab true k) _ rfl).log_trans
            ((LogExt.of_eq rfl rfl).log_trans
              (checked_logext Call.is_select E (.H5Sselect_hyperslab false k) _ rfl)))
    · rw [if_neg hl, if_neg hl]
      exact ⟨Frame.frame_refl s, rfl, rfl, rfl, rfl, rfl, rfl, rfl, rfl, LogExt.log_refl _ s⟩
  obtain ⟨f1, f2, f3, f4, f5, f6, f7, f8, f9, f10⟩ := hsel
  generalize hs_select E k l m s = s1 at *
  have hw : s1.wbuf = s.wbuf := f1.2.2.2.2.1
  have hr : regions_of s1 m 1 = regions_of s m 1 := by simp [regions_of_one, f3, f4]
  unfold hs_expect
  cases do_read
  · simp only [Bool.false_eq_true, if_false, false_and]
    refine ⟨f1, f2, f3, f4, f5, f6, ?_, f8, f9, ?_⟩
    · show for_region _ _ _ _ _ _ = _
      rw [for_region_fill, f7, hw, f3, f4]
      simp [regions_of_one]
    · exact f10.log_trans (LogExt.of_eq rfl rfl)
  · simp only [if_true, true_and]
    by_cases hl : l = E.mpi_rank
    · rw [if_pos hl, if_pos hl]
      refine ⟨f1, f2, f3, f4, f5, f6, f7, ?_, ?_, ?_⟩
      · show for_region _ _ _ _ _ _ = _
        rw [for_region_fill, f7, f8, f3, f4]
        simp [regions_of_one]
      · rw [if_pos hl]; rw [if_pos hl] at f9; exact f9
      · exact f10.log_trans (LogExt.of_eq rfl rfl)
    · rw [if_neg hl, if_neg hl]
      refine ⟨f1, f2, f3, f4, f5, f6, f7, f8, ?_, f10⟩
      rw [if_neg hl] at f9; rw [if_neg hl]; exact f9

theorem set_at_self {α : Type} (sp : Nat → α) (k : Nat) : set_at sp k (sp k) = sp := by
  funext j
  simp only [set_at_apply]
  split
  · rename_i h; rw [h]
  · rfl

theorem set_at_set_at {α : Type} (sp : Nat → α) (k : Nat) (a b : α) :
    set_at (set_at sp k a) k b = set_at sp k b := by
  funext j
  simp only [set_at_apply]
  split <;> rfl

theorem set_at_same {α : Type} (sp : Nat → α) (k : Nat) (a : α) : set_at sp k a k = a := by
  simp [set_at_apply]

/-! ## The hyperslab loop (lines 348-400) -/

theorem hs_loop_succ (E : Env) (flags : Nat) (do_read : Bool) (k l mx my n m : Nat) (s : State) :
    hs_loop E flags do_read k l mx my (n + 1) m s =
      if (hs_retry E do_read k m mx my MAX_SEL_RETRIES s).2 = true then
        ((hs_retry E do_read k m mx my MAX_SEL_RETRIES s).1, m)
      else
        hs_loop E flags do_read k l mx my n (m + 1)
          (hs_expect E flags do_read k l m
            (hs_select E k l m (hs_retry E do_read k m mx my MAX_SEL_RETRIES s).1)) := rfl

theorem hs_loop_shape (E : Env) (flags : Nat) (do_read : Bool) (k l mx my n m : Nat) (s : State) :
    (m ≤ (hs_loop E flags do_read k l mx my n m s).2 ∧
      (hs_loop E flags do_read k l mx my n m s).2 ≤ m + n) ∧
    (∀ m' d, m' < m ∨ 2 ≤ d →
      (hs_loop E flags do_read k l mx my n m s).1.start m' d = s.start m' d ∧
      (hs_loop E flags do_read k l mx my n m s).1.count m' d = s.count m' d) ∧
    Frame s (hs_loop E flags do_read k l mx my n m s).1 ∧
    (hs_loop E flags do_read k l mx my n m s).1.dset_usage = s.dset_usage ∧
    (hs_loop E flags do_read k l mx my n m s).1.points = s.points ∧
    s.pos ≤ (hs_loop E flags do_read k l mx my n m s).1.pos ∧
    LogExt Call.is_select s (hs_loop E flags do_read k l mx my n m s).1 := by
  induction n generalizing m s with
  | zero =>
    exact ⟨⟨Nat.le_refl _, Nat.le_refl _⟩, fun _ _ _ => ⟨rfl, rfl⟩, Frame.frame_refl s, rfl, rfl,
      Nat.le_refl _, LogExt.log_refl _ s⟩
  | succ n ih =>
    obtain ⟨⟨g0, g1, g2, g3, g4, g5, g6, g7⟩, gp, gpos⟩ := hs_retry_frame E do_read k m mx my MAX_SEL_RETRIES s
    have go := hs_retry_other E do_read k m mx my MAX_SEL_RETRIES s
    rw [hs_loop_succ]
    by_cases hov : (hs_retry E do_read k m mx my MAX_SEL_RETRIES s).2 = true
    · rw [if_pos hov]
      refine ⟨⟨Nat.le_refl _, by omega⟩, ?_, g0, g5, gp, gpos, LogExt.of_eq g2 g1⟩
      intro m' d h
      exact go m' d (by omega)
    · rw [if_neg hov]
      obtain ⟨a1, a2, a3, a4, a5, a6, -, -, -, a10⟩ :=
        hs_accept_spec E flags do_read k l m (hs_retry E do_read k m mx my MAX_SEL_RETRIES s).1
      obtain ⟨⟨i1, i2⟩, i3, i4, i5, i6, i7, i8⟩ := ih (m + 1)
        (hs_expect E flags do_read k l m
          (hs_select E k l m (hs_retry E do_read k m mx my MAX_SEL_RETRIES s).1))
      refine ⟨⟨by omega, by omega⟩, ?_, (g0.frame_trans a1).frame_trans i4, ?_, ?_, ?_, ?_⟩
      · intro m' d h
        obtain ⟨j1, j2⟩ := i3 m' d (by omega)
        obtain ⟨j3, j4⟩ := go m' d (by omega)
        rw [j1, j2, a3, a4, j3, j4]
        exact ⟨rfl, rfl⟩
      · rw [i5, a6, g5]
      · rw [i6, a5, gp]
      · omega
      · exact ((LogExt.of_eq g2 g1).log_trans a10).log_trans i8

/-- The hyperslabs `m, ..., nhs - 1` the loop accepted, read off the final `start`/`count`. -/
theorem hs_loop_bufs (E : Env) (flags : Nat) (do_read : Bool) (k l mx my n m : Nat) (s : State) :
    (hs_loop E flags do_read k l mx my n m s).1.efbuf =
      (if do_read = true then s.efbuf
       else fill k ((regions_of (hs_loop E flags do_read k l mx my n m s).1 m
          ((hs_loop E flags do_read k l mx my n m s).2 - m)).flatMap region_cells)
          (efbuf_value E flags l s.wbuf) s.efbuf) ∧
    (hs_loop E flags do_read k l mx my n m s).1.erbuf =
      (if do_read = true ∧ l = E.mpi_rank then
        fill k ((regions_of (hs_loop E flags do_read k l mx my n m s).1 m
          ((hs_loop E flags do_read k l mx my n m s).2 - m)).flatMap region_cells) s.efbuf s.erbuf
       else s.erbuf) ∧
    (hs_loop E flags do_read k l mx my n m s).1.dset_space =
      (if l = E.mpi_rank then
        set_at s.dset_space k (s.dset_space k ++
          (regions_of (hs_loop E flags do_read k l mx my n m s).1 m
            ((hs_loop E flags do_read k l mx my n m s).2 - m)).map sel_of_region)
       else s.dset_space) := by
  induction n generalizing m s with
  | zero =>
    simp only [hs_loop, Nat.sub_self, regions_of_zero, List.flatMap_nil, fill_nil, List.map_nil,
      List.append_nil, ite_self, true_and, set_at_self]
  | succ n ih =>
    obtain ⟨⟨g0, g1, g2, g3, g4, g5, g6, g7⟩, gp, gpos⟩ := hs_retry_frame E do_read k m mx my MAX_SEL_RETRIES s
    rw [hs_loop_succ]
    by_cases hov : (hs_retry E do_read k m mx my MAX_SEL_RETRIES s).2 = true
    · rw [if_pos hov]
      simp only [Nat.sub_self, regions_of_zero, List.flatMap_nil, fill_nil, List.map_nil,
        List.append_nil, ite_self, g3, g4, g7, true_and, set_at_self]
    · rw [if_neg hov]
      obtain ⟨a1, a2, a3, a4, a5, a6, a7, a8, a9, a10⟩ :=
        hs_accept_spec E flags do_read k l m (hs_retry E do_read k m mx my MAX_SEL_RETRIES s).1
      obtain ⟨i1, i2, i3⟩ := ih (m + 1)
        (hs_expect E flags do_read k l m
          (hs_select E k l m (hs_retry E do_read k m mx my MAX_SEL_RETRIES s).1))
      obtain ⟨⟨h1, h2⟩, h3, h4, -⟩ := hs_loop_shape E flags do_read k l mx my n (m + 1)
        (hs_expect E flags do_read k l m
          (hs_select E k l m (hs_retry E do_read k m mx my MAX_SEL_RETRIES s).1))
      generalize hs_loop E flags do_read k l mx my n (m + 1)
        (hs_expect E flags do_read k l m
          (hs_select E k l m (hs_retry E do_read k m mx my MAX_SEL_RETRIES s).1)) = r at *
      generalize hs_expect E flags do_read k l m
          (hs_select E k l m (hs_retry E do_read k m mx my MAX_SEL_RETRIES s).1) = se at *
      generalize (hs_retry E do_read k m mx my MAX_SEL_RETRIES s).1 = sr at *
      have hsplit : regions_of r.1 m (r.2 - m) = regions_of sr m 1 ++ regions_of r.1 (m + 1) (r.2 - (m + 1)) := by
        have : r.2 - m = (r.2 - (m + 1)) + 1 := by omega
        rw [this, regions_of_succ]
        congr 1
        apply regions_of_congr
        intro m' hm1 hm2 d hd
        have hm : m' = m := by omega
        subst hm
        obtain ⟨j1, j2⟩ := h3 m' d (by omega)
        rw [j1, j2, a3, a4]
        exact ⟨rfl, rfl⟩
      have hw : se.wbuf = s.wbuf := by rw [a1.2.2.2.2.1, g0.2.2.2.2.1]
      rw [hsplit, List.flatMap_append, List.map_append, ← fill_append, ← fill_append]
      refine ⟨?_, ?_, ?_⟩
      · rw [i1, a7, hw, g4, g0.2.2.2.2.1]
        by_cases hr : do_read = true
        · simp only [if_pos hr]
        · simp only [if_neg hr]
      · rw [i2, a8, a7, g4, g3]
        by_cases hr : do_read = true ∧ l = E.mpi_rank
        · simp only [if_pos hr, if_pos hr.1]
        · simp only [if_neg hr]
      · rw [i3, a9, g7]
        by_cases hl : l = E.mpi_rank
        · simp only [if_pos hl, set_at_set_at, set_at_same, List.append_assoc]
        · simp only [if_neg hl]

/-- After an accepted hyperslab `m` the list of accepted hyperslabs is this one followed by
those the rest of the loop accepts. -/
theorem hs_loop_regions (E : Env) (flags : Nat) (do_read : Bool) (k l mx my n m : Nat)
    (sr : State) :
    regions_of (hs_loop E flags do_read k l mx my n (m + 1)
        (hs_expect E flags do_read k l m (hs_select E k l m sr))).1 m
      ((hs_loop E flags do_read k l mx my n (m + 1)
        (hs_expect E flags do_read k l m (hs_select E k l m sr))).2 - m)
    = regions_of sr m 1 ++
      regions_of (hs_loop E flags do_read k l mx my n (m + 1)
        (hs_expect E flags do_read k l m (hs_select E k l m sr))).1 (m + 1)
      ((hs_loop E flags do_read k l mx my n (m + 1)
        (hs_expect E flags do_read k l m (hs_select E k l m sr))).2 - (m + 1)) := by
  obtain ⟨a1, a2, a3, a4, -⟩ := hs_accept_spec E flags do_read k l m sr
  obtain ⟨⟨h1, h2⟩, h3, -⟩ := hs_loop_shape E flags do_read k l mx my n (m + 1)
    (hs_expect E flags do_read k l m (hs_select E k l m sr))
  generalize hs_loop E flags do_read k l mx my n (m + 1)
    (hs_expect E flags do_read k l m (hs_select E k l m sr)) = r at *
  have : r.2 - m = (r.2 - (m + 1)) + 1 := by omega
  rw [this, regions_of_succ]
  congr 1
  apply regions_of_congr
  intro m' hm1 hm2 d hd
  have hm : m' = m := by omega
  subst hm
  obtain ⟨j1, j2⟩ := h3 m' d (by omega)
  rw [j1, j2, a3, a4]
  exact ⟨rfl, rfl⟩

/-- When writing, no accepted hyperslab covers a cell that was marked when the loop began. -/
theorem hs_loop_free (E : Env) (flags : Nat) (k l mx my n m : Nat) (s : State) :
    ∀ c ∈ (regions_of (hs_loop E flags false k l mx my n m s).1 m
        ((hs_loop E flags false k l mx my n m s).2 - m)).flatMap region_cells,
      s.dset_usage (idx k c.1 c.2) = 0 := by
  induction n generalizing m s with
  | zero => simp [hs_loop, regions_of_zero]
  | succ n ih =>
    obtain ⟨⟨g0, g1, g2, g3, g4, g5, g6, g7⟩, gp, gpos⟩ := hs_retry_frame E false k m mx my MAX_SEL_RETRIES s
    rw [hs_loop_succ]
    by_cases hov : (hs_retry E false k m mx my MAX_SEL_RETRIES s).2 = true
    · rw [if_pos hov]
      simp [regions_of_zero]
    · rw [if_neg hov]
      have hfree := hs_retry_free E k m mx my MAX_SEL_RETRIES s (by simpa using hov)
      obtain ⟨a1, a2, a3, a4, a5, a6, -⟩ :=
        hs_accept_spec E flags false k l m (hs_retry E false k m mx my MAX_SEL_RETRIES s).1
      have i := ih (m + 1) (hs_expect E flags false k l m
          (hs_select E k l m (hs_retry E false k m mx my MAX_SEL_RETRIES s).1))
      rw [hs_loop_regions, List.flatMap_append]
      intro c hc
      rcases List.mem_append.1 hc with h | h
      · exact hfree c h
      · have := i c h
        rw [a6, g5] at this
        exact this

/-- Every accepted hyperslab fits the dataset. -/
theorem hs_loop_fits (E : Env) (flags : Nat) (do_read : Bool) (k l mx my n m : Nat) (s : State)
    (hd : dims_ok s k)
    (hmx : mx = if MAX_HS_X ≤ s.dset_dims k 0 then MAX_HS_X else s.dset_dims k 0)
    (hmy : my = if MAX_HS_Y ≤ s.dset_dims k 1 then MAX_HS_Y else s.dset_dims k 1) :
    ∀ reg ∈ regions_of (hs_loop E flags do_read k l mx my n m s).1 m
        ((hs_loop E flags do_read k l mx my n m s).2 - m),
      region_fits (s.dset_dims k 0) (s.dset_dims k 1) reg := by
  induction n generalizing m s with
  | zero => simp [hs_loop, regions_of_zero]
  | succ n ih =>
    obtain ⟨⟨g0, -⟩, -⟩ := hs_retry_frame E do_read k m mx my MAX_SEL_RETRIES s
    rw [hs_loop_succ]
    by_cases hov : (hs_retry E do_read k m mx my MAX_SEL_RETRIES s).2 = true
    · rw [if_pos hov]
      simp [regions_of_zero]
    · rw [if_neg hov]
      have hfit := hs_retry_fits E do_read k m mx my MAX_SEL_RETRIES s hd hmx hmy (by simpa using hov)
      obtain ⟨a1, -⟩ :=
        hs_accept_spec E flags do_read k l m (hs_retry E do_read k m mx my MAX_SEL_RETRIES s).1
      have hdd : (hs_expect E flags do_read k l m
          (hs_select E k l m (hs_retry E do_read k m mx my MAX_SEL_RETRIES s).1)).dset_dims
          = s.dset_dims := by rw [a1.2.1, g0.2.1]
      have i := ih (m + 1) (hs_expect E flags do_read k l m
          (hs_select E k l m (hs_retry E do_read k m mx my MAX_SEL_RETRIES s).1))
          (by simp only [dims_ok, hdd]; exact hd) (by rw [hdd]; exact hmx) (by rw [hdd]; exact hmy)
      rw [hs_loop_regions]
      intro reg hc
      rcases List.mem_append.1 hc with h | h
      · exact hfit reg h
      · have := i reg h
        rw [hdd] at this
        exact this

/-- Lines 402-407 as a `fill`. -/
theorem hs_mark_usage (k nhs : Nat) (s : State) :
    (hs_mark k nhs s).dset_usage =
      fill k ((regions_of s 0 nhs).flatMap region_cells) (fun _ => 1) s.dset_usage := by
  show (List.range nhs).foldl _ s.dset_usage = _
  rw [List.range_eq_range']
  simp only [regions_of]
  generalize s.dset_usage = u
  generalize List.range' 0 nhs = ms
  induction ms generalizing u with
  | nil => simp [fill_nil]
  | cons a ms ih =>
    simp only [List.foldl_cons, List.map_cons, List.flatMap_cons]
    rw [ih, ← fill_append]
    exact congrArg (fill k _ (fun _ => 1))
      (for_region_fill k (s.start a 0) (s.count a 0) (s.start a 1) (s.count a 1) (fun _ => 1) u)

/-! ## Point candidates and the point retry loop (lines 416-428) -/

theorem pt_candidate_frame (E : Env) (do_read : Bool) (k m : Nat) (s : State) :
    GenFrame s (pt_candidate E do_read k m s).1 ∧
    (pt_candidate E do_read k m s).1.start = s.start ∧
    (pt_candidate E do_read k m s).1.count = s.count ∧
    (pt_candidate E do_read k m s).1.pos = s.pos + 2 :=
  ⟨⟨⟨rfl, rfl, rfl, rfl, rfl, rfl⟩, rfl, rfl, rfl, rfl, rfl, rfl, rfl⟩, rfl, rfl, rfl⟩

theorem pt_candidate_other (E : Env) (do_read : Bool) (k m : Nat) (s : State) (j : Nat)
    (h : j ≠ 2 * m ∧ j ≠ 2 * m + 1) :
    (pt_candidate E do_read k m s).1.points j = s.points j := by
  simp [pt_candidate, set_apply, h.1, h.2]

theorem pt_candidate_point (E : Env) (do_read : Bool) (k m : Nat) (s : State) :
    (pt_candidate E do_read k m s).1.points (2 * m) = E.random s.pos % s.dset_dims k 0 ∧
    (pt_candidate E do_read k m s).1.points (2 * m + 1) = E.random (s.pos + 1) % s.dset_dims k 1 := by
  simp [pt_candidate, set_apply]

theorem pt_candidate_overlap (E : Env) (do_read : Bool) (k m : Nat) (s : State) :
    (pt_candidate E do_read k m s).2 = true ↔
      do_read = false ∧ ∃ c ∈ points_of (pt_candidate E do_read k m s).1 m 1,
        s.dset_usage (idx k c.1 c.2) ≠ 0 := by
  cases do_read <;> simp [pt_candidate, points_of]

theorem pt_retry_succ (E : Env) (do_read : Bool) (k m n : Nat) (s : State) :
    pt_retry E do_read k m (n + 1) s =
      if (pt_candidate E do_read k m s).2 = true then
        pt_retry E do_read k m n (pt_candidate E do_read k m s).1
      else ((pt_candidate E do_read k m s).1, false) := rfl

theorem pt_retry_frame (E : Env) (do_read : Bool) (k m n : Nat) (s : State) :
    GenFrame s (pt_retry E do_read k m n s).1 ∧
    (pt_retry E do_read k m n s).1.start = s.start ∧
    (pt_retry E do_read k m n s).1.count = s.count ∧
    s.pos ≤ (pt_retry E do_read k m n s).1.pos := by
  induction n generalizing s with
  | zero => exact ⟨GenFrame.gen_refl s, rfl, rfl, Nat.le_refl _⟩
  | succ n ih =>
    obtain ⟨c1, c2, c3, c4⟩ := pt_candidate_frame E do_read k m s
    rw [pt_retry_succ]
    by_cases hov : (pt_candidate E do_read k m s).2 = true
    · rw [if_pos hov]
      obtain ⟨i1, i2, i3, i4⟩ := ih (pt_candidate E do_read k m s).1
      exact ⟨c1.gen_trans i1, i2.trans c2, i3.trans c3, by omega⟩
    · rw [if_neg hov]
      exact ⟨c1, c2, c3, by show s.pos ≤ (pt_candidate E do_read k m s).1.pos; omega⟩

theorem pt_retry_other (E : Env) (do_read : Bool) (k m n : Nat) (s : State) (j : Nat)
    (h : j ≠ 2 * m ∧ j ≠ 2 * m + 1) :
    (pt_retry E do_read k m n s).1.points j = s.points j := by
  induction n generalizing s with
  | zero => rfl
  | succ n ih =>
    have hc := pt_candidate_other E do_read k m s j h
    rw [pt_retry_succ]
    by_cases hov : (pt_candidate E do_read k m s).2 = true
    · rw [if_pos hov]
      exact (ih _).trans hc
    · rw [if_neg hov]
      exact hc

/-- A point that leaves the retry loop with `overlap` clear is not marked. -/
theorem pt_retry_free (E : Env) (k m n : Nat) (s : State)
    (h : (pt_retry E false k m n s).2 = false) :
    ∀ c ∈ points_of (pt_retry E false k m n s).1 m 1, s.dset_usage (idx k c.1 c.2) = 0 := by
  induction n generalizing s with
  | zero => simp [pt_retry] at h
  | succ n ih =>
    have hc := pt_candidate_frame E false k m s
    have ho := pt_candidate_overlap E false k m s
    rw [pt_retry_succ] at h ⊢
    by_cases hov : (pt_candidate E false k m s).2 = true
    · rw [if_pos hov] at h ⊢
      have := ih (pt_candidate E false k m s).1 h
      rw [hc.1.2.2.2.2.2.1] at this
      exact this
    · rw [if_neg hov] at h ⊢
      intro c hcm
      by_contra hne
      exact hov (ho.2 ⟨rfl, c, hcm, hne⟩)

/-- Lines 419-420: every candidate point lies in the dataset. -/
theorem pt_candidate_fits (E : Env) (do_read : Bool) (k m : Nat) (s : State) (hd : dims_ok s k) :
    ∀ c ∈ points_of (pt_candidate E do_read k m s).1 m 1,
      c.1 < s.dset_dims k 0 ∧ c.2 < s.dset_dims k 1 := by
  obtain ⟨⟨hx1, hx2⟩, hy1, hy2⟩ := hd
  intro c hc
  simp only [points_of, List.range'_one, List.map_cons, List.map_nil, List.mem_singleton] at hc
  subst hc
  obtain ⟨p0, p1⟩ := pt_candidate_point E do_read k m s
  simp only [p0, p1]
  exact ⟨Nat.mod_lt _ (by omega), Nat.mod_lt _ (by omega)⟩

theorem pt_retry_fits (E : Env) (do_read : Bool) (k m n : Nat) (s : State) (hd : dims_ok s k)
    (h : (pt_retry E do_read k m n s).2 = false) :
    ∀ c ∈ points_of (pt_retry E do_read k m n s).1 m 1,
      c.1 < s.dset_dims k 0 ∧ c.2 < s.dset_dims k 1 := by
  induction n generalizing s with
  | zero => simp [pt_retry] at h
  | succ n ih =>
    have hc := pt_candidate_frame E do_read k m s
    have hf := pt_candidate_fits E do_read k m s hd
    have hdd := hc.1.1.2.1
    rw [pt_retry_succ] at h ⊢
    by_cases hov : (pt_candidate E do_read k m s).2 = true
    · rw [if_pos hov] at h ⊢
      have hd' : dims_ok (pt_candidate E do_read k m s).1 k := by
        simp only [dims_ok, hdd]; exact hd
      have := ih _ hd' h
      simp only [hdd] at this
      exact this
    · rw [if_neg hov] at h ⊢
      exact hf

/-! ## The point loop (lines 415-436) -/

theorem points_of_zero (s : State) (m : Nat) : points_of s m 0 = [] := rfl

theorem points_of_one (s : State) (m : Nat) :
    points_of s m 1 = [(s.points (2 * m), s.points (2 * m + 1))] := rfl

theorem points_of_succ (s : State) (m n : Nat) :
    points_of s m (n + 1) = points_of s m 1 ++ points_of s (m + 1) n := by
  simp [points_of, List.range'_succ]

theorem points_of_congr (s s' : State) (m n : Nat)
    (h : ∀ j, 2 * m ≤ j → j < 2 * (m + n) → s'.points j = s.points j) :
    points_of s' m n = points_of s m n := by
  simp only [points_of]
  apply List.map_congr_left
  intro m' hm'
  simp only [List.mem_range'_1] at hm'
  rw [h (2 * m') (by omega) (by omega), h (2 * m' + 1) (by omega) (by omega)]

theorem points_of_length (s : State) (m n : Nat) : (points_of s m n).length = n := by
  simp [points_of]

theorem pt_loop_succ (E : Env) (do_read : Bool) (k n m : Nat) (s : State) :
    pt_loop E do_read k (n + 1) m s =
      if (pt_retry E do_read k m MAX_SEL_RETRIES s).2 = true then
        ((pt_retry E do_read k m MAX_SEL_RETRIES s).1, m)
      else pt_loop E do_read k n (m + 1) (pt_retry E do_read k m MAX_SEL_RETRIES s).1 := rfl

theorem pt_loop_shape (E : Env) (do_read : Bool) (k n m : Nat) (s : State) :
    (m ≤ (pt_loop E do_read k n m s).2 ∧ (pt_loop E do_read k n m s).2 ≤ m + n) ∧
    (∀ j, j < 2 * m → (pt_loop E do_read k n m s).1.points j = s.points j) ∧
    GenFrame s (pt_loop E do_read k n m s).1 ∧
    (pt_loop E do_read k n m s).1.start = s.start ∧
    (pt_loop E do_read k n m s).1.count = s.count ∧
    s.pos ≤ (pt_loop E do_read k n m s).1.pos := by
  induction n generalizing m s with
  | zero =>
    exact ⟨⟨Nat.le_refl _, Nat.le_refl _⟩, fun _ _ => rfl, GenFrame.gen_refl s, rfl, rfl, Nat.le_refl _⟩
  | succ n ih =>
    obtain ⟨g0, g1, g2, g3⟩ := pt_retry_frame E do_read k m MAX_SEL_RETRIES s
    have go := pt_retry_other E do_read k m MAX_SEL_RETRIES s
    rw [pt_loop_succ]
    by_cases hov : (pt_retry E do_read k m MAX_SEL_RETRIES s).2 = true
    · rw [if_pos hov]
      exact ⟨⟨Nat.le_refl _, by omega⟩, fun j hj => go j (by omega), g0, g1, g2, g3⟩
    · rw [if_neg hov]
      obtain ⟨⟨i1, i2⟩, i3, i4, i5, i6, i7⟩ := ih (m + 1) (pt_retry E do_read k m MAX_SEL_RETRIES s).1
      refine ⟨⟨by omega, by omega⟩, ?_, g0.gen_trans i4, i5.trans g1, i6.trans g2, by omega⟩
      intro j hj
      rw [i3 j (by omega), go j (by omega)]

/-- After an accepted point `m` the list of accepted points is this one followed by those the
rest of the loop accepts. -/
theorem pt_loop_points (E : Env) (do_read : Bool) (k n m : Nat) (sr : State) :
    points_of (pt_loop E do_read k n (m + 1) sr).1 m ((pt_loop E do_read k n (m + 1) sr).2 - m)
    = points_of sr m 1 ++
      points_of (pt_loop E do_read k n (m + 1) sr).1 (m + 1)
        ((pt_loop E do_read k n (m + 1) sr).2 - (m + 1)) := by
  obtain ⟨⟨h1, h2⟩, h3, -⟩ := pt_loop_shape E do_read k n (m + 1) sr
  generalize pt_loop E do_read k n (m + 1) sr = r at *
  have : r.2 - m = (r.2 - (m + 1)) + 1 := by omega
  rw [this, points_of_succ]
  congr 1
  apply points_of_congr
  intro j hj1 hj2
  exact h3 j (by omega)

/-- When writing, no accepted point was marked when the loop began. -/
theorem pt_loop_free (E : Env) (k n m : Nat) (s : State) :
    ∀ c ∈ points_of (pt_loop E false k n m s).1 m ((pt_loop E false k n m s).2 - m),
      s.dset_usage (idx k c.1 c.2) = 0 := by
  induction n generalizing m s with
  | zero => simp [pt_loop, points_of_zero]
  | succ n ih =>
    obtain ⟨⟨g0, g1, g2, g3, g4, g5, g6, g7⟩, -⟩ := pt_retry_frame E false k m MAX_SEL_RETRIES s
    rw [pt_loop_succ]
    by_cases hov : (pt_retry E false k m MAX_SEL_RETRIES s).2 = true
    · rw [if_pos hov]
      simp [points_of_zero]
    · rw [if_neg hov]
      have hfree := pt_retry_free E k m MAX_SEL_RETRIES s (by simpa using hov)
      have i := ih (m + 1) (pt_retry E false k m MAX_SEL_RETRIES s).1
      rw [pt_loop_points]
      intro c hc
      rcases List.mem_append.1 hc with h | h
      · exact hfree c h
      · have := i c h
        rw [g5] at this
        exact this

/-- Every accepted point lies in the dataset. -/
theorem pt_loop_fits (E : Env) (do_read : Bool) (k n m : Nat) (s : State) (hd : dims_ok s k) :
    ∀ c ∈ points_of (pt_loop E do_read k n m s).1 m ((pt_loop E do_read k n m s).2 - m),
      c.1 < s.dset_dims k 0 ∧ c.2 < s.dset_dims k 1 := by
  induction n generalizing m s with
  | zero => simp [pt_loop, points_of_zero]
  | succ n ih =>
    obtain ⟨⟨g0, -⟩, -⟩ := pt_retry_frame E do_read k m MAX_SEL_RETRIES s
    rw [pt_loop_succ]
    by_cases hov : (pt_retry E do_read k m MAX_SEL_RETRIES s).2 = true
    · rw [if_pos hov]
      simp [points_of_zero]
    · rw [if_neg hov]
      have hfit := pt_retry_fits E do_read k m MAX_SEL_RETRIES s hd (by simpa using hov)
      have hdd := g0.2.1
      have i := ih (m + 1) (pt_retry E do_read k m MAX_SEL_RETRIES s).1
        (by simp only [dims_ok, hdd]; exact hd)
      rw [pt_loop_points]
      intro c hc
      rcases List.mem_append.1 hc with h | h
      · exact hfit c h
      · have := i c h
        rw [hdd] at this
        exact this

theorem sel_cells_append (a b : List Sel) : sel_cells (a ++ b) = sel_cells a ++ sel_cells b := by
  simp [sel_cells, List.flatMap_append]

theorem sel_cells_regions (regs : List (Nat × Nat × Nat × Nat)) :
    sel_cells (regs.map sel_of_region) = regs.flatMap region_cells := by
  induction regs with
  | nil => rfl
  | cons r regs ih =>
    have : sel_cells (List.map sel_of_region (r :: regs))
        = Sel.cells (sel_of_region r) ++ sel_cells (List.map sel_of_region regs) := by
      simp [sel_cells]
    rw [this, ih]
    simp [sel_of_region, Sel.cells]

theorem getD_map_range (f : Nat → Nat) (n i : Nat) (h : i < n) :
    ((List.range n).map f).getD i 0 = f i := by
  simp [List.getD_eq_getElem?_getD, List.getElem?_map, List.getElem?_range h]

theorem sel_cells_elements (s : State) (n : Nat) :
    sel_cells [.elements n ((List.range (2 * n)).map s.points)] = points_of s 0 n := by
  simp only [sel_cells, List.flatMap_cons, List.flatMap_nil, List.append_nil, Sel.cells, points_of,
    ← List.range_eq_range']
  apply List.map_congr_left
  intro m hm
  simp only [List.mem_range] at hm
  rw [getD_map_range _ _ _ (by omega), getD_map_range _ _ _ (by omega)]

theorem region_fits_cells (X Y : Nat) (reg : Nat × Nat × Nat × Nat) (h : region_fits X Y reg)
    (c : Nat × Nat) (hc : c ∈ region_cells reg) : c.1 < X ∧ c.2 < Y := by
  rw [mem_region_cells] at hc
  obtain ⟨-, -, h3, h4⟩ := h
  omega

/-! ## The hyperslab branch -/

theorem hs_branch_spec (E : Env) (flags : Nat) (do_read : Bool) (k l : Nat) (s : State) :
    RankSpec E flags do_read k l s (hs_branch E flags do_read k l s) := by
  obtain ⟨⟨h1, h2⟩, h3, h4, h5, h6, h7, h8⟩ := hs_loop_shape E flags do_read k l
    (if MAX_HS_X ≤ s.dset_dims k 0 then MAX_HS_X else s.dset_dims k 0)
    (if MAX_HS_Y ≤ s.dset_dims k 1 then MAX_HS_Y else s.dset_dims k 1)
    (hs_draw_count E s) 0 { s with pos := s.pos + 1 }
  obtain ⟨b1, b2, b3⟩ := hs_loop_bufs E flags do_read k l
    (if MAX_HS_X ≤ s.dset_dims k 0 then MAX_HS_X else s.dset_dims k 0)
    (if MAX_HS_Y ≤ s.dset_dims k 1 then MAX_HS_Y else s.dset_dims k 1)
    (hs_draw_count E s) 0 { s with pos := s.pos + 1 }
  have hfree : do_read = false → ∀ c ∈ (regions_of (hs_loop E flags do_read k l
      (if MAX_HS_X ≤ s.dset_dims k 0 then MAX_HS_X else s.dset_dims k 0)
      (if MAX_HS_Y ≤ s.dset_dims k 1 then MAX_HS_Y else s.dset_dims k 1)
      (hs_draw_count E s) 0 { s with pos := s.pos + 1 }).1 0
      ((hs_loop E flags do_read k l
      (if MAX_HS_X ≤ s.dset_dims k 0 then MAX_HS_X else s.dset_dims k 0)
      (if MAX_HS_Y ≤ s.dset_dims k 1 then MAX_HS_Y else s.dset_dims k 1)
      (hs_draw_count E s) 0 { s with pos := s.pos + 1 }).2 - 0)).flatMap region_cells,
      s.dset_usage (idx k c.1 c.2) = 0 := by
    intro h
    subst h
    exact hs_loop_free E flags k l _ _ (hs_draw_count E s) 0 { s with pos := s.pos + 1 }
  have hfits : dims_ok s k → ∀ reg ∈ regions_of (hs_loop E flags do_read k l
      (if MAX_HS_X ≤ s.dset_dims k 0 then MAX_HS_X else s.dset_dims k 0)
      (if MAX_HS_Y ≤ s.dset_dims k 1 then MAX_HS_Y else s.dset_dims k 1)
      (hs_draw_count E s) 0 { s with pos := s.pos + 1 }).1 0
      ((hs_loop E flags do_read k l
      (if MAX_HS_X ≤ s.dset_dims k 0 then MAX_HS_X else s.dset_dims k 0)
      (if MAX_HS_Y ≤ s.dset_dims k 1 then MAX_HS_Y else s.dset_dims k 1)
      (hs_draw_count E s) 0 { s with pos := s.pos + 1 }).2 - 0),
      region_fits (s.dset_dims k 0) (s.dset_dims k 1) reg := fun hd =>
    hs_loop_fits E flags do_read k l _ _ (hs_draw_count E s) 0 { s with pos := s.pos + 1 }
      hd rfl rfl
  have hb : hs_branch E flags do_read k l s =
      ((if do_read = true then (hs_loop E flags do_read k l
          (if MAX_HS_X ≤ s.dset_dims k 0 then MAX_HS_X else s.dset_dims k 0)
          (if MAX_HS_Y ≤ s.dset_dims k 1 then MAX_HS_Y else s.dset_dims k 1)
          (hs_draw_count E s) 0 { s with pos := s.pos + 1 }).1
        else hs_mark k (hs_loop E flags do_read k l
          (if MAX_HS_X ≤ s.dset_dims k 0 then MAX_HS_X else s.dset_dims k 0)
          (if MAX_HS_Y ≤ s.dset_dims k 1 then MAX_HS_Y else s.dset_dims k 1)
          (hs_draw_count E s) 0 { s with pos := s.pos + 1 }).2
          (hs_loop E flags do_read k l
          (if MAX_HS_X ≤ s.dset_dims k 0 then MAX_HS_X else s.dset_dims k 0)
          (if MAX_HS_Y ≤ s.dset_dims k 1 then MAX_HS_Y else s.dset_dims k 1)
          (hs_draw_count E s) 0 { s with pos := s.pos + 1 }).1),
       .hyperslabs (regions_of (hs_loop E flags do_read k l
          (if MAX_HS_X ≤ s.dset_dims k 0 then MAX_HS_X else s.dset_dims k 0)
          (if MAX_HS_Y ≤ s.dset_dims k 1 then MAX_HS_Y else s.dset_dims k 1)
          (hs_draw_count E s) 0 { s with pos := s.pos + 1 }).1 0
          (hs_loop E flags do_read k l
          (if MAX_HS_X ≤ s.dset_dims k 0 then MAX_HS_X else s.dset_dims k 0)
          (if MAX_HS_Y ≤ s.dset_dims k 1 then MAX_HS_Y else s.dset_dims k 1)
          (hs_draw_count E s) 0 { s with pos := s.pos + 1 }).2)) := by
    unfold hs_branch
    cases do_read <;> rfl
  rw [hb]
  generalize hs_loop E flags do_read k l
    (if MAX_HS_X ≤ s.dset_dims k 0 then MAX_HS_X else s.dset_dims k 0)
    (if MAX_HS_Y ≤ s.dset_dims k 1 then MAX_HS_Y else s.dset_dims k 1)
    (hs_draw_count E s) 0 { s with pos := s.pos + 1 } = r at *
  simp only [Nat.sub_zero] at b1 b2 b3 hfree hfits
  have hmark := hs_mark_usage k r.2 r.1
  have hsel : ∀ k', sel_cells (r.1.dset_space k') =
      if l = E.mpi_rank ∧ k' = k then sel_cells (s.dset_space k) ++ (regions_of r.1 0 r.2).flatMap region_cells
      else sel_cells (s.dset_space k') := by
    intro k'
    rw [b3]
    by_cases hl : l = E.mpi_rank
    · rw [if_pos hl]
      by_cases hk : k' = k
      · rw [if_pos ⟨hl, hk⟩, hk, set_at_same, sel_cells_append, sel_cells_regions]
      · rw [if_neg (fun h => hk h.2), set_at_apply, if_neg hk]
    · rw [if_neg hl, if_neg (fun h => hl h.1)]
  have hcells : ∀ c ∈ (regions_of r.1 0 r.2).flatMap region_cells, dims_ok s k →
      c.1 < s.dset_dims k 0 ∧ c.2 < s.dset_dims k 1 := by
    intro c hc hd
    obtain ⟨reg, hreg, hcr⟩ := List.mem_flatMap.1 hc
    exact region_fits_cells _ _ reg (hfits hd reg hreg) c hcr
  by_cases hr : do_read = true
  · simp only [RankSpec, if_pos hr, Accepted.cells]
    refine ⟨h4, by simp only at h7; omega, (LogExt.of_eq rfl rfl).log_trans h8, h5, ?_, ?_, hsel, ?_, ?_⟩
    · rw [b1, if_pos hr]
    · rw [b2]
    · intro h; rw [hr] at h; exact absurd h (by decide)
    · intro hd c hc; exact hcells c hc hd
  · simp only [RankSpec, if_neg hr, Accepted.cells]
    have hr' : do_read = false := by simpa using hr
    subst hr'
    refine ⟨h4, by simp only at h7; show s.pos ≤ r.1.pos; omega,
      (LogExt.of_eq rfl rfl).log_trans (h8.log_trans (LogExt.of_eq rfl rfl)), ?_, ?_, ?_, hsel, ?_, ?_⟩
    · rw [hmark, h5]
    · show r.1.efbuf = _
      rw [b1, if_neg hr]
    · show r.1.erbuf = _
      rw [b2]
    · intro _ c hc; exact hfree rfl c hc
    · intro hd c hc; exact hcells c hc hd

/-! ## The point branch -/

theorem foldl_points_fill (k : Nat) (g : Nat → Nat) (p : Nat → Nat) (n : Nat) (b : Nat → Nat) :
    (List.range n).foldl (fun b m =>
      set b (idx k (p (2 * m)) (p (2 * m + 1))) (g (idx k (p (2 * m)) (p (2 * m + 1))))) b
    = fill k ((List.range' 0 n).map (fun m => (p (2 * m), p (2 * m + 1)))) g b := by
  rw [← List.range_eq_range']
  exact foldl_set_fill k g (fun m => (p (2 * m), p (2 * m + 1))) (List.range n) b

/-- Lines 438-441 as a `fill`. -/
theorem pt_mark_usage (k n : Nat) (s : State) :
    (pt_mark k n s).dset_usage = fill k (points_of s 0 n) (fun _ => 1) s.dset_usage :=
  foldl_points_fill k (fun _ => 1) s.points n s.dset_usage

theorem pt_select_file_spec (E : Env) (k l n : Nat) (s : State) :
    Frame s (pt_select_file E k l n s) ∧
    (pt_select_file E k l n s).efbuf = s.efbuf ∧
    (pt_select_file E k l n s).erbuf = s.erbuf ∧
    (pt_select_file E k l n s).dset_usage = s.dset_usage ∧
    (pt_select_file E k l n s).pos = s.pos ∧
    (pt_select_file E k l n s).points = s.points ∧
    (pt_select_file E k l n s).start = s.start ∧
    (pt_select_file E k l n s).count = s.count ∧
    LogExt Call.is_select s (pt_select_file E k l n s) ∧
    (∀ k', sel_cells ((pt_select_file E k l n s).dset_space k') =
      if l = E.mpi_rank ∧ k' = k then sel_cells (s.dset_space k) ++ points_of s 0 n
      else sel_cells (s.dset_space k')) := by
  unfold pt_select_file
  by_cases h : l = E.mpi_rank ∧ n > 0
  · rw [if_pos h]
    refine ⟨⟨rfl, rfl, rfl, rfl, rfl, rfl⟩, rfl, rfl, rfl, rfl, rfl, rfl, rfl,
      (LogExt.of_eq rfl rfl).log_trans (checked_logext Call.is_select E (.H5Sselect_elements false k) _ rfl), ?_⟩
    intro k'
    show sel_cells (set_at s.dset_space k _ k') = _
    by_cases hk : k' = k
    · rw [if_pos ⟨h.1, hk⟩, hk, set_at_same, sel_cells_append, sel_cells_elements]
    · rw [if_neg (fun h' => hk h'.2), set_at_apply, if_neg hk]
  · rw [if_neg h]
    refine ⟨⟨rfl, rfl, rfl, rfl, rfl, rfl⟩, rfl, rfl, rfl, rfl, rfl, rfl, rfl,
      LogExt.log_refl _ s, ?_⟩
    intro k'
    by_cases hl : l = E.mpi_rank
    · have hn : n = 0 := by
        by_contra hn
        exact h ⟨hl, Nat.pos_of_ne_zero hn⟩
      subst hn
      by_cases hk : k' = k
      · rw [if_pos ⟨hl, hk⟩, hk, points_of_zero, List.append_nil]
      · rw [if_neg (fun h' => hk h'.2)]
    · rw [if_neg (fun h' => hl h'.1)]

theorem pt_expect_spec (E : Env) (flags : Nat) (do_read : Bool) (k l n : Nat) (s : State) :
    Frame s (pt_expect E flags do_read k l n s) ∧
    (pt_expect E flags do_read k l n s).dset_usage = s.dset_usage ∧
    (pt_expect E flags do_read k l n s).dset_space = s.dset_space ∧
    (pt_expect E flags do_read k l n s).pos = s.pos ∧
    (pt_expect E flags do_read k l n s).points = s.points ∧
    (pt_expect E flags do_read k l n s).start = s.start ∧
    (pt_expect E flags do_read k l n s).count = s.count ∧
    LogExt Call.is_select s (pt_expect E flags do_read k l n s) ∧
    (pt_expect E flags do_read k l n s).efbuf =
      (if do_read = true then s.efbuf
       else fill k (points_of s 0 n) (efbuf_value E flags l s.wbuf) s.efbuf) ∧
    (pt_expect E flags do_read k l n s).erbuf =
      (if do_read = true ∧ l = E.mpi_rank then fill k (points_of s 0 n) s.efbuf s.erbuf
       else s.erbuf) := by
  unfold pt_expect
  by_cases hr : do_read = true
  · by_cases hl : l = E.mpi_rank
    · rw [if_pos hr, if_pos hl, if_pos hr, if_pos (And.intro hr hl)]
      refine ⟨⟨rfl, rfl, rfl, rfl, rfl, rfl⟩, rfl, rfl, rfl, rfl, rfl, rfl, LogExt.of_eq rfl rfl,
        rfl, ?_⟩
      exact foldl_points_fill k s.efbuf s.points n s.erbuf
    · rw [if_pos hr, if_neg hl, if_pos hr,
        if_neg (fun h : do_read = true ∧ l = E.mpi_rank => hl h.2)]
      exact ⟨⟨rfl, rfl, rfl, rfl, rfl, rfl⟩, rfl, rfl, rfl, rfl, rfl, rfl, LogExt.log_refl _ s,
        rfl, rfl⟩
  · rw [if_neg hr, if_neg hr, if_neg (fun h : do_read = true ∧ l = E.mpi_rank => hr h.1)]
    refine ⟨⟨rfl, rfl, rfl, rfl, rfl, rfl⟩, rfl, rfl, rfl, rfl, rfl, rfl, LogExt.of_eq rfl rfl,
      ?_, rfl⟩
    exact foldl_points_fill k (efbuf_value E flags l s.wbuf) s.points n s.efbuf

theorem pt_select_mem_spec (E : Env) (flags : Nat) (k l n : Nat) (s : State) :
    Frame s (pt_select_mem E flags k l n s) ∧
    (pt_select_mem E flags k l n s).pos = s.pos ∧
    (pt_select_mem E flags k l n s).start = s.start ∧
    (pt_select_mem E flags k l n s).count = s.count ∧
    (pt_select_mem E flags k l n s).efbuf = s.efbuf ∧
    (pt_select_mem E flags k l n s).erbuf = s.erbuf ∧
    (pt_select_mem E flags k l n s).dset_usage = s.dset_usage ∧
    (pt_select_mem E flags k l n s).dset_space = s.dset_space ∧
    LogExt Call.is_select s (pt_select_mem E flags k l n s) := by
  unfold pt_select_mem
  by_cases h : l = E.mpi_rank ∧ n > 0
  · rw [if_pos h]
    by_cases hf : (!has_flag flags MDSET_FLAG_SHAPESAME) = true
    · rw [if_pos hf]
      exact ⟨⟨rfl, rfl, rfl, rfl, rfl, rfl⟩, rfl, rfl, rfl, rfl, rfl, rfl, rfl,
        (LogExt.of_eq rfl rfl).log_trans
          (checked_logext Call.is_select E (.H5Sselect_elements true k) _ rfl)⟩
    · rw [if_neg hf]
      exact ⟨⟨rfl, rfl, rfl, rfl, rfl, rfl⟩, rfl, rfl, rfl, rfl, rfl, rfl, rfl,
        (LogExt.of_eq rfl rfl).log_trans
          (checked_logext Call.is_select E (.H5Sselect_elements true k) _ rfl)⟩
  · rw [if_neg h]
    exact ⟨Frame.frame_refl s, rfl, rfl, rfl, rfl, rfl, rfl, rfl, LogExt.log_refl _ s⟩

theorem pt_mark_frame (k n : Nat) (s : State) :
    Frame s (pt_mark k n s) ∧ (pt_mark k n s).efbuf = s.efbuf ∧ (pt_mark k n s).erbuf = s.erbuf ∧
    (pt_mark k n s).dset_space = s.dset_space ∧ (pt_mark k n s).pos = s.pos ∧
    (pt_mark k n s).points = s.points ∧ LogExt Call.is_select s (pt_mark k n s) :=
  ⟨⟨rfl, rfl, rfl, rfl, rfl, rfl⟩, rfl, rfl, rfl, rfl, rfl, LogExt.of_eq rfl rfl⟩

theorem pt_branch_spec (E : Env) (flags : Nat) (do_read : Bool) (k l : Nat) (s : State) :
    RankSpec E flags do_read k l s (pt_branch E flags do_read k l s) := by
  obtain ⟨⟨h1, h2⟩, h3, ⟨g0, g1, g2, g3, g4, g5, g6, g7⟩, h5, h6, h7⟩ :=
    pt_loop_shape E do_read k (pt_draw_count E s) 0 { s with pos := s.pos + 1 }
  have hfree : do_read = false → ∀ c ∈ points_of
      (pt_loop E do_read k (pt_draw_count E s) 0 { s with pos := s.pos + 1 }).1 0
      ((pt_loop E do_read k (pt_draw_count E s) 0 { s with pos := s.pos + 1 }).2 - 0),
      s.dset_usage (idx k c.1 c.2) = 0 := by
    intro h
    subst h
    exact pt_loop_free E k (pt_draw_count E s) 0 { s with pos := s.pos + 1 }
  have hfits : dims_ok s k → ∀ c ∈ points_of
      (pt_loop E do_read k (pt_draw_count E s) 0 { s with pos := s.pos + 1 }).1 0
      ((pt_loop E do_read k (pt_draw_count E s) 0 { s with pos := s.pos + 1 }).2 - 0),
      c.1 < s.dset_dims k 0 ∧ c.2 < s.dset_dims k 1 := fun hd =>
    pt_loop_fits E do_read k (pt_draw_count E s) 0 { s with pos := s.pos + 1 } hd
  have hb : pt_branch E flags do_read k l s =
      (pt_select_mem E flags k l
        (pt_loop E do_read k (pt_draw_count E s) 0 { s with pos := s.pos + 1 }).2
        (pt_expect E flags do_read k l
          (pt_loop E do_read k (pt_draw_count E s) 0 { s with pos := s.pos + 1 }).2
          (pt_select_file E k l
            (pt_loop E do_read k (pt_draw_count E s) 0 { s with pos := s.pos + 1 }).2
            (if do_read = true then
              (pt_loop E do_read k (pt_draw_count E s) 0 { s with pos := s.pos + 1 }).1
             else pt_mark k
              (pt_loop E do_read k (pt_draw_count E s) 0 { s with pos := s.pos + 1 }).2
              (pt_loop E do_read k (pt_draw_count E s) 0 { s with pos := s.pos + 1 }).1))),
       .points (points_of
        (pt_loop E do_read k (pt_draw_count E s) 0 { s with pos := s.pos + 1 }).1 0
        (pt_loop E do_read k (pt_draw_count E s) 0 { s with pos := s.pos + 1 }).2)) := by
    unfold pt_branch
    cases do_read <;> rfl
  rw [hb]
  generalize pt_loop E do_read k (pt_draw_count E s) 0 { s with pos := s.pos + 1 } = r at *
  simp only [Nat.sub_zero] at hfree hfits
  simp only at g0 g1 g2 g3 g4 g5 g6 g7 h5 h6 h7
  -- the state after the usage update
  obtain ⟨m1, m2, m3, m4, m5, m6, m7⟩ := pt_mark_frame k r.2 r.1
  have hmark := pt_mark_usage k r.2 r.1
  have hs2 : ∃ s2, s2 = (if do_read = true then r.1 else pt_mark k r.2 r.1) ∧
      Frame s s2 ∧ s2.efbuf = s.efbuf ∧ s2.erbuf = s.erbuf ∧ s2.dset_space = s.dset_space ∧
      s.pos ≤ s2.pos ∧ points_of s2 0 r.2 = points_of r.1 0 r.2 ∧
      LogExt Call.is_select s s2 ∧
      s2.dset_usage = (if do_read = true then s.dset_usage
        else fill k (points_of r.1 0 r.2) (fun _ => 1) s.dset_usage) := by
    refine ⟨_, rfl, ?_⟩
    by_cases hr : do_read = true
    · rw [if_pos hr, if_pos hr]
      exact ⟨g0, g4, g3, g7, by omega, rfl, LogExt.of_eq g2 g1, g5⟩
    · rw [if_neg hr, if_neg hr]
      refine ⟨g0.frame_trans m1, m2.trans g4, m3.trans g3, m4.trans g7, by omega, ?_,
        (LogExt.of_eq g2 g1).log_trans m7, ?_⟩
      · simp only [points_of, m6]
      · rw [hmark, g5]
  obtain ⟨s2, hs2e, t1, t2, t3, t4, t5, t6, t7, t8⟩ := hs2
  rw [← hs2e]
  obtain ⟨f1, f2, f3, f4, f5, f6, f7, f8, f9, f10⟩ := pt_select_file_spec E k l r.2 s2
  generalize pt_select_file E k l r.2 s2 = s3 at *
  obtain ⟨e1, e2, e3, e4, e5, e6, e7, e8, e9, e10⟩ := pt_expect_spec E flags do_read k l r.2 s3
  generalize pt_expect E flags do_read k l r.2 s3 = s4 at *
  obtain ⟨q1, q2, q3, q4, q5, q6, q7, q8, q9⟩ := pt_select_mem_spec E flags k l r.2 s4
  generalize pt_select_mem E flags k l r.2 s4 = s5 at *
  have hp3 : points_of s3 0 r.2 = points_of r.1 0 r.2 := by
    rw [← t6]; simp only [points_of, f6]
  have hw3 : s3.wbuf = s.wbuf := (t1.frame_trans f1).2.2.2.2.1
  simp only [RankSpec, Accepted.cells]
  refine ⟨((t1.frame_trans f1).frame_trans e1).frame_trans q1, by omega, ((t7.log_trans f9).log_trans e8).log_trans q9,
    ?_, ?_, ?_, ?_, ?_, ?_⟩
  · rw [q7, e2, f4, t8]
  · rw [q5, e9, f2, t2, hp3, hw3]
  · rw [q6, e10, f2, f3, t2, t3, hp3]
  · intro k'
    rw [q8, e3, f10 k', t6, t4]
  · intro h c hc; exact hfree h c hc
  · intro hd c hc; exact hfits hd c hc

/-- Lines 331-483 for one rank. -/
theorem rank_iter_spec (E : Env) (flags : Nat) (do_read : Bool) (k l : Nat) (s : State) :
    RankSpec E flags do_read k l s (rank_iter E flags do_read k l s) := by
  have lift : ∀ r : State × Accepted,
      RankSpec E flags do_read k l { s with pos := s.pos + 1 } r → RankSpec E flags do_read k l s r := by
    intro r h
    obtain ⟨a1, a2, a3, a4, a5, a6, a7, a8, a9⟩ := h
    exact ⟨a1, by simp only at a2; omega, (LogExt.of_eq rfl rfl).log_trans a3, a4, a5, a6, a7, a8, a9⟩
  unfold rank_iter
  split
  · exact lift _ (hs_branch_spec E flags do_read k l _)
  · exact lift _ (pt_branch_spec E flags do_read k l _)

/-! ## Pointwise descriptions of buffer updates -/

theorem Written.written_nil (E : Env) (flags : Nat) (w e : Nat → Nat) : Written E flags w [] e e := by
  intro j
  exact Or.inr ⟨by simp, rfl⟩

theorem Written.written_append {E : Env} {flags : Nat} {w e e1 e2 : Nat → Nat}
    {T1 T2 : List (Nat × Nat × Nat × Nat)}
    (h1 : Written E flags w T1 e e1) (h2 : Written E flags w T2 e1 e2) :
    Written E flags w (T1 ++ T2) e e2 := by
  intro j
  rcases h2 j with ⟨t, ht, hj, hv⟩ | ⟨hn, hv⟩
  · exact Or.inl ⟨t, List.mem_append.2 (Or.inr ht), hj, hv⟩
  · rcases h1 j with ⟨t, ht, hj, hv1⟩ | ⟨hn1, hv1⟩
    · exact Or.inl ⟨t, List.mem_append.2 (Or.inl ht), hj, hv.trans hv1⟩
    · refine Or.inr ⟨?_, hv.trans hv1⟩
      intro t ht
      rcases List.mem_append.1 ht with h | h
      · exact hn1 t h
      · exact hn t h

theorem Written.written_of_fill (E : Env) (flags : Nat) (w e : Nat → Nat) (k l : Nat)
    (cells : List (Nat × Nat)) :
    Written E flags w (cells.map (fun c => (k, l, c.1, c.2))) e
      (fill k cells (efbuf_value E flags l w) e) := by
  intro j
  by_cases h : ∃ c ∈ cells, j = idx k c.1 c.2
  · obtain ⟨c, hc, hj⟩ := h
    refine Or.inl ⟨(k, l, c.1, c.2), List.mem_map.2 ⟨c, hc, rfl⟩, hj, ?_⟩
    rw [hj, fill_hit k cells _ _ c hc]
  · refine Or.inr ⟨?_, ?_⟩
    · intro t ht hj
      obtain ⟨c, hc, rfl⟩ := List.mem_map.1 ht
      exact h ⟨c, hc, hj⟩
    · exact fill_miss k cells _ _ j (fun c hc hj => h ⟨c, hc, hj⟩)

theorem Filled.filled_nil (p : Nat → Prop) (g b : Nat → Nat) : Filled p [] g b b := by
  intro j
  exact ⟨by simp, fun _ => rfl⟩

theorem Filled.filled_append {p : Nat → Prop} {g b b1 b2 : Nat → Nat}
    {T1 T2 : List (Nat × Nat × Nat × Nat)}
    (h1 : Filled p T1 g b b1) (h2 : Filled p T2 g b1 b2) : Filled p (T1 ++ T2) g b b2 := by
  intro j
  by_cases c2 : ∃ t ∈ T2, p t.2.1 ∧ j = idx t.1 t.2.2.1 t.2.2.2
  · exact ⟨fun _ => (h2 j).1 c2, fun hn => by
      obtain ⟨t, ht, hp, hj⟩ := c2
      exact absurd hj (hn t (List.mem_append.2 (Or.inr ht)) hp)⟩
  · have n2 : ∀ t ∈ T2, p t.2.1 → j ≠ idx t.1 t.2.2.1 t.2.2.2 :=
      fun t ht hp hj => c2 ⟨t, ht, hp, hj⟩
    have e2 := (h2 j).2 n2
    constructor
    · rintro ⟨t, ht, hp, hj⟩
      rcases List.mem_append.1 ht with h | h
      · exact e2.trans ((h1 j).1 ⟨t, h, hp, hj⟩)
      · exact absurd hj (n2 t h hp)
    · intro hn
      exact e2.trans ((h1 j).2 (fun t ht hp => hn t (List.mem_append.2 (Or.inl ht)) hp))

theorem Filled.filled_of_fill (p : Nat → Prop) (g b : Nat → Nat) (k l : Nat)
    (cells : List (Nat × Nat)) (hp : p l) :
    Filled p (cells.map (fun c => (k, l, c.1, c.2))) g b (fill k cells g b) := by
  intro j
  constructor
  · rintro ⟨t, ht, -, hj⟩
    obtain ⟨c, hc, rfl⟩ := List.mem_map.1 ht
    rw [hj]
    exact fill_hit k cells g b c hc
  · intro hn
    refine fill_miss k cells g b j (fun c hc hj => ?_)
    exact hn (k, l, c.1, c.2) (List.mem_map.2 ⟨c, hc, rfl⟩) hp hj

theorem Filled.skip (p : Nat → Prop) (g b : Nat → Nat) (k l : Nat)
    (cells : List (Nat × Nat)) (hp : ¬ p l) :
    Filled p (cells.map (fun c => (k, l, c.1, c.2))) g b b := by
  intro j
  constructor
  · rintro ⟨t, ht, hpt, -⟩
    obtain ⟨c, hc, rfl⟩ := List.mem_map.1 ht
    exact absurd hpt hp
  · intro _; rfl

/-! ## The accepted cells of a dataset -/

theorem mem_rank_cells (k : Nat) (accs : List Accepted) (l0 : Nat) (t : Nat × Nat × Nat × Nat) :
    t ∈ rank_cells k l0 accs ↔
      t.1 = k ∧ l0 ≤ t.2.1 ∧ ∃ a, accs[t.2.1 - l0]? = some a ∧ (t.2.2.1, t.2.2.2) ∈ a.cells := by
  induction accs generalizing l0 with
  | nil => simp [rank_cells]
  | cons a rest ih =>
    simp only [rank_cells, List.mem_append, List.mem_map, ih]
    constructor
    · rintro (⟨c, hc, rfl⟩ | ⟨h1, h2, a', h3, h4⟩)
      · exact ⟨rfl, Nat.le_refl _, a, by simp, hc⟩
      · refine ⟨h1, by omega, a', ?_, h4⟩
        have : t.2.1 - l0 = (t.2.1 - (l0 + 1)) + 1 := by omega
        rw [this, List.getElem?_cons_succ]
        exact h3
    · rintro ⟨h1, h2, a', h3, h4⟩
      by_cases he : t.2.1 = l0
      · left
        rw [he, Nat.sub_self, List.getElem?_cons_zero] at h3
        cases h3
        refine ⟨(t.2.2.1, t.2.2.2), h4, ?_⟩
        obtain ⟨t1, t2, t3, t4⟩ := t
        simp only at h1 he
        simp [h1, he]
      · right
        refine ⟨h1, by omega, a', ?_, h4⟩
        have : t.2.1 - l0 = (t.2.1 - (l0 + 1)) + 1 := by omega
        rw [this, List.getElem?_cons_succ] at h3
        exact h3

theorem mem_rank_cells_getD (k : Nat) (accs : List Accepted) (l x y : Nat) :
    (k, l, x, y) ∈ rank_cells k 0 accs ↔ (x, y) ∈ (accs.getD l (.points [])).cells := by
  rw [mem_rank_cells]
  simp only [Nat.sub_zero, Nat.zero_le, true_and, List.getD_eq_getElem?_getD]
  constructor
  · rintro ⟨a, h1, h2⟩
    rw [h1]; exact h2
  · intro h
    cases hq : accs[l]? with
    | none => rw [hq] at h; simp [Accepted.cells] at h
    | some a => rw [hq] at h; exact ⟨a, rfl, h⟩

theorem rank_cells_lt (k : Nat) (accs : List Accepted) (l0 : Nat) (t : Nat × Nat × Nat × Nat)
    (h : t ∈ rank_cells k l0 accs) : t.2.1 < l0 + accs.length := by
  rw [mem_rank_cells] at h
  obtain ⟨-, h2, a, h3, -⟩ := h
  have := (List.getElem?_eq_some_iff.1 h3).1
  omega

/-! ## The loop over processes (lines 331-483) -/

theorem rank_loop_succ (E : Env) (flags : Nat) (do_read : Bool) (k n l : Nat) (s : State) :
    rank_loop E flags do_read k (n + 1) l s =
      ((rank_loop E flags do_read k n (l + 1) (rank_iter E flags do_read k l s).1).1,
        (rank_iter E flags do_read k l s).2 ::
          (rank_loop E flags do_read k n (l + 1) (rank_iter E flags do_read k l s).1).2) := rfl

theorem rank_loop_spec (E : Env) (flags : Nat) (do_read : Bool) (k n l0 : Nat) (s : State) :
    Frame s (rank_loop E flags do_read k n l0 s).1 ∧
    s.pos ≤ (rank_loop E flags do_read k n l0 s).1.pos ∧
    LogExt Call.is_select s (rank_loop E flags do_read k n l0 s).1 ∧
    (rank_loop E flags do_read k n l0 s).2.length = n ∧
    (do_read = true → (rank_loop E flags do_read k n l0 s).1.dset_usage = s.dset_usage ∧
      (rank_loop E flags do_read k n l0 s).1.efbuf = s.efbuf ∧
      Filled (fun l => l = E.mpi_rank) (rank_cells k l0 (rank_loop E flags do_read k n l0 s).2)
        s.efbuf s.erbuf (rank_loop E flags do_read k n l0 s).1.erbuf) ∧
    (do_read = false → (rank_loop E flags do_read k n l0 s).1.erbuf = s.erbuf ∧
      Filled (fun _ => True) (rank_cells k l0 (rank_loop E flags do_read k n l0 s).2)
        (fun _ => 1) s.dset_usage (rank_loop E flags do_read k n l0 s).1.dset_usage ∧
      Written E flags s.wbuf (rank_cells k l0 (rank_loop E flags do_read k n l0 s).2)
        s.efbuf (rank_loop E flags do_read k n l0 s).1.efbuf ∧
      (∀ t ∈ rank_cells k l0 (rank_loop E flags do_read k n l0 s).2,
        s.dset_usage (idx k t.2.2.1 t.2.2.2) = 0) ∧
      NoOverlap (rank_cells k l0 (rank_loop E flags do_read k n l0 s).2)) ∧
    (∀ k' c, c ∈ sel_cells ((rank_loop E flags do_read k n l0 s).1.dset_space k') ↔
      (c ∈ sel_cells (s.dset_space k') ∨
        (k' = k ∧ (k, E.mpi_rank, c.1, c.2) ∈
          rank_cells k l0 (rank_loop E flags do_read k n l0 s).2))) ∧
    (dims_ok s k → ∀ t ∈ rank_cells k l0 (rank_loop E flags do_read k n l0 s).2,
      t.2.2.1 < s.dset_dims k 0 ∧ t.2.2.2 < s.dset_dims k 1) := by
  induction n generalizing l0 s with
  | zero =>
    refine ⟨Frame.frame_refl s, Nat.le_refl _, LogExt.log_refl _ s, rfl, ?_, ?_, ?_, ?_⟩
    · intro _; exact ⟨rfl, rfl, Filled.filled_nil _ _ _⟩
    · intro _
      exact ⟨rfl, Filled.filled_nil _ _ _, Written.written_nil _ _ _ _, by simp [rank_loop, rank_cells],
        by simp [rank_loop, rank_cells, NoOverlap]⟩
    · intro k' c; simp [rank_loop, rank_cells]
    · intro _; simp [rank_loop, rank_cells]
  | succ n ih =>
    obtain ⟨a1, a2, a3, a4, a5, a6, a7, a8, a9⟩ := rank_iter_spec E flags do_read k l0 s
    obtain ⟨i1, i2, i3, i4, i5, i6, i7, i8⟩ := ih (l0 + 1) (rank_iter E flags do_read k l0 s).1
    rw [rank_loop_succ]
    generalize rank_loop E flags do_read k n (l0 + 1) (rank_iter E flags do_read k l0 s).1 = r at *
    generalize rank_iter E flags do_read k l0 s = q at *
    have hw : q.1.wbuf = s.wbuf := a1.2.2.2.2.1
    have hdims : q.1.dset_dims = s.dset_dims := a1.2.1
    simp only [rank_cells]
    refine ⟨a1.frame_trans i1, by omega, a3.log_trans i3, by simp [i4], ?_, ?_, ?_, ?_⟩
    · intro hr
      obtain ⟨j1, j2, j3⟩ := i5 hr
      rw [if_pos hr] at a4 a5
      refine ⟨j1.trans a4, j2.trans a5, ?_⟩
      rw [a5] at j3
      refine Filled.filled_append ?_ j3
      rw [a6]
      by_cases hl : l0 = E.mpi_rank
      · rw [if_pos ⟨hr, hl⟩]
        exact Filled.filled_of_fill _ _ _ k l0 _ hl
      · rw [if_neg (fun h => hl h.2)]
        exact Filled.skip _ _ _ k l0 _ hl
    · intro hr
      obtain ⟨j1, j2, j3, j4, j5⟩ := i6 hr
      have hr' : ¬ do_read = true := by simp [hr]
      rw [if_neg hr'] at a4 a5
      rw [if_neg (fun h => hr' h.1)] at a6
      have hfree1 : ∀ t ∈ rank_cells k (l0 + 1) r.2, s.dset_usage (idx k t.2.2.1 t.2.2.2) = 0 ∧
          (t.2.2.1, t.2.2.2) ∉ q.2.cells := by
        intro t ht
        have h0 := j4 t ht
        rw [a4] at h0
        by_cases hc : (t.2.2.1, t.2.2.2) ∈ q.2.cells
        · rw [fill_hit k q.2.cells _ _ (t.2.2.1, t.2.2.2) hc] at h0
          exact absurd h0 (by decide)
        · refine ⟨?_, hc⟩
          by_cases hcov : ∃ c ∈ q.2.cells, idx k t.2.2.1 t.2.2.2 = idx k c.1 c.2
          · obtain ⟨c, hcm, he⟩ := hcov
            rw [he, fill_hit k q.2.cells _ _ c hcm] at h0
            exact absurd h0 (by decide)
          · rw [fill_miss k q.2.cells _ _ _ (fun c hcm he => hcov ⟨c, hcm, he⟩)] at h0
            exact h0
      refine ⟨j1.trans a6, ?_, ?_, ?_, ?_⟩
      · refine Filled.filled_append ?_ j2
        rw [a4]
        exact Filled.filled_of_fill _ _ _ k l0 _ trivial
      · rw [hw] at j3
        refine Written.written_append ?_ j3
        rw [a5]
        exact Written.written_of_fill E flags s.wbuf s.efbuf k l0 _
      · intro t ht
        rcases List.mem_append.1 ht with h | h
        · obtain ⟨c, hc, rfl⟩ := List.mem_map.1 h
          exact a8 hr c hc
        · exact (hfree1 t h).1
      · intro t1 ht1 t2 ht2 hk hc
        rcases List.mem_append.1 ht1 with h1 | h1 <;> rcases List.mem_append.1 ht2 with h2 | h2
        · obtain ⟨c1, -, rfl⟩ := List.mem_map.1 h1
          obtain ⟨c2, -, rfl⟩ := List.mem_map.1 h2
          rfl
        · obtain ⟨c1, hc1, rfl⟩ := List.mem_map.1 h1
          have := (hfree1 t2 h2).2
          simp only at hc
          rw [← hc] at this
          exact absurd hc1 this
        · obtain ⟨c2, hc2, rfl⟩ := List.mem_map.1 h2
          have := (hfree1 t1 h1).2
          simp only at hc
          rw [hc] at this
          exact absurd hc2 this
        · exact j5 t1 h1 t2 h2 hk hc
    · intro k' c
      rw [i7 k' c, a7 k']
      simp only [List.mem_append, List.mem_map]
      by_cases hl : l0 = E.mpi_rank
      · by_cases hk : k' = k
        · rw [if_pos ⟨hl, hk⟩, List.mem_append, hk]
          constructor
          · rintro ((h | h) | ⟨-, h⟩)
            · exact Or.inl h
            · exact Or.inr ⟨rfl, Or.inl ⟨c, h, by rw [hl]⟩⟩
            · exact Or.inr ⟨rfl, Or.inr h⟩
          · rintro (h | ⟨-, ⟨c', hc', he⟩ | h⟩)
            · exact Or.inl (Or.inl h)
            · simp only [Prod.mk.injEq, true_and] at he
              have : c' = c := Prod.ext he.2.1 he.2.2
              rw [this] at hc'
              exact Or.inl (Or.inr hc')
            · exact Or.inr ⟨rfl, h⟩
        · rw [if_neg (fun h => hk h.2)]
          constructor
          · rintro (h | ⟨h, -⟩)
            · exact Or.inl h
            · exact absurd h hk
          · rintro (h | ⟨h, -⟩)
            · exact Or.inl h
            · exact absurd h hk
      · rw [if_neg (fun h => hl h.1)]
        constructor
        · rintro (h | ⟨hk, h⟩)
          · exact Or.inl h
          · exact Or.inr ⟨hk, Or.inr h⟩
        · rintro (h | ⟨hk, ⟨c', hc', he⟩ | h⟩)
          · exact Or.inl h
          · simp only [Prod.mk.injEq, true_and] at he
            exact absurd he.1 hl
          · exact Or.inr ⟨hk, h⟩
    · intro hd t ht
      rcases List.mem_append.1 ht with h | h
      · obtain ⟨c, hc, rfl⟩ := List.mem_map.1 h
        exact a9 hd c hc
      · have := i8 (by simp only [dims_ok, hdims]; exact hd) t h
        rw [hdims] at this
        exact this

/-! ## One dataset of the operation (lines 319-484) -/

theorem sel_cells_nil : sel_cells [] = [] := rfl

theorem dset_iter_spec (E : Env) (flags : Nat) (do_read : Bool) (k : Nat) (s : State) :
    Frame s (dset_iter E flags do_read k s).1 ∧
    s.pos ≤ (dset_iter E flags do_read k s).1.pos ∧
    LogExt Call.is_select s (dset_iter E flags do_read k s).1 ∧
    (dset_iter E flags do_read k s).2.length = E.mpi_size ∧
    (do_read = true → (dset_iter E flags do_read k s).1.dset_usage = s.dset_usage ∧
      (dset_iter E flags do_read k s).1.efbuf = s.efbuf ∧
      Filled (fun l => l = E.mpi_rank) (rank_cells k 0 (dset_iter E flags do_read k s).2)
        s.efbuf s.erbuf (dset_iter E flags do_read k s).1.erbuf) ∧
    (do_read = false → (dset_iter E flags do_read k s).1.erbuf = s.erbuf ∧
      Written E flags s.wbuf (rank_cells k 0 (dset_iter E flags do_read k s).2)
        s.efbuf (dset_iter E flags do_read k s).1.efbuf ∧
      NoOverlap (rank_cells k 0 (dset_iter E flags do_read k s).2)) ∧
    (∀ k' c, c ∈ sel_cells ((dset_iter E flags do_read k s).1.dset_space k') ↔
      if k' = k then (k, E.mpi_rank, c.1, c.2) ∈ rank_cells k 0 (dset_iter E flags do_read k s).2
      else c ∈ sel_cells (s.dset_space k')) ∧
    (dims_ok s k → ∀ t ∈ rank_cells k 0 (dset_iter E flags do_read k s).2,
      t.2.2.1 < s.dset_dims k 0 ∧ t.2.2.2 < s.dset_dims k 1) := by
  have pre : ∃ s3, dset_iter E flags do_read k s = rank_loop E flags do_read k E.mpi_size 0 s3 ∧
      Frame s s3 ∧ s3.pos = s.pos ∧ LogExt Call.is_select s s3 ∧ s3.efbuf = s.efbuf ∧
      s3.erbuf = s.erbuf ∧ (do_read = true → s3.dset_usage = s.dset_usage) ∧
      s3.dset_space = set_at s.dset_space k [] := by
    refine ⟨_, rfl, ?_⟩
    have hlog : LogExt Call.is_select s
        (checked E (.H5Sselect_none false k)
          { (checked E (.H5Sselect_none true k) { s with mem_space := set_at s.mem_space k [] }) with
            dset_space := set_at s.dset_space k [] }) :=
      (LogExt.of_eq rfl rfl).log_trans
        ((checked_logext Call.is_select E (.H5Sselect_none true k) _ rfl).log_trans
          ((LogExt.of_eq rfl rfl).log_trans
            (checked_logext Call.is_select E (.H5Sselect_none false k) _ rfl)))
    cases do_read
    · exact ⟨⟨rfl, rfl, rfl, rfl, rfl, rfl⟩, rfl, hlog.log_trans (LogExt.of_eq rfl rfl), rfl, rfl,
        fun h => absurd h (by decide), rfl⟩
    · exact ⟨⟨rfl, rfl, rfl, rfl, rfl, rfl⟩, rfl, hlog, rfl, rfl, fun _ => rfl, rfl⟩
  obtain ⟨s3, he, p1, p2, p3, p4, p5, p6, p7⟩ := pre
  rw [he]
  obtain ⟨i1, i2, i3, i4, i5, i6, i7, i8⟩ := rank_loop_spec E flags do_read k E.mpi_size 0 s3
  generalize rank_loop E flags do_read k E.mpi_size 0 s3 = r at *
  have hw : s3.wbuf = s.wbuf := p1.2.2.2.2.1
  have hdims : s3.dset_dims = s.dset_dims := p1.2.1
  refine ⟨p1.frame_trans i1, by omega, p3.log_trans i3, i4, ?_, ?_, ?_, ?_⟩
  · intro hr
    obtain ⟨j1, j2, j3⟩ := i5 hr
    rw [p4, p5] at j3
    exact ⟨j1.trans (p6 hr), j2.trans p4, j3⟩
  · intro hr
    obtain ⟨j1, -, j3, -, j5⟩ := i6 hr
    rw [hw, p4] at j3
    exact ⟨j1.trans p5, j3, j5⟩
  · intro k' c
    rw [i7 k' c, p7]
    by_cases hk : k' = k
    · rw [if_pos hk, hk, set_at_same]
      simp [sel_cells_nil]
    · rw [if_neg hk, set_at_apply, if_neg hk]
      simp [hk]
  · intro hd t ht
    have := i8 (by simp only [dims_ok, hdims]; exact hd) t ht
    rw [hdims] at this
    exact this

/-! ## The loop over datasets (lines 319-484) -/

theorem dset_loop_succ (E : Env) (flags : Nat) (do_read : Bool) (n k : Nat) (s : State) :
    dset_loop E flags do_read (n + 1) k s =
      ((dset_loop E flags do_read n (k + 1) (dset_iter E flags do_read k s).1).1,
        (dset_iter E flags do_read k s).2 ::
          (dset_loop E flags do_read n (k + 1) (dset_iter E flags do_read k s).1).2) := rfl

theorem mem_op_cells (accss : List (List Accepted)) (k0 : Nat) (t : Nat × Nat × Nat × Nat) :
    t ∈ op_cells k0 accss ↔
      k0 ≤ t.1 ∧ ∃ accs, accss[t.1 - k0]? = some accs ∧ t ∈ rank_cells t.1 0 accs := by
  induction accss generalizing k0 with
  | nil => simp [op_cells]
  | cons a rest ih =>
    simp only [op_cells, List.mem_append, ih]
    constructor
    · rintro (h | ⟨h1, accs, h2, h3⟩)
      · have hk := ((mem_rank_cells k0 a 0 t).1 h).1
        refine ⟨by omega, a, ?_, ?_⟩
        · rw [hk, Nat.sub_self, List.getElem?_cons_zero]
        · rw [hk]; exact h
      · refine ⟨by omega, accs, ?_, h3⟩
        have : t.1 - k0 = (t.1 - (k0 + 1)) + 1 := by omega
        rw [this, List.getElem?_cons_succ]
        exact h2
    · rintro ⟨h1, accs, h2, h3⟩
      by_cases he : t.1 = k0
      · left
        rw [he, Nat.sub_self, List.getElem?_cons_zero] at h2
        cases h2
        rw [he] at h3
        exact h3
      · right
        refine ⟨by omega, accs, ?_, h3⟩
        have : t.1 - k0 = (t.1 - (k0 + 1)) + 1 := by omega
        rw [this, List.getElem?_cons_succ] at h2
        exact h2

theorem dset_loop_spec (E : Env) (flags : Nat) (do_read : Bool) (n k0 : Nat) (s : State) :
    Frame s (dset_loop E flags do_read n k0 s).1 ∧
    s.pos ≤ (dset_loop E flags do_read n k0 s).1.pos ∧
    LogExt Call.is_select s (dset_loop E flags do_read n k0 s).1 ∧
    ((dset_loop E flags do_read n k0 s).2.length = n ∧
      ∀ accs ∈ (dset_loop E flags do_read n k0 s).2, accs.length = E.mpi_size) ∧
    (do_read = true → (dset_loop E flags do_read n k0 s).1.dset_usage = s.dset_usage ∧
      (dset_loop E flags do_read n k0 s).1.efbuf = s.efbuf ∧
      Filled (fun l => l = E.mpi_rank) (op_cells k0 (dset_loop E flags do_read n k0 s).2)
        s.efbuf s.erbuf (dset_loop E flags do_read n k0 s).1.erbuf) ∧
    (do_read = false → (dset_loop E flags do_read n k0 s).1.erbuf = s.erbuf ∧
      Written E flags s.wbuf (op_cells k0 (dset_loop E flags do_read n k0 s).2)
        s.efbuf (dset_loop E flags do_read n k0 s).1.efbuf ∧
      NoOverlap (op_cells k0 (dset_loop E flags do_read n k0 s).2)) ∧
    (∀ k' c, c ∈ sel_cells ((dset_loop E flags do_read n k0 s).1.dset_space k') ↔
      if k0 ≤ k' ∧ k' < k0 + n then
        (k', E.mpi_rank, c.1, c.2) ∈ op_cells k0 (dset_loop E flags do_read n k0 s).2
      else c ∈ sel_cells (s.dset_space k')) ∧
    ((∀ k, k0 ≤ k → k < k0 + n → dims_ok s k) →
      ∀ t ∈ op_cells k0 (dset_loop E flags do_read n k0 s).2,
        t.2.2.1 < s.dset_dims t.1 0 ∧ t.2.2.2 < s.dset_dims t.1 1) := by
  induction n generalizing k0 s with
  | zero =>
    refine ⟨Frame.frame_refl s, Nat.le_refl _, LogExt.log_refl _ s, ⟨rfl, by simp [dset_loop]⟩, ?_, ?_, ?_, ?_⟩
    · intro _; exact ⟨rfl, rfl, Filled.filled_nil _ _ _⟩
    · intro _
      exact ⟨rfl, Written.written_nil _ _ _ _, by simp [dset_loop, op_cells, NoOverlap]⟩
    · intro k' c
      have : ¬ (k0 ≤ k' ∧ k' < k0 + 0) := by omega
      rw [if_neg this]; rfl
    · intro _; simp [dset_loop, op_cells]
  | succ n ih =>
    obtain ⟨a1, a2, a3, a4, a5, a6, a7, a8⟩ := dset_iter_spec E flags do_read k0 s
    obtain ⟨i1, i2, i3, i4, i5, i6, i7, i8⟩ := ih (k0 + 1) (dset_iter E flags do_read k0 s).1
    rw [dset_loop_succ]
    generalize dset_loop E flags do_read n (k0 + 1) (dset_iter E flags do_read k0 s).1 = r at *
    generalize dset_iter E flags do_read k0 s = q at *
    have hw : q.1.wbuf = s.wbuf := a1.2.2.2.2.1
    have hdims : q.1.dset_dims = s.dset_dims := a1.2.1
    have hk1 : ∀ t ∈ rank_cells k0 0 q.2, t.1 = k0 := fun t ht => ((mem_rank_cells k0 q.2 0 t).1 ht).1
    have hk2 : ∀ t ∈ op_cells (k0 + 1) r.2, k0 + 1 ≤ t.1 := fun t ht => ((mem_op_cells r.2 (k0 + 1) t).1 ht).1
    simp only [op_cells]
    refine ⟨a1.frame_trans i1, by omega, a3.log_trans i3, ⟨by simp [i4.1], ?_⟩, ?_, ?_, ?_, ?_⟩
    · intro accs hm
      rcases List.mem_cons.1 hm with h | h
      · rw [h]; exact a4
      · exact i4.2 accs h
    · intro hr
      obtain ⟨j1, j2, j3⟩ := i5 hr
      obtain ⟨b1, b2, b3⟩ := a5 hr
      rw [b2] at j3
      exact ⟨j1.trans b1, j2.trans b2, Filled.filled_append b3 j3⟩
    · intro hr
      obtain ⟨j1, j2, j3⟩ := i6 hr
      obtain ⟨b1, b2, b3⟩ := a6 hr
      rw [hw] at j2
      refine ⟨j1.trans b1, Written.written_append b2 j2, ?_⟩
      intro t1 ht1 t2 ht2 hk hc
      rcases List.mem_append.1 ht1 with h1 | h1 <;> rcases List.mem_append.1 ht2 with h2 | h2
      · exact b3 t1 h1 t2 h2 hk hc
      · have := hk1 t1 h1; have := hk2 t2 h2; omega
      · have := hk2 t1 h1; have := hk1 t2 h2; omega
      · exact j3 t1 h1 t2 h2 hk hc
    · intro k' c
      rw [i7 k' c]
      by_cases hin : k0 + 1 ≤ k' ∧ k' < k0 + 1 + n
      · rw [if_pos hin, if_pos (by omega), List.mem_append]
        constructor
        · exact fun h => Or.inr h
        · rintro (h | h)
          · have := hk1 _ h; simp only at this; omega
          · exact h
      · rw [if_neg hin, a7 k' c]
        by_cases hk : k' = k0
        · rw [if_pos hk, if_pos (by omega), List.mem_append, hk]
          constructor
          · exact fun h => Or.inl h
          · rintro (h | h)
            · exact h
            · have := hk2 _ h; simp only at this; omega
        · rw [if_neg hk, if_neg (by omega)]
    · intro hd t ht
      rcases List.mem_append.1 ht with h | h
      · have hk := hk1 t h
        rw [hk]
        exact a8 (hd k0 (Nat.le_refl _) (by omega)) t h
      · have := i8 (fun k h1 h2 => by
          simp only [dims_ok, hdims]; exact hd k (by omega) (by omega)) t h
        rw [hdims] at this
        exact this

/-! ## 32-bit arithmetic -/

theorem to_int_modEq (i : Int) : to_int i ≡ i [ZMOD 4294967296] := by
  unfold to_int Int.ModEq
  split <;> omega

theorem to_unsigned_congr {a b : Int} (h : a ≡ b [ZMOD 4294967296]) :
    to_unsigned a = to_unsigned b := by
  unfold to_unsigned
  unfold Int.ModEq at h
  rw [h]

theorem to_unsigned_lt (a : Int) : to_unsigned a < 4294967296 := by
  unfold to_unsigned
  omega

theorem to_unsigned_modEq (a : Int) : (to_unsigned a : Int) ≡ a [ZMOD 4294967296] := by
  unfold to_unsigned Int.ModEq
  omega

theorem to_unsigned_of_lt (a : Nat) (h : a < 4294967296) : to_unsigned (a : Int) = a := by
  unfold to_unsigned
  omega

/-- The value stored in the expected-file buffer, without the intermediate conversions. -/
theorem efbuf_value_eq (E : Env) (flags l : Nat) (w : Nat → Nat) (i : Nat) :
    efbuf_value E flags l w i =
      to_unsigned ((w i : Int) +
        ((max_dsets flags * MAX_DSET_X * MAX_DSET_Y : Nat) : Int) * ((l : Int) - (E.mpi_rank : Int))) := by
  unfold efbuf_value rank_data_diff
  apply to_unsigned_congr
  exact (to_int_modEq _).add ((to_int_modEq _).trans ((to_int_modEq _).mul_right _))

theorem rank_data_diff_self (E : Env) (flags : Nat) : rank_data_diff E flags E.mpi_rank = 0 := by
  unfold rank_data_diff
  simp [to_int]

theorem max_dsets_cases (flags : Nat) : max_dsets flags = 1 ∨ max_dsets flags = 5 := by
  unfold max_dsets
  split
  · right; rfl
  · left; rfl

theorem buf_len_eq (flags : Nat) : buf_len flags = max_dsets flags * 150 := by
  unfold buf_len
  simp only [MAX_DSET_X, MAX_DSET_Y]
  omega

theorem idx_eq (i j l : Nat) : idx i j l = i * 150 + j * 10 + l := rfl

theorem idx_lt (flags i j l : Nat) (hi : i < max_dsets flags) (hj : j < MAX_DSET_X)
    (hl : l < MAX_DSET_Y) : idx i j l < buf_len flags := by
  rw [buf_len_eq, idx_eq]
  simp only [MAX_DSET_X, MAX_DSET_Y] at hj hl
  have : (i + 1) * 150 ≤ max_dsets flags * 150 := Nat.mul_le_mul_right 150 hi
  omega

theorem idx_inj (i j l i' j' l' : Nat) (hj : j < MAX_DSET_X) (hl : l < MAX_DSET_Y)
    (hj' : j' < MAX_DSET_X) (hl' : l' < MAX_DSET_Y) (h : idx i j l = idx i' j' l') :
    i = i' ∧ j = j' ∧ l = l' := by
  simp only [idx_eq] at h
  simp only [MAX_DSET_X, MAX_DSET_Y] at hj hl hj' hl'
  omega

/-! ## Loops over the whole buffer -/

theorem foldl_range_shift {α : Type} (g : Nat → α → α) (base c : Nat) (a : α) :
    (List.range c).foldl (fun a l => g (base + l) a) a = (List.range' base c).foldl (fun a p => g p a) a := by
  rw [List.range'_eq_map_range, List.foldl_map]

theorem foldl_blocks {α : Type} (G : α → Nat → α) (c : Nat) (b base : Nat) (a : α) :
    (List.range b).foldl (fun a j => (List.range' (base + j * c) c).foldl G a) a
      = (List.range' base (b * c)).foldl G a := by
  induction b generalizing a with
  | zero => simp
  | succ b ih =>
    rw [List.range_succ, List.foldl_append, ih]
    simp only [List.foldl_cons, List.foldl_nil]
    rw [← List.foldl_append, List.range'_append_1, Nat.succ_mul, Nat.add_comm]

theorem for_cells_flat {α : Type} (n : Nat) (g : Nat → α → α) (a : α) :
    for_cells n (fun i j l a => g (idx i j l) a) a
      = (List.range' 0 (n * 150)).foldl (fun a p => g p a) a := by
  unfold for_cells
  have inner : ∀ i j (a : α), (List.range MAX_DSET_Y).foldl (fun a l => g (idx i j l) a) a
      = (List.range' (i * 150 + j * 10) 10).foldl (fun a p => g p a) a := by
    intro i j a
    exact foldl_range_shift g (i * 150 + j * 10) 10 a
  have middle : ∀ i (a : α), (List.range MAX_DSET_X).foldl (fun a j =>
      (List.range MAX_DSET_Y).foldl (fun a l => g (idx i j l) a) a) a
      = (List.range' (i * 150) 150).foldl (fun a p => g p a) a := by
    intro i a
    simp only [inner]
    exact foldl_blocks (fun a p => g p a) 10 15 (i * 150) a
  simp only [middle]
  have := foldl_blocks (fun a p => g p a) 150 n 0 a
  simp only [Nat.zero_add] at this
  exact this

theorem foldl_flat_update (h : Nat → Nat → Nat) (n : Nat) (w : Nat → Nat) :
    (List.range' 0 n).foldl (fun w p => set w p (h p (w p))) w
      = fun p => if p < n then h p (w p) else w p := by
  induction n with
  | zero => funext p; simp
  | succ n ih =>
    rw [← List.range_eq_range'] at ih ⊢
    rw [List.range_succ, List.foldl_append, ih]
    funext p
    simp only [List.foldl_cons, List.foldl_nil, set_apply]
    by_cases h1 : p = n
    · subst h1; simp
    · by_cases h2 : p < n
      · simp [h1, h2, Nat.lt_succ_of_lt h2]
      · have : ¬ p < n + 1 := by omega
        simp [h1, h2, this]

/-- A pass over all cells that assigns `h p (buf[p])` to `buf[p]`. -/
theorem for_cells_update (h : Nat → Nat → Nat) (n : Nat) (w : Nat → Nat) :
    for_cells n (fun i j l w => set w (idx i j l) (h (idx i j l) (w (idx i j l)))) w
      = fun p => if p < n * 150 then h p (w p) else w p := by
  rw [for_cells_flat n (fun p w => set w p (h p (w p))) w]
  exact foldl_flat_update h (n * 150) w

/-! ## Lockstep: the selection decisions do not depend on the rank -/

theorem Sync.of_frame {d : Bool} {k : Nat} {s s' t t' : State} (h : Sync d k s s')
    (hp : t.pos = t'.pos) (h1 : t.dset_dims = s.dset_dims) (h2 : t'.dset_dims = s'.dset_dims)
    (h3 : t.dset_usage = s.dset_usage) (h4 : t'.dset_usage = s'.dset_usage) : Sync d k t t' := by
  obtain ⟨a1, a2, a3, a4⟩ := h
  refine ⟨hp, ?_, ?_, ?_⟩
  · rw [h1, h2]; exact a2
  · rw [h1, h2]; exact a3
  · rw [h1, h3, h4]; exact a4

theorem hs_candidate_explicit (E : Env) (do_read : Bool) (k m mx my : Nat) (s : State) :
    (hs_candidate E do_read k m mx my s).1.count m 0 = E.random s.pos % mx + 1 ∧
    (hs_candidate E do_read k m mx my s).1.count m 1 = E.random (s.pos + 1) % my + 1 ∧
    (hs_candidate E do_read k m mx my s).1.start m 0 =
      (if E.random s.pos % mx + 1 = s.dset_dims k 0 then 0
       else E.random (s.pos + 2) % (s.dset_dims k 0 - (E.random s.pos % mx + 1) + 1)) ∧
    (hs_candidate E do_read k m mx my s).1.start m 1 =
      (if E.random (s.pos + 1) % my + 1 = s.dset_dims k 1 then 0
       else E.random (if E.random s.pos % mx + 1 = s.dset_dims k 0 then s.pos + 2 else s.pos + 3)
        % (s.dset_dims k 1 - (E.random (s.pos + 1) % my + 1) + 1)) ∧
    (hs_candidate E do_read k m mx my s).1.pos =
      (if E.random (s.pos + 1) % my + 1 = s.dset_dims k 1 then
        (if E.random s.pos % mx + 1 = s.dset_dims k 0 then s.pos + 2 else s.pos + 3)
       else (if E.random s.pos % mx + 1 = s.dset_dims k 0 then s.pos + 2 else s.pos + 3) + 1) := by
  simp only [hs_candidate]
  by_cases h0 : E.random s.pos % mx + 1 = s.dset_dims k 0 <;>
    by_cases h1 : E.random (s.pos + 1) % my + 1 = s.dset_dims k 1 <;>
    simp [set2_apply, h0, h1]

theorem hs_candidate_sync (E E' : Env) (do_read : Bool) (k m mx my : Nat) (s s' : State)
    (hR : E.random = E'.random) (hs : Sync do_read k s s') (hd : dims_ok s k)
    (hmx : mx = if MAX_HS_X ≤ s.dset_dims k 0 then MAX_HS_X else s.dset_dims k 0)
    (hmy : my = if MAX_HS_Y ≤ s.dset_dims k 1 then MAX_HS_Y else s.dset_dims k 1) :
    Sync do_read k (hs_candidate E do_read k m mx my s).1 (hs_candidate E' do_read k m mx my s').1 ∧
    (hs_candidate E do_read k m mx my s).2 = (hs_candidate E' do_read k m mx my s').2 ∧
    regions_of (hs_candidate E do_read k m mx my s).1 m 1 =
      regions_of (hs_candidate E' do_read k m mx my s').1 m 1 := by
  obtain ⟨a1, a2, a3, a4, a5⟩ := hs_candidate_explicit E do_read k m mx my s
  obtain ⟨b1, b2, b3, b4, b5⟩ := hs_candidate_explicit E' do_read k m mx my s'
  obtain ⟨⟨⟨-, f1, -⟩, -, -, -, -, f2, -⟩, -⟩ := hs_candidate_frame E do_read k m mx my s
  obtain ⟨⟨⟨-, g1, -⟩, -, -, -, -, g2, -⟩, -⟩ := hs_candidate_frame E' do_read k m mx my s'
  have hfit := hs_candidate_fits E do_read k m mx my s hd hmx hmy
  obtain ⟨p1, p2, p3, p4⟩ := hs
  have hreg : regions_of (hs_candidate E do_read k m mx my s).1 m 1 =
      regions_of (hs_candidate E' do_read k m mx my s').1 m 1 := by
    rw [regions_of_one, regions_of_one, a1, a2, a3, a4, b1, b2, b3, b4, ← hR, ← p1, ← p2, ← p3]
  have hpos : (hs_candidate E do_read k m mx my s).1.pos = (hs_candidate E' do_read k m mx my s').1.pos := by
    rw [a5, b5, ← hR, ← p1, ← p2, ← p3]
  refine ⟨Sync.of_frame ⟨p1, p2, p3, p4⟩ hpos f1 g1 f2 g2, ?_, hreg⟩
  have o1 := hs_candidate_overlap E do_read k m mx my s
  have o2 := hs_candidate_overlap E' do_read k m mx my s'
  rw [← hreg] at o2
  rw [Bool.eq_iff_iff, o1, o2]
  constructor
  · rintro ⟨hr, c, hc, hne⟩
    refine ⟨hr, c, hc, ?_⟩
    obtain ⟨reg, hreg', hcr⟩ := List.mem_flatMap.1 hc
    have := region_fits_cells _ _ reg (hfit reg hreg') c hcr
    rw [← p4 hr c this.1 this.2]
    exact hne
  · rintro ⟨hr, c, hc, hne⟩
    refine ⟨hr, c, hc, ?_⟩
    obtain ⟨reg, hreg', hcr⟩ := List.mem_flatMap.1 hc
    have := region_fits_cells _ _ reg (hfit reg hreg') c hcr
    rw [p4 hr c this.1 this.2]
    exact hne

theorem dims_ok_congr {s t : State} {k : Nat} (h : t.dset_dims = s.dset_dims) (hd : dims_ok s k) :
    dims_ok t k := by
  simp only [dims_ok, h]; exact hd

theorem hs_retry_sync (E E' : Env) (do_read : Bool) (k m mx my n : Nat) (s s' : State)
    (hR : E.random = E'.random) (hs : Sync do_read k s s') (hd : dims_ok s k)
    (hmx : mx = if MAX_HS_X ≤ s.dset_dims k 0 then MAX_HS_X else s.dset_dims k 0)
    (hmy : my = if MAX_HS_Y ≤ s.dset_dims k 1 then MAX_HS_Y else s.dset_dims k 1) :
    (hs_retry E do_read k m mx my n s).1.pos = (hs_retry E' do_read k m mx my n s').1.pos ∧
    (hs_retry E do_read k m mx my n s).2 = (hs_retry E' do_read k m mx my n s').2 ∧
    ((hs_retry E do_read k m mx my n s).2 = false →
      regions_of (hs_retry E do_read k m mx my n s).1 m 1 =
        regions_of (hs_retry E' do_read k m mx my n s').1 m 1) := by
  induction n generalizing s s' with
  | zero => exact ⟨hs.1, rfl, by simp [hs_retry]⟩
  | succ n ih =>
    obtain ⟨c1, c2, c3⟩ := hs_candidate_sync E E' do_read k m mx my s s' hR hs hd hmx hmy
    obtain ⟨⟨⟨-, f1, -⟩, -⟩, -⟩ := hs_candidate_frame E do_read k m mx my s
    rw [hs_retry_succ, hs_retry_succ, ← c2]
    by_cases hov : (hs_candidate E do_read k m mx my s).2 = true
    · rw [if_pos hov, if_pos hov]
      exact ih _ _ c1 (dims_ok_congr f1 hd) (by rw [f1]; exact hmx) (by rw [f1]; exact hmy)
    · rw [if_neg hov, if_neg hov]
      exact ⟨c1.1, rfl, fun _ => c3⟩

theorem hs_loop_sync (E E' : Env) (flags flags' : Nat) (do_read : Bool) (k l l' mx my n m : Nat)
    (s s' : State) (hR : E.random = E'.random) (hs : Sync do_read k s s') (hd : dims_ok s k)
    (hmx : mx = if MAX_HS_X ≤ s.dset_dims k 0 then MAX_HS_X else s.dset_dims k 0)
    (hmy : my = if MAX_HS_Y ≤ s.dset_dims k 1 then MAX_HS_Y else s.dset_dims k 1) :
    (hs_loop E flags do_read k l mx my n m s).1.pos =
      (hs_loop E' flags' do_read k l' mx my n m s').1.pos ∧
    (hs_loop E flags do_read k l mx my n m s).2 = (hs_loop E' flags' do_read k l' mx my n m s').2 ∧
    regions_of (hs_loop E flags do_read k l mx my n m s).1 m
        ((hs_loop E flags do_read k l mx my n m s).2 - m) =
      regions_of (hs_loop E' flags' do_read k l' mx my n m s').1 m
        ((hs_loop E' flags' do_read k l' mx my n m s').2 - m) := by
  induction n generalizing m s s' with
  | zero => exact ⟨hs.1, rfl, by simp [hs_loop, regions_of_zero]⟩
  | succ n ih =>
    obtain ⟨c1, c2, c3⟩ := hs_retry_sync E E' do_read k m mx my MAX_SEL_RETRIES s s' hR hs hd hmx hmy
    obtain ⟨⟨⟨-, f1, -⟩, -, -, -, -, f2, -⟩, -⟩ := hs_retry_frame E do_read k m mx my MAX_SEL_RETRIES s
    obtain ⟨⟨⟨-, g1, -⟩, -, -, -, -, g2, -⟩, -⟩ := hs_retry_frame E' do_read k m mx my MAX_SEL_RETRIES s'
    rw [hs_loop_succ, hs_loop_succ, ← c2]
    by_cases hov : (hs_retry E do_read k m mx my MAX_SEL_RETRIES s).2 = true
    · rw [if_pos hov, if_pos hov]
      exact ⟨c1, rfl, by simp [regions_of_zero]⟩
    · rw [if_neg hov, if_neg hov]
      obtain ⟨a1, a2, -, -, -, a6, -⟩ :=
        hs_accept_spec E flags do_read k l m (hs_retry E do_read k m mx my MAX_SEL_RETRIES s).1
      obtain ⟨b1, b2, -, -, -, b6, -⟩ :=
        hs_accept_spec E' flags' do_read k l' m (hs_retry E' do_read k m mx my MAX_SEL_RETRIES s').1
      have hsync : Sync do_read k
          (hs_expect E flags do_read k l m
            (hs_select E k l m (hs_retry E do_read k m mx my MAX_SEL_RETRIES s).1))
          (hs_expect E' flags' do_read k l' m
            (hs_select E' k l' m (hs_retry E' do_read k m mx my MAX_SEL_RETRIES s').1)) :=
        Sync.of_frame hs (by rw [a2, b2]; exact c1) (a1.2.1.trans f1) (b1.2.1.trans g1)
          (a6.trans f2) (b6.trans g2)
      have hdd := a1.2.1.trans f1
      obtain ⟨i1, i2, i3⟩ := ih (m + 1) _ _ hsync (dims_ok_congr hdd hd)
        (by rw [hdd]; exact hmx) (by rw [hdd]; exact hmy)
      refine ⟨i1, i2, ?_⟩
      rw [hs_loop_regions, hs_loop_regions, i3, c3 (by simpa using hov)]

theorem hs_branch_pos (E : Env) (flags : Nat) (do_read : Bool) (k l : Nat) (s : State) :
    (hs_branch E flags do_read k l s).1.pos =
      (hs_loop E flags do_read k l
        (if MAX_HS_X ≤ s.dset_dims k 0 then MAX_HS_X else s.dset_dims k 0)
        (if MAX_HS_Y ≤ s.dset_dims k 1 then MAX_HS_Y else s.dset_dims k 1)
        (hs_draw_count E s) 0 { s with pos := s.pos + 1 }).1.pos := by
  unfold hs_branch
  cases do_read <;> rfl

theorem hs_branch_acc (E : Env) (flags : Nat) (do_read : Bool) (k l : Nat) (s : State) :
    (hs_branch E flags do_read k l s).2 =
      .hyperslabs (regions_of (hs_loop E flags do_read k l
        (if MAX_HS_X ≤ s.dset_dims k 0 then MAX_HS_X else s.dset_dims k 0)
        (if MAX_HS_Y ≤ s.dset_dims k 1 then MAX_HS_Y else s.dset_dims k 1)
        (hs_draw_count E s) 0 { s with pos := s.pos + 1 }).1 0
        ((hs_loop E flags do_read k l
        (if MAX_HS_X ≤ s.dset_dims k 0 then MAX_HS_X else s.dset_dims k 0)
        (if MAX_HS_Y ≤ s.dset_dims k 1 then MAX_HS_Y else s.dset_dims k 1)
        (hs_draw_count E s) 0 { s with pos := s.pos + 1 }).2 - 0)) := rfl

theorem hs_branch_sync (E E' : Env) (flags flags' : Nat) (do_read : Bool) (k l l' : Nat)
    (s s' : State) (hR : E.random = E'.random) (hs : Sync do_read k s s') (hd : dims_ok s k) :
    (hs_branch E flags do_read k l s).1.pos = (hs_branch E' flags' do_read k l' s').1.pos ∧
    (hs_branch E flags do_read k l s).2 = (hs_branch E' flags' do_read k l' s').2 := by
  have hs1 : Sync do_read k { s with pos := s.pos + 1 } { s' with pos := s'.pos + 1 } :=
    Sync.of_frame hs (by show s.pos + 1 = s'.pos + 1; rw [hs.1]) rfl rfl rfl rfl
  have hn : hs_draw_count E s = hs_draw_count E' s' := by
    unfold hs_draw_count; rw [hR, hs.1]
  obtain ⟨i1, i2, i3⟩ := hs_loop_sync E E' flags flags' do_read k l l'
    (if MAX_HS_X ≤ s.dset_dims k 0 then MAX_HS_X else s.dset_dims k 0)
    (if MAX_HS_Y ≤ s.dset_dims k 1 then MAX_HS_Y else s.dset_dims k 1)
    (hs_draw_count E s) 0 _ _ hR hs1 hd rfl rfl
  rw [hs_branch_pos, hs_branch_pos, hs_branch_acc, hs_branch_acc, ← hs.2.1, ← hs.2.2.1, ← hn]
  exact ⟨i1, by rw [i3]⟩

/-! The same for points. -/

theorem pt_candidate_sync (E E' : Env) (do_read : Bool) (k m : Nat) (s s' : State)
    (hR : E.random = E'.random) (hs : Sync do_read k s s') (hd : dims_ok s k) :
    Sync do_read k (pt_candidate E do_read k m s).1 (pt_candidate E' do_read k m s').1 ∧
    (pt_candidate E do_read k m s).2 = (pt_candidate E' do_read k m s').2 ∧
    points_of (pt_candidate E do_read k m s).1 m 1 =
      points_of (pt_candidate E' do_read k m s').1 m 1 := by
  obtain ⟨a1, a2⟩ := pt_candidate_point E do_read k m s
  obtain ⟨b1, b2⟩ := pt_candidate_point E' do_read k m s'
  obtain ⟨⟨⟨-, f1, -⟩, -, -, -, -, f2, -⟩, -, -, f3⟩ := pt_candidate_frame E do_read k m s
  obtain ⟨⟨⟨-, g1, -⟩, -, -, -, -, g2, -⟩, -, -, g3⟩ := pt_candidate_frame E' do_read k m s'
  have hfit := pt_candidate_fits E do_read k m s hd
  obtain ⟨p1, p2, p3, p4⟩ := hs
  have hpt : points_of (pt_candidate E do_read k m s).1 m 1 =
      points_of (pt_candidate E' do_read k m s').1 m 1 := by
    rw [points_of_one, points_of_one, a1, a2, b1, b2, ← hR, ← p1, ← p2, ← p3]
  refine ⟨Sync.of_frame ⟨p1, p2, p3, p4⟩ (by rw [f3, g3, p1]) f1 g1 f2 g2, ?_, hpt⟩
  have o1 := pt_candidate_overlap E do_read k m s
  have o2 := pt_candidate_overlap E' do_read k m s'
  rw [← hpt] at o2
  rw [Bool.eq_iff_iff, o1, o2]
  constructor
  · rintro ⟨hr, c, hc, hne⟩
    have := hfit c hc
    exact ⟨hr, c, hc, by rw [← p4 hr c this.1 this.2]; exact hne⟩
  · rintro ⟨hr, c, hc, hne⟩
    have := hfit c hc
    exact ⟨hr, c, hc, by rw [p4 hr c this.1 this.2]; exact hne⟩

theorem pt_retry_sync (E E' : Env) (do_read : Bool) (k m n : Nat) (s s' : State)
    (hR : E.random = E'.random) (hs : Sync do_read k s s') (hd : dims_ok s k) :
    (pt_retry E do_read k m n s).1.pos = (pt_retry E' do_read k m n s').1.pos ∧
    (pt_retry E do_read k m n s).2 = (pt_retry E' do_read k m n s').2 ∧
    ((pt_retry E do_read k m n s).2 = false →
      points_of (pt_retry E do_read k m n s).1 m 1 =
        points_of (pt_retry E' do_read k m n s').1 m 1) := by
  induction n generalizing s s' with
  | zero => exact ⟨hs.1, rfl, by simp [pt_retry]⟩
  | succ n ih =>
    obtain ⟨c1, c2, c3⟩ := pt_candidate_sync E E' do_read k m s s' hR hs hd
    obtain ⟨⟨⟨-, f1, -⟩, -⟩, -⟩ := pt_candidate_frame E do_read k m s
    rw [pt_retry_succ, pt_retry_succ, ← c2]
    by_cases hov : (pt_candidate E do_read k m s).2 = true
    · rw [if_pos hov, if_pos hov]
      exact ih _ _ c1 (dims_ok_congr f1 hd)
    · rw [if_neg hov, if_neg hov]
      exact ⟨c1.1, rfl, fun _ => c3⟩

theorem pt_loop_sync (E E' : Env) (do_read : Bool) (k n m : Nat) (s s' : State)
    (hR : E.random = E'.random) (hs : Sync do_read k s s') (hd : dims_ok s k) :
    (pt_loop E do_read k n m s).1.pos = (pt_loop E' do_read k n m s').1.pos ∧
    (pt_loop E do_read k n m s).2 = (pt_loop E' do_read k n m s').2 ∧
    points_of (pt_loop E do_read k n m s).1 m ((pt_loop E do_read k n m s).2 - m) =
      points_of (pt_loop E' do_read k n m s').1 m ((pt_loop E' do_read k n m s').2 - m) := by
  induction n generalizing m s s' with
  | zero => exact ⟨hs.1, rfl, by simp [pt_loop, points_of_zero]⟩
  | succ n ih =>
    obtain ⟨c1, c2, c3⟩ := pt_retry_sync E E' do_read k m MAX_SEL_RETRIES s s' hR hs hd
    obtain ⟨⟨⟨-, f1, -⟩, -, -, -, -, f2, -⟩, -⟩ := pt_retry_frame E do_read k m MAX_SEL_RETRIES s
    obtain ⟨⟨⟨-, g1, -⟩, -, -, -, -, g2, -⟩, -⟩ := pt_retry_frame E' do_read k m MAX_SEL_RETRIES s'
    rw [pt_loop_succ, pt_loop_succ, ← c2]
    by_cases hov : (pt_retry E do_read k m MAX_SEL_RETRIES s).2 = true
    · rw [if_pos hov, if_pos hov]
      exact ⟨c1, rfl, by simp [points_of_zero]⟩
    · rw [if_neg hov, if_neg hov]
      have hsync : Sync do_read k (pt_retry E do_read k m MAX_SEL_RETRIES s).1
          (pt_retry E' do_read k m MAX_SEL_RETRIES s').1 := Sync.of_frame hs c1 f1 g1 f2 g2
      obtain ⟨i1, i2, i3⟩ := ih (m + 1) _ _ hsync (dims_ok_congr f1 hd)
      refine ⟨i1, i2, ?_⟩
      rw [pt_loop_points, pt_loop_points, i3, c3 (by simpa using hov)]

theorem pt_branch_pos (E : Env) (flags : Nat) (do_read : Bool) (k l : Nat) (s : State) :
    (pt_branch E flags do_read k l s).1.pos =
      (pt_loop E do_read k (pt_draw_count E s) 0 { s with pos := s.pos + 1 }).1.pos := by
  unfold pt_branch
  simp only
  rw [(pt_select_mem_spec E flags k l _ _).2.1, (pt_expect_spec E flags do_read k l _ _).2.2.2.1,
    (pt_select_file_spec E k l _ _).2.2.2.2.1]
  cases do_read <;> rfl

theorem pt_branch_acc (E : Env) (flags : Nat) (do_read : Bool) (k l : Nat) (s : State) :
    (pt_branch E flags do_read k l s).2 =
      .points (points_of (pt_loop E do_read k (pt_draw_count E s) 0 { s with pos := s.pos + 1 }).1 0
        ((pt_loop E do_read k (pt_draw_count E s) 0 { s with pos := s.pos + 1 }).2 - 0)) := rfl

theorem pt_branch_sync (E E' : Env) (flags flags' : Nat) (do_read : Bool) (k l l' : Nat)
    (s s' : State) (hR : E.random = E'.random) (hs : Sync do_read k s s') (hd : dims_ok s k) :
    (pt_branch E flags do_read k l s).1.pos = (pt_branch E' flags' do_read k l' s').1.pos ∧
    (pt_branch E flags do_read k l s).2 = (pt_branch E' flags' do_read k l' s').2 := by
  have hs1 : Sync do_read k { s with pos := s.pos + 1 } { s' with pos := s'.pos + 1 } :=
    Sync.of_frame hs (by show s.pos + 1 = s'.pos + 1; rw [hs.1]) rfl rfl rfl rfl
  have hn : pt_draw_count E s = pt_draw_count E' s' := by
    unfold pt_draw_count; rw [hR, hs.1]
  obtain ⟨i1, i2, i3⟩ := pt_loop_sync E E' do_read k (pt_draw_count E s) 0 _ _ hR hs1 hd
  rw [pt_branch_pos, pt_branch_pos, pt_branch_acc, pt_branch_acc, ← hn]
  exact ⟨i1, by rw [i3]⟩

theorem rank_iter_sync (E E' : Env) (flags flags' : Nat) (do_read : Bool) (k l l' : Nat)
    (s s' : State) (hR : E.random = E'.random) (hs : Sync do_read k s s') (hd : dims_ok s k) :
    Sync do_read k (rank_iter E flags do_read k l s).1 (rank_iter E' flags' do_read k l' s').1 ∧
    (rank_iter E flags do_read k l s).2 = (rank_iter E' flags' do_read k l' s').2 := by
  have hs1 : Sync do_read k { s with pos := s.pos + 1 } { s' with pos := s'.pos + 1 } :=
    Sync.of_frame hs (by show s.pos + 1 = s'.pos + 1; rw [hs.1]) rfl rfl rfl rfl
  have key : (rank_iter E flags do_read k l s).1.pos = (rank_iter E' flags' do_read k l' s').1.pos ∧
      (rank_iter E flags do_read k l s).2 = (rank_iter E' flags' do_read k l' s').2 := by
    have hg : (E.random s.pos % 2 ≠ 0) ↔ (E'.random s'.pos % 2 ≠ 0) := by rw [hR, hs.1]
    unfold rank_iter
    by_cases h : E.random s.pos % 2 ≠ 0
    · rw [if_pos h, if_pos (hg.1 h)]
      exact hs_branch_sync E E' flags flags' do_read k l l' _ _ hR hs1 hd
    · rw [if_neg h, if_neg (fun h' => h (hg.2 h'))]
      exact pt_branch_sync E E' flags flags' do_read k l l' _ _ hR hs1 hd
  refine ⟨?_, key.2⟩
  obtain ⟨a1, -, -, a4, -, -, -, -, a9⟩ := rank_iter_spec E flags do_read k l s
  obtain ⟨b1, -, -, b4, -, -, -, -, -⟩ := rank_iter_spec E' flags' do_read k l' s'
  obtain ⟨p1, p2, p3, p4⟩ := hs
  refine ⟨key.1, by rw [a1.2.1, b1.2.1]; exact p2, by rw [a1.2.1, b1.2.1]; exact p3, ?_⟩
  intro hr c hc1 hc2
  rw [a1.2.1] at hc1 hc2
  have hr' : ¬ do_read = true := by simp [hr]
  rw [a4, b4, if_neg hr', if_neg hr', ← key.2]
  simp only [fill]
  split
  · rfl
  · exact p4 hr c hc1 hc2

theorem rank_loop_sync (E E' : Env) (flags flags' : Nat) (do_read : Bool) (k n l0 : Nat)
    (s s' : State) (hR : E.random = E'.random) (hs : Sync do_read k s s') (hd : dims_ok s k) :
    (rank_loop E flags do_read k n l0 s).1.pos = (rank_loop E' flags' do_read k n l0 s').1.pos ∧
    (rank_loop E flags do_read k n l0 s).2 = (rank_loop E' flags' do_read k n l0 s').2 := by
  induction n generalizing l0 s s' with
  | zero => exact ⟨hs.1, rfl⟩
  | succ n ih =>
    obtain ⟨c1, c2⟩ := rank_iter_sync E E' flags flags' do_read k l0 l0 s s' hR hs hd
    obtain ⟨a1, -⟩ := rank_iter_spec E flags do_read k l0 s
    obtain ⟨i1, i2⟩ := ih (l0 + 1) _ _ c1 (dims_ok_congr a1.2.1 hd)
    rw [rank_loop_succ, rank_loop_succ]
    exact ⟨i1, by rw [c2, i2]⟩

theorem dset_iter_pre (E : Env) (flags : Nat) (do_read : Bool) (k : Nat) (s : State) :
    ∃ s3, dset_iter E flags do_read k s = rank_loop E flags do_read k E.mpi_size 0 s3 ∧
      s3.pos = s.pos ∧ s3.dset_dims = s.dset_dims ∧
      (do_read = false → s3.dset_usage = memset0 s.dset_usage (buf_len flags)) := by
  refine ⟨_, rfl, ?_⟩
  cases do_read
  · exact ⟨rfl, rfl, fun _ => rfl⟩
  · exact ⟨rfl, rfl, fun h => absurd h (by decide)⟩

theorem dset_iter_sync (E E' : Env) (flags : Nat) (do_read : Bool) (k : Nat) (s s' : State)
    (hR : E.random = E'.random) (hsz : E.mpi_size = E'.mpi_size) (hp : s.pos = s'.pos)
    (h0 : s.dset_dims k 0 = s'.dset_dims k 0) (h1 : s.dset_dims k 1 = s'.dset_dims k 1)
    (hd : dims_ok s k) (hk : k < max_dsets flags) :
    (dset_iter E flags do_read k s).1.pos = (dset_iter E' flags do_read k s').1.pos ∧
    (dset_iter E flags do_read k s).2 = (dset_iter E' flags do_read k s').2 := by
  obtain ⟨s3, e, a1, a2, a3⟩ := dset_iter_pre E flags do_read k s
  obtain ⟨s3', e', b1, b2, b3⟩ := dset_iter_pre E' flags do_read k s'
  rw [e, e', ← hsz]
  have hs : Sync do_read k s3 s3' := by
    refine ⟨by rw [a1, b1, hp], by rw [a2, b2, h0], by rw [a2, b2, h1], ?_⟩
    intro hr c hc0 hc1
    rw [a3 hr, b3 hr]
    rw [a2] at hc0 hc1
    have hlt : idx k c.1 c.2 < buf_len flags :=
      idx_lt flags k c.1 c.2 hk (Nat.lt_of_lt_of_le hc0 hd.1.2) (Nat.lt_of_lt_of_le hc1 hd.2.2)
    simp [memset0, hlt]
  exact rank_loop_sync E E' flags flags do_read k E.mpi_size 0 s3 s3' hR hs (dims_ok_congr a2 hd)

theorem dset_loop_sync (E E' : Env) (flags : Nat) (do_read : Bool) (n k0 : Nat) (s s' : State)
    (hR : E.random = E'.random) (hsz : E.mpi_size = E'.mpi_size) (hp : s.pos = s'.pos)
    (hdims : ∀ k, k0 ≤ k → k < k0 + n →
      s.dset_dims k 0 = s'.dset_dims k 0 ∧ s.dset_dims k 1 = s'.dset_dims k 1 ∧ dims_ok s k ∧
      k < max_dsets flags) :
    (dset_loop E flags do_read n k0 s).1.pos = (dset_loop E' flags do_read n k0 s').1.pos ∧
    (dset_loop E flags do_read n k0 s).2 = (dset_loop E' flags do_read n k0 s').2 := by
  induction n generalizing k0 s s' with
  | zero => exact ⟨hp, rfl⟩
  | succ n ih =>
    obtain ⟨d0, d1, d2, d3⟩ := hdims k0 (Nat.le_refl _) (by omega)
    obtain ⟨c1, c2⟩ := dset_iter_sync E E' flags do_read k0 s s' hR hsz hp d0 d1 d2 d3
    obtain ⟨a1, -⟩ := dset_iter_spec E flags do_read k0 s
    obtain ⟨b1, -⟩ := dset_iter_spec E' flags do_read k0 s'
    have hdims' : ∀ k, k0 + 1 ≤ k → k < k0 + 1 + n →
        (dset_iter E flags do_read k0 s).1.dset_dims k 0 =
          (dset_iter E' flags do_read k0 s').1.dset_dims k 0 ∧
        (dset_iter E flags do_read k0 s).1.dset_dims k 1 =
          (dset_iter E' flags do_read k0 s').1.dset_dims k 1 ∧
        dims_ok (dset_iter E flags do_read k0 s).1 k ∧ k < max_dsets flags := by
      intro k hk1 hk2
      obtain ⟨e0, e1, e2, e3⟩ := hdims k (by omega) (by omega)
      rw [a1.2.1, b1.2.1]
      exact ⟨e0, e1, dims_ok_congr a1.2.1 e2, e3⟩
    obtain ⟨i1, i2⟩ := ih (k0 + 1) _ _ c1 hdims'
    rw [dset_loop_succ, dset_loop_succ]
    exact ⟨i1, by rw [c2, i2]⟩

/-! ## The whole selection phase of an operation -/

theorem getD_of_getElem? {α : Type} (l : List α) (k : Nat) (d a : α) (h : l[k]? = some a) :
    l.getD k d = a := by
  rw [List.getD_eq_getElem?_getD, h]; rfl

theorem getD_of_none {α : Type} (l : List α) (k : Nat) (d : α) (h : l[k]? = none) :
    l.getD k d = d := by
  rw [List.getD_eq_getElem?_getD, h]; rfl

theorem mem_op_cells_getD (accss : List (List Accepted)) (k l x y : Nat) :
    (k, l, x, y) ∈ op_cells 0 accss ↔
      (x, y) ∈ ((accss.getD k []).getD l (.points [])).cells := by
  rw [mem_op_cells]
  simp only [Nat.sub_zero, Nat.zero_le, true_and]
  cases hq : accss[k]? with
  | none =>
    rw [getD_of_none accss k [] hq]
    simp [Accepted.cells]
  | some accs =>
    rw [getD_of_getElem? accss k [] accs hq]
    constructor
    · rintro ⟨accs', h1, h2⟩
      cases h1
      exact (mem_rank_cells_getD k accs l x y).1 h2
    · intro h
      exact ⟨accs, rfl, (mem_rank_cells_getD k accs l x y).2 h⟩

theorem op_cells_rank_lt (E : Env) (flags : Nat) (do_read : Bool) (s : State)
    (t : Nat × Nat × Nat × Nat) (h : t ∈ op_cells 0 (op_select E flags do_read s).2) :
    t.1 < s.ndsets ∧ t.2.1 < E.mpi_size := by
  obtain ⟨-, -, -, ⟨a4, a5⟩, -⟩ := dset_loop_spec E flags do_read s.ndsets 0 s
  rw [mem_op_cells] at h
  obtain ⟨-, accs, h2, h3⟩ := h
  have hlen := (List.getElem?_eq_some_iff.1 h2).1
  have hmem : accs ∈ (op_select E flags do_read s).2 := List.getElem?_mem h2
  have := rank_cells_lt t.1 accs 0 t h3
  unfold op_select at hlen hmem
  rw [a5 accs hmem] at this
  simp only [Nat.sub_zero] at hlen
  exact ⟨by omega, by omega⟩

/-! ## Calls at the boundary -/

theorem SameData.same_refl (s : State) : SameData s s :=
  ⟨rfl, rfl, rfl, rfl, rfl, rfl, rfl, rfl, rfl, rfl, rfl, rfl, rfl, rfl, rfl⟩

theorem SameData.same_trans {s1 s2 s3 : State} (h1 : SameData s1 s2) (h2 : SameData s2 s3) :
    SameData s1 s3 := by
  obtain ⟨a1, a2, a3, a4, a5, a6, a7, a8, a9, a10, a11, a12, a13, a14, a15⟩ := h1
  obtain ⟨b1, b2, b3, b4, b5, b6, b7, b8, b9, b10, b11, b12, b13, b14, b15⟩ := h2
  exact ⟨b1.trans a1, b2.trans a2, b3.trans a3, b4.trans a4, b5.trans a5, b6.trans a6,
    b7.trans a7, b8.trans a8, b9.trans a9, b10.trans a10, b11.trans a11, b12.trans a12,
    b13.trans a13, b14.trans a14, b15.trans a15⟩

theorem checked_spec (E : Env) (c : Call) (s : State) :
    SameData s (checked E c s) ∧ (checked E c s).log = s.log ++ [c] ∧
    s.nerrors ≤ (checked E c s).nerrors := by
  refine ⟨SameData.same_refl s, rfl, ?_⟩
  simp only [checked]
  split <;> omega

theorem unchecked_spec (c : Call) (s : State) :
    SameData s (unchecked c s) ∧ (unchecked c s).log = s.log ++ [c] ∧
    s.nerrors ≤ (unchecked c s).nerrors :=
  ⟨SameData.same_refl s, rfl, Nat.le_refl _⟩

theorem foldl_checked_spec (E : Env) (f : Nat → Call) (L : List Nat) (s : State) :
    SameData s (L.foldl (fun s k => checked E (f k) s) s) ∧
    (L.foldl (fun s k => checked E (f k) s) s).log = s.log ++ L.map f ∧
    s.nerrors ≤ (L.foldl (fun s k => checked E (f k) s) s).nerrors := by
  induction L generalizing s with
  | nil => exact ⟨SameData.same_refl s, by simp, Nat.le_refl _⟩
  | cons a L ih =>
    obtain ⟨c1, c2, c3⟩ := checked_spec E (f a) s
    obtain ⟨i1, i2, i3⟩ := ih (checked E (f a) s)
    simp only [List.foldl_cons, List.map_cons]
    exact ⟨c1.same_trans i1, by rw [i2, c2, List.append_assoc]; rfl, by omega⟩

theorem reopen_spec (E : Env) (s : State) :
    SameData s (reopen E s) ∧ (reopen E s).log = s.log ++ reopen_calls s.ndsets ∧
    s.nerrors ≤ (reopen E s).nerrors := by
  obtain ⟨a1, a2, a3⟩ := foldl_checked_spec E Call.H5Dclose (List.range s.ndsets) s
  unfold reopen
  simp only
  generalize (List.range s.ndsets).foldl (fun s k => checked E (Call.H5Dclose k) s) s = s1 at *
  obtain ⟨b1, b2, b3⟩ := checked_spec E Call.H5Fclose s1
  generalize checked E Call.H5Fclose s1 = s2 at *
  obtain ⟨c1, c2, c3⟩ := unchecked_spec Call.MPI_Barrier s2
  generalize unchecked Call.MPI_Barrier s2 = s3 at *
  obtain ⟨d1, d2, d3⟩ := checked_spec E Call.H5Fopen s3
  generalize checked E Call.H5Fopen s3 = s4 at *
  obtain ⟨e1, e2, e3⟩ := foldl_checked_spec E Call.H5Dopen2 (List.range s.ndsets) s4
  generalize (List.range s.ndsets).foldl (fun s k => checked E (Call.H5Dopen2 k) s) s4 = s5 at *
  obtain ⟨f1, f2, f3⟩ := unchecked_spec Call.MPI_Barrier s5
  refine ⟨((((a1.same_trans b1).same_trans c1).same_trans d1).same_trans e1).same_trans f1, ?_, by omega⟩
  rw [f2, e2, d2, c2, b2, a2]
  simp [reopen_calls, List.append_assoc]

/-! ## The beginning of an operation (lines 275-316) -/

theorem op_begin_spec (E : Env) (s : State) :
    (op_begin E s).2 = decide (E.random s.pos % 2 ≠ 0) ∧
    (op_begin E s).1.pos = s.pos + 1 ∧
    (op_begin E s).1.last_read = (op_begin E s).2 ∧
    (op_begin E s).1.ndsets = s.ndsets ∧ (op_begin E s).1.dset_dims = s.dset_dims ∧
    (op_begin E s).1.rbuf = s.rbuf ∧ (op_begin E s).1.erbuf = s.erbuf ∧
    (op_begin E s).1.wbuf = s.wbuf ∧ (op_begin E s).1.efbuf = s.efbuf ∧
    (op_begin E s).1.dset_usage = s.dset_usage ∧
    (op_begin E s).1.log = s.log ++ Call.MPI_Barrier ::
      (if s.last_read = true then [] else reopen_calls s.ndsets) ∧
    s.nerrors ≤ (op_begin E s).1.nerrors := by
  have key : ∃ s2, op_begin E s =
      ({ s2 with last_read := decide (E.random s.pos % 2 ≠ 0) }, decide (E.random s.pos % 2 ≠ 0)) ∧
      SameData { s with pos := s.pos + 1 } s2 ∧
      s2.log = s.log ++ Call.MPI_Barrier ::
        (if s.last_read = true then [] else reopen_calls s.ndsets) ∧
      s.nerrors ≤ s2.nerrors := by
    by_cases hl : s.last_read = true
    · refine ⟨unchecked Call.MPI_Barrier { s with pos := s.pos + 1 }, ?_, SameData.same_refl _, ?_,
        Nat.le_refl _⟩
      · unfold op_begin
        have : (!(unchecked Call.MPI_Barrier { s with pos := s.pos + 1 }).last_read) = false := by
          show (!s.last_read) = false
          rw [hl]; rfl
        simp only [this, Bool.false_eq_true, if_false]
      · rw [if_pos hl]; rfl
    · refine ⟨reopen E (unchecked Call.MPI_Barrier { s with pos := s.pos + 1 }), ?_, ?_, ?_, ?_⟩
      · unfold op_begin
        have : (!(unchecked Call.MPI_Barrier { s with pos := s.pos + 1 }).last_read) = true := by
          show (!s.last_read) = true
          cases h : s.last_read
          · rfl
          · exact absurd h hl
        simp only [this, if_true]
      · exact (reopen_spec E _).1
      · rw [if_neg hl, (reopen_spec E _).2.1]
        show (s.log ++ [Call.MPI_Barrier]) ++ reopen_calls s.ndsets = _
        simp
      · exact (reopen_spec E (unchecked Call.MPI_Barrier { s with pos := s.pos + 1 })).2.2
  obtain ⟨s2, e, ⟨a1, a2, a3, a4, a5, a6, a7, a8, a9, -⟩, hlog, hn⟩ := key
  rw [e]
  exact ⟨rfl, a1, rfl, a2, a3, a5, a6, a7, a8, a9, hlog, hn⟩

/-! ## The I/O call and what follows it (lines 486-528) -/

theorem read_cells_spec (file : Nat → Nat → Nat → Nat) (k : Nat) (cs : List (Nat × Nat))
    (rb : Nat → Nat) (hin : ∀ c ∈ cs, c.1 < MAX_DSET_X ∧ c.2 < MAX_DSET_Y) :
    (∀ c ∈ cs, cs.foldl (fun b c => set b (idx k c.1 c.2) (file k c.1 c.2)) rb (idx k c.1 c.2)
      = file k c.1 c.2) ∧
    (∀ j, (∀ c ∈ cs, j ≠ idx k c.1 c.2) →
      cs.foldl (fun b c => set b (idx k c.1 c.2) (file k c.1 c.2)) rb j = rb j) := by
  induction cs generalizing rb with
  | nil => exact ⟨by simp, fun _ _ => rfl⟩
  | cons a cs ih =>
    obtain ⟨i1, i2⟩ := ih (set rb (idx k a.1 a.2) (file k a.1 a.2))
      (fun c hc => hin c (List.mem_cons_of_mem a hc))
    simp only [List.foldl_cons]
    constructor
    · intro c hc
      rcases List.mem_cons.1 hc with h | h
      · subst h
        by_cases hcov : ∃ c' ∈ cs, idx k c.1 c.2 = idx k c'.1 c'.2
        · obtain ⟨c', hc', he⟩ := hcov
          have hb := hin c (List.mem_cons_self _ _)
          have hb' := hin c' (List.mem_cons_of_mem _ hc')
          obtain ⟨-, e1, e2⟩ := idx_inj k c.1 c.2 k c'.1 c'.2 hb.1 hb.2 hb'.1 hb'.2 he
          have hcc : c = c' := Prod.ext e1 e2
          subst hcc
          exact i1 c hc'
        · rw [i2 _ (fun c' hc' he => hcov ⟨c', hc', he⟩), set_same]
      · exact i1 c h
    · intro j hj
      rw [i2 j (fun c hc => hj c (List.mem_cons_of_mem a hc)),
        set_other _ _ _ _ (hj a (List.mem_cons_self _ _))]

theorem read_into_succ (file : Nat → Nat → Nat → Nat) (n : Nat) (sp : Nat → List Sel)
    (rb : Nat → Nat) :
    read_into file (n + 1) sp rb =
      (sel_cells (sp n)).foldl (fun b c => set b (idx n c.1 c.2) (file n c.1 c.2))
        (read_into file n sp rb) := by
  unfold read_into
  rw [List.range_succ, List.foldl_append]
  rfl

/-- A read leaves in the read buffer the stored value of every selected cell and nothing
else. -/
theorem read_into_spec (file : Nat → Nat → Nat → Nat) (n : Nat) (sp : Nat → List Sel)
    (rb : Nat → Nat)
    (hin : ∀ k, k < n → ∀ c ∈ sel_cells (sp k), c.1 < MAX_DSET_X ∧ c.2 < MAX_DSET_Y) :
    (∀ k, k < n → ∀ c ∈ sel_cells (sp k), read_into file n sp rb (idx k c.1 c.2) = file k c.1 c.2) ∧
    (∀ j, (∀ k, k < n → ∀ c ∈ sel_cells (sp k), j ≠ idx k c.1 c.2) →
      read_into file n sp rb j = rb j) := by
  induction n with
  | zero => exact ⟨fun k hk => absurd hk (Nat.not_lt_zero k), fun _ _ => rfl⟩
  | succ n ih =>
    obtain ⟨i1, i2⟩ := ih (fun k hk => hin k (Nat.lt_succ_of_lt hk))
    obtain ⟨r1, r2⟩ := read_cells_spec file n (sel_cells (sp n)) (read_into file n sp rb)
      (hin n (Nat.lt_succ_self n))
    rw [read_into_succ]
    constructor
    · intro k hk c hc
      by_cases hkn : k = n
      · subst hkn; exact r1 c hc
      · rw [r2, i1 k (by omega) c hc]
        intro c' hc' he
        have hb := hin k hk c hc
        have hb' := hin n (Nat.lt_succ_self n) c' hc'
        exact hkn (idx_inj k c.1 c.2 n c'.1 c'.2 hb.1 hb.2 hb'.1 hb'.2 he).1
    · intro j hj
      rw [r2 j (hj n (Nat.lt_succ_self n)), i2 j (fun k hk => hj k (Nat.lt_succ_of_lt hk))]

theorem op_io_read (E : Env) (flags : Nat) (file : Nat → Nat → Nat → Nat) (s : State) :
    (op_io E flags true file s).rbuf =
      read_into file (if has_flag flags MDSET_FLAG_MDSET = true then s.ndsets else 1)
        s.dset_space s.rbuf ∧
    (op_io E flags true file s).pos = s.pos ∧ (op_io E flags true file s).ndsets = s.ndsets ∧
    (op_io E flags true file s).dset_dims = s.dset_dims ∧
    (op_io E flags true file s).erbuf = s.erbuf ∧ (op_io E flags true file s).wbuf = s.wbuf ∧
    (op_io E flags true file s).efbuf = s.efbuf ∧
    (op_io E flags true file s).dset_usage = s.dset_usage ∧
    (op_io E flags true file s).last_read = s.last_read ∧
    (op_io E flags true file s).dset_space = s.dset_space ∧
    (op_io E flags true file s).log =
      s.log ++ [if has_flag flags MDSET_FLAG_MDSET = true then Call.H5Dread_multi
        else Call.H5Dread] ∧
    (op_io E flags true file s).nerrors =
      s.nerrors + (if E.failed s.log.length = true then 1 else 0) +
        (if memcmp_ne (read_into file
          (if has_flag flags MDSET_FLAG_MDSET = true then s.ndsets else 1)
          s.dset_space s.rbuf) s.erbuf (buf_len flags) = true then 1 else 0) := by
  unfold op_io
  simp only [if_true]
  by_cases hm : has_flag flags MDSET_FLAG_MDSET = true
  · rw [if_pos hm, if_pos hm, if_pos hm]
    by_cases hc : memcmp_ne (read_into file s.ndsets s.dset_space s.rbuf) s.erbuf (buf_len flags) = true
    · have hc' : memcmp_ne (checked E Call.H5Dread_multi
          { s with rbuf := read_into file s.ndsets s.dset_space s.rbuf }).rbuf
          (checked E Call.H5Dread_multi
          { s with rbuf := read_into file s.ndsets s.dset_space s.rbuf }).erbuf (buf_len flags) = true := hc
      rw [if_pos hc', if_pos hc]
      refine ⟨rfl, rfl, rfl, rfl, rfl, rfl, rfl, rfl, rfl, rfl, rfl, ?_⟩
      simp only [checked]
      split <;> rfl
    · have hc' : ¬ memcmp_ne (checked E Call.H5Dread_multi
          { s with rbuf := read_into file s.ndsets s.dset_space s.rbuf }).rbuf
          (checked E Call.H5Dread_multi
          { s with rbuf := read_into file s.ndsets s.dset_space s.rbuf }).erbuf (buf_len flags) = true := hc
      rw [if_neg hc', if_neg hc]
      refine ⟨rfl, rfl, rfl, rfl, rfl, rfl, rfl, rfl, rfl, rfl, rfl, ?_⟩
      simp only [checked]
      split <;> rfl
  · rw [if_neg hm, if_neg hm, if_neg hm]
    by_cases hc : memcmp_ne (read_into file 1 s.dset_space s.rbuf) s.erbuf (buf_len flags) = true
    · have hc' : memcmp_ne (checked E Call.H5Dread
          { s with rbuf := read_into file 1 s.dset_space s.rbuf }).rbuf
          (checked E Call.H5Dread
          { s with rbuf := read_into file 1 s.dset_space s.rbuf }).erbuf (buf_len flags) = true := hc
      rw [if_pos hc', if_pos hc]
      refine ⟨rfl, rfl, rfl, rfl, rfl, rfl, rfl, rfl, rfl, rfl, rfl, ?_⟩
      simp only [checked]
      split <;> rfl
    · have hc' : ¬ memcmp_ne (checked E Call.H5Dread
          { s with rbuf := read_into file 1 s.dset_space s.rbuf }).rbuf
          (checked E Call.H5Dread
          { s with rbuf := read_into file 1 s.dset_space s.rbuf }).erbuf (buf_len flags) = true := hc
      rw [if_neg hc', if_neg hc]
      refine ⟨rfl, rfl, rfl, rfl, rfl, rfl, rfl, rfl, rfl, rfl, rfl, ?_⟩
      simp only [checked]
      split <;> rfl

theorem op_io_write (E : Env) (flags : Nat) (file : Nat → Nat → Nat → Nat) (s : State) :
    (op_io E flags false file s).wbuf =
      (fun p => if p < buf_len flags then
        to_unsigned ((s.wbuf p : Int) + (op_data_incr E flags : Int)) else s.wbuf p) ∧
    (op_io E flags false file s).pos = s.pos ∧ (op_io E flags false file s).ndsets = s.ndsets ∧
    (op_io E flags false file s).dset_dims = s.dset_dims ∧
    (op_io E flags false file s).erbuf = s.erbuf ∧ (op_io E flags false file s).rbuf = s.rbuf ∧
    (op_io E flags false file s).efbuf = s.efbuf ∧
    (op_io E flags false file s).dset_usage = s.dset_usage ∧
    (op_io E flags false file s).last_read = s.last_read ∧
    (op_io E flags false file s).dset_space = s.dset_space ∧
    (op_io E flags false file s).log =
      s.log ++ [if has_flag flags MDSET_FLAG_MDSET = true then Call.H5Dwrite_multi
        else Call.H5Dwrite] ∧
    (op_io E flags false file s).nerrors =
      s.nerrors + (if E.failed s.log.length = true then 1 else 0) := by
  have hw : ∀ w : Nat → Nat, for_cells (max_dsets flags)
      (fun l m n wbuf => set wbuf (idx l m n)
        (to_unsigned ((wbuf (idx l m n) : Int) + (op_data_incr E flags : Int)))) w =
      (fun p => if p < buf_len flags then
        to_unsigned ((w p : Int) + (op_data_incr E flags : Int)) else w p) := by
    intro w
    rw [for_cells_update (fun _ old => to_unsigned ((old : Int) + (op_data_incr E flags : Int)))
      (max_dsets flags) w, buf_len_eq]
  unfold op_io
  simp only [Bool.false_eq_true, if_false]
  by_cases hm : has_flag flags MDSET_FLAG_MDSET = true
  · rw [if_pos hm, if_pos hm]
    refine ⟨hw _, rfl, rfl, rfl, rfl, rfl, rfl, rfl, rfl, rfl, rfl, ?_⟩
    simp only [checked]
    split <;> rfl
  · rw [if_neg hm, if_neg hm]
    refine ⟨hw _, rfl, rfl, rfl, rfl, rfl, rfl, rfl, rfl, rfl, rfl, ?_⟩
    simp only [checked]
    split <;> rfl

/-! ## The start of a lifetime (lines 224-271) -/

/-- Number of `HDrandom()` calls made for one dataset at creation. -/
theorem create_dset_spec (E : Env) (flags j : Nat) (s : State) :
    (create_dset E flags j s).pos =
      s.pos + (if has_flag flags MDSET_FLAG_CHUNK = true then 4 else 2) ∧
    (create_dset E flags j s).dset_dims j 0 = E.random s.pos % MAX_DSET_X + 1 ∧
    (create_dset E flags j s).dset_dims j 1 = E.random (s.pos + 1) % MAX_DSET_Y + 1 ∧
    (∀ j' d, j' ≠ j → (create_dset E flags j s).dset_dims j' d = s.dset_dims j' d) ∧
    (create_dset E flags j s).ndsets = s.ndsets ∧ (create_dset E flags j s).rbuf = s.rbuf ∧
    (create_dset E flags j s).erbuf = s.erbuf ∧ (create_dset E flags j s).wbuf = s.wbuf ∧
    (create_dset E flags j s).efbuf = s.efbuf ∧
    (create_dset E flags j s).last_read = s.last_read ∧
    s.nerrors ≤ (create_dset E flags j s).nerrors := by
  unfold create_dset
  simp only
  by_cases hc : has_flag flags MDSET_FLAG_CHUNK = true
  · rw [if_pos hc, if_pos hc]
    refine ⟨rfl, ?_, ?_, ?_, rfl, rfl, rfl, rfl, rfl, rfl, ?_⟩
    · simp [checked, set2_apply]
    · simp [checked, set2_apply]
    · intro j' d hj
      simp [checked, set2_apply, hj]
    · simp only [checked]
      split <;> split <;> split <;> omega
  · rw [if_neg hc, if_neg hc]
    refine ⟨rfl, ?_, ?_, ?_, rfl, rfl, rfl, rfl, rfl, rfl, ?_⟩
    · simp [checked, set2_apply]
    · simp [checked, set2_apply]
    · intro j' d hj
      simp [checked, set2_apply, hj]
    · simp only [checked]
      split <;> split <;> omega

theorem create_loop_spec (E : Env) (flags n : Nat) (s : State) :
    ((List.range n).foldl (fun s j => create_dset E flags j s) s).pos =
      s.pos + n * (if has_flag flags MDSET_FLAG_CHUNK = true then 4 else 2) ∧
    (∀ j, j < n →
      ((List.range n).foldl (fun s j => create_dset E flags j s) s).dset_dims j 0 =
        E.random (s.pos + j * (if has_flag flags MDSET_FLAG_CHUNK = true then 4 else 2))
          % MAX_DSET_X + 1 ∧
      ((List.range n).foldl (fun s j => create_dset E flags j s) s).dset_dims j 1 =
        E.random (s.pos + j * (if has_flag flags MDSET_FLAG_CHUNK = true then 4 else 2) + 1)
          % MAX_DSET_Y + 1) ∧
    (∀ j d, n ≤ j →
      ((List.range n).foldl (fun s j => create_dset E flags j s) s).dset_dims j d =
        s.dset_dims j d) ∧
    ((List.range n).foldl (fun s j => create_dset E flags j s) s).ndsets = s.ndsets ∧
    ((List.range n).foldl (fun s j => create_dset E flags j s) s).rbuf = s.rbuf ∧
    ((List.range n).foldl (fun s j => create_dset E flags j s) s).erbuf = s.erbuf ∧
    ((List.range n).foldl (fun s j => create_dset E flags j s) s).wbuf = s.wbuf ∧
    ((List.range n).foldl (fun s j => create_dset E flags j s) s).efbuf = s.efbuf ∧
    ((List.range n).foldl (fun s j => create_dset E flags j s) s).last_read = s.last_read ∧
    s.nerrors ≤ ((List.range n).foldl (fun s j => create_dset E flags j s) s).nerrors := by
  induction n with
  | zero =>
    exact ⟨by simp, fun j hj => absurd hj (Nat.not_lt_zero j), fun _ _ _ => rfl, rfl, rfl, rfl, rfl,
      rfl, rfl, Nat.le_refl _⟩
  | succ n ih =>
    obtain ⟨i1, i2, i3, i4, i5, i6, i7, i8, i9, i10⟩ := ih
    rw [List.range_succ, List.foldl_append]
    simp only [List.foldl_cons, List.foldl_nil]
    obtain ⟨c1, c2, c3, c4, c5, c6, c7, c8, c9, c10, c11⟩ := create_dset_spec E flags n
      ((List.range n).foldl (fun s j => create_dset E flags j s) s)
    generalize (List.range n).foldl (fun s j => create_dset E flags j s) s = t at *
    refine ⟨by rw [c1, i1, Nat.succ_mul]; omega, ?_, ?_, c5.trans i4, c6.trans i5, c7.trans i6,
      c8.trans i7, c9.trans i8, c10.trans i9, by omega⟩
    · intro j hj
      by_cases hjn : j = n
      · subst hjn
        rw [c2, c3, i1]
        exact ⟨rfl, rfl⟩
      · rw [c4 j 0 hjn, c4 j 1 hjn]
        exact i2 j (by omega)
    · intro j d hj
      rw [c4 j d (by omega)]
      exact i3 j d (by omega)

/-- The state at the start of a lifetime. -/
theorem lifetime_init_spec (E : Env) (flags : Nat) (s : State) :
    (lifetime_init E flags s).ndsets =
      (if has_flag flags MDSET_FLAG_MDSET = true then E.random s.pos % max_dsets flags + 1 else 1) ∧
    (lifetime_init E flags s).pos =
      (if has_flag flags MDSET_FLAG_MDSET = true then s.pos + 1 else s.pos) +
        (lifetime_init E flags s).ndsets *
          (if has_flag flags MDSET_FLAG_CHUNK = true then 4 else 2) ∧
    (∀ j, j < (lifetime_init E flags s).ndsets →
      (lifetime_init E flags s).dset_dims j 0 =
        E.random ((if has_flag flags MDSET_FLAG_MDSET = true then s.pos + 1 else s.pos) +
          j * (if has_flag flags MDSET_FLAG_CHUNK = true then 4 else 2)) % MAX_DSET_X + 1 ∧
      (lifetime_init E flags s).dset_dims j 1 =
        E.random ((if has_flag flags MDSET_FLAG_MDSET = true then s.pos + 1 else s.pos) +
          j * (if has_flag flags MDSET_FLAG_CHUNK = true then 4 else 2) + 1) % MAX_DSET_Y + 1) ∧
    (lifetime_init E flags s).rbuf = memset0 s.rbuf (buf_len flags) ∧
    (lifetime_init E flags s).erbuf = memset0 s.erbuf (buf_len flags) ∧
    (lifetime_init E flags s).efbuf = memset0 s.efbuf (buf_len flags) ∧
    (lifetime_init E flags s).wbuf =
      (fun p => if p < buf_len flags then
        to_unsigned (((E.mpi_rank * max_dsets flags * MAX_DSET_X * MAX_DSET_Y + p : Nat) : Int))
        else s.wbuf p) ∧
    (lifetime_init E flags s).last_read = true ∧
    s.nerrors ≤ (lifetime_init E flags s).nerrors := by
  have hbody : (fun (j k l : Nat) (wbuf : Nat → Nat) => set wbuf (idx j k l)
      (to_unsigned ((E.mpi_rank * max_dsets flags * MAX_DSET_X * MAX_DSET_Y
        + j * MAX_DSET_X * MAX_DSET_Y + k * MAX_DSET_Y + l : Nat) : Int))) =
      (fun (j k l : Nat) (wbuf : Nat → Nat) => set wbuf (idx j k l)
        ((fun p _ => to_unsigned ((E.mpi_rank * max_dsets flags * MAX_DSET_X * MAX_DSET_Y + p : Nat)
          : Int)) (idx j k l) (wbuf (idx j k l)))) := by
    funext j k l w
    have : E.mpi_rank * max_dsets flags * MAX_DSET_X * MAX_DSET_Y
        + j * MAX_DSET_X * MAX_DSET_Y + k * MAX_DSET_Y + l =
        E.mpi_rank * max_dsets flags * MAX_DSET_X * MAX_DSET_Y + idx j k l := by
      simp only [idx, MAX_DSET_X, MAX_DSET_Y]
      ring
    simp only [this]
  have hex : ∃ s2, s2.pos = (if has_flag flags MDSET_FLAG_MDSET = true then s.pos + 1 else s.pos) ∧
      s2.ndsets = (if has_flag flags MDSET_FLAG_MDSET = true
        then E.random s.pos % max_dsets flags + 1 else 1) ∧
      s2.rbuf = s.rbuf ∧ s2.erbuf = s.erbuf ∧ s2.efbuf = s.efbuf ∧ s2.wbuf = s.wbuf ∧
      s.nerrors ≤ s2.nerrors ∧
      lifetime_init E flags s =
        (let s3 := (List.range s2.ndsets).foldl (fun s j => create_dset E flags j s) s2
         { s3 with
           rbuf := memset0 s3.rbuf (buf_len flags)
           erbuf := memset0 s3.erbuf (buf_len flags)
           wbuf := for_cells (max_dsets flags)
            (fun j k l wbuf => set wbuf (idx j k l)
              (to_unsigned ((E.mpi_rank * max_dsets flags * MAX_DSET_X * MAX_DSET_Y
                + j * MAX_DSET_X * MAX_DSET_Y + k * MAX_DSET_Y + l : Nat) : Int))) s3.wbuf
           efbuf := memset0 s3.efbuf (buf_len flags)
           last_read := true }) := by
    by_cases hm : has_flag flags MDSET_FLAG_MDSET = true
    · refine ⟨checked E .H5Fcreate
        { s with ndsets := E.random s.pos % max_dsets flags + 1, pos := s.pos + 1 }, ?_, ?_, rfl, rfl,
        rfl, rfl, (checked_spec E .H5Fcreate
          { s with ndsets := E.random s.pos % max_dsets flags + 1, pos := s.pos + 1 }).2.2, ?_⟩
      · rw [if_pos hm]; rfl
      · rw [if_pos hm]; rfl
      · unfold lifetime_init
        rw [if_pos hm]
    · refine ⟨checked E .H5Fcreate { s with ndsets := 1 }, ?_, ?_, rfl, rfl, rfl, rfl,
        (checked_spec E .H5Fcreate { s with ndsets := 1 }).2.2, ?_⟩
      · rw [if_neg hm]; rfl
      · rw [if_neg hm]; rfl
      · unfold lifetime_init
        rw [if_neg hm]
  obtain ⟨s2, p1, p2, p3, p4, p5, p6, p7, e⟩ := hex
  obtain ⟨c1, c2, c3, c4, c5, c6, c7, c8, c9, c10⟩ := create_loop_spec E flags s2.ndsets s2
  rw [e]
  simp only
  generalize (List.range s2.ndsets).foldl (fun s j => create_dset E flags j s) s2 = s3 at *
  refine ⟨c4.trans p2, ?_, ?_, by rw [c5, p3], by rw [c6, p4], by rw [c8, p5], ?_, trivial,
    by omega⟩
  · show s3.pos = _ + s3.ndsets * _
    rw [c1, c4, p1]
  · intro j hj
    have hj' : j < s2.ndsets := by rw [← c4]; exact hj
    obtain ⟨d0, d1⟩ := c2 j hj'
    show s3.dset_dims j 0 = _ ∧ s3.dset_dims j 1 = _
    rw [d0, d1, p1]
    exact ⟨rfl, rfl⟩
  · show for_cells _ _ s3.wbuf = _
    rw [hbody]
    refine (for_cells_update (fun p _ => to_unsigned
      ((E.mpi_rank * max_dsets flags * MAX_DSET_X * MAX_DSET_Y + p : Nat) : Int))
      (max_dsets flags) s3.wbuf).trans ?_
    rw [c7, p6, buf_len_eq]

/-! ## The ideal store -/

theorem ideal_write_hit (size : Nat) (writes : Nat → Bool) (cells : Nat → Nat → List (Nat × Nat))
    (wbuf : Nat → Nat → Nat) (store : Nat → Nat → Nat → Nat) (k x y l : Nat)
    (hl : l < size) (hw : writes l = true) (hc : (x, y) ∈ cells l k)
    (huniq : ∀ a, a < size → writes a = true → (x, y) ∈ cells a k → a = l) :
    ideal_write size writes cells wbuf store k x y = wbuf l (idx k x y) := by
  unfold ideal_write
  cases h : (List.range size).find? (fun a => writes a && decide ((x, y) ∈ cells a k)) with
  | none =>
    rw [List.find?_eq_none] at h
    have := h l (List.mem_range.2 hl)
    simp [hw, hc] at this
  | some a =>
    have h1 := List.find?_some h
    have h2 := List.mem_range.1 (List.mem_of_find?_eq_some h)
    simp only [Bool.and_eq_true, decide_eq_true_eq] at h1
    rw [huniq a h2 h1.1 h1.2]

theorem ideal_write_miss (size : Nat) (writes : Nat → Bool) (cells : Nat → Nat → List (Nat × Nat))
    (wbuf : Nat → Nat → Nat) (store : Nat → Nat → Nat → Nat) (k x y : Nat)
    (h : ∀ a, a < size → ¬ (writes a = true ∧ (x, y) ∈ cells a k)) :
    ideal_write size writes cells wbuf store k x y = store k x y := by
  unfold ideal_write
  have : (List.range size).find? (fun a => writes a && decide ((x, y) ∈ cells a k)) = none := by
    rw [List.find?_eq_none]
    intro a ha
    have := h a (List.mem_range.1 ha)
    simpa using this
  rw [this]

/-! ## Arithmetic of the write buffer -/

/-- The value of the write buffer of rank `r` at offset `p` after `t` writes. -/
theorem wbuf_step (r n p t size : Nat) :
    to_unsigned ((to_unsigned ((r * n + p + t * (n * size) : Nat) : Int) : Int) +
      (to_unsigned ((n * size : Nat) : Int) : Int)) =
    to_unsigned ((r * n + p + (t + 1) * (n * size) : Nat) : Int) := by
  apply to_unsigned_congr
  have h1 := to_unsigned_modEq ((r * n + p + t * (n * size) : Nat) : Int)
  have h2 := to_unsigned_modEq ((n * size : Nat) : Int)
  refine (h1.add h2).trans ?_
  have : ((r * n + p + t * (n * size) : Nat) : Int) + ((n * size : Nat) : Int) =
      ((r * n + p + (t + 1) * (n * size) : Nat) : Int) := by
    push_cast; ring
  rw [this]

/-- The rank-difference term turns the own write-buffer value into that of the acting rank. -/
theorem wbuf_shift (r l n p q : Nat) :
    to_unsigned ((to_unsigned ((r * n + p + q : Nat) : Int) : Int) +
      ((n : Nat) : Int) * ((l : Int) - (r : Int))) =
    to_unsigned ((l * n + p + q : Nat) : Int) := by
  apply to_unsigned_congr
  have h1 := to_unsigned_modEq ((r * n + p + q : Nat) : Int)
  refine (h1.add (Int.ModEq.refl _)).trans ?_
  have : ((r * n + p + q : Nat) : Int) + ((n : Nat) : Int) * ((l : Int) - (r : Int)) =
      ((l * n + p + q : Nat) : Int) := by
    push_cast; ring
  rw [this]

/-! ## One process in a write operation: the oracle holds the value of the acting rank -/

theorem op_select_sync (E E' : Env) (flags : Nat) (do_read : Bool) (s s' : State)
    (hR : E.random = E'.random) (hsz : E.mpi_size = E'.mpi_size) (hp : s.pos = s'.pos)
    (hn : s.ndsets = s'.ndsets) (hnd : s.ndsets ≤ max_dsets flags)
    (hdims : ∀ k, k < s.ndsets →
      s.dset_dims k 0 = s'.dset_dims k 0 ∧ s.dset_dims k 1 = s'.dset_dims k 1 ∧ dims_ok s k) :
    (op_select E flags do_read s).1.pos = (op_select E' flags do_read s').1.pos ∧
    (op_select E flags do_read s).2 = (op_select E' flags do_read s').2 := by
  unfold op_select
  rw [← hn]
  apply dset_loop_sync E E' flags do_read s.ndsets 0 s s' hR hsz hp
  intro k _ hk
  obtain ⟨d0, d1, d2⟩ := hdims k (by omega)
  exact ⟨d0, d1, d2, by omega⟩

theorem op_select_spec (E : Env) (flags : Nat) (do_read : Bool) (s : State) :
    Frame s (op_select E flags do_read s).1 ∧
    s.pos ≤ (op_select E flags do_read s).1.pos ∧
    LogExt Call.is_select s (op_select E flags do_read s).1 ∧
    (do_read = true → (op_select E flags do_read s).1.dset_usage = s.dset_usage ∧
      (op_select E flags do_read s).1.efbuf = s.efbuf ∧
      Filled (fun l => l = E.mpi_rank) (op_cells 0 (op_select E flags do_read s).2)
        s.efbuf s.erbuf (op_select E flags do_read s).1.erbuf) ∧
    (do_read = false → (op_select E flags do_read s).1.erbuf = s.erbuf ∧
      Written E flags s.wbuf (op_cells 0 (op_select E flags do_read s).2)
        s.efbuf (op_select E flags do_read s).1.efbuf ∧
      NoOverlap (op_cells 0 (op_select E flags do_read s).2)) ∧
    (∀ k' c, c ∈ sel_cells ((op_select E flags do_read s).1.dset_space k') ↔
      if k' < s.ndsets then
        (k', E.mpi_rank, c.1, c.2) ∈ op_cells 0 (op_select E flags do_read s).2
      else c ∈ sel_cells (s.dset_space k')) ∧
    ((∀ k, k < s.ndsets → dims_ok s k) →
      ∀ t ∈ op_cells 0 (op_select E flags do_read s).2,
        t.2.2.1 < s.dset_dims t.1 0 ∧ t.2.2.2 < s.dset_dims t.1 1) := by
  obtain ⟨a1, a2, a3, -, a5, a6, a7, a8⟩ := dset_loop_spec E flags do_read s.ndsets 0 s
  refine ⟨a1, a2, a3, a5, a6, ?_, fun hd => a8 (fun k _ hk => hd k (by omega))⟩
  intro k' c
  have := a7 k' c
  simp only [Nat.zero_le, true_and, Nat.zero_add] at this
  exact this

/-- In a write operation the expected-file buffer of the observing process ends up, at every
accepted cell, with the write-buffer value of the rank the cell was accepted for. -/
theorem write_oracle (E : Env) (flags tw : Nat) (s : State)
    (hd : ∀ k, k < s.ndsets → dims_ok s k) (hnd : s.ndsets ≤ max_dsets flags)
    (hw : ∀ p, p < buf_len flags → s.wbuf p = wbuf_value flags E.mpi_size E.mpi_rank tw p) :
    (∀ t ∈ op_cells 0 (op_select E flags false s).2,
      (op_select E flags false s).1.efbuf (idx t.1 t.2.2.1 t.2.2.2) =
        wbuf_value flags E.mpi_size t.2.1 tw (idx t.1 t.2.2.1 t.2.2.2)) ∧
    (∀ j, (∀ t ∈ op_cells 0 (op_select E flags false s).2, j ≠ idx t.1 t.2.2.1 t.2.2.2) →
      (op_select E flags false s).1.efbuf j = s.efbuf j) := by
  obtain ⟨-, -, -, -, a5, -, a7⟩ := op_select_spec E flags false s
  obtain ⟨-, b2, b3⟩ := a5 rfl
  have hb := a7 hd
  have hin : ∀ t ∈ op_cells 0 (op_select E flags false s).2,
      t.1 < max_dsets flags ∧ t.2.2.1 < MAX_DSET_X ∧ t.2.2.2 < MAX_DSET_Y := by
    intro t ht
    have h1 := (op_cells_rank_lt E flags false s t ht).1
    have h2 := hb t ht
    have h3 := hd t.1 h1
    exact ⟨by omega, Nat.lt_of_lt_of_le h2.1 h3.1.2, Nat.lt_of_lt_of_le h2.2 h3.2.2⟩
  constructor
  · intro t0 ht0
    rcases b2 (idx t0.1 t0.2.2.1 t0.2.2.2) with ⟨t, ht, hj, hv⟩ | ⟨hn, -⟩
    · obtain ⟨i0, x0, y0⟩ := hin t0 ht0
      obtain ⟨i1, x1, y1⟩ := hin t ht
      obtain ⟨e1, e2, e3⟩ := idx_inj _ _ _ _ _ _ x0 y0 x1 y1 hj
      have hl : t0.2.1 = t.2.1 := b3 t0 ht0 t ht e1 (Prod.ext e2 e3)
      rw [hv, efbuf_value_eq, hw _ (idx_lt flags _ _ _ i0 x0 y0), hl]
      unfold wbuf_value
      have := wbuf_shift E.mpi_rank t.2.1 (buf_len flags) (idx t0.1 t0.2.2.1 t0.2.2.2)
        (tw * (buf_len flags * E.mpi_size))
      simp only [Nat.add_assoc] at this ⊢
      exact this
    · exact absurd rfl (hn t0 ht0)
  · intro j hj
    rcases b2 j with ⟨t, ht, hjt, -⟩ | ⟨-, hv⟩
    · exact absurd hjt (hj t ht)
    · exact hv

/-! ## One process, one operation -/

theorem operation_eq (E : Env) (flags : Nat) (file : Nat → Nat → Nat → Nat) (s : State) :
    operation E flags file s =
      op_io E flags (op_begin E s).2 file (op_select E flags (op_begin E s).2 (op_begin E s).1).1 :=
  rfl

theorem dims_ok_begin (E : Env) (s : State) (k : Nat) (h : dims_ok s k) :
    dims_ok (op_begin E s).1 k :=
  dims_ok_congr (op_begin_spec E s).2.2.2.2.1 h

theorem op_data_incr_eq (E : Env) (flags : Nat) :
    op_data_incr E flags = to_unsigned ((buf_len flags * E.mpi_size : Nat) : Int) := rfl

theorem operation_write (E : Env) (flags tw : Nat) (file : Nat → Nat → Nat → Nat) (s : State)
    (hd : ∀ k, k < s.ndsets → dims_ok s k) (hnd : s.ndsets ≤ max_dsets flags)
    (hw : ∀ p, p < buf_len flags → s.wbuf p = wbuf_value flags E.mpi_size E.mpi_rank tw p)
    (hdo : (op_begin E s).2 = false) :
    (operation E flags file s).ndsets = s.ndsets ∧
    (operation E flags file s).dset_dims = s.dset_dims ∧
    (operation E flags file s).pos = (op_select E flags false (op_begin E s).1).1.pos ∧
    (∀ p, p < buf_len flags →
      (operation E flags file s).wbuf p = wbuf_value flags E.mpi_size E.mpi_rank (tw + 1) p) ∧
    (operation E flags file s).rbuf = s.rbuf ∧ (operation E flags file s).erbuf = s.erbuf ∧
    (∀ t ∈ op_cells 0 (op_select E flags false (op_begin E s).1).2,
      (operation E flags file s).efbuf (idx t.1 t.2.2.1 t.2.2.2) =
        wbuf_value flags E.mpi_size t.2.1 tw (idx t.1 t.2.2.1 t.2.2.2)) ∧
    (∀ j, (∀ t ∈ op_cells 0 (op_select E flags false (op_begin E s).1).2,
        j ≠ idx t.1 t.2.2.1 t.2.2.2) → (operation E flags file s).efbuf j = s.efbuf j) := by
  obtain ⟨-, b2, b3, b4, b5, b6, b7, b8, b9, b10, -, -⟩ := op_begin_spec E s
  rw [operation_eq, hdo]
  generalize (op_begin E s).1 = sb at *
  have hd' : ∀ k, k < sb.ndsets → dims_ok sb k := fun k hk =>
    dims_ok_congr b5 (hd k (by rw [← b4]; exact hk))
  have hw' : ∀ p, p < buf_len flags → sb.wbuf p = wbuf_value flags E.mpi_size E.mpi_rank tw p := by
    intro p hp; rw [b8]; exact hw p hp
  obtain ⟨o1, o2⟩ := write_oracle E flags tw sb hd' (by rw [b4]; exact hnd) hw'
  obtain ⟨⟨f1, f2, f3, f4, f5, f6⟩, -, -, -, a5, -⟩ := op_select_spec E flags false sb
  obtain ⟨a51, -, -⟩ := a5 rfl
  obtain ⟨w1, w2, w3, w4, w5, w6, w7, -⟩ :=
    op_io_write E flags file (op_select E flags false sb).1
  generalize op_select E flags false sb = q at *
  refine ⟨by rw [w3, f1, b4], by rw [w4, f2, b5], w2, ?_, by rw [w6, f4, b6],
    by rw [w5, a51, b7], ?_, ?_⟩
  · intro p hp
    rw [w1]
    simp only [if_pos hp]
    rw [f5, hw' p hp, op_data_incr_eq]
    unfold wbuf_value
    exact wbuf_step E.mpi_rank (buf_len flags) p tw E.mpi_size
  · intro t ht
    rw [w7]; exact o1 t ht
  · intro j hj
    rw [w7, o2 j hj, b9]

theorem memcmp_ne_false (a b : Nat → Nat) (n : Nat) (h : ∀ p, p < n → a p = b p) :
    memcmp_ne a b n = false := by
  unfold memcmp_ne
  rw [List.any_eq_false]
  intro p hp
  simp [h p (List.mem_range.1 hp)]

theorem operation_read (E : Env) (flags : Nat) (file : Nat → Nat → Nat → Nat) (s : State)
    (hd : ∀ k, k < s.ndsets → dims_ok s k) (hn1 : 1 ≤ s.ndsets) (hnd : s.ndsets ≤ max_dsets flags)
    (hfile : ∀ k x y, k < s.ndsets → x < s.dset_dims k 0 → y < s.dset_dims k 1 →
      s.efbuf (idx k x y) = file k x y)
    (hrb : ∀ p, p < buf_len flags → s.rbuf p = s.erbuf p)
    (hdo : (op_begin E s).2 = true) :
    (operation E flags file s).ndsets = s.ndsets ∧
    (operation E flags file s).dset_dims = s.dset_dims ∧
    (operation E flags file s).pos = (op_select E flags true (op_begin E s).1).1.pos ∧
    (operation E flags file s).wbuf = s.wbuf ∧ (operation E flags file s).efbuf = s.efbuf ∧
    (∀ p, p < buf_len flags →
      (operation E flags file s).rbuf p = (operation E flags file s).erbuf p) := by
  obtain ⟨-, b2, b3, b4, b5, b6, b7, b8, b9, b10, -, -⟩ := op_begin_spec E s
  rw [operation_eq, hdo]
  generalize (op_begin E s).1 = sb at *
  have hd' : ∀ k, k < sb.ndsets → dims_ok sb k := fun k hk =>
    dims_ok_congr b5 (hd k (by rw [← b4]; exact hk))
  obtain ⟨⟨f1, f2, f3, f4, f5, f6⟩, -, -, a4, -, a6, a7⟩ := op_select_spec E flags true sb
  obtain ⟨a41, a42, a43⟩ := a4 rfl
  have hb := a7 hd'
  obtain ⟨w1, w2, w3, w4, w5, w6, w7, -⟩ := op_io_read E flags file (op_select E flags true sb).1
  have hlt := fun t ht => op_cells_rank_lt E flags true sb t ht
  generalize op_select E flags true sb = q at *
  have hnio : (if has_flag flags MDSET_FLAG_MDSET = true then q.1.ndsets else 1) = sb.ndsets := by
    rw [f1]
    by_cases hm : has_flag flags MDSET_FLAG_MDSET = true
    · rw [if_pos hm]
    · rw [if_neg hm]
      have : max_dsets flags = 1 := by
        unfold max_dsets
        rw [if_neg hm]
      omega
  rw [hnio] at w1
  have hsel : ∀ k, k < sb.ndsets → ∀ c ∈ sel_cells (q.1.dset_space k),
      (k, E.mpi_rank, c.1, c.2) ∈ op_cells 0 q.2 := by
    intro k hk c hc
    have := (a6 k c).1 hc
    rw [if_pos hk] at this
    exact this
  have hin : ∀ k, k < sb.ndsets → ∀ c ∈ sel_cells (q.1.dset_space k),
      c.1 < MAX_DSET_X ∧ c.2 < MAX_DSET_Y := by
    intro k hk c hc
    have h2 := hb _ (hsel k hk c hc)
    have h3 := hd' k hk
    exact ⟨Nat.lt_of_lt_of_le h2.1 h3.1.2, Nat.lt_of_lt_of_le h2.2 h3.2.2⟩
  obtain ⟨r1, r2⟩ := read_into_spec file sb.ndsets q.1.dset_space q.1.rbuf hin
  refine ⟨by rw [w3, f1, b4], by rw [w4, f2, b5], w2, by rw [w6, f5, b8], by rw [w7, a42, b9], ?_⟩
  intro p hp
  rw [w1, w5]
  by_cases hcov : ∃ t ∈ op_cells 0 q.2, t.2.1 = E.mpi_rank ∧ p = idx t.1 t.2.2.1 t.2.2.2
  · rw [(a43 p).1 hcov]
    obtain ⟨t, ht, hr, hp'⟩ := hcov
    have hk := (hlt t ht).1
    have hc : (t.2.2.1, t.2.2.2) ∈ sel_cells (q.1.dset_space t.1) := by
      rw [a6 t.1 _, if_pos hk, ← hr]
      exact ht
    rw [hp', r1 t.1 hk _ hc, b9]
    have h2 := hb t ht
    rw [b4] at hk
    rw [b5] at h2
    exact (hfile t.1 t.2.2.1 t.2.2.2 hk h2.1 h2.2).symm
  · have hn : ∀ t ∈ op_cells 0 q.2, t.2.1 = E.mpi_rank → p ≠ idx t.1 t.2.2.1 t.2.2.2 :=
      fun t ht hr he => hcov ⟨t, ht, hr, he⟩
    rw [(a43 p).2 hn, r2 p (fun k hk c hc he => hn _ (hsel k hk c hc) rfl he), f4, b6, b7]
    exact hrb p hp

/-! ## The group in lockstep -/

theorem io_cells_iff (E : Env) (flags : Nat) (do_read : Bool) (s : State)
    (hn1 : 1 ≤ s.ndsets) (hnd : s.ndsets ≤ max_dsets flags) (k : Nat) (c : Nat × Nat) :
    c ∈ io_cells flags (op_select E flags do_read s).1 k ↔
      (k, E.mpi_rank, c.1, c.2) ∈ op_cells 0 (op_select E flags do_read s).2 := by
  obtain ⟨⟨f1, -⟩, -, -, -, -, a6, -⟩ := op_select_spec E flags do_read s
  have hnio : (if has_flag flags MDSET_FLAG_MDSET = true
      then (op_select E flags do_read s).1.ndsets else 1) = s.ndsets := by
    rw [f1]
    by_cases hm : has_flag flags MDSET_FLAG_MDSET = true
    · rw [if_pos hm]
    · rw [if_neg hm]
      have : max_dsets flags = 1 := by
        unfold max_dsets
        rw [if_neg hm]
      omega
  unfold io_cells
  rw [hnio]
  by_cases hk : k < s.ndsets
  · rw [if_pos hk, a6 k c, if_pos hk]
  · rw [if_neg hk]
    constructor
    · intro h; simp at h
    · intro h
      exact absurd (op_cells_rank_lt E flags do_read s _ h).1 hk

theorem group_op_worker (env : Nat → Env) (flags size : Nat) (g : Group) (r : Nat) :
    (group_op env flags size g).worker r = operation (env r) flags g.store (g.worker r) := rfl

theorem group_op_store (env : Nat → Env) (flags size : Nat) (g : Group) :
    (group_op env flags size g).store =
      ideal_write size (fun a => !(op_begin (env a) (g.worker a)).2)
        (fun a => io_cells flags
          (op_select (env a) flags (op_begin (env a) (g.worker a)).2
            (op_begin (env a) (g.worker a)).1).1)
        (fun a => (op_select (env a) flags (op_begin (env a) (g.worker a)).2
            (op_begin (env a) (g.worker a)).1).1.wbuf) g.store := rfl

theorem group_init_worker (env : Nat → Env) (flags : Nat) (w : Nat → State) (r : Nat) :
    (group_init env flags w).worker r = lifetime_init (env r) flags (w r) := rfl

theorem group_init_store (env : Nat → Env) (flags : Nat) (w : Nat → State) (k x y : Nat) :
    (group_init env flags w).store k x y = 0 := rfl

/-- What a process finds when its operation loop starts. -/
theorem lifetime_init_ok (E : Env) (flags : Nat) (s : State) :
    (1 ≤ (lifetime_init E flags s).ndsets ∧ (lifetime_init E flags s).ndsets ≤ max_dsets flags) ∧
    (∀ k, k < (lifetime_init E flags s).ndsets → dims_ok (lifetime_init E flags s) k) ∧
    (∀ p, p < buf_len flags →
      (lifetime_init E flags s).wbuf p = wbuf_value flags E.mpi_size E.mpi_rank 0 p ∧
      (lifetime_init E flags s).efbuf p = 0 ∧ (lifetime_init E flags s).rbuf p = 0 ∧
      (lifetime_init E flags s).erbuf p = 0) := by
  obtain ⟨a1, a2, a3, a4, a5, a6, a7, -⟩ := lifetime_init_spec E flags s
  have hmd : 0 < max_dsets flags := by
    rcases max_dsets_cases flags with h | h <;> omega
  refine ⟨?_, ?_, ?_⟩
  · rw [a1]
    split
    · have := Nat.mod_lt (E.random s.pos) hmd
      omega
    · omega
  · intro k hk
    obtain ⟨d0, d1⟩ := a3 k hk
    unfold dims_ok
    rw [d0, d1]
    have h0 := Nat.mod_lt (E.random
      ((if has_flag flags MDSET_FLAG_MDSET = true then s.pos + 1 else s.pos) +
        k * (if has_flag flags MDSET_FLAG_CHUNK = true then 4 else 2))) (show 0 < MAX_DSET_X by decide)
    have h1 := Nat.mod_lt (E.random
      ((if has_flag flags MDSET_FLAG_MDSET = true then s.pos + 1 else s.pos) +
        k * (if has_flag flags MDSET_FLAG_CHUNK = true then 4 else 2) + 1)) (show 0 < MAX_DSET_Y by decide)
    omega
  · intro p hp
    rw [a7, a6, a4, a5]
    refine ⟨?_, by simp [memset0, hp], by simp [memset0, hp], by simp [memset0, hp]⟩
    simp only [if_pos hp]
    unfold wbuf_value
    apply congrArg
    unfold buf_len
    push_cast
    ring

theorem lifetime_init_sync (E E' : Env) (flags : Nat) (s s' : State)
    (hR : E.random = E'.random) (hp : s.pos = s'.pos) :
    (lifetime_init E flags s).pos = (lifetime_init E' flags s').pos ∧
    (lifetime_init E flags s).ndsets = (lifetime_init E' flags s').ndsets ∧
    ∀ k, k < (lifetime_init E flags s).ndsets →
      (lifetime_init E flags s).dset_dims k 0 = (lifetime_init E' flags s').dset_dims k 0 ∧
      (lifetime_init E flags s).dset_dims k 1 = (lifetime_init E' flags s').dset_dims k 1 := by
  obtain ⟨a1, a2, a3, -⟩ := lifetime_init_spec E flags s
  obtain ⟨b1, b2, b3, -⟩ := lifetime_init_spec E' flags s'
  have hn : (lifetime_init E flags s).ndsets = (lifetime_init E' flags s').ndsets := by
    rw [a1, b1, hR, hp]
  refine ⟨by rw [a2, b2, hn, hp], hn, ?_⟩
  intro k hk
  obtain ⟨c0, c1⟩ := a3 k hk
  obtain ⟨e0, e1⟩ := b3 k (by rw [← hn]; exact hk)
  rw [c0, c1, e0, e1, hR, hp]
  exact ⟨rfl, rfl⟩

/-- The invariant holds at the start of a lifetime. -/
theorem group_init_inv (R : Nat → Nat) (size : Nat) (failed : Nat → Nat → Bool) (flags : Nat)
    (w : Nat → State) (hw : ∀ r r', (w r).pos = (w r').pos) :
    GroupInv flags size 0 (group_init (worker_env R size failed) flags w) := by
  unfold GroupInv
  simp only [group_init_worker, group_init_store]
  refine ⟨?_, ?_, ?_, ?_, ?_, ?_⟩
  · intro r _
    obtain ⟨⟨h1, h2⟩, h3, -⟩ := lifetime_init_ok (worker_env R size failed r) flags (w r)
    exact ⟨h1, h2, h3⟩
  · intro r r' _ _
    exact lifetime_init_sync _ _ flags (w r) (w r') rfl (hw r r')
  · intro r _ p hp
    exact ((lifetime_init_ok (worker_env R size failed r) flags (w r)).2.2 p hp).1
  · intro r _ k x y hk hx hy
    obtain ⟨⟨h1, h2⟩, h3, h4⟩ := lifetime_init_ok (worker_env R size failed r) flags (w r)
    have hd := h3 k hk
    exact (h4 _ (idx_lt flags k x y (by omega) (Nat.lt_of_lt_of_le hx hd.1.2)
      (Nat.lt_of_lt_of_le hy hd.2.2))).2.1
  · intro r _ p hp
    obtain ⟨-, -, h4⟩ := lifetime_init_ok (worker_env R size failed r) flags (w r)
    rw [(h4 p hp).2.2.1, (h4 p hp).2.2.2]
  · intro r r' _ _ p hp
    rw [((lifetime_init_ok (worker_env R size failed r) flags (w r)).2.2 p hp).2.1,
      ((lifetime_init_ok (worker_env R size failed r') flags (w r')).2.2 p hp).2.1]

theorem worker_env_random (R : Nat → Nat) (size : Nat) (failed : Nat → Nat → Bool) (r : Nat) :
    (worker_env R size failed r).random = R := rfl

theorem worker_env_size (R : Nat → Nat) (size : Nat) (failed : Nat → Nat → Bool) (r : Nat) :
    (worker_env R size failed r).mpi_size = size := rfl

theorem worker_env_rank (R : Nat → Nat) (size : Nat) (failed : Nat → Nat → Bool) (r : Nat) :
    (worker_env R size failed r).mpi_rank = r := rfl

/-- All processes of a group in lockstep take the same read/write decision and accept the
same selections for every rank. -/
theorem group_lockstep (R : Nat → Nat) (size : Nat) (failed : Nat → Nat → Bool) (flags t : Nat)
    (g : Group) (h : GroupInv flags size t g) (r r' : Nat) (hr : r < size) (hr' : r' < size) :
    (op_begin (worker_env R size failed r) (g.worker r)).2 =
      (op_begin (worker_env R size failed r') (g.worker r')).2 ∧
    ∀ d, (op_select (worker_env R size failed r) flags d
        (op_begin (worker_env R size failed r) (g.worker r)).1).1.pos =
      (op_select (worker_env R size failed r') flags d
        (op_begin (worker_env R size failed r') (g.worker r')).1).1.pos ∧
      (op_select (worker_env R size failed r) flags d
        (op_begin (worker_env R size failed r) (g.worker r)).1).2 =
      (op_select (worker_env R size failed r') flags d
        (op_begin (worker_env R size failed r') (g.worker r')).1).2 := by
  obtain ⟨I1, I2, -⟩ := h
  obtain ⟨a1, a2, -, a4, a5, -⟩ := op_begin_spec (worker_env R size failed r) (g.worker r)
  obtain ⟨b1, b2, -, b4, b5, -⟩ := op_begin_spec (worker_env R size failed r') (g.worker r')
  obtain ⟨p1, p2, p3⟩ := I2 r r' hr hr'
  obtain ⟨n1, n2, n3⟩ := I1 r hr
  refine ⟨by rw [a1, b1, worker_env_random, worker_env_random, p1], ?_⟩
  intro d
  apply op_select_sync (worker_env R size failed r) (worker_env R size failed r') flags d _ _ rfl rfl (by rw [a2, b2, p1]) (by rw [a4, b4, p2])
    (by rw [a4]; exact n2)
  intro k hk
  rw [a4] at hk
  rw [a5, b5]
  exact ⟨(p3 k hk).1, (p3 k hk).2, dims_ok_congr a5 (n3 k hk)⟩

/-- One operation of the group keeps the group in lockstep and the oracles in agreement with
the storage; a write operation advances the number of writes by one. -/
theorem group_op_inv (R : Nat → Nat) (size : Nat) (failed : Nat → Nat → Bool) (flags t : Nat)
    (g : Group) (h : GroupInv flags size t g) :
    GroupInv flags size
      (t + (if decide (R (g.worker 0).pos % 2 ≠ 0) = true then 0 else 1))
      (group_op (worker_env R size failed) flags size g) := by
  have hls := group_lockstep R size failed flags t g h
  obtain ⟨I1, I2, I3, I4, I5, I6⟩ := h
  have hdo : ∀ r, r < size → (op_begin (worker_env R size failed r) (g.worker r)).2 =
      decide (R (g.worker 0).pos % 2 ≠ 0) := by
    intro r hr
    rw [(op_begin_spec _ _).1, worker_env_random, (I2 r 0 hr (by omega)).1]
  unfold GroupInv
  simp only [group_op_worker, group_op_store]
  by_cases hd : decide (R (g.worker 0).pos % 2 ≠ 0) = true
  · -- a read operation
    rw [if_pos hd, Nat.add_zero]
    have hrd : ∀ r, r < size → (op_begin (worker_env R size failed r) (g.worker r)).2 = true :=
      fun r hr => (hdo r hr).trans hd
    have step := fun r (hr : r < size) =>
      operation_read (worker_env R size failed r) flags g.store (g.worker r)
        (I1 r hr).2.2 (I1 r hr).1 (I1 r hr).2.1 (I4 r hr) (I5 r hr) (hrd r hr)
    refine ⟨?_, ?_, ?_, ?_, ?_, ?_⟩
    · intro r hr
      obtain ⟨s1, s2, -⟩ := step r hr
      rw [s1]
      exact ⟨(I1 r hr).1, (I1 r hr).2.1, fun k hk => dims_ok_congr s2 ((I1 r hr).2.2 k hk)⟩
    · intro r r' hr hr'
      obtain ⟨s1, s2, s3, -⟩ := step r hr
      obtain ⟨s1', s2', s3', -⟩ := step r' hr'
      rw [s1, s2, s1', s2', s3, s3']
      exact ⟨((hls r r' hr hr').2 true).1, (I2 r r' hr hr').2.1, (I2 r r' hr hr').2.2⟩
    · intro r hr p hp
      obtain ⟨-, -, -, s4, -⟩ := step r hr
      rw [s4]; exact I3 r hr p hp
    · intro r hr k x y hk hx hy
      obtain ⟨s1, s2, -, -, s5, -⟩ := step r hr
      rw [s1] at hk
      rw [s2] at hx hy
      rw [s5, I4 r hr k x y hk hx hy]
      symm
      apply ideal_write_miss
      intro a ha hc
      rw [hrd a ha] at hc
      exact absurd hc.1 (by decide)
    · intro r hr p hp
      exact (step r hr).2.2.2.2.2 p hp
    · intro r r' hr hr' p hp
      rw [(step r hr).2.2.2.2.1, (step r' hr').2.2.2.2.1]
      exact I6 r r' hr hr' p hp
  · -- a write operation
    rw [if_neg hd]
    have hwr : ∀ r, r < size → (op_begin (worker_env R size failed r) (g.worker r)).2 = false :=
      fun r hr => (hdo r hr).trans (by simpa using hd)
    have step := fun r (hr : r < size) =>
      operation_write (worker_env R size failed r) flags t g.store (g.worker r)
        (I1 r hr).2.2 (I1 r hr).2.1 (I3 r hr) (hwr r hr)
    have hT : ∀ r r', r < size → r' < size →
        op_cells 0 (op_select (worker_env R size failed r) flags false
          (op_begin (worker_env R size failed r) (g.worker r)).1).2 =
        op_cells 0 (op_select (worker_env R size failed r') flags false
          (op_begin (worker_env R size failed r') (g.worker r')).1).2 := by
      intro r r' hr hr'
      rw [((hls r r' hr hr').2 false).2]
    refine ⟨?_, ?_, ?_, ?_, ?_, ?_⟩
    · intro r hr
      obtain ⟨s1, s2, -⟩ := step r hr
      rw [s1]
      exact ⟨(I1 r hr).1, (I1 r hr).2.1, fun k hk => dims_ok_congr s2 ((I1 r hr).2.2 k hk)⟩
    · intro r r' hr hr'
      obtain ⟨s1, s2, s3, -⟩ := step r hr
      obtain ⟨s1', s2', s3', -⟩ := step r' hr'
      rw [s1, s2, s1', s2', s3, s3']
      exact ⟨((hls r r' hr hr').2 false).1, (I2 r r' hr hr').2.1, (I2 r r' hr hr').2.2⟩
    · intro r hr p hp
      exact (step r hr).2.2.2.1 p hp
    · intro r hr k x y hk hx hy
      obtain ⟨s1, s2, -, -, -, -, s7, s8⟩ := step r hr
      rw [s1] at hk
      rw [s2] at hx hy
      have hdk := (I1 r hr).2.2 k hk
      have hx15 : x < MAX_DSET_X := Nat.lt_of_lt_of_le hx hdk.1.2
      have hy10 : y < MAX_DSET_Y := Nat.lt_of_lt_of_le hy hdk.2.2
      -- the accepted cells, as the process `r` and any other process compute them
      have hbeg := op_begin_spec (worker_env R size failed r) (g.worker r)
      have hsel := op_select_spec (worker_env R size failed r) flags false
        (op_begin (worker_env R size failed r) (g.worker r)).1
      obtain ⟨-, -, -, -, a5, -, a7⟩ := hsel
      obtain ⟨-, -, a53⟩ := a5 rfl
      have hdb : ∀ k, k < (op_begin (worker_env R size failed r) (g.worker r)).1.ndsets →
          dims_ok (op_begin (worker_env R size failed r) (g.worker r)).1 k := by
        intro k' hk'
        rw [hbeg.2.2.2.1] at hk'
        exact dims_ok_congr hbeg.2.2.2.2.1 ((I1 r hr).2.2 k' hk')
      have hb := a7 hdb
      have hio : ∀ a, a < size → ∀ c : Nat × Nat,
          c ∈ io_cells flags (op_select (worker_env R size failed a) flags
            (op_begin (worker_env R size failed a) (g.worker a)).2
            (op_begin (worker_env R size failed a) (g.worker a)).1).1 k ↔
          (k, a, c.1, c.2) ∈ op_cells 0 (op_select (worker_env R size failed r) flags false
            (op_begin (worker_env R size failed r) (g.worker r)).1).2 := by
        intro a ha c
        have hba := op_begin_spec (worker_env R size failed a) (g.worker a)
        rw [hwr a ha, io_cells_iff _ flags false _ (by rw [hba.2.2.2.1]; exact (I1 a ha).1)
          (by rw [hba.2.2.2.1]; exact (I1 a ha).2.1), worker_env_rank, hT a r ha hr]
      by_cases hcov : ∃ t ∈ op_cells 0 (op_select (worker_env R size failed r) flags false
          (op_begin (worker_env R size failed r) (g.worker r)).1).2,
          idx k x y = idx t.1 t.2.2.1 t.2.2.2
      · obtain ⟨t0, ht0, he⟩ := hcov
        have hlt := op_cells_rank_lt _ flags false _ t0 ht0
        have hb0 := hb t0 ht0
        rw [hbeg.2.2.2.1] at hlt
        rw [hbeg.2.2.2.2.1] at hb0
        have hd0 := (I1 r hr).2.2 t0.1 hlt.1
        obtain ⟨e1, e2, e3⟩ := idx_inj k x y t0.1 t0.2.2.1 t0.2.2.2 hx15 hy10
          (Nat.lt_of_lt_of_le hb0.1 hd0.1.2) (Nat.lt_of_lt_of_le hb0.2 hd0.2.2) he
        have hl : t0.2.1 < size := hlt.2
        have hmem : (k, t0.2.1, x, y) ∈ op_cells 0 (op_select (worker_env R size failed r) flags false
            (op_begin (worker_env R size failed r) (g.worker r)).1).2 := by
          rw [e1, e2, e3]; exact ht0
        rw [he, s7 t0 ht0, ← he]
        symm
        rw [ideal_write_hit size _ _ _ g.store k x y t0.2.1 hl (by rw [hwr _ hl]; rfl)
          ((hio _ hl (x, y)).2 hmem)]
        · rw [hwr _ hl]
          have hf := (op_select_spec (worker_env R size failed t0.2.1) flags false
            (op_begin (worker_env R size failed t0.2.1) (g.worker t0.2.1)).1).1
          rw [hf.2.2.2.2.1, (op_begin_spec _ _).2.2.2.2.2.2.2.1,
            I3 _ hl _ (idx_lt flags k x y (by have := (I1 r hr).2.1; omega) hx15 hy10)]
          rfl
        · intro a ha _ hc
          have hma := (hio a ha (x, y)).1 hc
          exact a53 (k, a, x, y) hma (k, t0.2.1, x, y) hmem rfl rfl
      · have hn : ∀ t ∈ op_cells 0 (op_select (worker_env R size failed r) flags false
            (op_begin (worker_env R size failed r) (g.worker r)).1).2,
            idx k x y ≠ idx t.1 t.2.2.1 t.2.2.2 := fun t ht he => hcov ⟨t, ht, he⟩
        rw [s8 _ hn, I4 r hr k x y hk hx hy]
        symm
        apply ideal_write_miss
        intro a ha hc
        exact hn _ ((hio a ha (x, y)).1 hc.2) rfl
    · intro r hr p hp
      obtain ⟨-, -, -, -, s5, s6, -⟩ := step r hr
      rw [s5, s6]
      exact I5 r hr p hp
    · intro r r' hr hr' p hp
      obtain ⟨-, -, -, -, -, -, s7, s8⟩ := step r hr
      obtain ⟨-, -, -, -, -, -, s7', s8'⟩ := step r' hr'
      rw [hT r' r hr' hr] at s7' s8'
      by_cases hcov : ∃ t ∈ op_cells 0 (op_select (worker_env R size failed r) flags false
          (op_begin (worker_env R size failed r) (g.worker r)).1).2,
          p = idx t.1 t.2.2.1 t.2.2.2
      · obtain ⟨t0, ht0, he⟩ := hcov
        rw [he, s7 t0 ht0, s7' t0 ht0]
        rfl
      · have hn : ∀ t ∈ op_cells 0 (op_select (worker_env R size failed r) flags false
            (op_begin (worker_env R size failed r) (g.worker r)).1).2,
            p ≠ idx t.1 t.2.2.1 t.2.2.2 := fun t ht he => hcov ⟨t, ht, he⟩
        rw [s8 p hn, s8' p hn]
        exact I6 r r' hr hr' p hp

/-- A read operation whose buffers agree afterwards took no error from the comparison of
line 516: the error counter grows by the status of the read call alone. -/
theorem operation_read_errors (E : Env) (flags : Nat) (file : Nat → Nat → Nat → Nat) (s : State)
    (hdo : (op_begin E s).2 = true)
    (heq : ∀ p, p < buf_len flags →
      (operation E flags file s).rbuf p = (operation E flags file s).erbuf p) :
    (operation E flags file s).nerrors =
      (op_select E flags true (op_begin E s).1).1.nerrors +
        (if E.failed (op_select E flags true (op_begin E s).1).1.log.length = true
          then 1 else 0) := by
  rw [operation_eq, hdo] at heq ⊢
  obtain ⟨w1, -, -, -, w5, -, -, -, -, -, -, w12⟩ :=
    op_io_read E flags file (op_select E flags true (op_begin E s).1).1
  rw [w12, ← w1, ← w5, memcmp_ne_false _ _ _ heq]
  simp

theorem group_run_inv (R : Nat → Nat) (size : Nat) (failed : Nat → Nat → Bool) (flags : Nat)
    (w : Nat → State) (hw : ∀ r r', (w r).pos = (w r').pos) (n : Nat) :
    ∃ t, GroupInv flags size t (group_run (worker_env R size failed) flags size w n) := by
  induction n with
  | zero => exact ⟨0, group_init_inv R size failed flags w hw⟩
  | succ n ih =>
    obtain ⟨t, ht⟩ := ih
    exact ⟨_, group_op_inv R size failed flags t _ ht⟩

/-- In a write operation of a group in lockstep the storage receives, at every cell accepted
for a rank `a`, the write-buffer value of the process of rank `a`. -/
theorem group_store_write (R : Nat → Nat) (size : Nat) (failed : Nat → Nat → Bool)
    (flags t : Nat) (g : Group) (h : GroupInv flags size t g) (r a k x y : Nat)
    (hr : r < size) (hwr : (op_begin (worker_env R size failed r) (g.worker r)).2 = false)
    (hmem : (k, a, x, y) ∈ op_cells 0 (op_select (worker_env R size failed r) flags false
      (op_begin (worker_env R size failed r) (g.worker r)).1).2) :
    a < size ∧
    (group_op (worker_env R size failed) flags size g).store k x y =
      (g.worker a).wbuf (idx k x y) := by
  have hls := group_lockstep R size failed flags t g h
  obtain ⟨I1, -⟩ := h
  have ha : a < size := (op_cells_rank_lt _ flags false _ _ hmem).2
  have hwa : ∀ b, b < size → (op_begin (worker_env R size failed b) (g.worker b)).2 = false :=
    fun b hb => ((hls b r hb hr).1).trans hwr
  have hio : ∀ b, b < size → ∀ c : Nat × Nat,
      c ∈ io_cells flags (op_select (worker_env R size failed b) flags
        (op_begin (worker_env R size failed b) (g.worker b)).2
        (op_begin (worker_env R size failed b) (g.worker b)).1).1 k ↔
      (k, b, c.1, c.2) ∈ op_cells 0 (op_select (worker_env R size failed r) flags false
        (op_begin (worker_env R size failed r) (g.worker r)).1).2 := by
    intro b hb c
    have hbb := op_begin_spec (worker_env R size failed b) (g.worker b)
    rw [hwa b hb, io_cells_iff _ flags false _ (by rw [hbb.2.2.2.1]; exact (I1 b hb).1)
      (by rw [hbb.2.2.2.1]; exact (I1 b hb).2.1), worker_env_rank, ((hls b r hb hr).2 false).2]
  obtain ⟨-, -, -, -, a5, -⟩ := op_select_spec (worker_env R size failed r) flags false
    (op_begin (worker_env R size failed r) (g.worker r)).1
  obtain ⟨-, -, a53⟩ := a5 rfl
  refine ⟨ha, ?_⟩
  rw [group_op_store, ideal_write_hit size _ _ _ g.store k x y a ha (by rw [hwa a ha]; rfl)
    ((hio a ha (x, y)).2 hmem)]
  · rw [hwa a ha, (op_select_spec _ flags false _).1.2.2.2.2.1,
      (op_begin_spec _ _).2.2.2.2.2.2.2.1]
  · intro b hb _ hc
    exact a53 (k, b, x, y) ((hio b hb (x, y)).1 hc) (k, a, x, y) hmem rfl rfl

/-- A cell that no process writes keeps its stored content; in particular a read operation
leaves the storage as it is. -/
theorem group_store_keep (R : Nat → Nat) (size : Nat) (failed : Nat → Nat → Bool)
    (flags t : Nat) (g : Group) (h : GroupInv flags size t g) (r k x y : Nat) (hr : r < size)
    (hno : (op_begin (worker_env R size failed r) (g.worker r)).2 = true ∨
      ∀ a, (k, a, x, y) ∉ op_cells 0 (op_select (worker_env R size failed r) flags false
        (op_begin (worker_env R size failed r) (g.worker r)).1).2) :
    (group_op (worker_env R size failed) flags size g).store k x y = g.store k x y := by
  have hls := group_lockstep R size failed flags t g h
  obtain ⟨I1, -⟩ := h
  rw [group_op_store]
  apply ideal_write_miss
  intro b hb hc
  have hbb := op_begin_spec (worker_env R size failed b) (g.worker b)
  cases hno with
  | inl hrd =>
    rw [(hls b r hb hr).1, hrd] at hc
    exact absurd hc.1 (by decide)
  | inr hn =>
    have hwb : (op_begin (worker_env R size failed b) (g.worker b)).2 = false := by
      have := hc.1
      simpa using this
    have h2 := hc.2
    rw [hwb, io_cells_iff _ flags false _ (by rw [hbb.2.2.2.1]; exact (I1 b hb).1)
      (by rw [hbb.2.2.2.1]; exact (I1 b hb).2.1), worker_env_rank, ((hls b r hb hr).2 false).2] at h2
    exact hn b h2

/-- In a write operation of a group in lockstep the oracle of every observing process `r`
receives, at every cell accepted for a rank `a`, the write-buffer value of the process of
rank `a`. -/
theorem group_oracle_write (R : Nat → Nat) (size : Nat) (failed : Nat → Nat → Bool)
    (flags t : Nat) (g : Group) (h : GroupInv flags size t g) (r a k x y : Nat)
    (hr : r < size) (hwr : (op_begin (worker_env R size failed r) (g.worker r)).2 = false)
    (hmem : (k, a, x, y) ∈ op_cells 0 (op_select (worker_env R size failed r) flags false
      (op_begin (worker_env R size failed r) (g.worker r)).1).2) :
    ((group_op (worker_env R size failed) flags size g).worker r).efbuf (idx k x y) =
      (g.worker a).wbuf (idx k x y) ∧
    (g.worker a).wbuf (idx k x y) = wbuf_value flags size a t (idx k x y) ∧
    idx k x y < buf_len flags := by
  obtain ⟨I1, -, I3, -⟩ := h
  have ha : a < size := (op_cells_rank_lt _ flags false _ _ hmem).2
  have hk := (op_cells_rank_lt _ flags false _ _ hmem).1
  have hbeg := op_begin_spec (worker_env R size failed r) (g.worker r)
  rw [hbeg.2.2.2.1] at hk
  obtain ⟨-, -, -, -, -, -, a7⟩ := op_select_spec (worker_env R size failed r) flags false
    (op_begin (worker_env R size failed r) (g.worker r)).1
  have hdb : ∀ k', k' < (op_begin (worker_env R size failed r) (g.worker r)).1.ndsets →
      dims_ok (op_begin (worker_env R size failed r) (g.worker r)).1 k' := by
    intro k' hk'
    rw [hbeg.2.2.2.1] at hk'
    exact dims_ok_begin _ _ k' ((I1 r hr).2.2 k' hk')
  have hb := a7 hdb _ hmem
  rw [hbeg.2.2.2.2.1] at hb
  have hdk := (I1 r hr).2.2 k hk
  have hlt : idx k x y < buf_len flags :=
    idx_lt flags k x y (Nat.lt_of_lt_of_le hk (I1 r hr).2.1)
      (Nat.lt_of_lt_of_le hb.1 hdk.1.2) (Nat.lt_of_lt_of_le hb.2 hdk.2.2)
  obtain ⟨-, -, -, -, -, -, s7, -⟩ :=
    operation_write (worker_env R size failed r) flags t g.store (g.worker r)
      (I1 r hr).2.2 (I1 r hr).2.1 (I3 r hr) hwr
  refine ⟨?_, I3 a ha _ hlt, hlt⟩
  rw [group_op_worker, I3 a ha _ hlt]
  exact s7 (k, a, x, y) hmem

/-- The value stored for the own rank is the own write-buffer value: the rank difference is
zero. -/
theorem efbuf_value_self (E : Env) (flags : Nat) (w : Nat → Nat) (i : Nat)
    (h : w i < 4294967296) : efbuf_value E flags E.mpi_rank w i = w i := by
  unfold efbuf_value
  rw [rank_data_diff_self, Int.add_zero, to_unsigned_congr (to_int_modEq _)]
  exact to_unsigned_of_lt _ h

/-! ## The write buffer over a lifetime -/

/-- What one operation does to the write buffer (lines 523-527). -/
theorem operation_wbuf (E : Env) (flags : Nat) (file : Nat → Nat → Nat → Nat) (s : State) :
    (operation E flags file s).wbuf =
      if (op_begin E s).2 = true then s.wbuf
      else fun p => if p < buf_len flags then
        to_unsigned ((s.wbuf p : Int) + (op_data_incr E flags : Int)) else s.wbuf p := by
  have hb := (op_begin_spec E s).2.2.2.2.2.2.2.1
  rw [operation_eq]
  by_cases hd : (op_begin E s).2 = true
  · rw [if_pos hd, hd, (op_io_read E flags file _).2.2.2.2.2.1,
      (op_select_spec E flags true _).1.2.2.2.2.1, hb]
  · rw [if_neg hd]
    have hd' : (op_begin E s).2 = false := by simpa using hd
    rw [hd', (op_io_write E flags file _).1, (op_select_spec E flags false _).1.2.2.2.2.1, hb]

theorem run_ops_succ (E : Env) (flags : Nat) (file : Nat → Nat → Nat → Nat → Nat) (n : Nat)
    (s : State) :
    run_ops E flags file (n + 1) s = operation E flags (file n) (run_ops E flags file n s) := rfl

theorem writes_done_succ (E : Env) (flags : Nat) (file : Nat → Nat → Nat → Nat → Nat) (s : State)
    (n : Nat) :
    writes_done E flags file s (n + 1) =
      writes_done E flags file s n + (if op_is_read E flags file s n = true then 0 else 1) := rfl

/-- Closed form of the write buffer after `n` operations of a lifetime. -/
theorem run_ops_wbuf (E : Env) (flags : Nat) (file : Nat → Nat → Nat → Nat → Nat) (s0 : State)
    (n p : Nat) (hp : p < buf_len flags) :
    (run_ops E flags file n (lifetime_init E flags s0)).wbuf p =
      wbuf_value flags E.mpi_size E.mpi_rank
        (writes_done E flags file (lifetime_init E flags s0) n) p := by
  induction n with
  | zero =>
    show (lifetime_init E flags s0).wbuf p = _
    rw [(lifetime_init_spec E flags s0).2.2.2.2.2.2.1]
    simp only [hp, if_true]
    unfold wbuf_value writes_done buf_len
    congr 2
    ring
  | succ n ih =>
    rw [run_ops_succ, operation_wbuf, writes_done_succ]
    by_cases hd : (op_begin E (run_ops E flags file n (lifetime_init E flags s0))).2 = true
    · have hr : op_is_read E flags file (lifetime_init E flags s0) n = true := hd
      rw [if_pos hd, if_pos hr, Nat.add_zero]
      exact ih
    · have hr : ¬ op_is_read E flags file (lifetime_init E flags s0) n = true := hd
      rw [if_neg hd, if_neg hr]
      simp only [hp, if_true]
      rw [ih, op_data_incr_eq]
      exact wbuf_step _ _ _ _ _

/-- Without wrap-around the write-buffer value determines the rank, the write index and the
offset. -/
theorem wbuf_value_inj (flags size r1 t1 p1 r2 t2 p2 : Nat) (hr1 : r1 < size) (hr2 : r2 < size)
    (hp1 : p1 < buf_len flags) (hp2 : p2 < buf_len flags)
    (hv1 : r1 * buf_len flags + p1 + t1 * (buf_len flags * size) < 4294967296)
    (hv2 : r2 * buf_len flags + p2 + t2 * (buf_len flags * size) < 4294967296)
    (h : wbuf_value flags size r1 t1 p1 = wbuf_value flags size r2 t2 p2) :
    r1 = r2 ∧ t1 = t2 ∧ p1 = p2 := by
  unfold wbuf_value at h
  rw [to_unsigned_of_lt _ hv1, to_unsigned_of_lt _ hv2] at h
  generalize buf_len flags = N at *
  have hN : 0 < N := by omega
  have ha : ∀ r p, r < size → p < N → r * N + p < N * size := by
    intro r p hr hp
    have : (r + 1) * N ≤ size * N := Nat.mul_le_mul_right N hr
    rw [Nat.mul_comm N size]
    rw [Nat.add_mul] at this
    omega
  have hM : 0 < N * size := by
    have := ha r1 p1 hr1 hp1
    omega
  have hdiv : ∀ a t, a < N * size → (a + t * (N * size)) / (N * size) = t := by
    intro a t hlt
    rw [Nat.add_mul_div_right _ _ hM, Nat.div_eq_of_lt hlt, Nat.zero_add]
  have ht : t1 = t2 := by
    have e1 := hdiv _ t1 (ha r1 p1 hr1 hp1)
    have e2 := hdiv _ t2 (ha r2 p2 hr2 hp2)
    rw [h] at e1
    omega
  subst ht
  have h' : r1 * N + p1 = r2 * N + p2 := by omega
  have hr : r1 = r2 := by
    have e1 : (p1 + r1 * N) / N = r1 := by
      rw [Nat.add_mul_div_right _ _ hN, Nat.div_eq_of_lt hp1, Nat.zero_add]
    have e2 : (p2 + r2 * N) / N = r2 := by
      rw [Nat.add_mul_div_right _ _ hN, Nat.div_eq_of_lt hp2, Nat.zero_add]
    have h'' : p1 + r1 * N = p2 + r2 * N := by omega
    rw [h''] at e1
    omega
  subst hr
  exact ⟨rfl, rfl, by omega⟩

/-! ## The call log of a lifetime -/

theorem dirty_after_append (d : Bool) (A B : List Call) :
    dirty_after d (A ++ B) = dirty_after (dirty_after d A) B := by
  induction A generalizing d with
  | nil => rfl
  | cons c cs ih => cases c <;> simp [dirty_after, ih]

theorem flushed_reads_append (d : Bool) (A B : List Call) :
    flushed_reads d (A ++ B) = (flushed_reads d A && flushed_reads (dirty_after d A) B) := by
  induction A generalizing d with
  | nil => simp [flushed_reads, dirty_after]
  | cons c cs ih => cases c <;> simp [flushed_reads, dirty_after, ih, Bool.and_assoc]

/-- Calls that neither transfer data nor open the file leave the scan where it is. -/
theorem scan_neutral (d : Bool) (L : List Call) (h : ∀ c ∈ L, Call.is_neutral c = true) :
    dirty_after d L = d ∧ flushed_reads d L = true := by
  induction L generalizing d with
  | nil => exact ⟨rfl, rfl⟩
  | cons c cs ih =>
    have hc := h c (List.mem_cons_self _ _)
    have ht := ih d (fun c' hc' => h c' (List.mem_cons_of_mem _ hc'))
    cases c <;> simp [Call.is_neutral] at hc <;> simp [dirty_after, flushed_reads, ht]

theorem is_select_neutral (c : Call) (h : Call.is_select c = true) : Call.is_neutral c = true := by
  cases c <;> simp [Call.is_select] at h <;> rfl

/-- A close/reopen cycle leaves nothing pending and issues no read. -/
theorem scan_reopen (d : Bool) (n : Nat) :
    dirty_after d (reopen_calls n) = false ∧ flushed_reads d (reopen_calls n) = true := by
  have h1 := scan_neutral d ((List.range n).map Call.H5Dclose) (by
    intro c hc
    obtain ⟨k, -, rfl⟩ := List.mem_map.1 hc
    rfl)
  have h2 := scan_neutral false ((List.range n).map Call.H5Dopen2) (by
    intro c hc
    obtain ⟨k, -, rfl⟩ := List.mem_map.1 hc
    rfl)
  unfold reopen_calls
  simp only [dirty_after_append, flushed_reads_append, h1.1, h1.2, h2.1, h2.2, dirty_after,
    flushed_reads, Bool.and_self]
  exact ⟨trivial, trivial⟩

/-- The calls of one operation: the barrier, the close/reopen cycle when the last operation was
a write, selection calls, and the I/O call. -/
theorem operation_log (E : Env) (flags : Nat) (file : Nat → Nat → Nat → Nat) (s : State) :
    (operation E flags file s).last_read = (op_begin E s).2 ∧
    (operation E flags file s).ndsets = s.ndsets ∧
    ∃ L, (∀ c ∈ L, Call.is_select c = true) ∧
      (operation E flags file s).log =
        s.log ++ (Call.MPI_Barrier :: ((if s.last_read = true then [] else reopen_calls s.ndsets)
          ++ L ++ [io_call flags (op_begin E s).2])) := by
  obtain ⟨-, -, b3, b4, -, -, -, -, -, -, b11, -⟩ := op_begin_spec E s
  obtain ⟨⟨f1, -, -, -, -, f6⟩, -, ⟨⟨L, hL, hsel⟩, -⟩, -⟩ :=
    op_select_spec E flags (op_begin E s).2 (op_begin E s).1
  rw [operation_eq]
  cases hd : (op_begin E s).2 with
  | true =>
    rw [hd] at f1 f6 hL b3
    obtain ⟨-, -, w3, -, -, -, -, -, w9, -, w11, -⟩ :=
      op_io_read E flags file (op_select E flags true (op_begin E s).1).1
    refine ⟨by rw [w9, f6, b3], by rw [w3, f1, b4], L, hsel, ?_⟩
    rw [w11, hL, b11]
    simp [io_call]
  | false =>
    rw [hd] at f1 f6 hL b3
    obtain ⟨-, -, w3, -, -, -, -, -, w9, -, w11, -⟩ :=
      op_io_write E flags file (op_select E flags false (op_begin E s).1).1
    refine ⟨by rw [w9, f6, b3], by rw [w3, f1, b4], L, hsel, ?_⟩
    rw [w11, hL, b11]
    simp [io_call]

theorem run_ops_fields (E : Env) (flags : Nat) (file : Nat → Nat → Nat → Nat → Nat) (s : State)
    (n : Nat) :
    (run_ops E flags file n s).ndsets = s.ndsets ∧
    (run_ops E flags file (n + 1) s).last_read = op_is_read E flags file s n := by
  refine ⟨?_, (operation_log E flags (file n) (run_ops E flags file n s)).1⟩
  induction n with
  | zero => rfl
  | succ n ih =>
    rw [run_ops_succ, (operation_log E flags (file n) (run_ops E flags file n s)).2.1, ih]

/-- The calls of operation `j` of a lifetime. -/
theorem op_calls_eq (E : Env) (flags : Nat) (file : Nat → Nat → Nat → Nat → Nat) (s : State)
    (j : Nat) :
    ∃ L, (∀ c ∈ L, Call.is_select c = true) ∧
      op_calls E flags file s j =
        Call.MPI_Barrier :: ((if (run_ops E flags file j s).last_read = true then []
          else reopen_calls s.ndsets) ++ L ++ [io_call flags (op_is_read E flags file s j)]) ∧
      (run_ops E flags file (j + 1) s).log =
        (run_ops E flags file j s).log ++ op_calls E flags file s j := by
  obtain ⟨-, -, L, hL, hlog⟩ := operation_log E flags (file j) (run_ops E flags file j s)
  rw [(run_ops_fields E flags file s j).1] at hlog
  have hc : op_calls E flags file s j =
      Call.MPI_Barrier :: ((if (run_ops E flags file j s).last_read = true then []
        else reopen_calls s.ndsets) ++ L ++ [io_call flags (op_is_read E flags file s j)]) := by
    unfold op_calls
    rw [run_ops_succ, hlog, List.drop_left]
    rfl
  refine ⟨L, hL, hc, ?_⟩
  rw [hc, run_ops_succ, hlog]
  rfl

/-- Scanning the calls of the first `n` operations of a lifetime: data is pending exactly
when the last operation was a write, and no read was issued while data was pending. -/
theorem run_ops_scan (E : Env) (flags : Nat) (file : Nat → Nat → Nat → Nat → Nat) (s : State)
    (hs : s.last_read = true) (n : Nat) :
    ∃ X, (run_ops E flags file n s).log = s.log ++ X ∧
      dirty_after false X = !(run_ops E flags file n s).last_read ∧
      flushed_reads false X = true := by
  induction n with
  | zero => exact ⟨[], (List.append_nil _).symm, by show false = !s.last_read; rw [hs]; rfl, rfl⟩
  | succ n ih =>
    obtain ⟨X, h1, h2, h3⟩ := ih
    obtain ⟨L, hL, hc, hlog⟩ := op_calls_eq E flags file s n
    have hn := scan_neutral false L (fun c hc => is_select_neutral c (hL c hc))
    refine ⟨X ++ op_calls E flags file s n, by rw [hlog, h1, List.append_assoc], ?_, ?_⟩
    · rw [dirty_after_append, h2, hc, (run_ops_fields E flags file s n).2]
      cases hlr : (run_ops E flags file n s).last_read <;>
        cases hrd : op_is_read E flags file s n <;>
        simp [dirty_after, dirty_after_append, (scan_reopen true s.ndsets).1, hn.1, io_call] <;>
        split <;> simp [dirty_after]
    · rw [flushed_reads_append, h3, h2, hc]
      cases hlr : (run_ops E flags file n s).last_read <;>
        cases hrd : op_is_read E flags file s n <;>
        simp [dirty_after, flushed_reads, dirty_after_append, flushed_reads_append,
          (scan_reopen true s.ndsets).1, (scan_reopen true s.ndsets).2, hn.1, hn.2, io_call] <;>
        split <;> simp [flushed_reads]

theorem run_ops_last_read (E : Env) (flags : Nat) (file : Nat → Nat → Nat → Nat → Nat)
    (s : State) (hs : s.last_read = true) (j : Nat) :
    (run_ops E flags file j s).last_read = true ↔
      ¬ (1 ≤ j ∧ op_is_read E flags file s (j - 1) = false) := by
  cases j with
  | zero =>
    show s.last_read = true ↔ _
    simp [hs]
  | succ j =>
    rw [(run_ops_fields E flags file s j).2]
    simp

theorem mem_io_call (flags : Nat) (d : Bool) (c : Call) (h : c = io_call flags d) :
    c = Call.H5Dread ∨ c = Call.H5Dread_multi ∨ c = Call.H5Dwrite ∨ c = Call.H5Dwrite_multi := by
  unfold io_call at h
  cases d <;> by_cases hm : has_flag flags MDSET_FLAG_MDSET = true <;> simp [hm] at h <;>
    simp [h]

/-- The close/reopen cycle is part of operation `j` exactly when `j ≥ 1` and operation `j - 1`
was a write. -/
theorem op_calls_cycle (E : Env) (flags : Nat) (file : Nat → Nat → Nat → Nat → Nat)
    (s : State) (hs : s.last_read = true) (j : Nat) :
    (∃ L, (∀ c ∈ L, Call.is_select c = true) ∧
      op_calls E flags file s j =
        Call.MPI_Barrier :: ((if 1 ≤ j ∧ op_is_read E flags file s (j - 1) = false
          then reopen_calls s.ndsets else []) ++ L ++
          [io_call flags (op_is_read E flags file s j)])) ∧
    (Call.H5Fclose ∈ op_calls E flags file s j ↔
      1 ≤ j ∧ op_is_read E flags file s (j - 1) = false) ∧
    (Call.H5Fopen ∈ op_calls E flags file s j ↔
      1 ≤ j ∧ op_is_read E flags file s (j - 1) = false) := by
  obtain ⟨L, hL, hc, -⟩ := op_calls_eq E flags file s j
  have hlr := run_ops_last_read E flags file s hs j
  have hc' : op_calls E flags file s j =
      Call.MPI_Barrier :: ((if 1 ≤ j ∧ op_is_read E flags file s (j - 1) = false
        then reopen_calls s.ndsets else []) ++ L ++
        [io_call flags (op_is_read E flags file s j)]) := by
    rw [hc]
    by_cases h : 1 ≤ j ∧ op_is_read E flags file s (j - 1) = false
    · rw [if_pos h, if_neg (fun hl => hlr.1 hl h)]
    · rw [if_neg h, if_pos (hlr.2 h)]
  have hnL1 : Call.H5Fclose ∉ L := fun h => by
    have := hL _ h
    simp [Call.is_select] at this
  have hnL2 : Call.H5Fopen ∉ L := fun h => by
    have := hL _ h
    simp [Call.is_select] at this
  have hio1 : Call.H5Fclose ≠ io_call flags (op_is_read E flags file s j) := fun h => by
    have := mem_io_call flags _ _ h
    simp at this
  have hio2 : Call.H5Fopen ≠ io_call flags (op_is_read E flags file s j) := fun h => by
    have := mem_io_call flags _ _ h
    simp at this
  refine ⟨⟨L, hL, hc'⟩, ?_, ?_⟩
  · rw [hc']
    by_cases h : 1 ≤ j ∧ op_is_read E flags file s (j - 1) = false
    · rw [if_pos h]
      simp [reopen_calls, h]
    · rw [if_neg h]
      simp [hnL1, hio1, h]
  · rw [hc']
    by_cases h : 1 ≤ j ∧ op_is_read E flags file s (j - 1) = false
    · rw [if_pos h]
      simp [reopen_calls, h]
    · rw [if_neg h]
      simp [hnL2, hio2, h]

/-- No read is issued while written data is pending. -/
theorem run_ops_flushed (E : Env) (flags : Nat) (file : Nat → Nat → Nat → Nat → Nat)
    (s : State) (hs : s.last_read = true) (n : Nat) :
    flushed_reads false ((run_ops E flags file n s).log.drop s.log.length) = true := by
  obtain ⟨X, h1, -, h3⟩ := run_ops_scan E flags file s hs n
  rw [h1, List.drop_left]
  exact h3

/-- What a read operation does to the expected buffers. -/
theorem operation_read_frame (E : Env) (flags : Nat) (file : Nat → Nat → Nat → Nat) (s : State)
    (hrd : (op_begin E s).2 = true) :
    Filled (fun l => l = E.mpi_rank) (op_cells 0 (op_select E flags true (op_begin E s).1).2)
      s.efbuf s.erbuf (operation E flags file s).erbuf ∧
    (operation E flags file s).efbuf = s.efbuf ∧
    (operation E flags file s).wbuf = s.wbuf ∧
    (operation E flags file s).dset_usage = s.dset_usage := by
  obtain ⟨-, -, -, -, -, -, b7, b8, b9, b10, -, -⟩ := op_begin_spec E s
  obtain ⟨⟨-, -, -, -, f5, -⟩, -, -, a4, -⟩ := op_select_spec E flags true (op_begin E s).1
  obtain ⟨a41, a42, a43⟩ := a4 rfl
  obtain ⟨-, -, -, -, w5, w6, w7, w8, -⟩ :=
    op_io_read E flags file (op_select E flags true (op_begin E s).1).1
  rw [operation_eq, hrd, w5, w6, w7, w8, f5, a41, a42, b8, b9, b10]
  rw [b9, b7] at a43
  exact ⟨a43, rfl, rfl, rfl⟩

/-! ## Truncated generation -/

/-- When the first `a` passes from index `m` accept their regions and the retries for region
`m + a` are exhausted, a loop with more than `a` passes ends there with `nhs = m + a`. -/
theorem hs_loop_trunc (E : Env) (flags : Nat) (do_read : Bool) (k l mx my : Nat) (a b m : Nat)
    (s : State)
    (hacc : (hs_loop E flags do_read k l mx my a m s).2 = m + a)
    (hexh : (hs_retry E do_read k (m + a) mx my MAX_SEL_RETRIES
      (hs_loop E flags do_read k l mx my a m s).1).2 = true) :
    hs_loop E flags do_read k l mx my (a + b + 1) m s =
      ((hs_retry E do_read k (m + a) mx my MAX_SEL_RETRIES
        (hs_loop E flags do_read k l mx my a m s).1).1, m + a) := by
  induction a generalizing m s with
  | zero =>
    rw [Nat.zero_add, hs_loop_succ]
    exact if_pos hexh
  | succ a ih =>
    have e : a + 1 + b + 1 = (a + b + 1) + 1 := by omega
    have e2 : m + (a + 1) = m + 1 + a := by omega
    by_cases hr : (hs_retry E do_read k m mx my MAX_SEL_RETRIES s).2 = true
    · rw [hs_loop_succ, if_pos hr] at hacc
      exact absurd hacc (by show m ≠ m + (a + 1); omega)
    · have hstep : hs_loop E flags do_read k l mx my (a + 1) m s =
          hs_loop E flags do_read k l mx my a (m + 1)
            (hs_expect E flags do_read k l m
              (hs_select E k l m (hs_retry E do_read k m mx my MAX_SEL_RETRIES s).1)) := by
        rw [hs_loop_succ, if_neg hr]
      rw [hstep, e2] at hacc hexh
      rw [e, hs_loop_succ, if_neg hr, hstep, e2]
      exact ih (m + 1) _ hacc hexh

theorem pt_loop_trunc (E : Env) (do_read : Bool) (k : Nat) (a b m : Nat) (s : State)
    (hacc : (pt_loop E do_read k a m s).2 = m + a)
    (hexh : (pt_retry E do_read k (m + a) MAX_SEL_RETRIES (pt_loop E do_read k a m s).1).2 = true) :
    pt_loop E do_read k (a + b + 1) m s =
      ((pt_retry E do_read k (m + a) MAX_SEL_RETRIES (pt_loop E do_read k a m s).1).1, m + a) := by
  induction a generalizing m s with
  | zero =>
    rw [Nat.zero_add, pt_loop_succ]
    exact if_pos hexh
  | succ a ih =>
    have e : a + 1 + b + 1 = (a + b + 1) + 1 := by omega
    have e2 : m + (a + 1) = m + 1 + a := by omega
    by_cases hr : (pt_retry E do_read k m MAX_SEL_RETRIES s).2 = true
    · rw [pt_loop_succ, if_pos hr] at hacc
      exact absurd hacc (by show m ≠ m + (a + 1); omega)
    · have hstep : pt_loop E do_read k (a + 1) m s =
          pt_loop E do_read k a (m + 1) (pt_retry E do_read k m MAX_SEL_RETRIES s).1 := by
        rw [pt_loop_succ, if_neg hr]
      rw [hstep, e2] at hacc hexh
      rw [e, pt_loop_succ, if_neg hr, hstep, e2]
      exact ih (m + 1) _ hacc hexh

theorem hs_loop_trunc_zero (E : Env) (flags : Nat) (do_read : Bool) (k l mx my : Nat) (a n : Nat)
    (s : State) (hn : a < n)
    (hacc : (hs_loop E flags do_read k l mx my a 0 s).2 = a)
    (hexh : (hs_retry E do_read k a mx my MAX_SEL_RETRIES
      (hs_loop E flags do_read k l mx my a 0 s).1).2 = true) :
    hs_loop E flags do_read k l mx my n 0 s =
      ((hs_retry E do_read k a mx my MAX_SEL_RETRIES
        (hs_loop E flags do_read k l mx my a 0 s).1).1, a) := by
  have h := hs_loop_trunc E flags do_read k l mx my a (n - a - 1) 0 s
  have e : a + (n - a - 1) + 1 = n := by omega
  rw [Nat.zero_add, e] at h
  exact h hacc hexh

theorem pt_loop_trunc_zero (E : Env) (do_read : Bool) (k : Nat) (a n : Nat) (s : State)
    (hn : a < n) (hacc : (pt_loop E do_read k a 0 s).2 = a)
    (hexh : (pt_retry E do_read k a MAX_SEL_RETRIES (pt_loop E do_read k a 0 s).1).2 = true) :
    pt_loop E do_read k n 0 s =
      ((pt_retry E do_read k a MAX_SEL_RETRIES (pt_loop E do_read k a 0 s).1).1, a) := by
  have h := pt_loop_trunc E do_read k a (n - a - 1) 0 s
  have e : a + (n - a - 1) + 1 = n := by omega
  rw [Nat.zero_add, e] at h
  exact h hacc hexh

/-- What the hyperslab branch of a write operation accepts when the retries for region `m`
are exhausted: the `m` regions accepted before. -/
theorem hs_branch_trunc (E : Env) (flags k l : Nat) (s : State) (m : Nat)
    (hm : m < hs_draw_count E s) (hacc : (hs_first E flags k l s m).2 = m)
    (hexh : hs_exhausted E flags k l s m = true) :
    (hs_branch E flags false k l s).2 =
      Accepted.hyperslabs (regions_of (hs_first E flags k l s m).1 0 m) := by
  have ht := hs_loop_trunc_zero E flags false k l _ _ m (hs_draw_count E s) _ hm hacc hexh
  rw [hs_branch_acc, ht]
  show Accepted.hyperslabs (regions_of _ 0 (m - 0)) = _
  rw [Nat.sub_zero]
  congr 1
  apply regions_of_congr
  intro m' _ hm' d _
  exact hs_retry_other E false k m _ _ MAX_SEL_RETRIES _ m' d (Or.inl (by omega))

/-- What the point branch of a write operation accepts when the retries for point `m` are
exhausted: the `m` points accepted before. -/
theorem pt_branch_trunc (E : Env) (flags k l : Nat) (s : State) (m : Nat)
    (hm : m < pt_draw_count E s) (hacc : (pt_first E k s m).2 = m)
    (hexh : pt_exhausted E k s m = true) :
    (pt_branch E flags false k l s).2 =
      Accepted.points (points_of (pt_first E k s m).1 0 m) := by
  have ht := pt_loop_trunc_zero E false k m (pt_draw_count E s) _ hm hacc hexh
  rw [pt_branch_acc, ht]
  show Accepted.points (points_of _ 0 (m - 0)) = _
  rw [Nat.sub_zero]
  congr 1
  apply points_of_congr
  intro j _ hj
  exact pt_retry_other E false k m MAX_SEL_RETRIES _ j ⟨by omega, by omega⟩

/-! ## The reduction and the configuration loop of `main` -/

theorem foldl_max_ne_zero (v : Nat → Nat) (l : List Nat) (m : Nat) :
    l.foldl (fun m a => max m (v a)) m ≠ 0 ↔ m ≠ 0 ∨ ∃ a ∈ l, v a ≠ 0 := by
  induction l generalizing m with
  | nil => simp
  | cons b rest ih =>
    rw [List.foldl_cons, ih]
    constructor
    · rintro (h | ⟨a, ha, hv⟩)
      · by_cases hm : m = 0
        · right
          refine ⟨b, List.mem_cons_self _ _, ?_⟩
          intro hb
          apply h
          rw [hm, hb]
          rfl
        · exact Or.inl hm
      · exact Or.inr ⟨a, List.mem_cons_of_mem _ ha, hv⟩
    · rintro (h | ⟨a, ha, hv⟩)
      · left
        have := Nat.le_max_left m (v b)
        omega
      · rcases List.mem_cons.1 ha with rfl | ha'
        · left
          have := Nat.le_max_right m (v a)
          omega
        · exact Or.inr ⟨a, ha', hv⟩

/-- The maximum over the group is non-zero exactly when some rank holds a non-zero value. -/
theorem allreduce_max_ne_zero (size : Nat) (v : Nat → Nat) :
    allreduce_max size v ≠ 0 ↔ ∃ a, a < size ∧ v a ≠ 0 := by
  unfold allreduce_max
  rw [foldl_max_ne_zero]
  constructor
  · rintro (h | ⟨a, ha, hv⟩)
    · exact absurd rfl h
    · exact ⟨a, List.mem_range.1 ha, hv⟩
  · rintro ⟨a, ha, hv⟩
    exact Or.inr ⟨a, List.mem_range.2 ha, hv⟩

theorem main_exit_eq (env : Nat → Env) (size : Nat)
    (file : Nat → Nat → Nat → Nat → Nat → Nat → Nat → Nat) (w : Nat → State) (r : Nat) :
    (main env size file w r).2 =
      if allreduce_max size (fun a => (main_local (env a) (file a) (w a)).1.nerrors) ≠ 0
        then 1 else 0 := rfl

theorem main_loop_succ (E : Env) (file : Nat → Nat → Nat → Nat → Nat → Nat → Nat) (n i : Nat)
    (s : State) :
    main_loop E file (n + 1) i s =
      ((main_loop E file n (i + 1) (test_pmdset E 10 i (file i) s)).1,
        (10, i) :: (main_loop E file n (i + 1) (test_pmdset E 10 i (file i) s)).2) := rfl

/-- The calls of `test_pmdset` the loop makes: `niter = 10` and the flag values
`i, i + 1, ...` in ascending order. -/
theorem main_loop_calls (E : Env) (file : Nat → Nat → Nat → Nat → Nat → Nat → Nat) (n i : Nat)
    (s : State) :
    (main_loop E file n i s).2 = (List.range' i n).map (fun j => (10, j)) := by
  induction n generalizing i s with
  | zero => rfl
  | succ n ih =>
    rw [main_loop_succ, ih]
    rfl

theorem main_local_calls (E : Env) (file : Nat → Nat → Nat → Nat → Nat → Nat → Nat) (s : State) :
    (main_local E file s).2 = (List.range' 0 (MDSET_ALL_FLAGS + 1)).map (fun j => (10, j)) := by
  unfold main_local
  exact main_loop_calls E file _ 0 _

theorem lifetimes_succ (E : Env) (flags : Nat) (file : Nat → Nat → Nat → Nat → Nat → Nat)
    (n : Nat) (s : State) :
    lifetimes E flags file (n + 1) s = lifetime E flags (file n) (lifetimes E flags file n s) := rfl

theorem lifetime_eq (E : Env) (flags : Nat) (file : Nat → Nat → Nat → Nat → Nat) (s : State) :
    lifetime E flags file s =
      close_lifetime E (run_ops E flags file OPS_PER_FILE (lifetime_init E flags s)) := rfl

/-- The comparison of line 504 reports a difference exactly when some element differs. -/
theorem memcmp_ne_iff (a b : Nat → Nat) (n : Nat) :
    memcmp_ne a b n = true ↔ ∃ p, p < n ∧ a p ≠ b p := by
  unfold memcmp_ne
  rw [List.any_eq_true]
  constructor
  · rintro ⟨p, hp, h⟩
    exact ⟨p, List.mem_range.1 hp, by simpa using h⟩
  · rintro ⟨p, hp, h⟩
    exact ⟨p, List.mem_range.2 hp, by simpa using h⟩

/-! ## The conversion of the points to three coordinates (lines 468-474) -/

theorem pt_convert_loop_succ (m : Nat) (points : Nat → Nat) :
    pt_convert_loop (m + 1) points =
      pt_convert_loop m
        (set (set (set points (3 * (m + 1) + 2) 0) (3 * (m + 1) + 1)
          ((set points (3 * (m + 1) + 2) 0) (2 * (m + 1) + 1))) (3 * (m + 1))
          ((set (set points (3 * (m + 1) + 2) 0) (3 * (m + 1) + 1)
            ((set points (3 * (m + 1) + 2) 0) (2 * (m + 1) + 1))) (2 * (m + 1)))) := rfl

/-- Closed form of the loop `for (m = n; m > 0; m--)` of lines 469-473. -/
theorem pt_convert_loop_apply (n : Nat) (points : Nat → Nat) (j : Nat) :
    pt_convert_loop n points j =
      if j < 3 ∨ 3 * n + 3 ≤ j then points j
      else if j % 3 = 0 then points (2 * (j / 3))
      else if j % 3 = 1 then points (2 * (j / 3) + 1)
      else 0 := by
  induction n generalizing points with
  | zero =>
    have : j < 3 ∨ 3 * 0 + 3 ≤ j := by omega
    rw [if_pos this]
    rfl
  | succ n ih =>
    rw [pt_convert_loop_succ, ih]
    simp only [set_apply]
    split_ifs <;> first | rfl | omega | (congr 1 <;> omega)

/-- Lines 468-474: after the conversion point `m` occupies the elements `3m`, `3m + 1`,
`3m + 2` with its two coordinates and 0, and no element from `3 * npoints` on is changed. -/
theorem pt_convert_spec (npoints : Nat) (points : Nat → Nat) (hn : 0 < npoints) :
    (∀ m, m < npoints →
      set (pt_convert_loop (npoints - 1) points) 2 0 (3 * m) = points (2 * m) ∧
      set (pt_convert_loop (npoints - 1) points) 2 0 (3 * m + 1) = points (2 * m + 1) ∧
      set (pt_convert_loop (npoints - 1) points) 2 0 (3 * m + 2) = 0) ∧
    (∀ j, 3 * npoints ≤ j → set (pt_convert_loop (npoints - 1) points) 2 0 j = points j) := by
  constructor
  · intro m hm
    simp only [set_apply, pt_convert_loop_apply]
    refine ⟨?_, ?_, ?_⟩ <;> split_ifs <;> first | rfl | omega | (congr 1 <;> omega)
  · intro j hj
    simp only [set_apply, pt_convert_loop_apply]
    split_ifs <;> first | rfl | omega | (congr 1 <;> omega)

/-! ## Bounds on the number of candidates and of random draws -/

theorem pt_draw_count_le (E : Env) (s : State) :
    1 ≤ pt_draw_count E s ∧ pt_draw_count E s ≤ MAX_POINTS := by
  unfold pt_draw_count
  have := Nat.mod_lt (E.random s.pos) (show 0 < MAX_POINTS by decide)
  simp only [MAX_POINTS] at *
  omega

theorem create_dset_chunk (E : Env) (flags j : Nat) (s : State)
    (hc : has_flag flags MDSET_FLAG_CHUNK = true) :
    (create_dset E flags j s).chunk_dims 0 =
      E.random ((create_dset E flags j s).pos - 2) % MAX_CHUNK_X + 1 ∧
    (create_dset E flags j s).chunk_dims 1 =
      E.random ((create_dset E flags j s).pos - 1) % MAX_CHUNK_Y + 1 := by
  unfold create_dset
  simp only [hc, if_true, checked, set_apply]
  constructor
  · rfl
  · rfl

/-- With chunked layout the chunk extents are the last two draws of the creation loop. -/
theorem create_loop_chunk (E : Env) (flags n : Nat) (s : State)
    (hc : has_flag flags MDSET_FLAG_CHUNK = true) (hn : 1 ≤ n) :
    ((List.range n).foldl (fun s j => create_dset E flags j s) s).chunk_dims 0 =
      E.random (((List.range n).foldl (fun s j => create_dset E flags j s) s).pos - 2)
        % MAX_CHUNK_X + 1 ∧
    ((List.range n).foldl (fun s j => create_dset E flags j s) s).chunk_dims 1 =
      E.random (((List.range n).foldl (fun s j => create_dset E flags j s) s).pos - 1)
        % MAX_CHUNK_Y + 1 := by
  obtain ⟨m, rfl⟩ : ∃ m, n = m + 1 := ⟨n - 1, by omega⟩
  rw [List.range_succ, List.foldl_append]
  exact create_dset_chunk E flags m _ hc

theorem lifetime_init_chunk (E : Env) (flags : Nat) (s : State)
    (hc : has_flag flags MDSET_FLAG_CHUNK = true) :
    (lifetime_init E flags s).chunk_dims 0 =
      E.random ((lifetime_init E flags s).pos - 2) % MAX_CHUNK_X + 1 ∧
    (lifetime_init E flags s).chunk_dims 1 =
      E.random ((lifetime_init E flags s).pos - 1) % MAX_CHUNK_Y + 1 := by
  unfold lifetime_init
  by_cases hm : has_flag flags MDSET_FLAG_MDSET = true
  · rw [if_pos hm]
    exact create_loop_chunk E flags (E.random s.pos % max_dsets flags + 1)
      (checked E .H5Fcreate
        { s with ndsets := E.random s.pos % max_dsets flags + 1, pos := s.pos + 1 }) hc
      (by omega)
  · rw [if_neg hm]
    exact create_loop_chunk E flags 1 (checked E .H5Fcreate { s with ndsets := 1 }) hc
      (Nat.le_refl _)

theorem op_begin_chunk (E : Env) (s : State) : (op_begin E s).1.chunk_dims = s.chunk_dims := by
  unfold op_begin
  simp only
  split
  · exact (reopen_spec E _).1.2.2.2.1
  · rfl

theorem op_io_chunk (E : Env) (flags : Nat) (d : Bool) (file : Nat → Nat → Nat → Nat)
    (s : State) : (op_io E flags d file s).chunk_dims = s.chunk_dims := by
  unfold op_io
  cases d <;> simp only [if_true, Bool.false_eq_true, if_false] <;> split_ifs <;> rfl

/-- What an operation leaves alone, and where it leaves the random stream. -/
theorem operation_frame (E : Env) (flags : Nat) (file : Nat → Nat → Nat → Nat) (s : State) :
    (operation E flags file s).ndsets = s.ndsets ∧
    (operation E flags file s).dset_dims = s.dset_dims ∧
    (operation E flags file s).chunk_dims = s.chunk_dims ∧
    (operation E flags file s).pos =
      (op_select E flags (op_begin E s).2 (op_begin E s).1).1.pos := by
  obtain ⟨-, -, -, b4, b5, -⟩ := op_begin_spec E s
  obtain ⟨⟨f1, f2, f3, -⟩, -⟩ := op_select_spec E flags (op_begin E s).2 (op_begin E s).1
  refine ⟨(operation_log E flags file s).2.1, ?_, ?_, ?_⟩
  · rw [operation_eq]
    cases hd : (op_begin E s).2
    · rw [(op_io_write E flags file _).2.2.2.1, ← hd, f2, b5]
    · rw [(op_io_read E flags file _).2.2.2.1, ← hd, f2, b5]
  · rw [operation_eq, op_io_chunk, f3, op_begin_chunk]
  · rw [operation_eq]
    cases hd : (op_begin E s).2
    · rw [(op_io_write E flags file _).2.1]
    · rw [(op_io_read E flags file _).2.1]

/-- Two processes in lockstep take the same read/write decision, accept the same selections
for every dataset and rank, and are in lockstep after the operation. -/
theorem operation_lock (E E' : Env) (flags : Nat) (file file' : Nat → Nat → Nat → Nat)
    (a b : State) (hR : E.random = E'.random) (hS : E.mpi_size = E'.mpi_size)
    (h : Lockstep flags a b) :
    (op_begin E a).2 = (op_begin E' b).2 ∧
    op_accepted E flags a = op_accepted E' flags b ∧
    Lockstep flags (operation E flags file a) (operation E' flags file' b) := by
  obtain ⟨h1, h2, h3, h4⟩ := h
  obtain ⟨a1, a2, -, a4, a5, -⟩ := op_begin_spec E a
  obtain ⟨b1, b2, -, b4, b5, -⟩ := op_begin_spec E' b
  have hd : (op_begin E a).2 = (op_begin E' b).2 := by rw [a1, b1, hR, h1]
  have hsync := op_select_sync E E' flags (op_begin E a).2 (op_begin E a).1 (op_begin E' b).1
    hR hS (by rw [a2, b2, h1]) (by rw [a4, b4, h2]) (by rw [a4]; exact h3)
    (by
      intro k hk
      rw [a4] at hk
      rw [a5, b5]
      exact ⟨(h4 k hk).1, (h4 k hk).2.1, dims_ok_congr a5 (h4 k hk).2.2⟩)
  obtain ⟨o1, o2, -, o4⟩ := operation_frame E flags file a
  obtain ⟨p1, p2, -, p4⟩ := operation_frame E' flags file' b
  refine ⟨hd, ?_, ?_, ?_, ?_, ?_⟩
  · unfold op_accepted
    rw [← hd]
    exact hsync.2
  · rw [o4, p4, ← hd]
    exact hsync.1
  · rw [o1, p1, h2]
  · rw [o1]
    exact h3
  · intro k hk
    rw [o1] at hk
    rw [o2, p2]
    exact ⟨(h4 k hk).1, (h4 k hk).2.1, dims_ok_congr o2 (h4 k hk).2.2⟩

theorem lifetime_init_lock (E E' : Env) (flags : Nat) (s s' : State)
    (hR : E.random = E'.random) (hp : s.pos = s'.pos) :
    Lockstep flags (lifetime_init E flags s) (lifetime_init E' flags s') := by
  obtain ⟨c1, c2, c3⟩ := lifetime_init_sync E E' flags s s' hR hp
  obtain ⟨⟨-, d2⟩, d3, -⟩ := lifetime_init_ok E flags s
  exact ⟨c1, c2, d2, fun k hk => ⟨(c3 k hk).1, (c3 k hk).2, d3 k hk⟩⟩

theorem run_ops_lock (E E' : Env) (flags : Nat) (file file' : Nat → Nat → Nat → Nat → Nat)
    (a b : State) (hR : E.random = E'.random) (hS : E.mpi_size = E'.mpi_size)
    (h : Lockstep flags a b) (n : Nat) :
    Lockstep flags (run_ops E flags file n a) (run_ops E' flags file' n b) := by
  induction n with
  | zero => exact h
  | succ n ih =>
    rw [run_ops_succ, run_ops_succ]
    exact (operation_lock E E' flags (file n) (file' n) _ _ hR hS ih).2.2

theorem run_ops_chunk (E : Env) (flags : Nat) (file : Nat → Nat → Nat → Nat → Nat) (s : State)
    (n : Nat) : (run_ops E flags file n s).chunk_dims = s.chunk_dims := by
  induction n with
  | zero => rfl
  | succ n ih => rw [run_ops_succ, (operation_frame E flags (file n) _).2.2.1, ih]

/-! ## Runs that differ in which calls fail -/

theorem agree_of_norm (F : Env → State → State)
    (hN : ∀ E s, erase (F E s) = erase (F (quiet E) (erase s)))
    (E E' : Env) (hE : quiet E = quiet E') : Agree (F E) (F E') := by
  intro s s' hs
  rw [hN E s, hN E' s', hE, hs]

theorem agree_out_of_norm {α : Type} (F : Env → State → State × α)
    (hN : ∀ E s, (F E s).2 = (F (quiet E) (erase s)).2 ∧
      erase (F E s).1 = erase (F (quiet E) (erase s)).1)
    (E E' : Env) (hE : quiet E = quiet E') : AgreeOut (F E) (F E') := by
  intro s s' hs
  rw [(hN E s).1, (hN E' s').1, (hN E s).2, (hN E' s').2, hE, hs]
  exact ⟨rfl, rfl⟩

theorem agree_self (f : State → State) (hN : ∀ s, erase (f s) = erase (f (erase s))) :
    Agree f f := by
  intro s s' hs
  rw [hN s, hN s', hs]

theorem agree_comp {f g f2 g2 : State → State} (h1 : Agree f g) (h2 : Agree f2 g2) :
    Agree (fun s => f2 (f s)) (fun s => g2 (g s)) :=
  fun s s' hs => h2 _ _ (h1 s s' hs)

theorem agree_foldl {α : Type} (f g : State → α → State)
    (h : ∀ a, Agree (fun s => f s a) (fun s => g s a)) (L : List α) :
    Agree (fun s => L.foldl f s) (fun s => L.foldl g s) := by
  induction L with
  | nil => exact fun s s' hs => hs
  | cons a L ih =>
    intro s s' hs
    exact ih _ _ (h a s s' hs)

/-- What a state that agrees with another up to the error counter and the read buffer shares
with it. -/
theorem erase_fields {s s' : State} (h : erase s = erase s') :
    s.pos = s'.pos ∧ s.log = s'.log ∧ s.ndsets = s'.ndsets ∧ s.dset_dims = s'.dset_dims ∧
    s.chunk_dims = s'.chunk_dims ∧ s.erbuf = s'.erbuf ∧ s.wbuf = s'.wbuf ∧ s.efbuf = s'.efbuf ∧
    s.dset_usage = s'.dset_usage ∧ s.start = s'.start ∧ s.count = s'.count ∧
    s.points = s'.points ∧ s.last_read = s'.last_read ∧ s.mem_space = s'.mem_space ∧
    s.dset_space = s'.dset_space := by
  have h0 := congrArg State.pos h
  have h1 := congrArg State.log h
  have h2 := congrArg State.ndsets h
  have h3 := congrArg State.dset_dims h
  have h4 := congrArg State.chunk_dims h
  have h5 := congrArg State.erbuf h
  have h6 := congrArg State.wbuf h
  have h7 := congrArg State.efbuf h
  have h8 := congrArg State.dset_usage h
  have h9 := congrArg State.start h
  have h10 := congrArg State.count h
  have h11 := congrArg State.points h
  have h12 := congrArg State.last_read h
  have h13 := congrArg State.mem_space h
  have h14 := congrArg State.dset_space h
  exact ⟨h0, h1, h2, h3, h4, h5, h6, h7, h8, h9, h10, h11, h12, h13, h14⟩

theorem quiet_fields {E E' : Env} (h : quiet E = quiet E') :
    E.random = E'.random ∧ E.mpi_size = E'.mpi_size ∧ E.mpi_rank = E'.mpi_rank := by
  have h0 := congrArg Env.random h
  have h1 := congrArg Env.mpi_size h
  have h2 := congrArg Env.mpi_rank h
  exact ⟨h0, h1, h2⟩

theorem quiet_of_fields {E E' : Env} (hR : E.random = E'.random)
    (hS : E.mpi_size = E'.mpi_size) (hK : E.mpi_rank = E'.mpi_rank) : quiet E = quiet E' := by
  unfold quiet
  rw [hR, hS, hK]

/-! ### Single steps -/

theorem checked_agree (E E' : Env) (hE : quiet E = quiet E') (c : Call) :
    Agree (checked E c) (checked E' c) :=
  agree_of_norm (fun E => checked E c) (fun _ _ => rfl) E E' hE

theorem unchecked_agree (c : Call) : Agree (unchecked c) (unchecked c) :=
  agree_self _ (fun _ => rfl)

theorem bump_agree : Agree (fun s => { s with pos := s.pos + 1 }) (fun s => { s with pos := s.pos + 1 }) :=
  agree_self _ (fun _ => rfl)

theorem hs_candidate_agree (E E' : Env) (hE : quiet E = quiet E') (d : Bool) (k m mx my : Nat) :
    AgreeOut (hs_candidate E d k m mx my) (hs_candidate E' d k m mx my) := by
  refine agree_out_of_norm (fun E => hs_candidate E d k m mx my) ?_ E E' hE
  intro E s
  unfold hs_candidate
  simp only [erase, quiet]
  constructor <;> split_ifs <;> rfl

theorem pt_candidate_agree (E E' : Env) (hE : quiet E = quiet E') (d : Bool) (k m : Nat) :
    AgreeOut (pt_candidate E d k m) (pt_candidate E' d k m) := by
  refine agree_out_of_norm (fun E => pt_candidate E d k m) ?_ E E' hE
  intro E s
  exact ⟨rfl, rfl⟩

theorem hs_select_agree (E E' : Env) (hE : quiet E = quiet E') (k l m : Nat) :
    Agree (hs_select E k l m) (hs_select E' k l m) := by
  refine agree_of_norm (fun E => hs_select E k l m) ?_ E E' hE
  intro E s
  unfold hs_select
  simp only [erase, quiet]
  split_ifs <;> rfl

theorem hs_expect_agree (E E' : Env) (hE : quiet E = quiet E') (flags : Nat) (d : Bool)
    (k l m : Nat) : Agree (hs_expect E flags d k l m) (hs_expect E' flags d k l m) := by
  refine agree_of_norm (fun E => hs_expect E flags d k l m) ?_ E E' hE
  intro E s
  unfold hs_expect
  simp only [erase, quiet]
  split_ifs <;> rfl

theorem hs_mark_agree (k n : Nat) : Agree (hs_mark k n) (hs_mark k n) :=
  agree_self _ (fun _ => rfl)

theorem pt_mark_agree (k n : Nat) : Agree (pt_mark k n) (pt_mark k n) :=
  agree_self _ (fun _ => rfl)

theorem pt_select_file_agree (E E' : Env) (hE : quiet E = quiet E') (k l n : Nat) :
    Agree (pt_select_file E k l n) (pt_select_file E' k l n) := by
  refine agree_of_norm (fun E => pt_select_file E k l n) ?_ E E' hE
  intro E s
  unfold pt_select_file
  simp only [erase, quiet]
  split_ifs <;> rfl

theorem pt_expect_agree (E E' : Env) (hE : quiet E = quiet E') (flags : Nat) (d : Bool)
    (k l n : Nat) : Agree (pt_expect E flags d k l n) (pt_expect E' flags d k l n) := by
  refine agree_of_norm (fun E => pt_expect E flags d k l n) ?_ E E' hE
  intro E s
  unfold pt_expect
  simp only [erase, quiet]
  split_ifs <;> rfl

theorem pt_select_mem_agree (E E' : Env) (hE : quiet E = quiet E') (flags k l n : Nat) :
    Agree (pt_select_mem E flags k l n) (pt_select_mem E' flags k l n) := by
  refine agree_of_norm (fun E => pt_select_mem E flags k l n) ?_ E E' hE
  intro E s
  unfold pt_select_mem
  simp only [erase, quiet]
  split_ifs <;> rfl

theorem create_dset_agree (E E' : Env) (hE : quiet E = quiet E') (flags j : Nat) :
    Agree (create_dset E flags j) (create_dset E' flags j) := by
  refine agree_of_norm (fun E => create_dset E flags j) ?_ E E' hE
  intro E s
  unfold create_dset
  simp only [erase, quiet]
  split_ifs <;> rfl

/-- The I/O step: whatever the storage delivers and whether or not the comparison finds a
difference, the states agree afterwards. -/
theorem op_io_agree (E E' : Env) (hE : quiet E = quiet E') (flags : Nat) (d : Bool)
    (file file' : Nat → Nat → Nat → Nat) :
    Agree (op_io E flags d file) (op_io E' flags d file') := by
  have hN : ∀ (E : Env) (file : Nat → Nat → Nat → Nat) (s : State),
      erase (op_io E flags d file s) =
        erase (op_io (quiet E) flags d (fun _ _ _ => 0) (erase s)) := by
    intro E file s
    unfold op_io
    simp only [erase, quiet]
    split_ifs <;> rfl
  intro s s' hs
  rw [hN E file s, hN E' file' s', hE, hs]

/-! ### The selection phase -/

theorem regions_of_erase {a b : State} (h : erase a = erase b) (m n : Nat) :
    regions_of a m n = regions_of b m n := by
  have h1 : ∀ s : State, regions_of s m n = regions_of (erase s) m n := fun _ => rfl
  rw [h1 a, h1 b, h]

theorem points_of_erase {a b : State} (h : erase a = erase b) (m n : Nat) :
    points_of a m n = points_of b m n := by
  have h1 : ∀ s : State, points_of s m n = points_of (erase s) m n := fun _ => rfl
  rw [h1 a, h1 b, h]

theorem hs_retry_agree (E E' : Env) (hE : quiet E = quiet E') (d : Bool) (k m mx my n : Nat) :
    AgreeOut (hs_retry E d k m mx my n) (hs_retry E' d k m mx my n) := by
  induction n with
  | zero => exact fun s s' hs => ⟨rfl, hs⟩
  | succ n ih =>
    intro s s' hs
    obtain ⟨c2, c1⟩ := hs_candidate_agree E E' hE d k m mx my s s' hs
    rw [hs_retry_succ, hs_retry_succ, ← c2]
    by_cases hr : (hs_candidate E d k m mx my s).2 = true
    · rw [if_pos hr, if_pos hr]
      exact ih _ _ c1
    · rw [if_neg hr, if_neg hr]
      exact ⟨rfl, c1⟩

theorem pt_retry_agree (E E' : Env) (hE : quiet E = quiet E') (d : Bool) (k m n : Nat) :
    AgreeOut (pt_retry E d k m n) (pt_retry E' d k m n) := by
  induction n with
  | zero => exact fun s s' hs => ⟨rfl, hs⟩
  | succ n ih =>
    intro s s' hs
    obtain ⟨c2, c1⟩ := pt_candidate_agree E E' hE d k m s s' hs
    rw [pt_retry_succ, pt_retry_succ, ← c2]
    by_cases hr : (pt_candidate E d k m s).2 = true
    · rw [if_pos hr, if_pos hr]
      exact ih _ _ c1
    · rw [if_neg hr, if_neg hr]
      exact ⟨rfl, c1⟩

theorem hs_loop_agree (E E' : Env) (hE : quiet E = quiet E') (flags : Nat) (d : Bool)
    (k l mx my n m : Nat) :
    AgreeOut (hs_loop E flags d k l mx my n m) (hs_loop E' flags d k l mx my n m) := by
  induction n generalizing m with
  | zero => exact fun s s' hs => ⟨rfl, hs⟩
  | succ n ih =>
    intro s s' hs
    obtain ⟨c2, c1⟩ := hs_retry_agree E E' hE d k m mx my MAX_SEL_RETRIES s s' hs
    rw [hs_loop_succ, hs_loop_succ, ← c2]
    by_cases hr : (hs_retry E d k m mx my MAX_SEL_RETRIES s).2 = true
    · rw [if_pos hr, if_pos hr]
      exact ⟨rfl, c1⟩
    · rw [if_neg hr, if_neg hr]
      exact ih (m + 1) _ _
        (hs_expect_agree E E' hE flags d k l m _ _ (hs_select_agree E E' hE k l m _ _ c1))

theorem pt_loop_agree (E E' : Env) (hE : quiet E = quiet E') (d : Bool) (k n m : Nat) :
    AgreeOut (pt_loop E d k n m) (pt_loop E' d k n m) := by
  induction n generalizing m with
  | zero => exact fun s s' hs => ⟨rfl, hs⟩
  | succ n ih =>
    intro s s' hs
    obtain ⟨c2, c1⟩ := pt_retry_agree E E' hE d k m MAX_SEL_RETRIES s s' hs
    rw [pt_loop_succ, pt_loop_succ, ← c2]
    by_cases hr : (pt_retry E d k m MAX_SEL_RETRIES s).2 = true
    · rw [if_pos hr, if_pos hr]
      exact ⟨rfl, c1⟩
    · rw [if_neg hr, if_neg hr]
      exact ih (m + 1) _ _ c1

theorem hs_branch_fst (E : Env) (flags : Nat) (d : Bool) (k l : Nat) (s : State) :
    (hs_branch E flags d k l s).1 =
      if d = true then
        (hs_loop E flags d k l
          (if MAX_HS_X ≤ s.dset_dims k 0 then MAX_HS_X else s.dset_dims k 0)
          (if MAX_HS_Y ≤ s.dset_dims k 1 then MAX_HS_Y else s.dset_dims k 1)
          (hs_draw_count E s) 0 { s with pos := s.pos + 1 }).1
      else
        hs_mark k (hs_loop E flags d k l
          (if MAX_HS_X ≤ s.dset_dims k 0 then MAX_HS_X else s.dset_dims k 0)
          (if MAX_HS_Y ≤ s.dset_dims k 1 then MAX_HS_Y else s.dset_dims k 1)
          (hs_draw_count E s) 0 { s with pos := s.pos + 1 }).2
          (hs_loop E flags d k l
          (if MAX_HS_X ≤ s.dset_dims k 0 then MAX_HS_X else s.dset_dims k 0)
          (if MAX_HS_Y ≤ s.dset_dims k 1 then MAX_HS_Y else s.dset_dims k 1)
          (hs_draw_count E s) 0 { s with pos := s.pos + 1 }).1 := rfl

theorem hs_branch_agree (E E' : Env) (hE : quiet E = quiet E') (flags : Nat) (d : Bool)
    (k l : Nat) : AgreeOut (hs_branch E flags d k l) (hs_branch E' flags d k l) := by
  intro s s' hs
  have hn : hs_draw_count E s = hs_draw_count E' s' := by
    unfold hs_draw_count
    rw [(quiet_fields hE).1, (erase_fields hs).1]
  have hdim : s.dset_dims = s'.dset_dims := (erase_fields hs).2.2.2.1
  have key : ∀ mx my n mx' my' n', mx = mx' → my = my' → n = n' →
      (hs_loop E flags d k l mx my n 0 { s with pos := s.pos + 1 }).2 =
        (hs_loop E' flags d k l mx' my' n' 0 { s' with pos := s'.pos + 1 }).2 ∧
      erase (hs_loop E flags d k l mx my n 0 { s with pos := s.pos + 1 }).1 =
        erase (hs_loop E' flags d k l mx' my' n' 0 { s' with pos := s'.pos + 1 }).1 := by
    intro mx my n mx' my' n' h1 h2 h3
    subst h1 h2 h3
    exact hs_loop_agree E E' hE flags d k l mx my n 0 _ _ (bump_agree s s' hs)
  obtain ⟨c2, c1⟩ := key
    (if MAX_HS_X ≤ s.dset_dims k 0 then MAX_HS_X else s.dset_dims k 0)
    (if MAX_HS_Y ≤ s.dset_dims k 1 then MAX_HS_Y else s.dset_dims k 1)
    (hs_draw_count E s)
    (if MAX_HS_X ≤ s'.dset_dims k 0 then MAX_HS_X else s'.dset_dims k 0)
    (if MAX_HS_Y ≤ s'.dset_dims k 1 then MAX_HS_Y else s'.dset_dims k 1)
    (hs_draw_count E' s') (by rw [hdim]) (by rw [hdim]) hn
  rw [hs_branch_acc, hs_branch_acc, hs_branch_fst, hs_branch_fst, ← c2, regions_of_erase c1]
  refine ⟨rfl, ?_⟩
  by_cases hd : d = true
  · rw [if_pos hd, if_pos hd]
    exact c1
  · rw [if_neg hd, if_neg hd]
    exact hs_mark_agree k _ _ _ c1

theorem pt_branch_fst (E : Env) (flags : Nat) (d : Bool) (k l : Nat) (s : State) :
    (pt_branch E flags d k l s).1 =
      pt_select_mem E flags k l
        (pt_loop E d k (pt_draw_count E s) 0 { s with pos := s.pos + 1 }).2
        (pt_expect E flags d k l
          (pt_loop E d k (pt_draw_count E s) 0 { s with pos := s.pos + 1 }).2
          (pt_select_file E k l
            (pt_loop E d k (pt_draw_count E s) 0 { s with pos := s.pos + 1 }).2
            (if d = true then (pt_loop E d k (pt_draw_count E s) 0 { s with pos := s.pos + 1 }).1
             else pt_mark k (pt_loop E d k (pt_draw_count E s) 0 { s with pos := s.pos + 1 }).2
              (pt_loop E d k (pt_draw_count E s) 0 { s with pos := s.pos + 1 }).1))) := rfl

theorem pt_branch_agree (E E' : Env) (hE : quiet E = quiet E') (flags : Nat) (d : Bool)
    (k l : Nat) : AgreeOut (pt_branch E flags d k l) (pt_branch E' flags d k l) := by
  intro s s' hs
  have hn : pt_draw_count E s = pt_draw_count E' s' := by
    unfold pt_draw_count
    rw [(quiet_fields hE).1, (erase_fields hs).1]
  have key : ∀ n n', n = n' →
      (pt_loop E d k n 0 { s with pos := s.pos + 1 }).2 =
        (pt_loop E' d k n' 0 { s' with pos := s'.pos + 1 }).2 ∧
      erase (pt_loop E d k n 0 { s with pos := s.pos + 1 }).1 =
        erase (pt_loop E' d k n' 0 { s' with pos := s'.pos + 1 }).1 := by
    intro n n' h1
    subst h1
    exact pt_loop_agree E E' hE d k n 0 _ _ (bump_agree s s' hs)
  obtain ⟨c2, c1⟩ := key (pt_draw_count E s) (pt_draw_count E' s') hn
  rw [pt_branch_acc, pt_branch_acc, pt_branch_fst, pt_branch_fst, ← c2, points_of_erase c1]
  refine ⟨rfl, ?_⟩
  apply pt_select_mem_agree E E' hE
  apply pt_expect_agree E E' hE
  apply pt_select_file_agree E E' hE
  by_cases hd : d = true
  · rw [if_pos hd, if_pos hd]
    exact c1
  · rw [if_neg hd, if_neg hd]
    exact pt_mark_agree k _ _ _ c1

theorem rank_iter_agree (E E' : Env) (hE : quiet E = quiet E') (flags : Nat) (d : Bool)
    (k l : Nat) : AgreeOut (rank_iter E flags d k l) (rank_iter E' flags d k l) := by
  intro s s' hs
  have hg : E.random s.pos = E'.random s'.pos := by
    rw [(quiet_fields hE).1, (erase_fields hs).1]
  unfold rank_iter
  by_cases hg1 : E.random s.pos % 2 ≠ 0
  · rw [if_pos hg1, if_pos (hg ▸ hg1)]
    exact hs_branch_agree E E' hE flags d k l { s with pos := s.pos + 1 }
      { s' with pos := s'.pos + 1 } (bump_agree s s' hs)
  · rw [if_neg hg1, if_neg (hg ▸ hg1)]
    exact pt_branch_agree E E' hE flags d k l { s with pos := s.pos + 1 }
      { s' with pos := s'.pos + 1 } (bump_agree s s' hs)

theorem rank_loop_agree (E E' : Env) (hE : quiet E = quiet E') (flags : Nat) (d : Bool)
    (k n l : Nat) : AgreeOut (rank_loop E flags d k n l) (rank_loop E' flags d k n l) := by
  induction n generalizing l with
  | zero => exact fun s s' hs => ⟨rfl, hs⟩
  | succ n ih =>
    intro s s' hs
    obtain ⟨c2, c1⟩ := rank_iter_agree E E' hE flags d k l s s' hs
    obtain ⟨i2, i1⟩ := ih (l + 1) _ _ c1
    rw [rank_loop_succ, rank_loop_succ]
    exact ⟨by rw [c2, i2], i1⟩

theorem select_none_agree (E E' : Env) (hE : quiet E = quiet E') (k : Nat) :
    Agree
      (fun s => checked E (.H5Sselect_none true k) { s with mem_space := set_at s.mem_space k [] })
      (fun s => checked E' (.H5Sselect_none true k)
        { s with mem_space := set_at s.mem_space k [] }) :=
  agree_of_norm
    (fun E s => checked E (.H5Sselect_none true k) { s with mem_space := set_at s.mem_space k [] })
    (fun _ _ => rfl) E E' hE

theorem select_none_file_agree (E E' : Env) (hE : quiet E = quiet E') (k : Nat) :
    Agree
      (fun s => checked E (.H5Sselect_none false k)
        { s with dset_space := set_at s.dset_space k [] })
      (fun s => checked E' (.H5Sselect_none false k)
        { s with dset_space := set_at s.dset_space k [] }) :=
  agree_of_norm
    (fun E s => checked E (.H5Sselect_none false k)
      { s with dset_space := set_at s.dset_space k [] })
    (fun _ _ => rfl) E E' hE

theorem clear_usage_agree (flags : Nat) (d : Bool) :
    Agree
      (fun s => if (!d) = true then { s with dset_usage := memset0 s.dset_usage (buf_len flags) }
        else s)
      (fun s => if (!d) = true then { s with dset_usage := memset0 s.dset_usage (buf_len flags) }
        else s) := by
  refine agree_self _ ?_
  intro s
  cases d <;> rfl

theorem dset_iter_eq (E : Env) (flags : Nat) (d : Bool) (k : Nat) (s : State) :
    dset_iter E flags d k s =
      rank_loop E flags d k E.mpi_size 0
        ((fun s => if (!d) = true then
            { s with dset_usage := memset0 s.dset_usage (buf_len flags) } else s)
          ((fun s => checked E (.H5Sselect_none false k)
              { s with dset_space := set_at s.dset_space k [] })
            ((fun s => checked E (.H5Sselect_none true k)
              { s with mem_space := set_at s.mem_space k [] }) s))) := rfl

theorem dset_iter_agree (E E' : Env) (hE : quiet E = quiet E') (flags : Nat) (d : Bool)
    (k : Nat) : AgreeOut (dset_iter E flags d k) (dset_iter E' flags d k) := by
  intro s s' hs
  rw [dset_iter_eq, dset_iter_eq, ← (quiet_fields hE).2.1]
  exact rank_loop_agree E E' hE flags d k E.mpi_size 0 _ _
    (clear_usage_agree flags d _ _
      (select_none_file_agree E E' hE k _ _ (select_none_agree E E' hE k s s' hs)))

theorem dset_loop_agree (E E' : Env) (hE : quiet E = quiet E') (flags : Nat) (d : Bool)
    (n k : Nat) : AgreeOut (dset_loop E flags d n k) (dset_loop E' flags d n k) := by
  induction n generalizing k with
  | zero => exact fun s s' hs => ⟨rfl, hs⟩
  | succ n ih =>
    intro s s' hs
    obtain ⟨c2, c1⟩ := dset_iter_agree E E' hE flags d k s s' hs
    obtain ⟨i2, i1⟩ := ih (k + 1) _ _ c1
    rw [dset_loop_succ, dset_loop_succ]
    exact ⟨by rw [c2, i2], i1⟩

/-- The selections of one operation: the same are accepted, whatever calls fail. -/
theorem op_select_agree (E E' : Env) (hE : quiet E = quiet E') (flags : Nat) (d : Bool) :
    AgreeOut (op_select E flags d) (op_select E' flags d) := by
  intro s s' hs
  unfold op_select
  rw [← (erase_fields hs).2.2.1]
  exact dset_loop_agree E E' hE flags d s.ndsets 0 s s' hs

/-! ### Operations and lifetimes -/

theorem foldl_checked_agree (E E' : Env) (hE : quiet E = quiet E') (f : Nat → Call)
    (L : List Nat) :
    Agree (fun s => L.foldl (fun s k => checked E (f k) s) s)
      (fun s => L.foldl (fun s k => checked E' (f k) s) s) :=
  agree_foldl _ _ (fun a => checked_agree E E' hE (f a)) L

theorem reopen_eq (E : Env) (s : State) :
    reopen E s =
      unchecked .MPI_Barrier
        ((List.range s.ndsets).foldl (fun s k => checked E (.H5Dopen2 k) s)
          (checked E .H5Fopen (unchecked .MPI_Barrier (checked E .H5Fclose
            ((List.range s.ndsets).foldl (fun s k => checked E (.H5Dclose k) s) s))))) := rfl

theorem reopen_agree (E E' : Env) (hE : quiet E = quiet E') : Agree (reopen E) (reopen E') := by
  intro s s' hs
  have hn : s.ndsets = s'.ndsets := (erase_fields hs).2.2.1
  have key : ∀ n n', n = n' →
      erase (unchecked .MPI_Barrier
        ((List.range n).foldl (fun s k => checked E (.H5Dopen2 k) s)
          (checked E .H5Fopen (unchecked .MPI_Barrier (checked E .H5Fclose
            ((List.range n).foldl (fun s k => checked E (.H5Dclose k) s) s)))))) =
      erase (unchecked .MPI_Barrier
        ((List.range n').foldl (fun s k => checked E' (.H5Dopen2 k) s)
          (checked E' .H5Fopen (unchecked .MPI_Barrier (checked E' .H5Fclose
            ((List.range n').foldl (fun s k => checked E' (.H5Dclose k) s) s')))))) := by
    intro n n' h1
    subst h1
    exact unchecked_agree _ _ _ (foldl_checked_agree E E' hE Call.H5Dopen2 _ _ _
      (checked_agree E E' hE _ _ _ (unchecked_agree _ _ _ (checked_agree E E' hE _ _ _
        (foldl_checked_agree E E' hE Call.H5Dclose _ s s' hs)))))
  rw [reopen_eq, reopen_eq]
  exact key _ _ hn

theorem op_begin_snd (E : Env) (s : State) :
    (op_begin E s).2 = decide (E.random s.pos % 2 ≠ 0) := rfl

theorem op_begin_fst (E : Env) (s : State) :
    (op_begin E s).1 =
      (fun (b : Bool) (t : State) => { t with last_read := b }) (decide (E.random s.pos % 2 ≠ 0))
        (if (!s.last_read) = true then reopen E (unchecked .MPI_Barrier { s with pos := s.pos + 1 })
         else unchecked .MPI_Barrier { s with pos := s.pos + 1 }) := rfl

theorem op_begin_agree (E E' : Env) (hE : quiet E = quiet E') :
    AgreeOut (op_begin E) (op_begin E') := by
  intro s s' hs
  have hg : E.random s.pos = E'.random s'.pos := by
    rw [(quiet_fields hE).1, (erase_fields hs).1]
  have hl : s.last_read = s'.last_read := (erase_fields hs).2.2.2.2.2.2.2.2.2.2.2.2.1
  have hd : decide (E.random s.pos % 2 ≠ 0) = decide (E'.random s'.pos % 2 ≠ 0) := by rw [hg]
  have h1 : erase (unchecked .MPI_Barrier { s with pos := s.pos + 1 }) =
      erase (unchecked .MPI_Barrier { s' with pos := s'.pos + 1 }) :=
    unchecked_agree _ _ _ (bump_agree s s' hs)
  refine ⟨hd, ?_⟩
  rw [op_begin_fst, op_begin_fst, ← hd]
  apply agree_self (fun t => { t with last_read := decide (E.random s.pos % 2 ≠ 0) })
    (fun _ => rfl)
  by_cases hc : (!s.last_read) = true
  · rw [if_pos hc, if_pos (hl ▸ hc)]
    exact reopen_agree E E' hE _ _ h1
  · rw [if_neg hc, if_neg (hl ▸ hc)]
    exact h1

/-- One operation: whatever calls fail and whatever the storage delivers, the states agree
afterwards up to the error counter and the read buffer. -/
theorem operation_agree (E E' : Env) (hE : quiet E = quiet E') (flags : Nat)
    (file file' : Nat → Nat → Nat → Nat) :
    Agree (operation E flags file) (operation E' flags file') := by
  intro s s' hs
  obtain ⟨b2, b1⟩ := op_begin_agree E E' hE s s' hs
  obtain ⟨_, c1⟩ := op_select_agree E E' hE flags (op_begin E s).2 _ _ b1
  rw [operation_eq, operation_eq, ← b2]
  exact op_io_agree E E' hE flags _ file file' _ _ c1

theorem run_ops_agree (E E' : Env) (hE : quiet E = quiet E') (flags : Nat)
    (file file' : Nat → Nat → Nat → Nat → Nat) (n : Nat) :
    Agree (run_ops E flags file n) (run_ops E' flags file' n) := by
  induction n with
  | zero => exact fun s s' hs => hs
  | succ n ih =>
    intro s s' hs
    rw [run_ops_succ, run_ops_succ]
    exact operation_agree E E' hE flags _ _ _ _ (ih s s' hs)

theorem lifetime_init_eq (E : Env) (flags : Nat) (s : State) :
    lifetime_init E flags s =
      (fun (E : Env) (s3 : State) =>
        { s3 with
          rbuf := memset0 s3.rbuf (buf_len flags)
          erbuf := memset0 s3.erbuf (buf_len flags)
          wbuf := for_cells (max_dsets flags)
            (fun j k l wbuf => set wbuf (idx j k l)
              (to_unsigned ((E.mpi_rank * max_dsets flags * MAX_DSET_X * MAX_DSET_Y
                + j * MAX_DSET_X * MAX_DSET_Y + k * MAX_DSET_Y + l : Nat) : Int))) s3.wbuf
          efbuf := memset0 s3.efbuf (buf_len flags)
          last_read := true }) E
        ((List.range
            ((fun (E : Env) (s : State) => checked E .H5Fcreate
              (if has_flag flags MDSET_FLAG_MDSET = true then
                { s with ndsets := E.random s.pos % max_dsets flags + 1, pos := s.pos + 1 }
              else { s with ndsets := 1 })) E s).ndsets).foldl
          (fun s j => create_dset E flags j s)
          ((fun (E : Env) (s : State) => checked E .H5Fcreate
              (if has_flag flags MDSET_FLAG_MDSET = true then
                { s with ndsets := E.random s.pos % max_dsets flags + 1, pos := s.pos + 1 }
              else { s with ndsets := 1 })) E s)) := rfl

theorem lifetime_init_agree (E E' : Env) (hE : quiet E = quiet E') (flags : Nat) :
    Agree (lifetime_init E flags) (lifetime_init E' flags) := by
  intro s s' hs
  have h1 := agree_of_norm
    (fun (E : Env) (s : State) => checked E .H5Fcreate
      (if has_flag flags MDSET_FLAG_MDSET = true then
        { s with ndsets := E.random s.pos % max_dsets flags + 1, pos := s.pos + 1 }
      else { s with ndsets := 1 }))
    (by
      intro E s
      simp only [erase, quiet]
      split_ifs <;> rfl) E E' hE s s' hs
  have hn := (erase_fields h1).2.2.1
  rw [lifetime_init_eq, lifetime_init_eq]
  simp only at h1 hn ⊢
  rw [← hn]
  have h2 := agree_foldl _ _ (fun j => create_dset_agree E E' hE flags j) (List.range
    (checked E .H5Fcreate
      (if has_flag flags MDSET_FLAG_MDSET = true then
        { s with ndsets := E.random s.pos % max_dsets flags + 1, pos := s.pos + 1 }
      else { s with ndsets := 1 })).ndsets) _ _ h1
  exact agree_of_norm
    (fun (E : Env) (s3 : State) =>
      { s3 with
        rbuf := memset0 s3.rbuf (buf_len flags)
        erbuf := memset0 s3.erbuf (buf_len flags)
        wbuf := for_cells (max_dsets flags)
          (fun j k l wbuf => set wbuf (idx j k l)
            (to_unsigned ((E.mpi_rank * max_dsets flags * MAX_DSET_X * MAX_DSET_Y
              + j * MAX_DSET_X * MAX_DSET_Y + k * MAX_DSET_Y + l : Nat) : Int))) s3.wbuf
        efbuf := memset0 s3.efbuf (buf_len flags)
        last_read := true })
    (fun _ _ => rfl) E E' hE _ _ h2

/-! ### The whole test -/

theorem close_lifetime_agree (E E' : Env) (hE : quiet E = quiet E') :
    Agree (close_lifetime E) (close_lifetime E') := by
  intro s s' hs
  have hn : s.ndsets = s'.ndsets := (erase_fields hs).2.2.1
  unfold close_lifetime
  simp only
  rw [← hn]
  exact checked_agree E E' hE _ _ _
    (agree_foldl _ _
      (fun j => agree_comp (checked_agree E E' hE (.H5Dclose j)) (checked_agree E E' hE (.H5Sclose j)))
      (List.range s.ndsets) s s' hs)

theorem lifetime_agree (E E' : Env) (hE : quiet E = quiet E') (flags : Nat)
    (file file' : Nat → Nat → Nat → Nat → Nat) :
    Agree (lifetime E flags file) (lifetime E' flags file') := by
  intro s s' hs
  rw [lifetime_eq, lifetime_eq]
  exact close_lifetime_agree E E' hE _ _
    (run_ops_agree E E' hE flags file file' OPS_PER_FILE _ _
      (lifetime_init_agree E E' hE flags s s' hs))

theorem lifetimes_agree (E E' : Env) (hE : quiet E = quiet E') (flags : Nat)
    (file file' : Nat → Nat → Nat → Nat → Nat → Nat) (n : Nat) :
    Agree (lifetimes E flags file n) (lifetimes E' flags file' n) := by
  induction n with
  | zero => exact fun s s' hs => hs
  | succ n ih =>
    intro s s' hs
    rw [lifetimes_succ, lifetimes_succ]
    exact lifetime_agree E E' hE flags _ _ _ _ (ih s s' hs)

theorem setup_eq (E : Env) (flags : Nat) (s : State) :
    setup E flags s =
      (fun (E : Env) (s5 : State) =>
        checked E (.H5Pset_dxpl_mpio (has_flag flags MDSET_FLAG_COLLECTIVE))
          (checked E (.H5Pcreate 2) (checked E .H5Pset_alloc_time (checked E .H5Pset_fill_time
            (checked E (.H5Pcreate 1) (checked E .H5Pset_fapl_mpio
              (checked E (.H5Pcreate 0) s5))))))) E
        ((List.range' 1 (max_dsets flags - 1)).foldl
          (fun s i => checked E (.H5Scopy i)
            { s with mem_space := set_at s.mem_space i (s.mem_space 0) })
          ((fun (E : Env) (s2 : State) =>
            checked E .H5Screate_simple_mem
              { s2 with
                dset_dims := set2 (set2 s2.dset_dims 0 0 MAX_DSET_X) 0 1 MAX_DSET_Y
                mem_space := set_at s2.mem_space 0
                  [.all (if has_flag flags MDSET_FLAG_SHAPESAME then
                      [set2 (set2 s2.dset_dims 0 0 MAX_DSET_X) 0 1 MAX_DSET_Y 0 0,
                        set2 (set2 s2.dset_dims 0 0 MAX_DSET_X) 0 1 MAX_DSET_Y 0 1]
                    else [set2 (set2 s2.dset_dims 0 0 MAX_DSET_X) 0 1 MAX_DSET_Y 0 0,
                      set2 (set2 s2.dset_dims 0 0 MAX_DSET_X) 0 1 MAX_DSET_Y 0 1,
                      set2 (set2 s2.dset_dims 0 0 MAX_DSET_X) 0 1 MAX_DSET_Y 0 2])] }) E
            ((List.range MAX_HS).foldl
              (fun s i => { s with start := set2 s.start i 2 0, count := set2 s.count i 2 1 })
              ((List.range (max_dsets flags)).foldl
                (fun s i => { s with dset_dims := set2 s.dset_dims i 2 1 }) s)))) := rfl

theorem setup_agree (E E' : Env) (hE : quiet E = quiet E') (flags : Nat) :
    Agree (setup E flags) (setup E' flags) := by
  intro s s' hs
  have h1 := agree_foldl (fun (s : State) (i : Nat) => { s with dset_dims := set2 s.dset_dims i 2 1 })
    _ (fun i => agree_self _ (fun _ => rfl)) (List.range (max_dsets flags)) s s' hs
  have h2 := agree_foldl
    (fun (s : State) (i : Nat) =>
      { s with start := set2 s.start i 2 0, count := set2 s.count i 2 1 })
    _ (fun i => agree_self _ (fun _ => rfl)) (List.range MAX_HS) _ _ h1
  have h3 := agree_of_norm
    (fun (E : Env) (s2 : State) =>
      checked E .H5Screate_simple_mem
        { s2 with
          dset_dims := set2 (set2 s2.dset_dims 0 0 MAX_DSET_X) 0 1 MAX_DSET_Y
          mem_space := set_at s2.mem_space 0
            [.all (if has_flag flags MDSET_FLAG_SHAPESAME then
                [set2 (set2 s2.dset_dims 0 0 MAX_DSET_X) 0 1 MAX_DSET_Y 0 0,
                  set2 (set2 s2.dset_dims 0 0 MAX_DSET_X) 0 1 MAX_DSET_Y 0 1]
              else [set2 (set2 s2.dset_dims 0 0 MAX_DSET_X) 0 1 MAX_DSET_Y 0 0,
                set2 (set2 s2.dset_dims 0 0 MAX_DSET_X) 0 1 MAX_DSET_Y 0 1,
                set2 (set2 s2.dset_dims 0 0 MAX_DSET_X) 0 1 MAX_DSET_Y 0 2])] })
    (fun _ _ => rfl) E E' hE _ _ h2
  have h4 := agree_foldl _ _
    (fun i => agree_of_norm
      (fun (E : Env) (s : State) => checked E (.H5Scopy i)
        { s with mem_space := set_at s.mem_space i (s.mem_space 0) })
      (fun _ _ => rfl) E E' hE)
    (List.range' 1 (max_dsets flags - 1)) _ _ h3
  have h5 := agree_of_norm
    (fun (E : Env) (s5 : State) =>
        checked E (.H5Pset_dxpl_mpio (has_flag flags MDSET_FLAG_COLLECTIVE))
          (checked E (.H5Pcreate 2) (checked E .H5Pset_alloc_time (checked E .H5Pset_fill_time
            (checked E (.H5Pcreate 1) (checked E .H5Pset_fapl_mpio
              (checked E (.H5Pcreate 0) s5)))))))
    (fun _ _ => rfl) E E' hE _ _ h4
  rw [setup_eq, setup_eq]
  exact h5

theorem teardown_agree (E E' : Env) (hE : quiet E = quiet E') (flags : Nat) :
    Agree (teardown E flags) (teardown E' flags) := by
  intro s s' hs
  unfold teardown
  exact checked_agree E E' hE _ _ _ (checked_agree E E' hE _ _ _ (checked_agree E E' hE _ _ _
    (foldl_checked_agree E E' hE Call.H5Sclose_mem (List.range (max_dsets flags)) s s' hs)))

theorem test_pmdset_eq (E : Env) (niter flags : Nat)
    (file : Nat → Nat → Nat → Nat → Nat → Nat) (s : State) :
    test_pmdset E niter flags file s =
      teardown E flags (lifetimes E flags file niter (setup E flags s)) := rfl

/-- A call of `test_pmdset`: whatever calls fail and whatever the storage delivers, the
states agree afterwards up to the error counter and the read buffer. -/
theorem test_pmdset_agree (E E' : Env) (hE : quiet E = quiet E') (niter flags : Nat)
    (file file' : Nat → Nat → Nat → Nat → Nat → Nat) :
    Agree (test_pmdset E niter flags file) (test_pmdset E' niter flags file') := by
  intro s s' hs
  rw [test_pmdset_eq, test_pmdset_eq]
  exact teardown_agree E E' hE flags _ _
    (lifetimes_agree E E' hE flags file file' niter _ _ (setup_agree E E' hE flags s s' hs))

theorem fill_dset_names_agree : Agree fill_dset_names fill_dset_names := by
  unfold fill_dset_names
  refine agree_foldl _ _ (fun i => agree_self _ ?_) (List.range MAX_DSETS)
  intro s
  simp only [erase]
  split_ifs <;> rfl

theorem main_loop_agree (E E' : Env) (hE : quiet E = quiet E')
    (file file' : Nat → Nat → Nat → Nat → Nat → Nat → Nat) (n i : Nat) :
    AgreeOut (main_loop E file n i) (main_loop E' file' n i) := by
  induction n generalizing i with
  | zero => exact fun s s' hs => ⟨rfl, hs⟩
  | succ n ih =>
    intro s s' hs
    obtain ⟨i2, i1⟩ := ih (i + 1) _ _ (test_pmdset_agree E E' hE 10 i (file i) (file' i) s s' hs)
    rw [main_loop_succ, main_loop_succ]
    exact ⟨by rw [i2], i1⟩

theorem main_local_snd (E : Env) (file : Nat → Nat → Nat → Nat → Nat → Nat → Nat) (s : State) :
    (main_local E file s).2 =
      (main_loop E file (MDSET_ALL_FLAGS + 1) 0
        (fill_dset_names
          ((fun (E : Env) (s : State) =>
            { checked E .MPI_Bcast (unchecked .MPI_Comm_rank (unchecked .MPI_Comm_size
              (unchecked .MPI_Init (unchecked .h5_reset { s with nerrors := 0 })))) with
              pos := 0 }) E s))).2 := rfl

theorem main_local_fst (E : Env) (file : Nat → Nat → Nat → Nat → Nat → Nat → Nat) (s : State) :
    (main_local E file s).1 =
      (fun (E : Env) (s : State) =>
        if E.mpi_rank = 0 then checked E .MPI_File_delete (checked E .MPI_Barrier s)
        else checked E .MPI_Barrier s) E
      (main_loop E file (MDSET_ALL_FLAGS + 1) 0
        (fill_dset_names
          ((fun (E : Env) (s : State) =>
            { checked E .MPI_Bcast (unchecked .MPI_Comm_rank (unchecked .MPI_Comm_size
              (unchecked .MPI_Init (unchecked .h5_reset { s with nerrors := 0 })))) with
              pos := 0 }) E s))).1 := rfl

/-- The run of `main` of one process up to the reduction: whatever calls fail and whatever
the storage delivers, the same configurations are run and the states agree afterwards up to
the error counter and the read buffer. -/
theorem main_local_agree (E E' : Env) (hE : quiet E = quiet E')
    (file file' : Nat → Nat → Nat → Nat → Nat → Nat → Nat) :
    AgreeOut (main_local E file) (main_local E' file') := by
  intro s s' hs
  have h1 := agree_of_norm
    (fun (E : Env) (s : State) =>
      { checked E .MPI_Bcast (unchecked .MPI_Comm_rank (unchecked .MPI_Comm_size
        (unchecked .MPI_Init (unchecked .h5_reset { s with nerrors := 0 })))) with pos := 0 })
    (fun _ _ => rfl) E E' hE s s' hs
  obtain ⟨m2, m1⟩ := main_loop_agree E E' hE file file' (MDSET_ALL_FLAGS + 1) 0 _ _
    (fill_dset_names_agree _ _ h1)
  rw [main_local_snd, main_local_snd, main_local_fst, main_local_fst]
  refine ⟨m2, ?_⟩
  exact agree_of_norm
    (fun (E : Env) (s : State) =>
      if E.mpi_rank = 0 then checked E .MPI_File_delete (checked E .MPI_Barrier s)
      else checked E .MPI_Barrier s)
    (by
      intro E s
      simp only [erase, quiet]
      split_ifs <;> rfl) E E' hE _ _ m1

/-! ### The error counter never decreases -/

theorem checked_errors_le (E : Env) (c : Call) (s : State) :
    s.nerrors ≤ (checked E c s).nerrors := (checked_spec E c s).2.2

theorem foldl_errors_le {α : Type} (f : State → α → State)
    (h : ∀ s a, s.nerrors ≤ (f s a).nerrors) (L : List α) (s : State) :
    s.nerrors ≤ (L.foldl f s).nerrors := by
  induction L generalizing s with
  | nil => exact Nat.le_refl _
  | cons a L ih => exact Nat.le_trans (h s a) (ih (f s a))

theorem op_io_errors_le (E : Env) (flags : Nat) (d : Bool) (file : Nat → Nat → Nat → Nat)
    (s : State) : s.nerrors ≤ (op_io E flags d file s).nerrors := by
  unfold op_io
  simp only [checked]
  split_ifs <;> simp only [] <;> omega

theorem op_select_errors_le (E : Env) (flags : Nat) (d : Bool) (s : State) :
    s.nerrors ≤ (op_select E flags d s).1.nerrors := (op_select_spec E flags d s).2.2.1.2

theorem op_begin_errors_le (E : Env) (s : State) : s.nerrors ≤ (op_begin E s).1.nerrors := by
  obtain ⟨-, -, -, -, -, -, -, -, -, -, h⟩ := op_begin_spec E s
  exact h.2

theorem operation_errors_le (E : Env) (flags : Nat) (file : Nat → Nat → Nat → Nat) (s : State) :
    s.nerrors ≤ (operation E flags file s).nerrors := by
  rw [operation_eq]
  exact Nat.le_trans (op_begin_errors_le E s)
    (Nat.le_trans (op_select_errors_le E flags _ _) (op_io_errors_le E flags _ file _))

theorem run_ops_errors_le (E : Env) (flags : Nat) (file : Nat → Nat → Nat → Nat → Nat) (n : Nat)
    (s : State) : s.nerrors ≤ (run_ops E flags file n s).nerrors := by
  induction n with
  | zero => exact Nat.le_refl _
  | succ n ih =>
    rw [run_ops_succ]
    exact Nat.le_trans ih (operation_errors_le E flags _ _)

theorem lifetime_init_errors_le (E : Env) (flags : Nat) (s : State) :
    s.nerrors ≤ (lifetime_init E flags s).nerrors := by
  obtain ⟨-, -, -, -, -, -, -, h⟩ := lifetime_init_spec E flags s
  exact h.2

theorem close_lifetime_errors_le (E : Env) (s : State) :
    s.nerrors ≤ (close_lifetime E s).nerrors := by
  unfold close_lifetime
  exact Nat.le_trans
    (foldl_errors_le _
      (fun s j => Nat.le_trans (checked_errors_le E (.H5Dclose j) s) (checked_errors_le E _ _))
      (List.range s.ndsets) s)
    (checked_errors_le E _ _)

theorem lifetime_errors_le (E : Env) (flags : Nat) (file : Nat → Nat → Nat → Nat → Nat)
    (s : State) : s.nerrors ≤ (lifetime E flags file s).nerrors := by
  rw [lifetime_eq]
  exact Nat.le_trans (lifetime_init_errors_le E flags s)
    (Nat.le_trans (run_ops_errors_le E flags file _ _) (close_lifetime_errors_le E _))

theorem lifetimes_errors_le (E : Env) (flags : Nat)
    (file : Nat → Nat → Nat → Nat → Nat → Nat) (n : Nat) (s : State) :
    s.nerrors ≤ (lifetimes E flags file n s).nerrors := by
  induction n with
  | zero => exact Nat.le_refl _
  | succ n ih =>
    rw [lifetimes_succ]
    exact Nat.le_trans ih (lifetime_errors_le E flags _ _)

theorem comp_errors_le (p1 p2 p3 p4 p5 : State → State)
    (h1 : ∀ s, s.nerrors ≤ (p1 s).nerrors) (h2 : ∀ s, s.nerrors ≤ (p2 s).nerrors)
    (h3 : ∀ s, s.nerrors ≤ (p3 s).nerrors) (h4 : ∀ s, s.nerrors ≤ (p4 s).nerrors)
    (h5 : ∀ s, s.nerrors ≤ (p5 s).nerrors) (s : State) :
    s.nerrors ≤ (p5 (p4 (p3 (p2 (p1 s))))).nerrors :=
  Nat.le_trans (h1 s) (Nat.le_trans (h2 _) (Nat.le_trans (h3 _) (Nat.le_trans (h4 _) (h5 _))))

theorem setup_errors_le (E : Env) (flags : Nat) (s : State) :
    s.nerrors ≤ (setup E flags s).nerrors := by
  rw [setup_eq]
  exact comp_errors_le
    (fun s => (List.range (max_dsets flags)).foldl
      (fun s i => { s with dset_dims := set2 s.dset_dims i 2 1 }) s)
    (fun s => (List.range MAX_HS).foldl
      (fun s i => { s with start := set2 s.start i 2 0, count := set2 s.count i 2 1 }) s)
    (fun s2 => checked E .H5Screate_simple_mem
      { s2 with
        dset_dims := set2 (set2 s2.dset_dims 0 0 MAX_DSET_X) 0 1 MAX_DSET_Y
        mem_space := set_at s2.mem_space 0
          [.all (if has_flag flags MDSET_FLAG_SHAPESAME then
              [set2 (set2 s2.dset_dims 0 0 MAX_DSET_X) 0 1 MAX_DSET_Y 0 0,
                set2 (set2 s2.dset_dims 0 0 MAX_DSET_X) 0 1 MAX_DSET_Y 0 1]
            else [set2 (set2 s2.dset_dims 0 0 MAX_DSET_X) 0 1 MAX_DSET_Y 0 0,
              set2 (set2 s2.dset_dims 0 0 MAX_DSET_X) 0 1 MAX_DSET_Y 0 1,
              set2 (set2 s2.dset_dims 0 0 MAX_DSET_X) 0 1 MAX_DSET_Y 0 2])] })
    (fun s => (List.range' 1 (max_dsets flags - 1)).foldl
      (fun s i => checked E (.H5Scopy i)
        { s with mem_space := set_at s.mem_space i (s.mem_space 0) }) s)
    (fun s5 => checked E (.H5Pset_dxpl_mpio (has_flag flags MDSET_FLAG_COLLECTIVE))
      (checked E (.H5Pcreate 2) (checked E .H5Pset_alloc_time (checked E .H5Pset_fill_time
        (checked E (.H5Pcreate 1) (checked E .H5Pset_fapl_mpio
          (checked E (.H5Pcreate 0) s5)))))))
    (fun s => by
      apply foldl_errors_le
      intro s _
      exact Nat.le_refl _)
    (fun s => by
      apply foldl_errors_le
      intro s _
      exact Nat.le_refl _)
    (fun s => checked_errors_le E .H5Screate_simple_mem _)
    (fun s => by
      apply foldl_errors_le
      intro s i
      exact checked_errors_le E (.H5Scopy i) _)
    (fun s => Nat.le_trans (checked_errors_le E (.H5Pcreate 0) s)
      (Nat.le_trans (checked_errors_le E .H5Pset_fapl_mpio _)
      (Nat.le_trans (checked_errors_le E (.H5Pcreate 1) _)
      (Nat.le_trans (checked_errors_le E .H5Pset_fill_time _)
      (Nat.le_trans (checked_errors_le E .H5Pset_alloc_time _)
      (Nat.le_trans (checked_errors_le E (.H5Pcreate 2) _)
      (checked_errors_le E (.H5Pset_dxpl_mpio (has_flag flags MDSET_FLAG_COLLECTIVE)) _)))))))
    s

theorem teardown_errors_le (E : Env) (flags : Nat) (s : State) :
    s.nerrors ≤ (teardown E flags s).nerrors := by
  unfold teardown
  exact Nat.le_trans (foldl_checked_spec E Call.H5Sclose_mem _ s).2.2
    (Nat.le_trans (checked_errors_le E _ _)
      (Nat.le_trans (checked_errors_le E _ _) (checked_errors_le E _ _)))

theorem test_pmdset_errors_le (E : Env) (niter flags : Nat)
    (file : Nat → Nat → Nat → Nat → Nat → Nat) (s : State) :
    s.nerrors ≤ (test_pmdset E niter flags file s).nerrors := by
  rw [test_pmdset_eq]
  exact Nat.le_trans (setup_errors_le E flags s)
    (Nat.le_trans (lifetimes_errors_le E flags file niter _) (teardown_errors_le E flags _))

/-! ## What is registered with the I/O boundary -/

theorem box_cells_flat (x y cx cy : Nat) :
    box_cells x y 0 cx cy 1 = (region_cells (x, y, cx, cy)).map lift_cell := by
  unfold box_cells region_cells lift_cell
  simp only [List.map_flatMap, List.range'_one, List.map_cons, List.map_nil, List.map_map]
  congr 1
  funext n
  generalize List.range' y cy = L
  induction L with
  | nil => rfl
  | cons a t ih =>
    rw [List.flatMap_cons, ih]
    rfl

theorem mem_sel_cells_append (R : Nat) (a b : List Sel) :
    mem_sel_cells R (a ++ b) = mem_sel_cells R a ++ mem_sel_cells R b := by
  simp [mem_sel_cells]

theorem mem_sel_cells_single (R : Nat) (a : Sel) : mem_sel_cells R [a] = a.mem_cells R := by
  simp [mem_sel_cells]

theorem mem_cells_request (flags : Nat) (s : State) (m : Nat) (h0 : s.start m 2 = 0)
    (h1 : s.count m 2 = 1) :
    (mem_request s m).mem_cells (mem_rank flags) =
      (region_cells (s.start m 0, s.start m 1, s.count m 0, s.count m 1)).map lift_cell := by
  unfold mem_request Sel.mem_cells
  simp only [List.getD_cons_zero, List.getD_cons_succ, h0, h1, ite_self]
  exact box_cells_flat _ _ _ _

theorem SameThird.third_refl (s : State) : SameThird s s := fun _ _ _ => ⟨rfl, rfl⟩

theorem SameThird.third_trans {s1 s2 s3 : State} (h1 : SameThird s1 s2) (h2 : SameThird s2 s3) :
    SameThird s1 s3 := fun m d hd =>
  ⟨(h2 m d hd).1.trans (h1 m d hd).1, (h2 m d hd).2.trans (h1 m d hd).2⟩

theorem SameThird.third_of_eq {s s' : State} (h1 : s'.start = s.start) (h2 : s'.count = s.count) :
    SameThird s s' := fun m d _ => ⟨by rw [h1], by rw [h2]⟩

theorem third_ok_of_same {s s' : State} (h : SameThird s s') (h0 : third_ok s) : third_ok s' :=
  fun m hm => ⟨((h m 2 (Nat.le_refl 2)).1).trans (h0 m hm).1,
    ((h m 2 (Nat.le_refl 2)).2).trans (h0 m hm).2⟩

/-- Lines 378-399 for an accepted hyperslab: what is registered. -/
theorem hs_accept_reg (E : Env) (flags : Nat) (d : Bool) (k l m : Nat) (s : State) :
    (hs_expect E flags d k l m (hs_select E k l m s)).mem_space =
      (if l = E.mpi_rank then set_at s.mem_space k (s.mem_space k ++ [mem_request s m])
       else s.mem_space) ∧
    (hs_expect E flags d k l m (hs_select E k l m s)).log =
      (if l = E.mpi_rank then
        s.log ++ [Call.H5Sselect_hyperslab true k, Call.H5Sselect_hyperslab false k]
       else s.log) := by
  unfold hs_expect hs_select mem_request
  by_cases hl : l = E.mpi_rank
  · simp only [if_pos hl]
    cases d
    · exact ⟨rfl, by simp [checked]⟩
    · exact ⟨rfl, by simp [checked]⟩
  · simp only [if_neg hl]
    cases d
    · exact ⟨rfl, rfl⟩
    · exact ⟨rfl, rfl⟩

theorem range_map_split (f g : Nat → Sel) (m n : Nat) (hn : m + 1 ≤ n) (h0 : f m = g m) :
    (List.range' m (n - m)).map f = [g m] ++ (List.range' (m + 1) (n - (m + 1))).map f := by
  have : n - m = (n - (m + 1)) + 1 := by omega
  rw [this, List.range'_succ, List.map_cons, h0]
  rfl

theorem replicate_split {α : Type} (a : List α) (m n : Nat) (hn : m + 1 ≤ n) :
    (List.replicate (n - m) a).flatten = a ++ (List.replicate (n - (m + 1)) a).flatten := by
  have : n - m = (n - (m + 1)) + 1 := by omega
  rw [this, List.replicate_succ, List.flatten_cons]

/-- The memory requests and the calls of the hyperslab loop. -/
theorem hs_loop_reg (E : Env) (flags : Nat) (d : Bool) (k l mx my n m : Nat) (s : State) :
    (hs_loop E flags d k l mx my n m s).1.mem_space =
      (if l = E.mpi_rank then
        set_at s.mem_space k (s.mem_space k ++
          (List.range' m ((hs_loop E flags d k l mx my n m s).2 - m)).map
            (mem_request (hs_loop E flags d k l mx my n m s).1))
       else s.mem_space) ∧
    (hs_loop E flags d k l mx my n m s).1.log =
      (if l = E.mpi_rank then
        s.log ++ (List.replicate ((hs_loop E flags d k l mx my n m s).2 - m)
          [Call.H5Sselect_hyperslab true k, Call.H5Sselect_hyperslab false k]).flatten
       else s.log) := by
  induction n generalizing m s with
  | zero =>
    simp only [hs_loop, Nat.sub_self, List.range'_zero, List.map_nil, List.append_nil,
      set_at_self, ite_self, List.replicate_zero, List.flatten_nil, and_self]
  | succ n ih =>
    obtain ⟨⟨g0, g1, g2, g3, g4, g5, g6, g7⟩, gp, gpos⟩ :=
      hs_retry_frame E d k m mx my MAX_SEL_RETRIES s
    rw [hs_loop_succ]
    by_cases hov : (hs_retry E d k m mx my MAX_SEL_RETRIES s).2 = true
    · rw [if_pos hov]
      simp only [Nat.sub_self, List.range'_zero, List.map_nil, List.append_nil, set_at_self,
        ite_self, List.replicate_zero, List.flatten_nil, g2, g6, and_self]
    · rw [if_neg hov]
      obtain ⟨a1, a2⟩ := hs_accept_reg E flags d k l m (hs_retry E d k m mx my MAX_SEL_RETRIES s).1
      obtain ⟨-, -, a3, a4, -⟩ :=
        hs_accept_spec E flags d k l m (hs_retry E d k m mx my MAX_SEL_RETRIES s).1
      obtain ⟨i1, i2⟩ := ih (m + 1)
        (hs_expect E flags d k l m (hs_select E k l m (hs_retry E d k m mx my MAX_SEL_RETRIES s).1))
      obtain ⟨⟨h1, h2⟩, h3, -⟩ := hs_loop_shape E flags d k l mx my n (m + 1)
        (hs_expect E flags d k l m (hs_select E k l m (hs_retry E d k m mx my MAX_SEL_RETRIES s).1))
      generalize hs_loop E flags d k l mx my n (m + 1)
        (hs_expect E flags d k l m
          (hs_select E k l m (hs_retry E d k m mx my MAX_SEL_RETRIES s).1)) = r at *
      generalize hs_expect E flags d k l m
          (hs_select E k l m (hs_retry E d k m mx my MAX_SEL_RETRIES s).1) = se at *
      generalize (hs_retry E d k m mx my MAX_SEL_RETRIES s).1 = sr at *
      have hreq : mem_request r.1 m = mem_request sr m := by
        unfold mem_request
        rw [(h3 m 0 (Or.inl (by omega))).1, (h3 m 1 (Or.inl (by omega))).1,
          (h3 m 2 (Or.inl (by omega))).1, (h3 m 0 (Or.inl (by omega))).2,
          (h3 m 1 (Or.inl (by omega))).2, (h3 m 2 (Or.inl (by omega))).2, a3, a4]
      rw [range_map_split (mem_request r.1) (mem_request sr) m r.2 h1 hreq,
        replicate_split _ m r.2 h1]
      refine ⟨?_, ?_⟩
      · rw [i1, a1, g6]
        by_cases hl : l = E.mpi_rank
        · simp only [if_pos hl, set_at_set_at, set_at_same, List.append_assoc]
        · simp only [if_neg hl]
      · rw [i2, a2, g2]
        by_cases hl : l = E.mpi_rank
        · simp only [if_pos hl, List.append_assoc]
        · simp only [if_neg hl]

theorem mem_cells_requests (flags : Nat) (q : State) (a n : Nat)
    (h : ∀ j, a ≤ j → j < a + n → q.start j 2 = 0 ∧ q.count j 2 = 1) :
    mem_sel_cells (mem_rank flags) ((List.range' a n).map (mem_request q)) =
      ((regions_of q a n).flatMap region_cells).map lift_cell := by
  induction n generalizing a with
  | zero => rfl
  | succ n ih =>
    have h0 := h a (Nat.le_refl a) (by omega)
    have hrest := ih (a + 1) (fun j h1 h2 => h j (by omega) (by omega))
    have e1 : (List.range' a (n + 1)).map (mem_request q) =
        [mem_request q a] ++ (List.range' (a + 1) n).map (mem_request q) := by
      rw [List.range'_succ, List.map_cons]
      rfl
    have e2 : regions_of q a (n + 1) =
        [(q.start a 0, q.start a 1, q.count a 0, q.count a 1)] ++ regions_of q (a + 1) n := by
      unfold regions_of
      rw [List.range'_succ, List.map_cons]
      rfl
    rw [e1, e2, mem_sel_cells_append, mem_sel_cells_single, mem_cells_request flags q a h0.1 h0.2,
      hrest, List.flatMap_append, List.map_append, List.flatMap_singleton]

theorem hs_branch_fields (E : Env) (flags : Nat) (d : Bool) (k l : Nat) (s : State) :
    (hs_branch E flags d k l s).1.mem_space =
      (hs_loop E flags d k l
        (if MAX_HS_X ≤ s.dset_dims k 0 then MAX_HS_X else s.dset_dims k 0)
        (if MAX_HS_Y ≤ s.dset_dims k 1 then MAX_HS_Y else s.dset_dims k 1)
        (hs_draw_count E s) 0 { s with pos := s.pos + 1 }).1.mem_space ∧
    (hs_branch E flags d k l s).1.dset_space =
      (hs_loop E flags d k l
        (if MAX_HS_X ≤ s.dset_dims k 0 then MAX_HS_X else s.dset_dims k 0)
        (if MAX_HS_Y ≤ s.dset_dims k 1 then MAX_HS_Y else s.dset_dims k 1)
        (hs_draw_count E s) 0 { s with pos := s.pos + 1 }).1.dset_space ∧
    (hs_branch E flags d k l s).1.log =
      (hs_loop E flags d k l
        (if MAX_HS_X ≤ s.dset_dims k 0 then MAX_HS_X else s.dset_dims k 0)
        (if MAX_HS_Y ≤ s.dset_dims k 1 then MAX_HS_Y else s.dset_dims k 1)
        (hs_draw_count E s) 0 { s with pos := s.pos + 1 }).1.log ∧
    (hs_branch E flags d k l s).1.start =
      (hs_loop E flags d k l
        (if MAX_HS_X ≤ s.dset_dims k 0 then MAX_HS_X else s.dset_dims k 0)
        (if MAX_HS_Y ≤ s.dset_dims k 1 then MAX_HS_Y else s.dset_dims k 1)
        (hs_draw_count E s) 0 { s with pos := s.pos + 1 }).1.start ∧
    (hs_branch E flags d k l s).1.count =
      (hs_loop E flags d k l
        (if MAX_HS_X ≤ s.dset_dims k 0 then MAX_HS_X else s.dset_dims k 0)
        (if MAX_HS_Y ≤ s.dset_dims k 1 then MAX_HS_Y else s.dset_dims k 1)
        (hs_draw_count E s) 0 { s with pos := s.pos + 1 }).1.count := by
  rw [hs_branch_fst]
  cases d <;> exact ⟨rfl, rfl, rfl, rfl, rfl⟩

theorem hs_draw_count_le_max (E : Env) (s : State) : hs_draw_count E s ≤ MAX_HS := by
  unfold hs_draw_count
  have := Nat.mod_lt (E.random s.pos) (show 0 < MAX_HS by decide)
  omega

/-- What the hyperslab branch registers. -/
theorem hs_branch_reg (E : Env) (flags : Nat) (d : Bool) (k l : Nat) (s : State) :
    RegSpec E flags k l s (hs_branch E flags d k l s) := by
  obtain ⟨f1, f2, f3, f4, f5⟩ := hs_branch_fields E flags d k l s
  have facc := hs_branch_acc E flags d k l s
  obtain ⟨r1, r2⟩ := hs_loop_reg E flags d k l
    (if MAX_HS_X ≤ s.dset_dims k 0 then MAX_HS_X else s.dset_dims k 0)
    (if MAX_HS_Y ≤ s.dset_dims k 1 then MAX_HS_Y else s.dset_dims k 1)
    (hs_draw_count E s) 0 { s with pos := s.pos + 1 }
  obtain ⟨-, -, b3⟩ := hs_loop_bufs E flags d k l
    (if MAX_HS_X ≤ s.dset_dims k 0 then MAX_HS_X else s.dset_dims k 0)
    (if MAX_HS_Y ≤ s.dset_dims k 1 then MAX_HS_Y else s.dset_dims k 1)
    (hs_draw_count E s) 0 { s with pos := s.pos + 1 }
  obtain ⟨⟨-, h2⟩, h3, -⟩ := hs_loop_shape E flags d k l
    (if MAX_HS_X ≤ s.dset_dims k 0 then MAX_HS_X else s.dset_dims k 0)
    (if MAX_HS_Y ≤ s.dset_dims k 1 then MAX_HS_Y else s.dset_dims k 1)
    (hs_draw_count E s) 0 { s with pos := s.pos + 1 }
  have hle := hs_draw_count_le_max E s
  generalize hs_loop E flags d k l
    (if MAX_HS_X ≤ s.dset_dims k 0 then MAX_HS_X else s.dset_dims k 0)
    (if MAX_HS_Y ≤ s.dset_dims k 1 then MAX_HS_Y else s.dset_dims k 1)
    (hs_draw_count E s) 0 { s with pos := s.pos + 1 } = q at *
  simp only [Nat.sub_zero] at r1 r2 b3 facc
  have hthird : SameThird s (hs_branch E flags d k l s).1 := by
    intro m dd hd
    rw [f4, f5]
    exact h3 m dd (Or.inr hd)
  have hnum : (hs_branch E flags d k l s).2.num = q.2 := by
    rw [facc]
    exact regions_of_length q.1 0 q.2
  refine ⟨hthird, ?_, ?_, ?_⟩
  · intro hl
    rw [f1, f2, f3, r1, r2, b3, if_neg hl, if_neg hl, if_neg hl]
    exact ⟨rfl, rfl, rfl⟩
  · intro h0
    rw [hnum] at h0
    rw [f1, f2, f3, r1, r2, b3, h0]
    simp only [List.range'_zero, List.map_nil, List.append_nil, set_at_self, ite_self,
      List.replicate_zero, List.flatten_nil, regions_of_zero, and_self]
  · intro h0 k'
    have hreq := mem_cells_requests flags q.1 0 q.2 (fun j _ hj => by
      have hj2 : j < MAX_HS := by omega
      obtain ⟨e1, e2⟩ := h3 j 2 (Or.inr (Nat.le_refl 2))
      rw [e1, e2]
      exact h0 j hj2)
    rw [f1, r1, facc]
    by_cases hl : l = E.mpi_rank
    · rw [if_pos hl]
      by_cases hk : k' = k
      · rw [if_pos ⟨hl, hk⟩, hk, set_at_same, mem_sel_cells_append, hreq]
        rfl
      · rw [if_neg (fun h => hk h.2), set_at_apply, if_neg hk]
    · rw [if_neg hl, if_neg (fun h => hl h.1)]

theorem pt_select_file_reg (E : Env) (k l n : Nat) (s : State) :
    (pt_select_file E k l n s).mem_space = s.mem_space ∧
    (pt_select_file E k l n s).dset_space =
      (if l = E.mpi_rank ∧ n > 0 then
        set_at s.dset_space k
          (s.dset_space k ++ [.elements n ((List.range (2 * n)).map s.points)])
       else s.dset_space) ∧
    (pt_select_file E k l n s).log =
      (if l = E.mpi_rank ∧ n > 0 then s.log ++ [Call.H5Sselect_elements false k] else s.log) := by
  unfold pt_select_file
  by_cases h : l = E.mpi_rank ∧ n > 0
  · rw [if_pos h, if_pos h, if_pos h]
    exact ⟨rfl, rfl, rfl⟩
  · rw [if_neg h, if_neg h, if_neg h]
    exact ⟨rfl, rfl, rfl⟩

theorem pt_expect_reg (E : Env) (flags : Nat) (d : Bool) (k l n : Nat) (s : State) :
    (pt_expect E flags d k l n s).mem_space = s.mem_space ∧
    (pt_expect E flags d k l n s).log = s.log := by
  unfold pt_expect
  split_ifs <;> exact ⟨rfl, rfl⟩

theorem pt_select_mem_reg (E : Env) (flags k l n : Nat) (s : State) :
    (pt_select_mem E flags k l n s).mem_space =
      (if l = E.mpi_rank ∧ n > 0 then
        set_at s.mem_space k
          (s.mem_space k ++ [.elements n ((List.range (mem_rank flags * n)).map
            (if has_flag flags MDSET_FLAG_SHAPESAME = true then s.points
             else set (pt_convert_loop (n - 1) s.points) 2 0))])
       else s.mem_space) ∧
    (pt_select_mem E flags k l n s).log =
      (if l = E.mpi_rank ∧ n > 0 then s.log ++ [Call.H5Sselect_elements true k] else s.log) := by
  unfold pt_select_mem mem_rank
  by_cases h : l = E.mpi_rank ∧ n > 0
  · rw [if_pos h, if_pos h, if_pos h]
    cases hf : has_flag flags MDSET_FLAG_SHAPESAME
    · exact ⟨rfl, rfl⟩
    · exact ⟨rfl, rfl⟩
  · rw [if_neg h, if_neg h, if_neg h]
    exact ⟨rfl, rfl⟩

/-- The cells of the memory request of the point branch are the points found in `points`
before the conversion of lines 468-474. -/
theorem mem_cells_elements (flags : Nat) (p : Nat → Nat) (n : Nat) :
    (Sel.elements n ((List.range (mem_rank flags * n)).map
        (if has_flag flags MDSET_FLAG_SHAPESAME = true then p
         else set (pt_convert_loop (n - 1) p) 2 0))).mem_cells (mem_rank flags) =
      (List.range n).map (fun m => lift_cell (p (2 * m), p (2 * m + 1))) := by
  unfold Sel.mem_cells mem_rank lift_cell
  apply List.map_congr_left
  intro m hm
  simp only [List.mem_range] at hm
  cases hf : has_flag flags MDSET_FLAG_SHAPESAME
  · simp only [Bool.false_eq_true, if_false]
    obtain ⟨c1, -⟩ := pt_convert_spec n p (by omega)
    obtain ⟨d1, d2, d3⟩ := c1 m hm
    rw [getD_map_range _ _ _ (by omega), getD_map_range _ _ _ (by omega),
      getD_map_range _ _ _ (by omega), d1, d2, d3]
    simp
  · simp only [if_true]
    rw [getD_map_range _ _ _ (by omega), getD_map_range _ _ _ (by omega)]

theorem points_of_lift (s : State) (n : Nat) :
    (points_of s 0 n).map lift_cell =
      (List.range n).map (fun m => lift_cell (s.points (2 * m), s.points (2 * m + 1))) := by
  unfold points_of
  rw [← List.range_eq_range', List.map_map]
  rfl

/-- What the point branch registers. -/
theorem pt_branch_reg (E : Env) (flags : Nat) (d : Bool) (k l : Nat) (s : State) :
    RegSpec E flags k l s (pt_branch E flags d k l s) := by
  have facc := pt_branch_acc E flags d k l s
  have ffst := pt_branch_fst E flags d k l s
  obtain ⟨-, -, ⟨-, -, g2, -, -, -, g6, g7⟩, g8, g9, -⟩ :=
    pt_loop_shape E d k (pt_draw_count E s) 0 { s with pos := s.pos + 1 }
  generalize pt_loop E d k (pt_draw_count E s) 0 { s with pos := s.pos + 1 } = q at *
  simp only [Nat.sub_zero] at facc
  have e2 : (if d = true then q.1 else pt_mark k q.2 q.1).mem_space = s.mem_space ∧
      (if d = true then q.1 else pt_mark k q.2 q.1).dset_space = s.dset_space ∧
      (if d = true then q.1 else pt_mark k q.2 q.1).log = s.log ∧
      (if d = true then q.1 else pt_mark k q.2 q.1).points = q.1.points ∧
      (if d = true then q.1 else pt_mark k q.2 q.1).start = s.start ∧
      (if d = true then q.1 else pt_mark k q.2 q.1).count = s.count := by
    cases d
    · exact ⟨g6, g7, g2, rfl, g8, g9⟩
    · exact ⟨g6, g7, g2, rfl, g8, g9⟩
  generalize (if d = true then q.1 else pt_mark k q.2 q.1) = s2 at *
  obtain ⟨a1, a2, a3⟩ := pt_select_file_reg E k l q.2 s2
  obtain ⟨-, -, -, -, -, a4, a5, a6, -⟩ := pt_select_file_spec E k l q.2 s2
  generalize pt_select_file E k l q.2 s2 = s3 at *
  obtain ⟨b1, b2⟩ := pt_expect_reg E flags d k l q.2 s3
  obtain ⟨-, -, b3, -, b4, b5, b6, -⟩ := pt_expect_spec E flags d k l q.2 s3
  generalize pt_expect E flags d k l q.2 s3 = s4 at *
  obtain ⟨c1, c2⟩ := pt_select_mem_reg E flags k l q.2 s4
  obtain ⟨-, -, c3, c4, -, -, -, c5, -⟩ := pt_select_mem_spec E flags k l q.2 s4
  generalize pt_select_mem E flags k l q.2 s4 = s5 at *
  obtain ⟨e21, e22, e23, e24, e25, e26⟩ := e2
  have hnum : (Accepted.points (points_of q.1 0 q.2)).num = q.2 :=
    points_of_length q.1 0 q.2
  unfold RegSpec
  rw [ffst, facc]
  refine ⟨SameThird.third_of_eq (by rw [c3, b5, a5, e25]) (by rw [c4, b6, a6, e26]), ?_, ?_, ?_⟩
  · intro hl
    have hn : ¬ (l = E.mpi_rank ∧ q.2 > 0) := fun h => hl h.1
    rw [c1, c2, c5, b1, b2, b3, a1, a2, a3, if_neg hn, if_neg hn, if_neg hn, if_neg hn]
    exact ⟨e21, e22, e23⟩
  · intro h0
    rw [hnum] at h0
    have hn : ¬ (l = E.mpi_rank ∧ q.2 > 0) := fun h => by omega
    rw [c1, c2, c5, b1, b2, b3, a1, a2, a3, if_neg hn, if_neg hn, if_neg hn, if_neg hn]
    exact ⟨e21, e22, e23⟩
  · intro _ k'
    rw [c1, b1, a1, e21]
    show _ = if l = E.mpi_rank ∧ k' = k then
      mem_sel_cells (mem_rank flags) (s.mem_space k) ++ (points_of q.1 0 q.2).map lift_cell
      else mem_sel_cells (mem_rank flags) (s.mem_space k')
    by_cases hn : l = E.mpi_rank ∧ q.2 > 0
    · rw [if_pos hn]
      by_cases hk : k' = k
      · have hc : l = E.mpi_rank ∧ k' = k := ⟨hn.1, hk⟩
        rw [if_pos hc, hk, set_at_same, mem_sel_cells_append, mem_sel_cells_single,
          mem_cells_elements, points_of_lift, b4, a4, e24]
      · have hc : ¬ (l = E.mpi_rank ∧ k' = k) := fun h => hk h.2
        rw [if_neg hc, set_at_apply, if_neg hk]
    · rw [if_neg hn]
      by_cases hk : l = E.mpi_rank ∧ k' = k
      · have h0 : q.2 = 0 := by
          by_contra h
          exact hn ⟨hk.1, by omega⟩
        rw [if_pos hk, hk.2, h0]
        simp [points_of]
      · rw [if_neg hk]

/-- What one pass of the loop over processes registers. -/
theorem rank_iter_reg (E : Env) (flags : Nat) (d : Bool) (k l : Nat) (s : State) :
    RegSpec E flags k l s (rank_iter E flags d k l s) := by
  have lift : ∀ r : State × Accepted,
      RegSpec E flags k l { s with pos := s.pos + 1 } r → RegSpec E flags k l s r :=
    fun r h => h
  unfold rank_iter
  split
  · exact lift _ (hs_branch_reg E flags d k l _)
  · exact lift _ (pt_branch_reg E flags d k l _)

theorem own_cons (E : Env) (l0 : Nat) (a : Accepted) (rest : List Accepted) :
    (if l0 ≤ E.mpi_rank then ((a :: rest).getD (E.mpi_rank - l0) (.points [])).cells else []) =
      (if l0 = E.mpi_rank then a.cells else []) ++
        (if l0 + 1 ≤ E.mpi_rank then (rest.getD (E.mpi_rank - (l0 + 1)) (.points [])).cells
         else []) := by
  by_cases h1 : l0 = E.mpi_rank
  · have h2 : ¬ (l0 + 1 ≤ E.mpi_rank) := by omega
    have h3 : l0 ≤ E.mpi_rank := by omega
    have h4 : E.mpi_rank - l0 = 0 := by omega
    rw [if_pos h1, if_neg h2, if_pos h3, h4, List.append_nil]
    rfl
  · by_cases h2 : l0 + 1 ≤ E.mpi_rank
    · have h3 : l0 ≤ E.mpi_rank := by omega
      have h4 : E.mpi_rank - l0 = (E.mpi_rank - (l0 + 1)) + 1 := by omega
      rw [if_neg h1, if_pos h2, if_pos h3, h4, List.nil_append]
      rfl
    · have h3 : ¬ (l0 ≤ E.mpi_rank) := by omega
      rw [if_neg h1, if_neg h2, if_neg h3]
      rfl

/-- The loop over processes registers the cells accepted for the own rank. -/
theorem rank_loop_reg (E : Env) (flags : Nat) (d : Bool) (k n l0 : Nat) (s : State)
    (h0 : third_ok s) :
    SameThird s (rank_loop E flags d k n l0 s).1 ∧
    (∀ k', sel_cells ((rank_loop E flags d k n l0 s).1.dset_space k') =
      if k' = k then
        sel_cells (s.dset_space k) ++
          (if l0 ≤ E.mpi_rank then
            ((rank_loop E flags d k n l0 s).2.getD (E.mpi_rank - l0) (.points [])).cells
           else [])
      else sel_cells (s.dset_space k')) ∧
    (∀ k', mem_sel_cells (mem_rank flags) ((rank_loop E flags d k n l0 s).1.mem_space k') =
      if k' = k then
        mem_sel_cells (mem_rank flags) (s.mem_space k) ++
          (if l0 ≤ E.mpi_rank then
            ((rank_loop E flags d k n l0 s).2.getD (E.mpi_rank - l0) (.points [])).cells
           else []).map lift_cell
      else mem_sel_cells (mem_rank flags) (s.mem_space k')) := by
  induction n generalizing l0 s with
  | zero =>
    refine ⟨SameThird.third_refl s, ?_, ?_⟩
    · intro k'
      simp only [rank_loop, List.getD_nil, Accepted.cells, ite_self, List.append_nil]
      by_cases hk : k' = k
      · rw [if_pos hk, hk]
      · rw [if_neg hk]
    · intro k'
      simp only [rank_loop, List.getD_nil, Accepted.cells, ite_self, List.append_nil,
        List.map_nil]
      by_cases hk : k' = k
      · rw [if_pos hk, hk]
      · rw [if_neg hk]
  | succ n ih =>
    obtain ⟨-, -, -, -, -, -, a7, -⟩ := rank_iter_spec E flags d k l0 s
    obtain ⟨b1, -, -, b4⟩ := rank_iter_reg E flags d k l0 s
    obtain ⟨i1, i2, i3⟩ := ih (l0 + 1) (rank_iter E flags d k l0 s).1 (third_ok_of_same b1 h0)
    have b4' := b4 h0
    rw [rank_loop_succ]
    generalize rank_loop E flags d k n (l0 + 1) (rank_iter E flags d k l0 s).1 = r at *
    generalize rank_iter E flags d k l0 s = q at *
    refine ⟨b1.third_trans i1, ?_, ?_⟩
    · intro k'
      rw [i2 k', own_cons]
      by_cases hk : k' = k
      · rw [if_pos hk, if_pos hk, a7 k]
        by_cases hl : l0 = E.mpi_rank
        · have hc : l0 = E.mpi_rank ∧ k = k := ⟨hl, rfl⟩
          rw [if_pos hc, if_pos hl, List.append_assoc]
        · have hc : ¬ (l0 = E.mpi_rank ∧ k = k) := fun h => hl h.1
          rw [if_neg hc, if_neg hl, List.nil_append]
      · have hc : ¬ (l0 = E.mpi_rank ∧ k' = k) := fun h => hk h.2
        rw [if_neg hk, if_neg hk, a7 k', if_neg hc]
    · intro k'
      rw [i3 k', own_cons]
      by_cases hk : k' = k
      · rw [if_pos hk, if_pos hk, b4' k]
        by_cases hl : l0 = E.mpi_rank
        · have hc : l0 = E.mpi_rank ∧ k = k := ⟨hl, rfl⟩
          rw [if_pos hc, if_pos hl, List.append_assoc, List.map_append]
        · have hc : ¬ (l0 = E.mpi_rank ∧ k = k) := fun h => hl h.1
          rw [if_neg hc, if_neg hl, List.nil_append]
      · have hc : ¬ (l0 = E.mpi_rank ∧ k' = k) := fun h => hk h.2
        rw [if_neg hk, if_neg hk, b4' k', if_neg hc]

/-- One pass of the loop over datasets: after it the dataspaces of dataset `k` hold exactly the
cells accepted for the own rank, and those of the other datasets are as before. -/
theorem dset_iter_reg (E : Env) (flags : Nat) (d : Bool) (k : Nat) (s : State)
    (h0 : third_ok s) :
    SameThird s (dset_iter E flags d k s).1 ∧
    (∀ k', sel_cells ((dset_iter E flags d k s).1.dset_space k') =
      if k' = k then own_accepted E (dset_iter E flags d k s).2
      else sel_cells (s.dset_space k')) ∧
    (∀ k', mem_sel_cells (mem_rank flags) ((dset_iter E flags d k s).1.mem_space k') =
      if k' = k then (own_accepted E (dset_iter E flags d k s).2).map lift_cell
      else mem_sel_cells (mem_rank flags) (s.mem_space k')) := by
  rw [dset_iter_eq]
  have hpre : ∀ t : State,
      t = ((fun s => if (!d) = true then
            { s with dset_usage := memset0 s.dset_usage (buf_len flags) } else s)
          ((fun s => checked E (.H5Sselect_none false k)
              { s with dset_space := set_at s.dset_space k [] })
            ((fun s => checked E (.H5Sselect_none true k)
              { s with mem_space := set_at s.mem_space k [] }) s))) →
      t.start = s.start ∧ t.count = s.count ∧
      t.mem_space = set_at s.mem_space k [] ∧ t.dset_space = set_at s.dset_space k [] := by
    intro t ht
    subst ht
    cases d <;> exact ⟨rfl, rfl, rfl, rfl⟩
  generalize ((fun s => if (!d) = true then
            { s with dset_usage := memset0 s.dset_usage (buf_len flags) } else s)
          ((fun s => checked E (.H5Sselect_none false k)
              { s with dset_space := set_at s.dset_space k [] })
            ((fun s => checked E (.H5Sselect_none true k)
              { s with mem_space := set_at s.mem_space k [] }) s))) = t at hpre ⊢
  obtain ⟨p1, p2, p3, p4⟩ := hpre t rfl
  have ht : SameThird s t := SameThird.third_of_eq p1 p2
  obtain ⟨r1, r2, r3⟩ := rank_loop_reg E flags d k E.mpi_size 0 t (third_ok_of_same ht h0)
  refine ⟨ht.third_trans r1, ?_, ?_⟩
  · intro k'
    rw [r2 k', p4, if_pos (Nat.zero_le _), Nat.sub_zero]
    by_cases hk : k' = k
    · rw [if_pos hk, if_pos hk, set_at_same]
      rfl
    · rw [if_neg hk, if_neg hk, set_at_apply, if_neg hk]
  · intro k'
    rw [r3 k', p3, if_pos (Nat.zero_le _), Nat.sub_zero]
    by_cases hk : k' = k
    · rw [if_pos hk, if_pos hk, set_at_same]
      rfl
    · rw [if_neg hk, if_neg hk, set_at_apply, if_neg hk]

/-- The loop over datasets: the dataspaces of every dataset it passes hold exactly the cells
accepted for the own rank. -/
theorem dset_loop_reg (E : Env) (flags : Nat) (d : Bool) (n k0 : Nat) (s : State)
    (h0 : third_ok s) :
    SameThird s (dset_loop E flags d n k0 s).1 ∧
    (∀ k', sel_cells ((dset_loop E flags d n k0 s).1.dset_space k') =
      if k0 ≤ k' ∧ k' < k0 + n then
        own_accepted E ((dset_loop E flags d n k0 s).2.getD (k' - k0) [])
      else sel_cells (s.dset_space k')) ∧
    (∀ k', mem_sel_cells (mem_rank flags) ((dset_loop E flags d n k0 s).1.mem_space k') =
      if k0 ≤ k' ∧ k' < k0 + n then
        (own_accepted E ((dset_loop E flags d n k0 s).2.getD (k' - k0) [])).map lift_cell
      else mem_sel_cells (mem_rank flags) (s.mem_space k')) := by
  induction n generalizing k0 s with
  | zero =>
    refine ⟨SameThird.third_refl s, ?_, ?_⟩
    · intro k'
      have hc : ¬ (k0 ≤ k' ∧ k' < k0 + 0) := by omega
      rw [if_neg hc]
      rfl
    · intro k'
      have hc : ¬ (k0 ≤ k' ∧ k' < k0 + 0) := by omega
      rw [if_neg hc]
      rfl
  | succ n ih =>
    obtain ⟨a1, a2, a3⟩ := dset_iter_reg E flags d k0 s h0
    obtain ⟨i1, i2, i3⟩ := ih (k0 + 1) (dset_iter E flags d k0 s).1 (third_ok_of_same a1 h0)
    rw [dset_loop_succ]
    generalize dset_loop E flags d n (k0 + 1) (dset_iter E flags d k0 s).1 = r at *
    generalize dset_iter E flags d k0 s = q at *
    have key : ∀ k', (k0 + 1 ≤ k' ∧ k' < k0 + 1 + n → k0 ≤ k' ∧ k' < k0 + (n + 1) ∧
        (q.2 :: r.2).getD (k' - k0) [] = r.2.getD (k' - (k0 + 1)) []) := by
      intro k' h
      refine ⟨by omega, by omega, ?_⟩
      have : k' - k0 = (k' - (k0 + 1)) + 1 := by omega
      rw [this]
      rfl
    refine ⟨a1.third_trans i1, ?_, ?_⟩
    · intro k'
      rw [i2 k']
      by_cases h1 : k0 + 1 ≤ k' ∧ k' < k0 + 1 + n
      · obtain ⟨e1, e2, e3⟩ := key k' h1
        have hc : k0 ≤ k' ∧ k' < k0 + (n + 1) := ⟨e1, e2⟩
        rw [if_pos h1, if_pos hc, e3]
      · rw [if_neg h1, a2 k']
        by_cases hk : k' = k0
        · have hc : k0 ≤ k' ∧ k' < k0 + (n + 1) := by omega
          have hz : k' - k0 = 0 := by omega
          rw [if_pos hk, if_pos hc, hz]
          rfl
        · have hc : ¬ (k0 ≤ k' ∧ k' < k0 + (n + 1)) := by omega
          rw [if_neg hk, if_neg hc]
    · intro k'
      rw [i3 k']
      by_cases h1 : k0 + 1 ≤ k' ∧ k' < k0 + 1 + n
      · obtain ⟨e1, e2, e3⟩ := key k' h1
        have hc : k0 ≤ k' ∧ k' < k0 + (n + 1) := ⟨e1, e2⟩
        rw [if_pos h1, if_pos hc, e3]
      · rw [if_neg h1, a3 k']
        by_cases hk : k' = k0
        · have hc : k0 ≤ k' ∧ k' < k0 + (n + 1) := by omega
          have hz : k' - k0 = 0 := by omega
          rw [if_pos hk, if_pos hc, hz]
          rfl
        · have hc : ¬ (k0 ≤ k' ∧ k' < k0 + (n + 1)) := by omega
          rw [if_neg hk, if_neg hc]

/-- The selections of one operation: the dataspaces of every dataset hold exactly the cells
accepted for the own rank. -/
theorem op_select_reg (E : Env) (flags : Nat) (d : Bool) (s : State) (h0 : third_ok s) :
    SameThird s (op_select E flags d s).1 ∧
    (∀ k, k < s.ndsets →
      sel_cells ((op_select E flags d s).1.dset_space k) =
        own_accepted E ((op_select E flags d s).2.getD k []) ∧
      mem_sel_cells (mem_rank flags) ((op_select E flags d s).1.mem_space k) =
        (own_accepted E ((op_select E flags d s).2.getD k [])).map lift_cell) := by
  obtain ⟨a1, a2, a3⟩ := dset_loop_reg E flags d s.ndsets 0 s h0
  refine ⟨a1, fun k hk => ?_⟩
  have hc : 0 ≤ k ∧ k < 0 + s.ndsets := by omega
  have e2 := a2 k
  have e3 := a3 k
  rw [if_pos hc, Nat.sub_zero] at e2 e3
  exact ⟨e2, e3⟩

/-! ### The third entries of `start` and `count` in a run -/

theorem foldl_keep_shape {α : Type} (f : State → α → State)
    (h : ∀ s a, (f s a).start = s.start ∧ (f s a).count = s.count) (L : List α) (s : State) :
    (L.foldl f s).start = s.start ∧ (L.foldl f s).count = s.count := by
  induction L generalizing s with
  | nil => exact ⟨rfl, rfl⟩
  | cons a L ih =>
    obtain ⟨i1, i2⟩ := ih (f s a)
    obtain ⟨a1, a2⟩ := h s a
    exact ⟨i1.trans a1, i2.trans a2⟩

theorem reopen_shape (E : Env) (s : State) :
    (reopen E s).start = s.start ∧ (reopen E s).count = s.count := by
  obtain ⟨h, -⟩ := reopen_spec E s
  obtain ⟨-, -, -, -, -, -, -, -, -, h10, h11, -⟩ := h
  exact ⟨h10, h11⟩

theorem op_begin_shape (E : Env) (s : State) :
    (op_begin E s).1.start = s.start ∧ (op_begin E s).1.count = s.count := by
  rw [op_begin_fst]
  by_cases hc : (!s.last_read) = true
  · rw [if_pos hc]
    exact reopen_shape E _
  · rw [if_neg hc]
    exact ⟨rfl, rfl⟩

theorem op_io_shape (E : Env) (flags : Nat) (d : Bool) (file : Nat → Nat → Nat → Nat)
    (s : State) :
    (op_io E flags d file s).start = s.start ∧ (op_io E flags d file s).count = s.count := by
  unfold op_io
  simp only [checked]
  split_ifs <;> exact ⟨rfl, rfl⟩

theorem operation_third (E : Env) (flags : Nat) (file : Nat → Nat → Nat → Nat) (s : State)
    (h0 : third_ok s) : third_ok (operation E flags file s) := by
  obtain ⟨b1, b2⟩ := op_begin_shape E s
  have hb : third_ok (op_begin E s).1 := third_ok_of_same (SameThird.third_of_eq b1 b2) h0
  obtain ⟨c1, -⟩ := op_select_reg E flags (op_begin E s).2 (op_begin E s).1 hb
  obtain ⟨d1, d2⟩ := op_io_shape E flags (op_begin E s).2 file
    (op_select E flags (op_begin E s).2 (op_begin E s).1).1
  rw [operation_eq]
  exact third_ok_of_same (SameThird.third_of_eq d1 d2) (third_ok_of_same c1 hb)

theorem run_ops_third (E : Env) (flags : Nat) (file : Nat → Nat → Nat → Nat → Nat) (n : Nat)
    (s : State) (h0 : third_ok s) : third_ok (run_ops E flags file n s) := by
  induction n with
  | zero => exact h0
  | succ n ih =>
    rw [run_ops_succ]
    exact operation_third E flags _ _ ih

theorem create_dset_shape (E : Env) (flags j : Nat) (s : State) :
    (create_dset E flags j s).start = s.start ∧ (create_dset E flags j s).count = s.count := by
  unfold create_dset
  simp only [checked]
  split_ifs <;> exact ⟨rfl, rfl⟩

theorem lifetime_init_shape (E : Env) (flags : Nat) (s : State) :
    (lifetime_init E flags s).start = s.start ∧ (lifetime_init E flags s).count = s.count := by
  rw [lifetime_init_eq]
  have h1 : ∀ t : State,
      (checked E .H5Fcreate
        (if has_flag flags MDSET_FLAG_MDSET = true then
          { t with ndsets := E.random t.pos % max_dsets flags + 1, pos := t.pos + 1 }
        else { t with ndsets := 1 })).start = t.start ∧
      (checked E .H5Fcreate
        (if has_flag flags MDSET_FLAG_MDSET = true then
          { t with ndsets := E.random t.pos % max_dsets flags + 1, pos := t.pos + 1 }
        else { t with ndsets := 1 })).count = t.count := by
    intro t
    split_ifs <;> exact ⟨rfl, rfl⟩
  obtain ⟨a1, a2⟩ := h1 s
  obtain ⟨b1, b2⟩ := foldl_keep_shape (fun s j => create_dset E flags j s)
    (fun s j => create_dset_shape E flags j s)
    (List.range (checked E .H5Fcreate
        (if has_flag flags MDSET_FLAG_MDSET = true then
          { s with ndsets := E.random s.pos % max_dsets flags + 1, pos := s.pos + 1 }
        else { s with ndsets := 1 })).ndsets)
    (checked E .H5Fcreate
        (if has_flag flags MDSET_FLAG_MDSET = true then
          { s with ndsets := E.random s.pos % max_dsets flags + 1, pos := s.pos + 1 }
        else { s with ndsets := 1 }))
  exact ⟨b1.trans a1, b2.trans a2⟩

theorem close_lifetime_shape (E : Env) (s : State) :
    (close_lifetime E s).start = s.start ∧ (close_lifetime E s).count = s.count := by
  unfold close_lifetime
  exact foldl_keep_shape
    (fun s j => checked E (.H5Sclose j) (checked E (.H5Dclose j) s))
    (fun _ _ => ⟨rfl, rfl⟩) (List.range s.ndsets) s

theorem lifetime_third (E : Env) (flags : Nat) (file : Nat → Nat → Nat → Nat → Nat) (s : State)
    (h0 : third_ok s) : third_ok (lifetime E flags file s) := by
  obtain ⟨a1, a2⟩ := lifetime_init_shape E flags s
  have h1 := run_ops_third E flags file OPS_PER_FILE _
    (third_ok_of_same (SameThird.third_of_eq a1 a2) h0)
  obtain ⟨c1, c2⟩ := close_lifetime_shape E
    (run_ops E flags file OPS_PER_FILE (lifetime_init E flags s))
  rw [lifetime_eq]
  exact third_ok_of_same (SameThird.third_of_eq c1 c2) h1

theorem lifetimes_third (E : Env) (flags : Nat) (file : Nat → Nat → Nat → Nat → Nat → Nat)
    (n : Nat) (s : State) (h0 : third_ok s) : third_ok (lifetimes E flags file n s) := by
  induction n with
  | zero => exact h0
  | succ n ih =>
    rw [lifetimes_succ]
    exact lifetime_third E flags _ _ ih

/-- Lines 165-168: after the set-up the third entries of `start[m]` and `count[m]` are 0 and
1. -/
theorem setup_third (E : Env) (flags : Nat) (s : State) : third_ok (setup E flags s) := by
  rw [setup_eq]
  have h2 : ∀ t : State, third_ok ((List.range MAX_HS).foldl
      (fun s i => { s with start := set2 s.start i 2 0, count := set2 s.count i 2 1 }) t) := by
    intro t m hm
    have hr : List.range MAX_HS = [0, 1] := rfl
    rw [hr]
    simp only [List.foldl_cons, List.foldl_nil, set2]
    have : m = 0 ∨ m = 1 := by
      have : m < 2 := hm
      omega
    rcases this with h | h <;> subst h <;> simp
  have h3 : ∀ t : State, third_ok t → third_ok
      (checked E .H5Screate_simple_mem
        { t with
          dset_dims := set2 (set2 t.dset_dims 0 0 MAX_DSET_X) 0 1 MAX_DSET_Y
          mem_space := set_at t.mem_space 0
            [.all (if has_flag flags MDSET_FLAG_SHAPESAME then
                [set2 (set2 t.dset_dims 0 0 MAX_DSET_X) 0 1 MAX_DSET_Y 0 0,
                  set2 (set2 t.dset_dims 0 0 MAX_DSET_X) 0 1 MAX_DSET_Y 0 1]
              else [set2 (set2 t.dset_dims 0 0 MAX_DSET_X) 0 1 MAX_DSET_Y 0 0,
                set2 (set2 t.dset_dims 0 0 MAX_DSET_X) 0 1 MAX_DSET_Y 0 1,
                set2 (set2 t.dset_dims 0 0 MAX_DSET_X) 0 1 MAX_DSET_Y 0 2])] }) :=
    fun _ h => h
  have h4 : ∀ t : State, third_ok t → third_ok
      ((List.range' 1 (max_dsets flags - 1)).foldl
        (fun s i => checked E (.H5Scopy i)
          { s with mem_space := set_at s.mem_space i (s.mem_space 0) }) t) := by
    intro t h
    obtain ⟨e1, e2⟩ := foldl_keep_shape
      (fun s i => checked E (.H5Scopy i)
        { s with mem_space := set_at s.mem_space i (s.mem_space 0) })
      (fun _ _ => ⟨rfl, rfl⟩) (List.range' 1 (max_dsets flags - 1)) t
    exact third_ok_of_same (SameThird.third_of_eq e1 e2) h
  have h5 : ∀ t : State, third_ok t → third_ok
      (checked E (.H5Pset_dxpl_mpio (has_flag flags MDSET_FLAG_COLLECTIVE))
        (checked E (.H5Pcreate 2) (checked E .H5Pset_alloc_time (checked E .H5Pset_fill_time
          (checked E (.H5Pcreate 1) (checked E .H5Pset_fapl_mpio
            (checked E (.H5Pcreate 0) t))))))) :=
    fun _ h => h
  exact h5 _ (h4 _ (h3 _ (h2 _)))

/-- In every state a run of `test_pmdset` reaches between operations the third entries of
`start[m]` and `count[m]` are 0 and 1. -/
theorem reach_third (E : Env) (flags : Nat) (file : Nat → Nat → Nat → Nat → Nat → Nat)
    (s : State) (i j : Nat) :
    third_ok (run_ops E flags (file i) j
      (lifetime_init E flags (lifetimes E flags file i (setup E flags s)))) := by
  obtain ⟨a1, a2⟩ := lifetime_init_shape E flags (lifetimes E flags file i (setup E flags s))
  exact run_ops_third E flags _ j _
    (third_ok_of_same (SameThird.third_of_eq a1 a2)
      (lifetimes_third E flags file i _ (setup_third E flags s)))

/-! ## Dataset creation (lines 223-253) -/

/-- Creation of dataset `j`: the file dataspace, the chunk extents and the calls made. -/
theorem create_dset_layout (E : Env) (flags j : Nat) (s : State) :
    (create_dset E flags j s).dset_space j =
      [.all [(create_dset E flags j s).dset_dims j 0, (create_dset E flags j s).dset_dims j 1]] ∧
    (∀ j', j' ≠ j → (create_dset E flags j s).dset_space j' = s.dset_space j') ∧
    (has_flag flags MDSET_FLAG_CHUNK = true →
      (create_dset E flags j s).chunk_dims 0 = E.random (s.pos + 2) % MAX_CHUNK_X + 1 ∧
      (create_dset E flags j s).chunk_dims 1 = E.random (s.pos + 3) % MAX_CHUNK_Y + 1 ∧
      (create_dset E flags j s).log =
        s.log ++ [Call.H5Screate_simple j, Call.H5Pset_chunk, Call.H5Dcreate2 j]) ∧
    (has_flag flags MDSET_FLAG_CHUNK = false →
      (create_dset E flags j s).chunk_dims = s.chunk_dims ∧
      (create_dset E flags j s).log = s.log ++ [Call.H5Screate_simple j, Call.H5Dcreate2 j]) := by
  unfold create_dset
  cases hc : has_flag flags MDSET_FLAG_CHUNK
  · simp only [Bool.false_eq_true, if_false]
    refine ⟨?_, ?_, fun h => absurd h (by simp), fun _ => ⟨rfl, ?_⟩⟩
    · simp [checked, set_at_apply]
    · intro j' hj
      simp [checked, set_at_apply, hj]
    · simp [checked]
  · simp only [if_true]
    refine ⟨?_, ?_, fun _ => ⟨?_, ?_, ?_⟩, fun h => absurd h (by simp)⟩
    · simp [checked, set_at_apply]
    · intro j' hj
      simp [checked, set_at_apply, hj]
    · simp [checked, set_apply]
    · simp [checked, set_apply]
    · simp [checked]

theorem create_loop_layout (E : Env) (flags n : Nat) (s : State) :
    (∀ j, j < n →
      ((List.range n).foldl (fun s j => create_dset E flags j s) s).dset_space j =
        [.all [((List.range n).foldl (fun s j => create_dset E flags j s) s).dset_dims j 0,
          ((List.range n).foldl (fun s j => create_dset E flags j s) s).dset_dims j 1]]) ∧
    (∀ j, n ≤ j →
      ((List.range n).foldl (fun s j => create_dset E flags j s) s).dset_space j =
        s.dset_space j) := by
  induction n with
  | zero => exact ⟨fun j hj => absurd hj (Nat.not_lt_zero j), fun _ _ => rfl⟩
  | succ n ih =>
    obtain ⟨i1, i2⟩ := ih
    rw [List.range_succ, List.foldl_append]
    simp only [List.foldl_cons, List.foldl_nil]
    obtain ⟨c1, c2, -⟩ := create_dset_layout E flags n
      ((List.range n).foldl (fun s j => create_dset E flags j s) s)
    obtain ⟨-, -, -, c4, -⟩ := create_dset_spec E flags n
      ((List.range n).foldl (fun s j => create_dset E flags j s) s)
    generalize (List.range n).foldl (fun s j => create_dset E flags j s) s = t at *
    refine ⟨?_, ?_⟩
    · intro j hj
      by_cases hjn : j = n
      · subst hjn
        exact c1
      · rw [c2 j hjn, c4 j 0 hjn, c4 j 1 hjn]
        exact i1 j (by omega)
    · intro j hj
      rw [c2 j (by omega)]
      exact i2 j (by omega)

/-- The file dataspace of every dataset created at the start of a lifetime has the extent
drawn for it. -/
theorem lifetime_init_layout (E : Env) (flags : Nat) (s : State) :
    ∀ j, j < (lifetime_init E flags s).ndsets →
      (lifetime_init E flags s).dset_space j =
        [.all [(lifetime_init E flags s).dset_dims j 0, (lifetime_init E flags s).dset_dims j 1]] := by
  rw [lifetime_init_eq]
  obtain ⟨a1, -⟩ := create_loop_layout E flags
    (checked E .H5Fcreate
      (if has_flag flags MDSET_FLAG_MDSET = true then
        { s with ndsets := E.random s.pos % max_dsets flags + 1, pos := s.pos + 1 }
      else { s with ndsets := 1 })).ndsets
    (checked E .H5Fcreate
      (if has_flag flags MDSET_FLAG_MDSET = true then
        { s with ndsets := E.random s.pos % max_dsets flags + 1, pos := s.pos + 1 }
      else { s with ndsets := 1 }))
  obtain ⟨-, -, -, b4, -⟩ := create_loop_spec E flags
    (checked E .H5Fcreate
      (if has_flag flags MDSET_FLAG_MDSET = true then
        { s with ndsets := E.random s.pos % max_dsets flags + 1, pos := s.pos + 1 }
      else { s with ndsets := 1 })).ndsets
    (checked E .H5Fcreate
      (if has_flag flags MDSET_FLAG_MDSET = true then
        { s with ndsets := E.random s.pos % max_dsets flags + 1, pos := s.pos + 1 }
      else { s with ndsets := 1 }))
  intro j hj
  exact a1 j (by
    have : ((List.range (checked E .H5Fcreate
      (if has_flag flags MDSET_FLAG_MDSET = true then
        { s with ndsets := E.random s.pos % max_dsets flags + 1, pos := s.pos + 1 }
      else { s with ndsets := 1 })).ndsets).foldl (fun s j => create_dset E flags j s)
      (checked E .H5Fcreate
      (if has_flag flags MDSET_FLAG_MDSET = true then
        { s with ndsets := E.random s.pos % max_dsets flags + 1, pos := s.pos + 1 }
      else { s with ndsets := 1 }))).ndsets = _ := b4
    rw [← this]
    exact hj)

/-! ## In-bounds indexing: hyperslabs -/

theorem InBounds.nil_ok (flags : Nat) : InBounds flags [] := fun _ h => absurd h (List.not_mem_nil _)

theorem InBounds.append_ok {flags : Nat} {L1 L2 : List Access} (h1 : InBounds flags L1)
    (h2 : InBounds flags L2) : InBounds flags (L1 ++ L2) := by
  intro a ha
  rcases List.mem_append.1 ha with h | h
  · exact h1 a h
  · exact h2 a h

theorem InBounds.cons_ok {flags : Nat} {a : Access} {L : List Access}
    (h1 : a.in_bounds flags = true) (h2 : InBounds flags L) : InBounds flags (a :: L) := by
  intro b hb
  rcases List.mem_cons.1 hb with h | h
  · rw [h]
    exact h1
  · exact h2 b h

theorem InBounds.flatMap_ok {flags : Nat} {α : Type} (L : List α) (f : α → List Access)
    (h : ∀ x ∈ L, InBounds flags (f x)) : InBounds flags (L.flatMap f) := by
  intro a ha
  obtain ⟨x, hx, hax⟩ := List.mem_flatMap.1 ha
  exact h x hx a hax

theorem cell_ok (flags k x y : Nat) (hk : k < max_dsets flags) (hx : x < MAX_DSET_X)
    (hy : y < MAX_DSET_Y) : (Access.cell k x y).in_bounds flags = true := by
  simp only [Access.in_bounds, decide_eq_true_eq]
  exact ⟨hk, hx, hy⟩

theorem slab_ok (flags m : Nat) (hm : m < MAX_HS) : (Access.slab m).in_bounds flags = true := by
  simp only [Access.in_bounds, decide_eq_true_eq]
  exact hm

theorem point_ok (flags j : Nat) (hj : j < 3 * MAX_POINTS) :
    (Access.point j).in_bounds flags = true := by
  simp only [Access.in_bounds, decide_eq_true_eq]
  exact hj

theorem block_ok (flags n : Nat) (hn : n ≤ buf_len flags) :
    (Access.block n).in_bounds flags = true := by
  simp only [Access.in_bounds, decide_eq_true_eq]
  exact hn

theorem slab_cells_ok (flags k m : Nat) (s : State) (X Y : Nat) (hk : k < max_dsets flags)
    (hX : X ≤ MAX_DSET_X) (hY : Y ≤ MAX_DSET_Y)
    (hfit : region_fits X Y (s.start m 0, s.start m 1, s.count m 0, s.count m 1)) :
    InBounds flags (slab_cells k m s) := by
  intro a ha
  obtain ⟨c, hc, rfl⟩ := List.mem_map.1 ha
  obtain ⟨c1, c2⟩ := region_fits_cells X Y _ hfit c hc
  exact cell_ok flags k c.1 c.2 hk (by omega) (by omega)

theorem hs_candidate_trace_ok (E : Env) (flags : Nat) (d : Bool) (k m mx my : Nat) (s : State)
    (hm : m < MAX_HS) (hk : k < max_dsets flags) (hd : dims_ok s k)
    (hmx : mx = if MAX_HS_X ≤ s.dset_dims k 0 then MAX_HS_X else s.dset_dims k 0)
    (hmy : my = if MAX_HS_Y ≤ s.dset_dims k 1 then MAX_HS_Y else s.dset_dims k 1) :
    InBounds flags (hs_candidate_trace E d k m mx my s) := by
  unfold hs_candidate_trace
  refine InBounds.cons_ok (slab_ok flags m hm) ?_
  cases d
  · exact slab_cells_ok flags k m _ _ _ hk hd.1.2 hd.2.2
      (hs_candidate_fits E false k m mx my s hd hmx hmy
        ((hs_candidate E false k m mx my s).1.start m 0,
          (hs_candidate E false k m mx my s).1.start m 1,
          (hs_candidate E false k m mx my s).1.count m 0,
          (hs_candidate E false k m mx my s).1.count m 1)
        (by rw [regions_of_one]; exact List.mem_singleton.2 rfl))
  · exact InBounds.nil_ok flags

theorem hs_retry_trace_succ (E : Env) (d : Bool) (k m mx my n : Nat) (s : State) :
    hs_retry_trace E d k m mx my (n + 1) s =
      hs_candidate_trace E d k m mx my s ++
        (if (hs_candidate E d k m mx my s).2 = true then
          hs_retry_trace E d k m mx my n (hs_candidate E d k m mx my s).1
         else []) := rfl

theorem hs_retry_trace_ok (E : Env) (flags : Nat) (d : Bool) (k m mx my n : Nat) (s : State)
    (hm : m < MAX_HS) (hk : k < max_dsets flags) (hd : dims_ok s k)
    (hmx : mx = if MAX_HS_X ≤ s.dset_dims k 0 then MAX_HS_X else s.dset_dims k 0)
    (hmy : my = if MAX_HS_Y ≤ s.dset_dims k 1 then MAX_HS_Y else s.dset_dims k 1) :
    InBounds flags (hs_retry_trace E d k m mx my n s) := by
  induction n generalizing s with
  | zero => exact InBounds.nil_ok flags
  | succ n ih =>
    rw [hs_retry_trace_succ]
    refine InBounds.append_ok (hs_candidate_trace_ok E flags d k m mx my s hm hk hd hmx hmy) ?_
    obtain ⟨⟨g0, -⟩, -⟩ := hs_candidate_frame E d k m mx my s
    have hdd : (hs_candidate E d k m mx my s).1.dset_dims = s.dset_dims := g0.2.1
    by_cases hov : (hs_candidate E d k m mx my s).2 = true
    · rw [if_pos hov]
      exact ih _ (by simp only [dims_ok, hdd]; exact hd) (by rw [hdd]; exact hmx)
        (by rw [hdd]; exact hmy)
    · rw [if_neg hov]
      exact InBounds.nil_ok flags

theorem hs_accept_trace_ok (E : Env) (flags : Nat) (d : Bool) (k l m : Nat) (s : State)
    (X Y : Nat) (hm : m < MAX_HS) (hk : k < max_dsets flags)
    (hX : X ≤ MAX_DSET_X) (hY : Y ≤ MAX_DSET_Y)
    (hfit : region_fits X Y (s.start m 0, s.start m 1, s.count m 0, s.count m 1)) :
    InBounds flags (hs_accept_trace E d k l m s) := by
  unfold hs_accept_trace
  refine InBounds.cons_ok (slab_ok flags m hm) ?_
  have hc := slab_cells_ok flags k m s X Y hk hX hY hfit
  split_ifs
  · exact hc
  · exact InBounds.nil_ok flags
  · exact hc

theorem hs_loop_trace_succ (E : Env) (flags : Nat) (d : Bool) (k l mx my n m : Nat) (s : State) :
    hs_loop_trace E flags d k l mx my (n + 1) m s =
      hs_retry_trace E d k m mx my MAX_SEL_RETRIES s ++
        (if (hs_retry E d k m mx my MAX_SEL_RETRIES s).2 = true then []
         else
          hs_accept_trace E d k l m (hs_retry E d k m mx my MAX_SEL_RETRIES s).1 ++
            hs_loop_trace E flags d k l mx my n (m + 1)
              (hs_expect E flags d k l m
                (hs_select E k l m (hs_retry E d k m mx my MAX_SEL_RETRIES s).1))) := rfl

theorem hs_loop_trace_ok (E : Env) (flags : Nat) (d : Bool) (k l mx my n m : Nat) (s : State)
    (hmn : m + n ≤ MAX_HS) (hk : k < max_dsets flags) (hd : dims_ok s k)
    (hmx : mx = if MAX_HS_X ≤ s.dset_dims k 0 then MAX_HS_X else s.dset_dims k 0)
    (hmy : my = if MAX_HS_Y ≤ s.dset_dims k 1 then MAX_HS_Y else s.dset_dims k 1) :
    InBounds flags (hs_loop_trace E flags d k l mx my n m s) := by
  induction n generalizing m s with
  | zero => exact InBounds.nil_ok flags
  | succ n ih =>
    rw [hs_loop_trace_succ]
    refine InBounds.append_ok
      (hs_retry_trace_ok E flags d k m mx my MAX_SEL_RETRIES s (by omega) hk hd hmx hmy) ?_
    by_cases hov : (hs_retry E d k m mx my MAX_SEL_RETRIES s).2 = true
    · rw [if_pos hov]
      exact InBounds.nil_ok flags
    · rw [if_neg hov]
      obtain ⟨⟨g0, -⟩, -⟩ := hs_retry_frame E d k m mx my MAX_SEL_RETRIES s
      have hfit := hs_retry_fits E d k m mx my MAX_SEL_RETRIES s hd hmx hmy (by simpa using hov)
        ((hs_retry E d k m mx my MAX_SEL_RETRIES s).1.start m 0,
          (hs_retry E d k m mx my MAX_SEL_RETRIES s).1.start m 1,
          (hs_retry E d k m mx my MAX_SEL_RETRIES s).1.count m 0,
          (hs_retry E d k m mx my MAX_SEL_RETRIES s).1.count m 1)
        (by rw [regions_of_one]; exact List.mem_singleton.2 rfl)
      obtain ⟨a1, -⟩ :=
        hs_accept_spec E flags d k l m (hs_retry E d k m mx my MAX_SEL_RETRIES s).1
      have hdd : (hs_expect E flags d k l m
          (hs_select E k l m (hs_retry E d k m mx my MAX_SEL_RETRIES s).1)).dset_dims
          = s.dset_dims := by rw [a1.2.1, g0.2.1]
      refine InBounds.append_ok
        (hs_accept_trace_ok E flags d k l m _ _ _ (by omega) hk hd.1.2 hd.2.2 hfit) ?_
      exact ih (m + 1) _ (by omega) (by simp only [dims_ok, hdd]; exact hd)
        (by rw [hdd]; exact hmx) (by rw [hdd]; exact hmy)

theorem hs_mark_trace_ok (flags k nhs : Nat) (s : State) (X Y : Nat) (hn : nhs ≤ MAX_HS)
    (hk : k < max_dsets flags) (hX : X ≤ MAX_DSET_X) (hY : Y ≤ MAX_DSET_Y)
    (hfit : ∀ reg ∈ regions_of s 0 nhs, region_fits X Y reg) :
    InBounds flags (hs_mark_trace k nhs s) := by
  unfold hs_mark_trace
  apply InBounds.flatMap_ok
  intro m hm
  have hm' : m < nhs := List.mem_range.1 hm
  refine InBounds.cons_ok (slab_ok flags m (by omega)) ?_
  refine slab_cells_ok flags k m s X Y hk hX hY (hfit _ ?_)
  unfold regions_of
  exact List.mem_map.2 ⟨m, by simp [List.mem_range']; omega, rfl⟩

theorem hs_branch_trace_eq (E : Env) (flags : Nat) (d : Bool) (k l : Nat) (s : State) :
    hs_branch_trace E flags d k l s =
      hs_loop_trace E flags d k l
        (if MAX_HS_X ≤ s.dset_dims k 0 then MAX_HS_X else s.dset_dims k 0)
        (if MAX_HS_Y ≤ s.dset_dims k 1 then MAX_HS_Y else s.dset_dims k 1)
        (hs_draw_count E s) 0 { s with pos := s.pos + 1 } ++
      (if d = true then []
       else hs_mark_trace k
        (hs_loop E flags d k l
          (if MAX_HS_X ≤ s.dset_dims k 0 then MAX_HS_X else s.dset_dims k 0)
          (if MAX_HS_Y ≤ s.dset_dims k 1 then MAX_HS_Y else s.dset_dims k 1)
          (hs_draw_count E s) 0 { s with pos := s.pos + 1 }).2
        (hs_loop E flags d k l
          (if MAX_HS_X ≤ s.dset_dims k 0 then MAX_HS_X else s.dset_dims k 0)
          (if MAX_HS_Y ≤ s.dset_dims k 1 then MAX_HS_Y else s.dset_dims k 1)
          (hs_draw_count E s) 0 { s with pos := s.pos + 1 }).1) := rfl

/-- Every access of the hyperslab branch stays inside its array. -/
theorem hs_branch_trace_ok (E : Env) (flags : Nat) (d : Bool) (k l : Nat) (s : State)
    (hk : k < max_dsets flags) (hd : dims_ok s k) :
    InBounds flags (hs_branch_trace E flags d k l s) := by
  rw [hs_branch_trace_eq]
  have hle := hs_draw_count_le_max E s
  have hd1 : dims_ok { s with pos := s.pos + 1 } k := hd
  refine InBounds.append_ok
    (hs_loop_trace_ok E flags d k l _ _ (hs_draw_count E s) 0 { s with pos := s.pos + 1 }
      (by omega) hk hd1 rfl rfl) ?_
  by_cases hr : d = true
  · rw [if_pos hr]
    exact InBounds.nil_ok flags
  · rw [if_neg hr]
    obtain ⟨⟨-, h2⟩, -⟩ := hs_loop_shape E flags d k l
      (if MAX_HS_X ≤ s.dset_dims k 0 then MAX_HS_X else s.dset_dims k 0)
      (if MAX_HS_Y ≤ s.dset_dims k 1 then MAX_HS_Y else s.dset_dims k 1)
      (hs_draw_count E s) 0 { s with pos := s.pos + 1 }
    have hfit := hs_loop_fits E flags d k l _ _ (hs_draw_count E s) 0 { s with pos := s.pos + 1 }
      hd1 rfl rfl
    simp only [Nat.sub_zero] at hfit
    exact hs_mark_trace_ok flags k _ _ _ _ (by omega) hk hd.1.2 hd.2.2 hfit

/-! ## In-bounds indexing: points -/

theorem pt_cell_ok (flags k m : Nat) (s : State) (X Y : Nat) (hk : k < max_dsets flags)
    (hX : X ≤ MAX_DSET_X) (hY : Y ≤ MAX_DSET_Y)
    (hfit : s.points (2 * m) < X ∧ s.points (2 * m + 1) < Y) :
    (pt_cell k m s).in_bounds flags = true :=
  cell_ok flags k _ _ hk (by omega) (by omega)

theorem pt_candidate_trace_ok (E : Env) (flags : Nat) (d : Bool) (k m : Nat) (s : State)
    (hm : m < MAX_POINTS) (hk : k < max_dsets flags) (hd : dims_ok s k) :
    InBounds flags (pt_candidate_trace E d k m s) := by
  unfold pt_candidate_trace
  have h1 : 2 * m < 3 * MAX_POINTS := by omega
  have h2 : 2 * m + 1 < 3 * MAX_POINTS := by omega
  refine InBounds.append_ok
    (InBounds.cons_ok (point_ok flags _ h1)
      (InBounds.cons_ok (point_ok flags _ h2) (InBounds.nil_ok flags))) ?_
  cases d
  · have hfit := pt_candidate_fits E false k m s hd
      ((pt_candidate E false k m s).1.points (2 * m),
        (pt_candidate E false k m s).1.points (2 * m + 1))
      (by rw [points_of_one]; exact List.mem_singleton.2 rfl)
    exact InBounds.cons_ok (pt_cell_ok flags k m _ _ _ hk hd.1.2 hd.2.2 hfit)
      (InBounds.nil_ok flags)
  · exact InBounds.nil_ok flags

theorem pt_retry_trace_succ (E : Env) (d : Bool) (k m n : Nat) (s : State) :
    pt_retry_trace E d k m (n + 1) s =
      pt_candidate_trace E d k m s ++
        (if (pt_candidate E d k m s).2 = true then
          pt_retry_trace E d k m n (pt_candidate E d k m s).1
         else []) := rfl

theorem pt_retry_trace_ok (E : Env) (flags : Nat) (d : Bool) (k m n : Nat) (s : State)
    (hm : m < MAX_POINTS) (hk : k < max_dsets flags) (hd : dims_ok s k) :
    InBounds flags (pt_retry_trace E d k m n s) := by
  induction n generalizing s with
  | zero => exact InBounds.nil_ok flags
  | succ n ih =>
    rw [pt_retry_trace_succ]
    refine InBounds.append_ok (pt_candidate_trace_ok E flags d k m s hm hk hd) ?_
    by_cases hov : (pt_candidate E d k m s).2 = true
    · rw [if_pos hov]
      exact ih _ hd
    · rw [if_neg hov]
      exact InBounds.nil_ok flags

theorem pt_loop_trace_succ (E : Env) (d : Bool) (k n m : Nat) (s : State) :
    pt_loop_trace E d k (n + 1) m s =
      pt_retry_trace E d k m MAX_SEL_RETRIES s ++
        (if (pt_retry E d k m MAX_SEL_RETRIES s).2 = true then []
         else pt_loop_trace E d k n (m + 1) (pt_retry E d k m MAX_SEL_RETRIES s).1) := rfl

theorem pt_loop_trace_ok (E : Env) (flags : Nat) (d : Bool) (k n m : Nat) (s : State)
    (hmn : m + n ≤ MAX_POINTS) (hk : k < max_dsets flags) (hd : dims_ok s k) :
    InBounds flags (pt_loop_trace E d k n m s) := by
  induction n generalizing m s with
  | zero => exact InBounds.nil_ok flags
  | succ n ih =>
    rw [pt_loop_trace_succ]
    refine InBounds.append_ok
      (pt_retry_trace_ok E flags d k m MAX_SEL_RETRIES s (by omega) hk hd) ?_
    by_cases hov : (pt_retry E d k m MAX_SEL_RETRIES s).2 = true
    · rw [if_pos hov]
      exact InBounds.nil_ok flags
    · rw [if_neg hov]
      obtain ⟨⟨g0, -⟩, -⟩ := pt_retry_frame E d k m MAX_SEL_RETRIES s
      have hdd : (pt_retry E d k m MAX_SEL_RETRIES s).1.dset_dims = s.dset_dims := g0.2.1
      exact ih (m + 1) _ (by omega) (by simp only [dims_ok, hdd]; exact hd)

theorem pt_use_trace_ok (flags k n : Nat) (s : State) (X Y : Nat) (hn : n ≤ MAX_POINTS)
    (hk : k < max_dsets flags) (hX : X ≤ MAX_DSET_X) (hY : Y ≤ MAX_DSET_Y)
    (hfit : ∀ c ∈ points_of s 0 n, c.1 < X ∧ c.2 < Y) :
    InBounds flags (pt_use_trace k n s) := by
  unfold pt_use_trace
  apply InBounds.flatMap_ok
  intro m hm
  have hm' : m < n := List.mem_range.1 hm
  have h1 : 2 * m < 3 * MAX_POINTS := by omega
  have h2 : 2 * m + 1 < 3 * MAX_POINTS := by omega
  have hc := hfit (s.points (2 * m), s.points (2 * m + 1)) (by
    unfold points_of
    exact List.mem_map.2 ⟨m, by simp [List.mem_range']; omega, rfl⟩)
  exact InBounds.cons_ok (point_ok flags _ h1)
    (InBounds.cons_ok (point_ok flags _ h2)
      (InBounds.cons_ok (pt_cell_ok flags k m s X Y hk hX hY hc) (InBounds.nil_ok flags)))

theorem pt_convert_trace_ok (flags m : Nat) (hm : m < MAX_POINTS) :
    InBounds flags (pt_convert_trace m) := by
  induction m with
  | zero => exact InBounds.nil_ok flags
  | succ m ih =>
    have h1 : 3 * (m + 1) + 2 < 3 * MAX_POINTS := by omega
    have h2 : 3 * (m + 1) + 1 < 3 * MAX_POINTS := by omega
    have h3 : 2 * (m + 1) + 1 < 3 * MAX_POINTS := by omega
    have h4 : 3 * (m + 1) < 3 * MAX_POINTS := by omega
    have h5 : 2 * (m + 1) < 3 * MAX_POINTS := by omega
    show InBounds flags (_ ++ pt_convert_trace m)
    exact InBounds.append_ok
      (InBounds.cons_ok (point_ok flags _ h1) (InBounds.cons_ok (point_ok flags _ h2)
        (InBounds.cons_ok (point_ok flags _ h3) (InBounds.cons_ok (point_ok flags _ h4)
          (InBounds.cons_ok (point_ok flags _ h5) (InBounds.nil_ok flags))))))
      (ih (by omega))

theorem pt_branch_trace_eq (E : Env) (flags : Nat) (d : Bool) (k l : Nat) (s : State) :
    pt_branch_trace E flags d k l s =
      pt_loop_trace E d k (pt_draw_count E s) 0 { s with pos := s.pos + 1 } ++
        (if d = true then []
         else pt_use_trace k (pt_loop E d k (pt_draw_count E s) 0 { s with pos := s.pos + 1 }).2
          (pt_loop E d k (pt_draw_count E s) 0 { s with pos := s.pos + 1 }).1) ++
        (if d = true then
          (if l = E.mpi_rank then
            pt_use_trace k (pt_loop E d k (pt_draw_count E s) 0 { s with pos := s.pos + 1 }).2
              (pt_select_file E k l
                (pt_loop E d k (pt_draw_count E s) 0 { s with pos := s.pos + 1 }).2
                (if d = true then
                  (pt_loop E d k (pt_draw_count E s) 0 { s with pos := s.pos + 1 }).1
                 else pt_mark k
                  (pt_loop E d k (pt_draw_count E s) 0 { s with pos := s.pos + 1 }).2
                  (pt_loop E d k (pt_draw_count E s) 0 { s with pos := s.pos + 1 }).1))
           else [])
         else
          pt_use_trace k (pt_loop E d k (pt_draw_count E s) 0 { s with pos := s.pos + 1 }).2
            (pt_select_file E k l
              (pt_loop E d k (pt_draw_count E s) 0 { s with pos := s.pos + 1 }).2
              (if d = true then
                (pt_loop E d k (pt_draw_count E s) 0 { s with pos := s.pos + 1 }).1
               else pt_mark k
                (pt_loop E d k (pt_draw_count E s) 0 { s with pos := s.pos + 1 }).2
                (pt_loop E d k (pt_draw_count E s) 0 { s with pos := s.pos + 1 }).1))) ++
        (if l = E.mpi_rank ∧
            (pt_loop E d k (pt_draw_count E s) 0 { s with pos := s.pos + 1 }).2 > 0 ∧
            (!has_flag flags MDSET_FLAG_SHAPESAME) = true then
          pt_convert_trace
            ((pt_loop E d k (pt_draw_count E s) 0 { s with pos := s.pos + 1 }).2 - 1) ++
            [Access.point 2]
         else []) := rfl

/-- Every access of the point branch stays inside its array. -/
theorem pt_branch_trace_ok (E : Env) (flags : Nat) (d : Bool) (k l : Nat) (s : State)
    (hk : k < max_dsets flags) (hd : dims_ok s k) :
    InBounds flags (pt_branch_trace E flags d k l s) := by
  rw [pt_branch_trace_eq]
  have hle := (pt_draw_count_le E s).2
  have hd1 : dims_ok { s with pos := s.pos + 1 } k := hd
  have hloop := pt_loop_trace_ok E flags d k (pt_draw_count E s) 0 { s with pos := s.pos + 1 }
    (by omega) hk hd1
  obtain ⟨⟨-, h2⟩, -⟩ := pt_loop_shape E d k (pt_draw_count E s) 0 { s with pos := s.pos + 1 }
  have hfit := pt_loop_fits E d k (pt_draw_count E s) 0 { s with pos := s.pos + 1 } hd1
  simp only [Nat.sub_zero] at hfit
  generalize pt_loop_trace E d k (pt_draw_count E s) 0 { s with pos := s.pos + 1 } = T at *
  generalize pt_loop E d k (pt_draw_count E s) 0 { s with pos := s.pos + 1 } = q at *
  have hq : q.2 ≤ MAX_POINTS := by omega
  have huse : InBounds flags (pt_use_trace k q.2 q.1) :=
    pt_use_trace_ok flags k q.2 q.1 _ _ hq hk hd.1.2 hd.2.2 hfit
  have hp : (pt_select_file E k l q.2 (if d = true then q.1 else pt_mark k q.2 q.1)).points =
      q.1.points := by
    rw [(pt_select_file_spec E k l q.2 _).2.2.2.2.2.1]
    cases d <;> rfl
  have huse3 : InBounds flags (pt_use_trace k q.2
      (pt_select_file E k l q.2 (if d = true then q.1 else pt_mark k q.2 q.1))) := by
    refine pt_use_trace_ok flags k q.2 _ _ _ hq hk hd.1.2 hd.2.2 ?_
    have e : points_of (pt_select_file E k l q.2 (if d = true then q.1 else pt_mark k q.2 q.1))
        0 q.2 = points_of q.1 0 q.2 := by
      unfold points_of
      rw [hp]
    rw [e]
    exact hfit
  refine InBounds.append_ok (InBounds.append_ok (InBounds.append_ok hloop ?_) ?_) ?_
  · by_cases hr : d = true
    · rw [if_pos hr]
      exact InBounds.nil_ok flags
    · rw [if_neg hr]
      exact huse
  · by_cases hr : d = true
    · rw [if_pos hr]
      by_cases hl : l = E.mpi_rank
      · rw [if_pos hl]
        exact huse3
      · rw [if_neg hl]
        exact InBounds.nil_ok flags
    · rw [if_neg hr]
      exact huse3
  · by_cases hc : l = E.mpi_rank ∧ q.2 > 0 ∧ (!has_flag flags MDSET_FLAG_SHAPESAME) = true
    · rw [if_pos hc]
      exact InBounds.append_ok (pt_convert_trace_ok flags (q.2 - 1) (by omega))
        (InBounds.cons_ok (point_ok flags 2 (by decide)) (InBounds.nil_ok flags))
    · rw [if_neg hc]
      exact InBounds.nil_ok flags

/-! ## In-bounds indexing: one operation -/

theorem rank_iter_trace_ok (E : Env) (flags : Nat) (d : Bool) (k l : Nat) (s : State)
    (hk : k < max_dsets flags) (hd : dims_ok s k) :
    InBounds flags (rank_iter_trace E flags d k l s) := by
  have hd1 : dims_ok { s with pos := s.pos + 1 } k := hd
  unfold rank_iter_trace
  split
  · exact hs_branch_trace_ok E flags d k l _ hk hd1
  · exact pt_branch_trace_ok E flags d k l _ hk hd1

theorem rank_loop_trace_succ (E : Env) (flags : Nat) (d : Bool) (k n l : Nat) (s : State) :
    rank_loop_trace E flags d k (n + 1) l s =
      rank_iter_trace E flags d k l s ++
        rank_loop_trace E flags d k n (l + 1) (rank_iter E flags d k l s).1 := rfl

theorem rank_loop_trace_ok (E : Env) (flags : Nat) (d : Bool) (k n l : Nat) (s : State)
    (hk : k < max_dsets flags) (hd : dims_ok s k) :
    InBounds flags (rank_loop_trace E flags d k n l s) := by
  induction n generalizing l s with
  | zero => exact InBounds.nil_ok flags
  | succ n ih =>
    rw [rank_loop_trace_succ]
    obtain ⟨a1, -⟩ := rank_iter_spec E flags d k l s
    exact InBounds.append_ok (rank_iter_trace_ok E flags d k l s hk hd)
      (ih (l + 1) _ (dims_ok_congr a1.2.1 hd))

theorem dset_iter_trace_eq (E : Env) (flags : Nat) (d : Bool) (k : Nat) (s : State) :
    dset_iter_trace E flags d k s =
      (if (!d) = true then [Access.block (buf_len flags)] else []) ++
      rank_loop_trace E flags d k E.mpi_size 0
        ((fun s => if (!d) = true then
            { s with dset_usage := memset0 s.dset_usage (buf_len flags) } else s)
          ((fun s => checked E (.H5Sselect_none false k)
              { s with dset_space := set_at s.dset_space k [] })
            ((fun s => checked E (.H5Sselect_none true k)
              { s with mem_space := set_at s.mem_space k [] }) s))) := rfl

theorem dset_iter_trace_ok (E : Env) (flags : Nat) (d : Bool) (k : Nat) (s : State)
    (hk : k < max_dsets flags) (hd : dims_ok s k) :
    InBounds flags (dset_iter_trace E flags d k s) := by
  rw [dset_iter_trace_eq]
  refine InBounds.append_ok ?_ (rank_loop_trace_ok E flags d k E.mpi_size 0 _ hk ?_)
  · split
    · exact InBounds.cons_ok (block_ok flags _ (Nat.le_refl _)) (InBounds.nil_ok flags)
    · exact InBounds.nil_ok flags
  · cases d <;> exact hd

theorem dset_loop_trace_succ (E : Env) (flags : Nat) (d : Bool) (n k : Nat) (s : State) :
    dset_loop_trace E flags d (n + 1) k s =
      dset_iter_trace E flags d k s ++
        dset_loop_trace E flags d n (k + 1) (dset_iter E flags d k s).1 := rfl

theorem dset_loop_trace_ok (E : Env) (flags : Nat) (d : Bool) (n k0 : Nat) (s : State)
    (hn : k0 + n ≤ max_dsets flags) (hd : ∀ k, k0 ≤ k → k < k0 + n → dims_ok s k) :
    InBounds flags (dset_loop_trace E flags d n k0 s) := by
  induction n generalizing k0 s with
  | zero => exact InBounds.nil_ok flags
  | succ n ih =>
    rw [dset_loop_trace_succ]
    obtain ⟨a1, -⟩ := dset_iter_spec E flags d k0 s
    exact InBounds.append_ok
      (dset_iter_trace_ok E flags d k0 s (by omega) (hd k0 (Nat.le_refl _) (by omega)))
      (ih (k0 + 1) _ (by omega)
        (fun k h1 h2 => dims_ok_congr a1.2.1 (hd k (by omega) (by omega))))

theorem op_select_trace_ok (E : Env) (flags : Nat) (d : Bool) (s : State)
    (hn : s.ndsets ≤ max_dsets flags) (hd : ∀ k, k < s.ndsets → dims_ok s k) :
    InBounds flags (op_select_trace E flags d s) := by
  unfold op_select_trace
  exact dset_loop_trace_ok E flags d s.ndsets 0 s (by omega) (fun k _ h2 => hd k (by omega))

theorem wbuf_trace_ok (flags : Nat) : InBounds flags (wbuf_trace flags) := by
  unfold wbuf_trace
  apply InBounds.flatMap_ok
  intro l hl
  apply InBounds.flatMap_ok
  intro m hm
  intro a ha
  obtain ⟨n, hn, rfl⟩ := List.mem_map.1 ha
  exact cell_ok flags l m n (List.mem_range.1 hl) (List.mem_range.1 hm) (List.mem_range.1 hn)

theorem lifetime_init_trace_ok (flags : Nat) : InBounds flags (lifetime_init_trace flags) :=
  InBounds.cons_ok (block_ok flags _ (Nat.le_refl _)) (wbuf_trace_ok flags)

theorem bufi_trace_ok (flags : Nat) : InBounds flags (bufi_trace flags) := by
  unfold bufi_trace
  apply InBounds.flatMap_ok
  intro i hi
  intro a ha
  obtain ⟨j, hj, rfl⟩ := List.mem_map.1 ha
  simp only [Access.in_bounds, decide_eq_true_eq]
  exact ⟨List.mem_range.1 hi, List.mem_range.1 hj⟩

theorem io_trace_ok (flags : Nat) (s : State) (hn : s.ndsets ≤ max_dsets flags) :
    InBounds flags (io_trace flags s) := by
  unfold io_trace
  split
  · intro a ha
    obtain ⟨k, hk, rfl⟩ := List.mem_map.1 ha
    have hk' : k < s.ndsets := List.mem_range.1 hk
    simp only [Access.in_bounds, decide_eq_true_eq]
    exact ⟨by omega, by decide⟩
  · exact InBounds.nil_ok flags

theorem operation_trace_eq (E : Env) (flags : Nat) (s : State) :
    operation_trace E flags s =
      op_select_trace E flags (op_begin E s).2 (op_begin E s).1 ++
        io_trace flags (op_select E flags (op_begin E s).2 (op_begin E s).1).1 ++
        (if (op_begin E s).2 = true then [] else wbuf_trace flags) := rfl

/-- Every access of an operation stays inside its array when the datasets are within the
bounds of lines 224 and 234-235. -/
theorem operation_trace_ok (E : Env) (flags : Nat) (s : State)
    (hn : s.ndsets ≤ max_dsets flags) (hd : ∀ k, k < s.ndsets → dims_ok s k) :
    InBounds flags (operation_trace E flags s) := by
  rw [operation_trace_eq]
  obtain ⟨-, -, -, b4, b5, -⟩ := op_begin_spec E s
  obtain ⟨c1, -⟩ := op_select_spec E flags (op_begin E s).2 (op_begin E s).1
  refine InBounds.append_ok (InBounds.append_ok ?_ ?_) ?_
  · exact op_select_trace_ok E flags _ _ (by rw [b4]; exact hn)
      (fun k hk => dims_ok_congr b5 (hd k (by rw [← b4]; exact hk)))
  · exact io_trace_ok flags _ (by rw [c1.1, b4]; exact hn)
  · split
    · exact InBounds.nil_ok flags
    · exact wbuf_trace_ok flags

/-- In every state a run of `test_pmdset` reaches between operations the datasets are within
bounds. -/
theorem reach_dims (E : Env) (flags : Nat) (file : Nat → Nat → Nat → Nat → Nat → Nat)
    (s : State) (i j : Nat) :
    (run_ops E flags (file i) j
      (lifetime_init E flags (lifetimes E flags file i (setup E flags s)))).ndsets ≤
        max_dsets flags ∧
    ∀ k, k < (run_ops E flags (file i) j
      (lifetime_init E flags (lifetimes E flags file i (setup E flags s)))).ndsets →
      dims_ok (run_ops E flags (file i) j
        (lifetime_init E flags (lifetimes E flags file i (setup E flags s)))) k := by
  have h := run_ops_lock E E flags (file i) (file i) _ _ rfl rfl
    (lifetime_init_lock E E flags (lifetimes E flags file i (setup E flags s))
      (lifetimes E flags file i (setup E flags s)) rfl rfl) j
  exact ⟨h.2.2.1, fun k hk => (h.2.2.2 k hk).2.2⟩

/-- Every pass of the loop over processes makes accesses: it starts with `start[0]`/`count[0]`
in the hyperslab branch and with `points[0]` in the point branch. -/
theorem rank_iter_trace_first (E : Env) (flags : Nat) (d : Bool) (k l : Nat) (s : State) :
    ∃ T, rank_iter_trace E flags d k l s =
      (if E.random s.pos % 2 ≠ 0 then Access.slab 0 else Access.point (2 * 0)) :: T := by
  unfold rank_iter_trace
  have h10 : MAX_SEL_RETRIES = 9 + 1 := rfl
  by_cases hg : E.random s.pos % 2 ≠ 0
  · rw [if_pos hg, if_pos hg, hs_branch_trace_eq]
    unfold hs_draw_count
    rw [hs_loop_trace_succ, h10, hs_retry_trace_succ]
    unfold hs_candidate_trace
    exact ⟨_, rfl⟩
  · rw [if_neg hg, if_neg hg, pt_branch_trace_eq]
    unfold pt_draw_count
    rw [pt_loop_trace_succ, h10, pt_retry_trace_succ]
    unfold pt_candidate_trace
    exact ⟨_, rfl⟩

/-! ## The configuration loop of `main` applies `test_pmdset` -/

/-- The state after the configuration loop is that of the calls of `test_pmdset` for the
flag values `i, i + 1, ...`, applied in this order. -/
theorem main_loop_state (E : Env) (file : Nat → Nat → Nat → Nat → Nat → Nat → Nat) (n i : Nat)
    (s : State) :
    (main_loop E file n i s).1 =
      (List.range' i n).foldl (fun st j => test_pmdset E 10 j (file j) st) s := by
  induction n generalizing i s with
  | zero => rfl
  | succ n ih =>
    rw [main_loop_succ, List.range'_succ, List.foldl_cons]
    exact ih (i + 1) _

theorem logext_filter {s s' : State} (h : LogExt Call.not_dxpl s s') :
    s'.log.filter Call.is_dxpl = s.log.filter Call.is_dxpl := by
  obtain ⟨⟨L, e, hp⟩, -⟩ := h
  rw [e, List.filter_append]
  have : L.filter Call.is_dxpl = [] := by
    rw [List.filter_eq_nil_iff]
    intro c hc
    have := hp c hc
    simpa [Call.not_dxpl] using this
  rw [this, List.append_nil]

theorem foldl_logext {α : Type} (p : Call → Bool) (f : State → α → State)
    (h : ∀ s a, LogExt p s (f s a)) (L : List α) (s : State) : LogExt p s (L.foldl f s) := by
  induction L generalizing s with
  | nil => exact LogExt.log_refl p s
  | cons a L ih => exact (h s a).log_trans (ih (f s a))

theorem select_not_dxpl (c : Call) (h : Call.is_select c = true) : Call.not_dxpl c = true := by
  cases c <;> simp_all [Call.is_select, Call.not_dxpl, Call.is_dxpl]

theorem create_dset_logext (E : Env) (flags j : Nat) (s : State) :
    LogExt Call.not_dxpl s (create_dset E flags j s) := by
  obtain ⟨-, -, d3, d4⟩ := create_dset_layout E flags j s
  have hn := (create_dset_spec E flags j s).2.2.2.2.2.2.2.2.2.2
  refine ⟨?_, hn⟩
  cases hc : has_flag flags MDSET_FLAG_CHUNK
  · refine ⟨_, (d4 hc).2, ?_⟩
    intro c h
    simp only [List.mem_cons, List.mem_singleton, List.not_mem_nil, or_false] at h
    rcases h with rfl | rfl <;> rfl
  · refine ⟨_, (d3 hc).2.2, ?_⟩
    intro c h
    simp only [List.mem_cons, List.mem_singleton, List.not_mem_nil, or_false] at h
    rcases h with rfl | rfl | rfl <;> rfl

theorem lifetime_init_logext (E : Env) (flags : Nat) (s : State) :
    LogExt Call.not_dxpl s (lifetime_init E flags s) := by
  rw [lifetime_init_eq]
  have h1 : LogExt Call.not_dxpl s
      (checked E .H5Fcreate
        (if has_flag flags MDSET_FLAG_MDSET = true then
          { s with ndsets := E.random s.pos % max_dsets flags + 1, pos := s.pos + 1 }
        else { s with ndsets := 1 })) := by
    split_ifs
    · exact (LogExt.of_eq rfl rfl).log_trans (checked_logext _ E .H5Fcreate _ rfl)
    · exact (LogExt.of_eq rfl rfl).log_trans (checked_logext _ E .H5Fcreate _ rfl)
  have h2 := foldl_logext Call.not_dxpl (fun s j => create_dset E flags j s)
    (fun s j => create_dset_logext E flags j s)
    (List.range (checked E .H5Fcreate
        (if has_flag flags MDSET_FLAG_MDSET = true then
          { s with ndsets := E.random s.pos % max_dsets flags + 1, pos := s.pos + 1 }
        else { s with ndsets := 1 })).ndsets)
    (checked E .H5Fcreate
        (if has_flag flags MDSET_FLAG_MDSET = true then
          { s with ndsets := E.random s.pos % max_dsets flags + 1, pos := s.pos + 1 }
        else { s with ndsets := 1 }))
  exact (h1.log_trans h2).log_trans (LogExt.of_eq rfl rfl)

theorem operation_logext (E : Env) (flags : Nat) (file : Nat → Nat → Nat → Nat) (s : State) :
    LogExt Call.not_dxpl s (operation E flags file s) := by
  obtain ⟨-, -, L, hL, e⟩ := operation_log E flags file s
  refine ⟨⟨_, e, ?_⟩, operation_errors_le E flags file s⟩
  intro c hc
  simp only [List.mem_cons, List.mem_append, List.mem_singleton, List.not_mem_nil,
    or_false] at hc
  rcases hc with rfl | (h | h) | h
  · rfl
  · split_ifs at h
    · exact absurd h (List.not_mem_nil _)
    · unfold reopen_calls at h
      simp only [List.mem_append, List.mem_map, List.mem_cons, List.mem_singleton,
        List.not_mem_nil, or_false] at h
      rcases h with ((⟨_, _, rfl⟩ | rfl | rfl | rfl) | ⟨_, _, rfl⟩) | rfl <;> rfl
  · exact select_not_dxpl c (hL c h)
  · rw [h]
    unfold io_call
    split_ifs <;> rfl

theorem run_ops_logext (E : Env) (flags : Nat) (file : Nat → Nat → Nat → Nat → Nat) (n : Nat)
    (s : State) : LogExt Call.not_dxpl s (run_ops E flags file n s) := by
  induction n with
  | zero => exact LogExt.log_refl _ s
  | succ n ih =>
    rw [run_ops_succ]
    exact ih.log_trans (operation_logext E flags _ _)

theorem close_lifetime_logext (E : Env) (s : State) :
    LogExt Call.not_dxpl s (close_lifetime E s) := by
  unfold close_lifetime
  exact (foldl_logext Call.not_dxpl
    (fun s j => checked E (.H5Sclose j) (checked E (.H5Dclose j) s))
    (fun s j => (checked_logext _ E (.H5Dclose j) s rfl).log_trans
      (checked_logext _ E (.H5Sclose j) _ rfl))
    (List.range s.ndsets) s).log_trans (checked_logext _ E .H5Fclose _ rfl)

theorem lifetimes_logext (E : Env) (flags : Nat) (file : Nat → Nat → Nat → Nat → Nat → Nat)
    (n : Nat) (s : State) : LogExt Call.not_dxpl s (lifetimes E flags file n s) := by
  induction n with
  | zero => exact LogExt.log_refl _ s
  | succ n ih =>
    rw [lifetimes_succ, lifetime_eq]
    exact ih.log_trans (((lifetime_init_logext E flags _).log_trans
      (run_ops_logext E flags _ _ _)).log_trans (close_lifetime_logext E _))

theorem teardown_logext (E : Env) (flags : Nat) (s : State) :
    LogExt Call.not_dxpl s (teardown E flags s) := by
  unfold teardown
  exact (((foldl_logext Call.not_dxpl (fun s i => checked E (.H5Sclose_mem i) s)
    (fun s i => checked_logext _ E (.H5Sclose_mem i) s rfl)
    (List.range (max_dsets flags)) s).log_trans
    (checked_logext _ E (.H5Pclose 2) _ rfl)).log_trans
    (checked_logext _ E (.H5Pclose 1) _ rfl)).log_trans
    (checked_logext _ E (.H5Pclose 0) _ rfl)

theorem setup_dxpl (E : Env) (flags : Nat) (s : State) :
    (setup E flags s).log.filter Call.is_dxpl =
      s.log.filter Call.is_dxpl ++
        [Call.H5Pset_dxpl_mpio (has_flag flags MDSET_FLAG_COLLECTIVE)] := by
  have h1 := foldl_logext Call.not_dxpl
    (fun (s : State) (i : Nat) => { s with dset_dims := set2 s.dset_dims i 2 1 })
    (fun _ _ => LogExt.of_eq rfl rfl) (List.range (max_dsets flags)) s
  have h2 := foldl_logext Call.not_dxpl
    (fun (s : State) (i : Nat) =>
      { s with start := set2 s.start i 2 0, count := set2 s.count i 2 1 })
    (fun _ _ => LogExt.of_eq rfl rfl) (List.range MAX_HS)
    ((List.range (max_dsets flags)).foldl
      (fun s i => { s with dset_dims := set2 s.dset_dims i 2 1 }) s)
  have h3 : ∀ t : State, LogExt Call.not_dxpl t
      (checked E .H5Screate_simple_mem
        { t with
          dset_dims := set2 (set2 t.dset_dims 0 0 MAX_DSET_X) 0 1 MAX_DSET_Y
          mem_space := set_at t.mem_space 0
            [.all (if has_flag flags MDSET_FLAG_SHAPESAME then
                [set2 (set2 t.dset_dims 0 0 MAX_DSET_X) 0 1 MAX_DSET_Y 0 0,
                  set2 (set2 t.dset_dims 0 0 MAX_DSET_X) 0 1 MAX_DSET_Y 0 1]
              else [set2 (set2 t.dset_dims 0 0 MAX_DSET_X) 0 1 MAX_DSET_Y 0 0,
                set2 (set2 t.dset_dims 0 0 MAX_DSET_X) 0 1 MAX_DSET_Y 0 1,
                set2 (set2 t.dset_dims 0 0 MAX_DSET_X) 0 1 MAX_DSET_Y 0 2])] }) :=
    fun t => (LogExt.of_eq rfl rfl).log_trans (checked_logext _ E .H5Screate_simple_mem _ rfl)
  have h4 : ∀ t : State, LogExt Call.not_dxpl t
      ((List.range' 1 (max_dsets flags - 1)).foldl
        (fun s i => checked E (.H5Scopy i)
          { s with mem_space := set_at s.mem_space i (s.mem_space 0) }) t) :=
    fun t => foldl_logext Call.not_dxpl
      (fun s i => checked E (.H5Scopy i)
        { s with mem_space := set_at s.mem_space i (s.mem_space 0) })
      (fun s i => (LogExt.of_eq rfl rfl).log_trans
        (checked_logext _ E (.H5Scopy i)
          { s with mem_space := set_at s.mem_space i (s.mem_space 0) } rfl)) _ t
  have h5 : ∀ t : State, LogExt Call.not_dxpl t
      (checked E (.H5Pcreate 2) (checked E .H5Pset_alloc_time (checked E .H5Pset_fill_time
        (checked E (.H5Pcreate 1) (checked E .H5Pset_fapl_mpio
          (checked E (.H5Pcreate 0) t)))))) :=
    fun t => (((((checked_logext _ E (.H5Pcreate 0) t rfl).log_trans
      (checked_logext _ E .H5Pset_fapl_mpio _ rfl)).log_trans
      (checked_logext _ E (.H5Pcreate 1) _ rfl)).log_trans
      (checked_logext _ E .H5Pset_fill_time _ rfl)).log_trans
      (checked_logext _ E .H5Pset_alloc_time _ rfl)).log_trans
      (checked_logext _ E (.H5Pcreate 2) _ rfl)
  have hall := (((h1.log_trans h2).log_trans (h3 _)).log_trans (h4 _)).log_trans (h5 _)
  rw [setup_eq]
  show (checked E (.H5Pset_dxpl_mpio (has_flag flags MDSET_FLAG_COLLECTIVE)) _).log.filter _ = _
  rw [(checked_spec E _ _).2.1, List.filter_append, logext_filter hall]
  rfl

/-- A call of `test_pmdset` adds exactly one `H5Pset_dxpl_mpio` call to the log, with the
collective mode its `flags` ask for. -/
theorem test_pmdset_dxpl (E : Env) (niter flags : Nat)
    (file : Nat → Nat → Nat → Nat → Nat → Nat) (s : State) :
    (test_pmdset E niter flags file s).log.filter Call.is_dxpl =
      s.log.filter Call.is_dxpl ++
        [Call.H5Pset_dxpl_mpio (has_flag flags MDSET_FLAG_COLLECTIVE)] := by
  rw [test_pmdset_eq, logext_filter
    ((lifetimes_logext E flags file niter (setup E flags s)).log_trans (teardown_logext E flags _)),
    setup_dxpl]

theorem foldl_test_dxpl (E : Env) (file : Nat → Nat → Nat → Nat → Nat → Nat → Nat)
    (L : List Nat) (s : State) :
    (L.foldl (fun st j => test_pmdset E 10 j (file j) st) s).log.filter Call.is_dxpl =
      s.log.filter Call.is_dxpl ++
        L.map (fun j => Call.H5Pset_dxpl_mpio (has_flag j MDSET_FLAG_COLLECTIVE)) := by
  induction L generalizing s with
  | nil => simp
  | cons a L ih =>
    rw [List.foldl_cons, ih, test_pmdset_dxpl, List.map_cons, List.append_assoc]
    rfl

theorem fill_dset_names_log (s : State) : (fill_dset_names s).log = s.log := by
  unfold fill_dset_names
  generalize List.range MAX_DSETS = L
  induction L generalizing s with
  | nil => rfl
  | cons a L ih =>
    rw [List.foldl_cons, ih]
    split_ifs <;> rfl

/-- The `H5Pset_dxpl_mpio` calls in the log of `main`: the 16 calls of `test_pmdset` each leave
one, in the order of the flag values. -/
theorem main_local_dxpl (E : Env) (file : Nat → Nat → Nat → Nat → Nat → Nat → Nat) (s : State) :
    (main_local E file s).1.log.filter Call.is_dxpl =
      s.log.filter Call.is_dxpl ++
        (List.range' 0 (MDSET_ALL_FLAGS + 1)).map
          (fun j => Call.H5Pset_dxpl_mpio (has_flag j MDSET_FLAG_COLLECTIVE)) := by
  rw [main_local_fst, main_loop_state]
  have hfin : ∀ t : State, LogExt Call.not_dxpl t
      (if E.mpi_rank = 0 then checked E .MPI_File_delete (checked E .MPI_Barrier t)
        else checked E .MPI_Barrier t) := by
    intro t
    split_ifs
    · exact (checked_logext _ E .MPI_Barrier t rfl).log_trans
        (checked_logext _ E .MPI_File_delete _ rfl)
    · exact checked_logext _ E .MPI_Barrier t rfl
  have hinit : (fill_dset_names
      { checked E .MPI_Bcast (unchecked .MPI_Comm_rank (unchecked .MPI_Comm_size
        (unchecked .MPI_Init (unchecked .h5_reset { s with nerrors := 0 })))) with
        pos := 0 }).log.filter Call.is_dxpl = s.log.filter Call.is_dxpl := by
    rw [fill_dset_names_log]
    show (s.log ++ [Call.h5_reset] ++ [Call.MPI_Init] ++ [Call.MPI_Comm_size] ++
      [Call.MPI_Comm_rank] ++ [Call.MPI_Bcast]).filter Call.is_dxpl = _
    simp [List.filter_append, Call.is_dxpl]
  show ((fun t => if E.mpi_rank = 0 then checked E .MPI_File_delete (checked E .MPI_Barrier t)
        else checked E .MPI_Barrier t) _).log.filter _ = _
  rw [logext_filter (hfin _), foldl_test_dxpl, hinit]

/-! ## The accesses listed are those the code makes: what changes is listed -/

theorem Covers.cover_refl (T : List Access) (s : State) : Covers T s s :=
  ⟨fun _ h => by rcases h with h | h | h | h <;> exact absurd rfl h,
    fun _ _ h => by rcases h with h | h <;> exact absurd rfl h,
    fun _ h => absurd rfl h⟩

theorem Covers.of_same (T : List Access) {s s' : State}
    (h1 : s'.dset_usage = s.dset_usage) (h2 : s'.efbuf = s.efbuf) (h3 : s'.erbuf = s.erbuf)
    (h4 : s'.wbuf = s.wbuf) (h5 : s'.start = s.start) (h6 : s'.count = s.count)
    (h7 : s'.points = s.points) : Covers T s s' := by
  refine ⟨fun p h => ?_, fun m d h => ?_, fun j h => ?_⟩
  · rw [h1, h2, h3, h4] at h
    rcases h with h | h | h | h <;> exact absurd rfl h
  · rw [h5, h6] at h
    rcases h with h | h <;> exact absurd rfl h
  · rw [h7] at h
    exact absurd rfl h

theorem Covers.cover_mono {T T' : List Access} {s s' : State} (h : Covers T s s')
    (hT : ∀ a ∈ T, a ∈ T') : Covers T' s s' := by
  obtain ⟨a1, a2, a3⟩ := h
  refine ⟨fun p hp => ?_, fun m d hm => ⟨hT _ (a2 m d hm).1, (a2 m d hm).2⟩,
    fun j hj => hT _ (a3 j hj)⟩
  rcases a1 p hp with ⟨k, x, y, hc, e⟩ | ⟨n, hc, e⟩
  · exact Or.inl ⟨k, x, y, hT _ hc, e⟩
  · exact Or.inr ⟨n, hT _ hc, e⟩

theorem Covers.cover_trans {T1 T2 : List Access} {s s' s'' : State} (h1 : Covers T1 s s')
    (h2 : Covers T2 s' s'') : Covers (T1 ++ T2) s s'' := by
  have m1 : Covers (T1 ++ T2) s s' := h1.cover_mono (fun a ha => List.mem_append_left _ ha)
  have m2 : Covers (T1 ++ T2) s' s'' := h2.cover_mono (fun a ha => List.mem_append_right _ ha)
  obtain ⟨a1, a2, a3⟩ := m1
  obtain ⟨b1, b2, b3⟩ := m2
  refine ⟨fun p hp => ?_, fun m d hm => ?_, fun j hj => ?_⟩
  · by_cases c1 : s'.dset_usage p ≠ s.dset_usage p ∨ s'.efbuf p ≠ s.efbuf p ∨
        s'.erbuf p ≠ s.erbuf p ∨ s'.wbuf p ≠ s.wbuf p
    · exact a1 p c1
    · by_cases c2 : s''.dset_usage p ≠ s'.dset_usage p ∨ s''.efbuf p ≠ s'.efbuf p ∨
          s''.erbuf p ≠ s'.erbuf p ∨ s''.wbuf p ≠ s'.wbuf p
      · exact b1 p c2
      · exfalso
        simp only [not_or, not_not] at c1 c2
        obtain ⟨e1, e2, e3, e4⟩ := c1
        obtain ⟨f1, f2, f3, f4⟩ := c2
        rcases hp with h | h | h | h
        · exact h (f1.trans e1)
        · exact h (f2.trans e2)
        · exact h (f3.trans e3)
        · exact h (f4.trans e4)
  · by_cases c1 : s'.start m d ≠ s.start m d ∨ s'.count m d ≠ s.count m d
    · exact a2 m d c1
    · by_cases c2 : s''.start m d ≠ s'.start m d ∨ s''.count m d ≠ s'.count m d
      · exact b2 m d c2
      · exfalso
        simp only [not_or, not_not] at c1 c2
        rcases hm with h | h
        · exact h (c2.1.trans c1.1)
        · exact h (c2.2.trans c1.2)
  · by_cases c1 : s'.points j ≠ s.points j
    · exact a3 j c1
    · by_cases c2 : s''.points j ≠ s'.points j
      · exact b3 j c2
      · exfalso
        simp only [not_not] at c1 c2
        exact hj (c2.trans c1)

/-- A buffer filled on the cells of a list differs from the old one only on these cells. -/
theorem fill_changed (k : Nat) (cells : List (Nat × Nat)) (g b : Nat → Nat) (p : Nat)
    (h : fill k cells g b p ≠ b p) : ∃ c ∈ cells, p = idx k c.1 c.2 := by
  by_contra hc
  apply h
  exact fill_miss k cells g b p (fun c hcm e => hc ⟨c, hcm, e⟩)

theorem mem_slab_cells (k m : Nat) (s : State) (c : Nat × Nat)
    (h : c ∈ region_cells (s.start m 0, s.start m 1, s.count m 0, s.count m 1)) :
    Access.cell k c.1 c.2 ∈ slab_cells k m s :=
  List.mem_map.2 ⟨c, h, rfl⟩

theorem hs_candidate_covers (E : Env) (d : Bool) (k m mx my : Nat) (s : State) :
    Covers (hs_candidate_trace E d k m mx my s) s (hs_candidate E d k m mx my s).1 := by
  obtain ⟨⟨g0, -, -, g3, g4, g5, -⟩, gp⟩ := hs_candidate_frame E d k m mx my s
  have ho := hs_candidate_other E d k m mx my s
  refine ⟨fun p h => ?_, fun m' dd h => ?_, fun j h => ?_⟩
  · rw [g5, g4, g3, g0.2.2.2.2.1] at h
    rcases h with h | h | h | h <;> exact absurd rfl h
  · have hm : m' = m ∧ dd < 2 := by
      by_contra hc
      have hc' : m' ≠ m ∨ 2 ≤ dd := by
        by_cases e : m' = m
        · right
          by_contra e2
          exact hc ⟨e, by omega⟩
        · exact Or.inl e
      obtain ⟨e1, e2⟩ := ho m' dd hc'
      rcases h with h | h
      · exact h e1
      · exact h e2
    rw [hm.1]
    exact ⟨List.mem_cons_self _ _, hm.2⟩
  · rw [gp] at h
    exact absurd rfl h

theorem hs_retry_covers (E : Env) (d : Bool) (k m mx my n : Nat) (s : State) :
    Covers (hs_retry_trace E d k m mx my n s) s (hs_retry E d k m mx my n s).1 := by
  induction n generalizing s with
  | zero => exact Covers.cover_refl _ s
  | succ n ih =>
    rw [hs_retry_trace_succ, hs_retry_succ]
    by_cases hov : (hs_candidate E d k m mx my s).2 = true
    · rw [if_pos hov, if_pos hov]
      exact (hs_candidate_covers E d k m mx my s).cover_trans (ih _)
    · rw [if_neg hov, if_neg hov]
      exact (hs_candidate_covers E d k m mx my s).cover_trans (Covers.cover_refl _ _)

theorem hs_accept_covers (E : Env) (flags : Nat) (d : Bool) (k l m : Nat) (s : State) :
    Covers (hs_accept_trace E d k l m s) s (hs_expect E flags d k l m (hs_select E k l m s)) := by
  obtain ⟨a1, -, a3, a4, a5, a6, a7, a8, -⟩ := hs_accept_spec E flags d k l m s
  refine ⟨fun p h => ?_, fun m' dd h => ?_, fun j h => ?_⟩
  · left
    rw [a6, a1.2.2.2.2.1, a7, a8] at h
    unfold hs_accept_trace
    rcases h with h | h | h | h
    · exact absurd rfl h
    · by_cases hr : d = true
      · rw [if_pos hr] at h
        exact absurd rfl h
      · rw [if_neg hr] at h
        obtain ⟨c, hc, e⟩ := fill_changed _ _ _ _ _ h
        rw [regions_of_one, List.flatMap_singleton] at hc
        refine ⟨k, c.1, c.2, List.mem_cons_of_mem _ ?_, e⟩
        have hd : d = false := by simpa using hr
        rw [hd]
        exact mem_slab_cells k m s c hc
    · by_cases hr : d = true ∧ l = E.mpi_rank
      · rw [if_pos hr] at h
        obtain ⟨c, hc, e⟩ := fill_changed _ _ _ _ _ h
        rw [regions_of_one, List.flatMap_singleton] at hc
        refine ⟨k, c.1, c.2, List.mem_cons_of_mem _ ?_, e⟩
        rw [hr.1, if_pos rfl, if_pos hr.2]
        exact mem_slab_cells k m s c hc
      · rw [if_neg hr] at h
        exact absurd rfl h
    · exact absurd rfl h
  · rw [a3, a4] at h
    rcases h with h | h <;> exact absurd rfl h
  · rw [a5] at h
    exact absurd rfl h

theorem hs_loop_covers (E : Env) (flags : Nat) (d : Bool) (k l mx my n m : Nat) (s : State) :
    Covers (hs_loop_trace E flags d k l mx my n m s) s (hs_loop E flags d k l mx my n m s).1 := by
  induction n generalizing m s with
  | zero => exact Covers.cover_refl _ s
  | succ n ih =>
    rw [hs_loop_trace_succ, hs_loop_succ]
    by_cases hov : (hs_retry E d k m mx my MAX_SEL_RETRIES s).2 = true
    · rw [if_pos hov, if_pos hov]
      exact (hs_retry_covers E d k m mx my MAX_SEL_RETRIES s).cover_trans (Covers.cover_refl _ _)
    · rw [if_neg hov, if_neg hov]
      exact (hs_retry_covers E d k m mx my MAX_SEL_RETRIES s).cover_trans
        ((hs_accept_covers E flags d k l m _).cover_trans (ih (m + 1) _))

theorem hs_mark_covers (k nhs : Nat) (s : State) :
    Covers (hs_mark_trace k nhs s) s (hs_mark k nhs s) := by
  have hu := hs_mark_usage k nhs s
  refine ⟨fun p h => ?_, fun m' dd h => ?_, fun j h => ?_⟩
  · left
    rcases h with h | h | h | h
    · rw [hu] at h
      obtain ⟨c, hc, e⟩ := fill_changed _ _ _ _ _ h
      obtain ⟨reg, hreg, hcr⟩ := List.mem_flatMap.1 hc
      unfold regions_of at hreg
      obtain ⟨m, hm, rfl⟩ := List.mem_map.1 hreg
      refine ⟨k, c.1, c.2, ?_, e⟩
      unfold hs_mark_trace
      refine List.mem_flatMap.2 ⟨m, ?_, List.mem_cons_of_mem _ (mem_slab_cells k m s c hcr)⟩
      simp only [List.mem_range'_1] at hm
      exact List.mem_range.2 (by omega)
    · exact absurd rfl h
    · exact absurd rfl h
    · exact absurd rfl h
  · rcases h with h | h <;> exact absurd rfl h
  · exact absurd rfl h

/-- What the hyperslab branch changes is listed among its accesses. -/
theorem hs_branch_covers (E : Env) (flags : Nat) (d : Bool) (k l : Nat) (s : State) :
    Covers (hs_branch_trace E flags d k l s) s (hs_branch E flags d k l s).1 := by
  rw [hs_branch_trace_eq, hs_branch_fst]
  have h0 : Covers [] s { s with pos := s.pos + 1 } :=
    Covers.of_same [] rfl rfl rfl rfl rfl rfl rfl
  have h1 := hs_loop_covers E flags d k l
    (if MAX_HS_X ≤ s.dset_dims k 0 then MAX_HS_X else s.dset_dims k 0)
    (if MAX_HS_Y ≤ s.dset_dims k 1 then MAX_HS_Y else s.dset_dims k 1)
    (hs_draw_count E s) 0 { s with pos := s.pos + 1 }
  have h01 := h0.cover_trans h1
  rw [List.nil_append] at h01
  by_cases hr : d = true
  · rw [if_pos hr, if_pos hr]
    exact h01.cover_trans (Covers.cover_refl _ _)
  · rw [if_neg hr, if_neg hr]
    exact h01.cover_trans (hs_mark_covers k _ _)

theorem mem_pt_use (k n : Nat) (s : State) (c : Nat × Nat) (h : c ∈ points_of s 0 n) :
    Access.cell k c.1 c.2 ∈ pt_use_trace k n s := by
  unfold points_of at h
  obtain ⟨m, hm, rfl⟩ := List.mem_map.1 h
  simp only [List.mem_range'_1] at hm
  unfold pt_use_trace
  refine List.mem_flatMap.2 ⟨m, List.mem_range.2 (by omega), ?_⟩
  simp [pt_cell]

theorem pt_candidate_covers (E : Env) (d : Bool) (k m : Nat) (s : State) :
    Covers (pt_candidate_trace E d k m s) s (pt_candidate E d k m s).1 := by
  have ho := pt_candidate_other E d k m s
  refine ⟨fun p h => ?_, fun m' dd h => ?_, fun j h => ?_⟩
  · rcases h with h | h | h | h <;> exact absurd rfl h
  · rcases h with h | h <;> exact absurd rfl h
  · unfold pt_candidate_trace
    by_cases e1 : j = 2 * m
    · rw [e1]
      simp
    · by_cases e2 : j = 2 * m + 1
      · rw [e2]
        simp
      · exact absurd (ho j ⟨e1, e2⟩) h

theorem pt_retry_covers (E : Env) (d : Bool) (k m n : Nat) (s : State) :
    Covers (pt_retry_trace E d k m n s) s (pt_retry E d k m n s).1 := by
  induction n generalizing s with
  | zero => exact Covers.cover_refl _ s
  | succ n ih =>
    rw [pt_retry_trace_succ, pt_retry_succ]
    by_cases hov : (pt_candidate E d k m s).2 = true
    · rw [if_pos hov, if_pos hov]
      exact (pt_candidate_covers E d k m s).cover_trans (ih _)
    · rw [if_neg hov, if_neg hov]
      exact (pt_candidate_covers E d k m s).cover_trans (Covers.cover_refl _ _)

theorem pt_loop_covers (E : Env) (d : Bool) (k n m : Nat) (s : State) :
    Covers (pt_loop_trace E d k n m s) s (pt_loop E d k n m s).1 := by
  induction n generalizing m s with
  | zero => exact Covers.cover_refl _ s
  | succ n ih =>
    rw [pt_loop_trace_succ, pt_loop_succ]
    by_cases hov : (pt_retry E d k m MAX_SEL_RETRIES s).2 = true
    · rw [if_pos hov, if_pos hov]
      exact (pt_retry_covers E d k m MAX_SEL_RETRIES s).cover_trans (Covers.cover_refl _ _)
    · rw [if_neg hov, if_neg hov]
      exact (pt_retry_covers E d k m MAX_SEL_RETRIES s).cover_trans (ih (m + 1) _)

theorem pt_mark_covers (k n : Nat) (s : State) :
    Covers (pt_use_trace k n s) s (pt_mark k n s) := by
  have hu := pt_mark_usage k n s
  refine ⟨fun p h => ?_, fun m' dd h => ?_, fun j h => ?_⟩
  · left
    rcases h with h | h | h | h
    · rw [hu] at h
      obtain ⟨c, hc, e⟩ := fill_changed _ _ _ _ _ h
      exact ⟨k, c.1, c.2, mem_pt_use k n s c hc, e⟩
    · exact absurd rfl h
    · exact absurd rfl h
    · exact absurd rfl h
  · rcases h with h | h <;> exact absurd rfl h
  · exact absurd rfl h

theorem pt_select_file_covers (E : Env) (k l n : Nat) (s : State) :
    Covers [] s (pt_select_file E k l n s) := by
  obtain ⟨a0, a1, a2, a3, -, a5, a6, a7, -⟩ := pt_select_file_spec E k l n s
  exact Covers.of_same [] a3 a1 a2 a0.2.2.2.2.1 a6 a7 a5

theorem pt_expect_covers (E : Env) (flags : Nat) (d : Bool) (k l n : Nat) (s : State) :
    Covers
      (if d = true then (if l = E.mpi_rank then pt_use_trace k n s else [])
       else pt_use_trace k n s)
      s (pt_expect E flags d k l n s) := by
  obtain ⟨a0, a1, -, -, a4, a5, a6, -, a8, a9⟩ := pt_expect_spec E flags d k l n s
  refine ⟨fun p h => ?_, fun m' dd h => ?_, fun j h => ?_⟩
  · left
    rw [a1, a0.2.2.2.2.1, a8, a9] at h
    rcases h with h | h | h | h
    · exact absurd rfl h
    · by_cases hr : d = true
      · rw [if_pos hr] at h
        exact absurd rfl h
      · rw [if_neg hr] at h
        obtain ⟨c, hc, e⟩ := fill_changed _ _ _ _ _ h
        rw [if_neg hr]
        exact ⟨k, c.1, c.2, mem_pt_use k n s c hc, e⟩
    · by_cases hr : d = true ∧ l = E.mpi_rank
      · rw [if_pos hr] at h
        obtain ⟨c, hc, e⟩ := fill_changed _ _ _ _ _ h
        rw [if_pos hr.1, if_pos hr.2]
        exact ⟨k, c.1, c.2, mem_pt_use k n s c hc, e⟩
      · rw [if_neg hr] at h
        exact absurd rfl h
    · exact absurd rfl h
  · rw [a5, a6] at h
    rcases h with h | h <;> exact absurd rfl h
  · rw [a4] at h
    exact absurd rfl h

theorem mem_pt_convert (m i : Nat) (h1 : 1 ≤ i) (h2 : i ≤ m) :
    Access.point (3 * i) ∈ pt_convert_trace m ∧ Access.point (3 * i + 1) ∈ pt_convert_trace m ∧
    Access.point (3 * i + 2) ∈ pt_convert_trace m := by
  induction m with
  | zero => omega
  | succ m ih =>
    show _ ∈ _ ++ pt_convert_trace m ∧ _ ∈ _ ++ pt_convert_trace m ∧ _ ∈ _ ++ pt_convert_trace m
    by_cases e : i = m + 1
    · rw [e]
      refine ⟨List.mem_append_left _ ?_, List.mem_append_left _ ?_, List.mem_append_left _ ?_⟩
        <;> simp
    · obtain ⟨i1, i2, i3⟩ := ih (by omega)
      exact ⟨List.mem_append_right _ i1, List.mem_append_right _ i2, List.mem_append_right _ i3⟩

theorem pt_select_mem_points (E : Env) (flags k l n : Nat) (s : State) :
    (pt_select_mem E flags k l n s).points =
      if l = E.mpi_rank ∧ n > 0 ∧ (!has_flag flags MDSET_FLAG_SHAPESAME) = true then
        set (pt_convert_loop (n - 1) s.points) 2 0
      else s.points := by
  unfold pt_select_mem
  by_cases h : l = E.mpi_rank ∧ n > 0
  · rw [if_pos h]
    cases hf : has_flag flags MDSET_FLAG_SHAPESAME
    · have hc : l = E.mpi_rank ∧ n > 0 ∧ (!false) = true := ⟨h.1, h.2, rfl⟩
      rw [if_pos hc]
      rfl
    · have hc : ¬ (l = E.mpi_rank ∧ n > 0 ∧ (!true) = true) := by simp
      rw [if_neg hc]
      rfl
  · have hc : ¬ (l = E.mpi_rank ∧ n > 0 ∧ (!has_flag flags MDSET_FLAG_SHAPESAME) = true) :=
      fun hc => h ⟨hc.1, hc.2.1⟩
    rw [if_neg h, if_neg hc]

theorem pt_select_mem_covers (E : Env) (flags k l n : Nat) (s : State) :
    Covers
      (if l = E.mpi_rank ∧ n > 0 ∧ (!has_flag flags MDSET_FLAG_SHAPESAME) = true then
        pt_convert_trace (n - 1) ++ [Access.point 2]
       else [])
      s (pt_select_mem E flags k l n s) := by
  obtain ⟨a0, -, a2, a3, a4, a5, a6, -⟩ := pt_select_mem_spec E flags k l n s
  have hp := pt_select_mem_points E flags k l n s
  refine ⟨fun p h => ?_, fun m' dd h => ?_, fun j h => ?_⟩
  · rw [a6, a4, a5, a0.2.2.2.2.1] at h
    rcases h with h | h | h | h <;> exact absurd rfl h
  · rw [a2, a3] at h
    rcases h with h | h <;> exact absurd rfl h
  · rw [hp] at h
    by_cases hc : l = E.mpi_rank ∧ n > 0 ∧ (!has_flag flags MDSET_FLAG_SHAPESAME) = true
    · rw [if_pos hc] at h ⊢
      by_cases e2 : j = 2
      · rw [e2]
        simp
      · rw [set_apply, if_neg e2, pt_convert_loop_apply] at h
        by_cases hj : j < 3 ∨ 3 * (n - 1) + 3 ≤ j
        · rw [if_pos hj] at h
          exact absurd rfl h
        · have h1 : 1 ≤ j / 3 := by omega
          have h2 : j / 3 ≤ n - 1 := by omega
          obtain ⟨m1, m2, m3⟩ := mem_pt_convert (n - 1) (j / 3) h1 h2
          have hcases : j = 3 * (j / 3) ∨ j = 3 * (j / 3) + 1 ∨ j = 3 * (j / 3) + 2 := by omega
          apply List.mem_append_left
          rcases hcases with e | e | e
          · rw [e]
            exact m1
          · rw [e]
            exact m2
          · rw [e]
            exact m3
    · rw [if_neg hc] at h
      exact absurd rfl h

/-- What the point branch changes is listed among its accesses. -/
theorem pt_branch_covers (E : Env) (flags : Nat) (d : Bool) (k l : Nat) (s : State) :
    Covers (pt_branch_trace E flags d k l s) s (pt_branch E flags d k l s).1 := by
  rw [pt_branch_trace_eq, pt_branch_fst]
  have h0 : Covers [] s { s with pos := s.pos + 1 } :=
    Covers.of_same [] rfl rfl rfl rfl rfl rfl rfl
  have h1 := pt_loop_covers E d k (pt_draw_count E s) 0 { s with pos := s.pos + 1 }
  generalize pt_loop_trace E d k (pt_draw_count E s) 0 { s with pos := s.pos + 1 } = T at *
  generalize pt_loop E d k (pt_draw_count E s) 0 { s with pos := s.pos + 1 } = q at *
  have h2 : Covers (if d = true then [] else pt_use_trace k q.2 q.1) q.1
      (if d = true then q.1 else pt_mark k q.2 q.1) := by
    by_cases hr : d = true
    · rw [if_pos hr, if_pos hr]
      exact Covers.cover_refl _ _
    · rw [if_neg hr, if_neg hr]
      exact pt_mark_covers k q.2 q.1
  have h3 := pt_select_file_covers E k l q.2 (if d = true then q.1 else pt_mark k q.2 q.1)
  have h4 := pt_expect_covers E flags d k l q.2
    (pt_select_file E k l q.2 (if d = true then q.1 else pt_mark k q.2 q.1))
  have h5 := pt_select_mem_covers E flags k l q.2
    (pt_expect E flags d k l q.2
      (pt_select_file E k l q.2 (if d = true then q.1 else pt_mark k q.2 q.1)))
  have h := ((((h0.cover_trans h1).cover_trans h2).cover_trans h3).cover_trans h4).cover_trans h5
  rw [List.nil_append, List.append_nil] at h
  exact h

/-- What one pass of the loop over processes changes is listed among its accesses. -/
theorem rank_iter_covers (E : Env) (flags : Nat) (d : Bool) (k l : Nat) (s : State) :
    Covers (rank_iter_trace E flags d k l s) s (rank_iter E flags d k l s).1 := by
  have h0 : Covers [] s { s with pos := s.pos + 1 } :=
    Covers.of_same [] rfl rfl rfl rfl rfl rfl rfl
  unfold rank_iter_trace rank_iter
  by_cases hg : E.random s.pos % 2 ≠ 0
  · rw [if_pos hg, if_pos hg]
    exact h0.cover_trans (hs_branch_covers E flags d k l _)
  · rw [if_neg hg, if_neg hg]
    exact h0.cover_trans (pt_branch_covers E flags d k l _)

theorem rank_loop_fst (E : Env) (flags : Nat) (d : Bool) (k n l : Nat) (s : State) :
    (rank_loop E flags d k (n + 1) l s).1 =
      (rank_loop E flags d k n (l + 1) (rank_iter E flags d k l s).1).1 := rfl

theorem rank_loop_covers (E : Env) (flags : Nat) (d : Bool) (k n l : Nat) (s : State) :
    Covers (rank_loop_trace E flags d k n l s) s (rank_loop E flags d k n l s).1 := by
  induction n generalizing l s with
  | zero => exact Covers.cover_refl _ s
  | succ n ih =>
    rw [rank_loop_trace_succ, rank_loop_fst]
    exact (rank_iter_covers E flags d k l s).cover_trans (ih (l + 1) _)

theorem memset0_changed (b : Nat → Nat) (n p : Nat) (h : memset0 b n p ≠ b p) : p < n := by
  by_contra hc
  apply h
  unfold memset0
  rw [if_neg hc]

theorem dset_iter_covers (E : Env) (flags : Nat) (d : Bool) (k : Nat) (s : State) :
    Covers (dset_iter_trace E flags d k s) s (dset_iter E flags d k s).1 := by
  rw [dset_iter_trace_eq, dset_iter_eq]
  have hpre : Covers (if (!d) = true then [Access.block (buf_len flags)] else []) s
      ((fun s => if (!d) = true then
            { s with dset_usage := memset0 s.dset_usage (buf_len flags) } else s)
          ((fun s => checked E (.H5Sselect_none false k)
              { s with dset_space := set_at s.dset_space k [] })
            ((fun s => checked E (.H5Sselect_none true k)
              { s with mem_space := set_at s.mem_space k [] }) s))) := by
    cases d
    · refine ⟨fun p h => ?_, fun m' dd h => ?_, fun j h => ?_⟩
      · right
        rcases h with h | h | h | h
        · exact ⟨buf_len flags, List.mem_singleton.2 rfl, memset0_changed _ _ _ h⟩
        · exact absurd rfl h
        · exact absurd rfl h
        · exact absurd rfl h
      · rcases h with h | h <;> exact absurd rfl h
      · exact absurd rfl h
    · exact Covers.of_same _ rfl rfl rfl rfl rfl rfl rfl
  exact hpre.cover_trans (rank_loop_covers E flags d k E.mpi_size 0 _)

theorem dset_loop_fst (E : Env) (flags : Nat) (d : Bool) (n k : Nat) (s : State) :
    (dset_loop E flags d (n + 1) k s).1 =
      (dset_loop E flags d n (k + 1) (dset_iter E flags d k s).1).1 := rfl

theorem dset_loop_covers (E : Env) (flags : Nat) (d : Bool) (n k : Nat) (s : State) :
    Covers (dset_loop_trace E flags d n k s) s (dset_loop E flags d n k s).1 := by
  induction n generalizing k s with
  | zero => exact Covers.cover_refl _ s
  | succ n ih =>
    rw [dset_loop_trace_succ, dset_loop_fst]
    exact (dset_iter_covers E flags d k s).cover_trans (ih (k + 1) _)

/-- What the selection phase of an operation changes is listed among its accesses. -/
theorem op_select_covers (E : Env) (flags : Nat) (d : Bool) (s : State) :
    Covers (op_select_trace E flags d s) s (op_select E flags d s).1 :=
  dset_loop_covers E flags d s.ndsets 0 s

theorem op_begin_covers (E : Env) (s : State) : Covers [] s (op_begin E s).1 := by
  rw [op_begin_fst]
  by_cases hc : (!s.last_read) = true
  · rw [if_pos hc]
    obtain ⟨h, -⟩ := reopen_spec E (unchecked Call.MPI_Barrier { s with pos := s.pos + 1 })
    obtain ⟨-, -, -, -, -, h6, h7, h8, h9, h10, h11, h12, -⟩ := h
    exact Covers.of_same [] h9 h8 h6 h7 h10 h11 h12
  · rw [if_neg hc]
    exact Covers.of_same [] rfl rfl rfl rfl rfl rfl rfl

theorem mem_wbuf_trace (flags p : Nat) (h : p < buf_len flags) :
    ∃ k x y, Access.cell k x y ∈ wbuf_trace flags ∧ p = idx k x y := by
  rw [buf_len_eq] at h
  refine ⟨p / 150, p % 150 / 10, p % 10, ?_, ?_⟩
  · unfold wbuf_trace
    refine List.mem_flatMap.2 ⟨p / 150, List.mem_range.2 ?_, List.mem_flatMap.2
      ⟨p % 150 / 10, List.mem_range.2 ?_, List.mem_map.2 ⟨p % 10, List.mem_range.2 ?_, rfl⟩⟩⟩
    · exact (Nat.div_lt_iff_lt_mul (by decide)).2 h
    · show p % 150 / 10 < 15
      omega
    · show p % 10 < 10
      omega
  · rw [idx_eq]
    omega

theorem op_io_points (E : Env) (flags : Nat) (d : Bool) (file : Nat → Nat → Nat → Nat)
    (s : State) : (op_io E flags d file s).points = s.points := by
  unfold op_io
  simp only [checked]
  split_ifs <;> rfl

theorem op_io_covers (E : Env) (flags : Nat) (d : Bool) (file : Nat → Nat → Nat → Nat)
    (s : State) :
    Covers (if d = true then [] else wbuf_trace flags) s (op_io E flags d file s) := by
  obtain ⟨s1, s2⟩ := op_io_shape E flags d file s
  have sp := op_io_points E flags d file s
  cases d
  · obtain ⟨w1, -, -, -, w5, -, w7, w8, -⟩ := op_io_write E flags file s
    refine ⟨fun p h => ?_, fun m' dd h => ?_, fun j h => ?_⟩
    · left
      rw [w8, w7, w5] at h
      rcases h with h | h | h | h
      · exact absurd rfl h
      · exact absurd rfl h
      · exact absurd rfl h
      · have hp : p < buf_len flags := by
          by_contra hc
          apply h
          rw [w1]
          simp only
          rw [if_neg hc]
        exact mem_wbuf_trace flags p hp
    · rw [s1, s2] at h
      rcases h with h | h <;> exact absurd rfl h
    · rw [sp] at h
      exact absurd rfl h
  · obtain ⟨-, -, -, -, r5, r6, r7, r8, -⟩ := op_io_read E flags file s
    exact Covers.of_same _ r8 r7 r5 r6 s1 s2 sp

/-- What an operation changes in the usage mask, the oracle, the read expectation, the write
buffer, `start`, `count` and `points` is listed among its accesses. -/
theorem operation_covers (E : Env) (flags : Nat) (file : Nat → Nat → Nat → Nat) (s : State) :
    Covers (operation_trace E flags s) s (operation E flags file s) := by
  rw [operation_trace_eq, operation_eq]
  have h := ((op_begin_covers E s).cover_trans
    (op_select_covers E flags (op_begin E s).2 (op_begin E s).1)).cover_trans
    (op_io_covers E flags (op_begin E s).2 file
      (op_select E flags (op_begin E s).2 (op_begin E s).1).1)
  refine h.cover_mono ?_
  intro a ha
  rcases List.mem_append.1 ha with h1 | h1
  · rw [List.nil_append] at h1
    exact List.mem_append_left _ (List.mem_append_left _ h1)
  · exact List.mem_append_right _ h1

theorem foldl_keep_field {α β : Type} (g : State → β) (f : State → α → State)
    (h : ∀ s a, g (f s a) = g s) (L : List α) (s : State) : g (L.foldl f s) = g s := by
  induction L generalizing s with
  | nil => rfl
  | cons a L ih => exact (ih (f s a)).trans (h s a)

theorem create_dset_keeps (E : Env) (flags j : Nat) (s : State) :
    (create_dset E flags j s).dset_usage = s.dset_usage ∧
    (create_dset E flags j s).points = s.points := by
  unfold create_dset
  simp only [checked]
  split_ifs <;> exact ⟨rfl, rfl⟩

theorem lifetime_init_keeps (E : Env) (flags : Nat) (s : State) :
    (lifetime_init E flags s).dset_usage = s.dset_usage ∧
    (lifetime_init E flags s).points = s.points := by
  rw [lifetime_init_eq]
  have h1 : ∀ t : State,
      (checked E .H5Fcreate
        (if has_flag flags MDSET_FLAG_MDSET = true then
          { t with ndsets := E.random t.pos % max_dsets flags + 1, pos := t.pos + 1 }
        else { t with ndsets := 1 })).dset_usage = t.dset_usage ∧
      (checked E .H5Fcreate
        (if has_flag flags MDSET_FLAG_MDSET = true then
          { t with ndsets := E.random t.pos % max_dsets flags + 1, pos := t.pos + 1 }
        else { t with ndsets := 1 })).points = t.points := by
    intro t
    split_ifs <;> exact ⟨rfl, rfl⟩
  obtain ⟨a1, a2⟩ := h1 s
  have b1 := foldl_keep_field State.dset_usage (fun s j => create_dset E flags j s)
    (fun s j => (create_dset_keeps E flags j s).1)
    (List.range (checked E .H5Fcreate
        (if has_flag flags MDSET_FLAG_MDSET = true then
          { s with ndsets := E.random s.pos % max_dsets flags + 1, pos := s.pos + 1 }
        else { s with ndsets := 1 })).ndsets)
    (checked E .H5Fcreate
        (if has_flag flags MDSET_FLAG_MDSET = true then
          { s with ndsets := E.random s.pos % max_dsets flags + 1, pos := s.pos + 1 }
        else { s with ndsets := 1 }))
  have b2 := foldl_keep_field State.points (fun s j => create_dset E flags j s)
    (fun s j => (create_dset_keeps E flags j s).2)
    (List.range (checked E .H5Fcreate
        (if has_flag flags MDSET_FLAG_MDSET = true then
          { s with ndsets := E.random s.pos % max_dsets flags + 1, pos := s.pos + 1 }
        else { s with ndsets := 1 })).ndsets)
    (checked E .H5Fcreate
        (if has_flag flags MDSET_FLAG_MDSET = true then
          { s with ndsets := E.random s.pos % max_dsets flags + 1, pos := s.pos + 1 }
        else { s with ndsets := 1 }))
  exact ⟨b1.trans a1, b2.trans a2⟩

/-- What the start of a lifetime changes in the buffers and in `start`, `count` and `points`
is listed among its accesses. -/
theorem lifetime_init_covers (E : Env) (flags : Nat) (s : State) :
    Covers (lifetime_init_trace flags) s (lifetime_init E flags s) := by
  obtain ⟨-, -, -, -, a5, a6, a7, -⟩ := lifetime_init_spec E flags s
  obtain ⟨b1, b2⟩ := lifetime_init_shape E flags s
  refine ⟨fun p h => ?_, fun m' dd h => ?_, fun j h => ?_⟩
  · right
    refine ⟨buf_len flags, List.mem_cons_self _ _, ?_⟩
    rw [a5, a6, a7] at h
    rcases h with h | h | h | h
    · exfalso
      apply h
      rw [(lifetime_init_keeps E flags s).1]
    · exact memset0_changed _ _ _ h
    · exact memset0_changed _ _ _ h
    · by_contra hc
      apply h
      simp only
      rw [if_neg hc]
  · rw [b1, b2] at h
    rcases h with h | h <;> exact absurd rfl h
  · exfalso
    apply h
    rw [(lifetime_init_keeps E flags s).2]

/-- When every access of a list that covers a step stays inside its array, the step changes no
element beyond the end of a buffer, of `start`/`count` or of `points`. -/
theorem covers_in_bounds (flags : Nat) (T : List Access) (s s' : State) (hc : Covers T s s')
    (hb : InBounds flags T) :
    (∀ p, (s'.dset_usage p ≠ s.dset_usage p ∨ s'.efbuf p ≠ s.efbuf p ∨
        s'.erbuf p ≠ s.erbuf p ∨ s'.wbuf p ≠ s.wbuf p) → p < buf_len flags) ∧
    (∀ m d, (s'.start m d ≠ s.start m d ∨ s'.count m d ≠ s.count m d) →
      m < MAX_HS ∧ d < 2) ∧
    (∀ j, s'.points j ≠ s.points j → j < 3 * MAX_POINTS) := by
  obtain ⟨a1, a2, a3⟩ := hc
  refine ⟨fun p hp => ?_, fun m d hm => ?_, fun j hj => ?_⟩
  · rcases a1 p hp with ⟨k, x, y, hmem, e⟩ | ⟨n, hmem, e⟩
    · have h := hb _ hmem
      simp only [Access.in_bounds, decide_eq_true_eq] at h
      rw [e]
      exact idx_lt flags k x y h.1 h.2.1 h.2.2
    · have h := hb _ hmem
      simp only [Access.in_bounds, decide_eq_true_eq] at h
      omega
  · obtain ⟨hmem, hd⟩ := a2 m d hm
    have h := hb _ hmem
    simp only [Access.in_bounds, decide_eq_true_eq] at h
    exact ⟨h, hd⟩
  · have h := hb _ (a3 j hj)
    simp only [Access.in_bounds, decide_eq_true_eq] at h
    exact h

/-! ## What is read is listed -/

theorem mem_cell_slab_cells (k m : Nat) (s : State) (k' x y : Nat) :
    Access.cell k' x y ∈ slab_cells k m s ↔
      k' = k ∧ (x, y) ∈ region_cells (s.start m 0, s.start m 1, s.count m 0, s.count m 1) := by
  unfold slab_cells
  constructor
  · intro h
    obtain ⟨c, hc, e⟩ := List.mem_map.1 h
    simp only [Access.cell.injEq] at e
    obtain ⟨e1, e2, e3⟩ := e
    refine ⟨e1.symm, ?_⟩
    rw [← e2, ← e3]
    exact hc
  · rintro ⟨rfl, h⟩
    exact List.mem_map.2 ⟨(x, y), h, rfl⟩

/-- The overlap test of a candidate hyperslab finds an overlap exactly when the usage mask is
set at one of the listed cells: it reads the mask nowhere else. -/
theorem hs_candidate_reads (E : Env) (d : Bool) (k m mx my : Nat) (s : State) :
    (hs_candidate E d k m mx my s).2 = true ↔
      ∃ x y, Access.cell k x y ∈ hs_candidate_trace E d k m mx my s ∧
        s.dset_usage (idx k x y) ≠ 0 := by
  rw [hs_candidate_overlap]
  unfold hs_candidate_trace
  cases d
  · simp only [true_and, Bool.false_eq_true, if_false, List.mem_cons, mem_cell_slab_cells,
      regions_of_one, List.flatMap_singleton, reduceCtorEq, false_or]
    constructor
    · rintro ⟨c, hc, hu⟩
      exact ⟨c.1, c.2, hc, hu⟩
    · rintro ⟨x, y, hc, hu⟩
      exact ⟨(x, y), hc, hu⟩
  · simp

/-- The overlap test of a candidate point reads the usage mask at the listed cell only. -/
theorem pt_candidate_reads (E : Env) (d : Bool) (k m : Nat) (s : State) :
    (pt_candidate E d k m s).2 = true ↔
      ∃ x y, Access.cell k x y ∈ pt_candidate_trace E d k m s ∧
        s.dset_usage (idx k x y) ≠ 0 := by
  rw [pt_candidate_overlap]
  unfold pt_candidate_trace
  cases d
  · simp only [true_and, Bool.false_eq_true, if_false, points_of_one, List.mem_singleton,
      List.mem_append, List.mem_cons, reduceCtorEq, List.not_mem_nil, or_false, false_or,
      pt_cell, Access.cell.injEq, exists_eq_left]
    constructor
    · intro hu
      exact ⟨_, _, ⟨rfl, rfl⟩, hu⟩
    · rintro ⟨x, y, ⟨hx, hy⟩, hu⟩
      rw [hx, hy] at hu
      exact hu
  · simp

theorem fill_value (k : Nat) (cells : List (Nat × Nat)) (g b : Nat → Nat) (p : Nat)
    (h : fill k cells g b p ≠ b p) : fill k cells g b p = g p := by
  unfold fill at h ⊢
  split_ifs at h ⊢ with hc
  · rfl
  · exact absurd rfl h

/-- The values one pass of the loop over processes stores: the mark 1 in the usage mask, the
write buffer element at the same offset plus the rank difference in the oracle, the oracle
element at the same offset in the read expectation. -/
theorem rank_iter_values (E : Env) (flags : Nat) (d : Bool) (k l : Nat) (s : State) (p : Nat) :
    ((rank_iter E flags d k l s).1.dset_usage p ≠ s.dset_usage p →
      (rank_iter E flags d k l s).1.dset_usage p = 1) ∧
    ((rank_iter E flags d k l s).1.efbuf p ≠ s.efbuf p →
      (rank_iter E flags d k l s).1.efbuf p = efbuf_value E flags l s.wbuf p) ∧
    ((rank_iter E flags d k l s).1.erbuf p ≠ s.erbuf p →
      (rank_iter E flags d k l s).1.erbuf p = s.efbuf p) := by
  obtain ⟨-, -, -, a4, a5, a6, -⟩ := rank_iter_spec E flags d k l s
  rw [a4, a5, a6]
  refine ⟨fun h => ?_, fun h => ?_, fun h => ?_⟩
  · split_ifs at h ⊢
    · exact absurd rfl h
    · exact fill_value _ _ _ _ _ h
  · split_ifs at h ⊢
    · exact absurd rfl h
    · exact fill_value _ _ _ _ _ h
  · split_ifs at h ⊢
    · exact fill_value _ _ _ _ _ h
    · exact absurd rfl h

/-- The value the update of the write buffer stores is computed from the element at the same
offset. -/
theorem op_io_value (E : Env) (flags : Nat) (file : Nat → Nat → Nat → Nat) (s : State)
    (p : Nat) (h : (op_io E flags false file s).wbuf p ≠ s.wbuf p) :
    (op_io E flags false file s).wbuf p =
      to_unsigned ((s.wbuf p : Int) + (op_data_incr E flags : Int)) := by
  obtain ⟨w1, -⟩ := op_io_write E flags file s
  rw [w1] at h ⊢
  simp only at h ⊢
  split_ifs at h ⊢
  · rfl
  · exact absurd rfl h

/-- C1 (no destructive overlap): in the selection phase of a write operation, started in any
state with any random stream, group size and dataset extents, no cell of a dataset is accepted
for two distinct ranks `a ≠ b`: the cells covered by what was accepted for `a` on dataset `k`
and the cells covered by what was accepted for `b` on dataset `k` are disjoint. -/
theorem C1_no_destructive_overlap (E : Env) (flags : Nat) (s : State) (k a b : Nat)
    (hab : a ≠ b) :
    ∀ c, c ∈ accepted_for (op_select E flags false s).2 k a →
      c ∉ accepted_for (op_select E flags false s).2 k b := by
  intro c ha hb
  obtain ⟨-, -, -, -, a5, -⟩ := op_select_spec E flags false s
  obtain ⟨-, -, hno⟩ := a5 rfl
  have h1 := (mem_op_cells_getD (op_select E flags false s).2 k a c.1 c.2).2 ha
  have h2 := (mem_op_cells_getD (op_select E flags false s).2 k b c.1 c.2).2 hb
  exact hab (hno _ h1 _ h2 rfl rfl)

/-- Witness for C1: ranks 0 and 1 of the sample group on dataset 0 of the sample state. -/
theorem C1_no_destructive_overlap_witness :
    (0 : Nat) ≠ 1 ∧
    ∀ c, c ∈ accepted_for (op_select (sample_env 0) 0 false sample_state).2 0 0 →
      c ∉ accepted_for (op_select (sample_env 0) 0 false sample_state).2 0 1 :=
  ⟨by decide, C1_no_destructive_overlap (sample_env 0) 0 sample_state 0 0 1 (by decide)⟩

/-- C3 (rank-difference formula): when the loop over processes of a write operation handles
rank `l` on dataset `k`, the observing process (rank `mpi_rank`) sets `efbuf` at every cell
accepted for `l` to the value of lines 399/460, which is its own `wbuf` at that cell plus
`max_dsets * MAX_DSET_X * MAX_DSET_Y * (l - mpi_rank)` reduced to 32 bits, and changes no
`efbuf` element outside the accepted cells. -/
theorem C3_rank_difference_formula (E : Env) (flags k l : Nat) (s : State) :
    (∀ c ∈ (rank_iter E flags false k l s).2.cells,
      (rank_iter E flags false k l s).1.efbuf (idx k c.1 c.2) =
        efbuf_value E flags l s.wbuf (idx k c.1 c.2) ∧
      efbuf_value E flags l s.wbuf (idx k c.1 c.2) =
        to_unsigned ((s.wbuf (idx k c.1 c.2) : Int) +
          ((max_dsets flags * MAX_DSET_X * MAX_DSET_Y : Nat) : Int) *
            ((l : Int) - (E.mpi_rank : Int)))) ∧
    (∀ j, (∀ c ∈ (rank_iter E flags false k l s).2.cells, j ≠ idx k c.1 c.2) →
      (rank_iter E flags false k l s).1.efbuf j = s.efbuf j) := by
  obtain ⟨-, -, -, -, h5, -⟩ := rank_iter_spec E flags false k l s
  rw [if_neg (by decide)] at h5
  refine ⟨fun c hc => ⟨?_, efbuf_value_eq E flags l s.wbuf _⟩, fun j hj => ?_⟩
  · rw [h5]
    exact fill_hit k _ _ _ c hc
  · rw [h5]
    exact fill_miss k _ _ _ j hj

/-- C2 (oracle soundness against an ideal store): let a group of `size` processes that share
the random stream run a lifetime over the ideal storage, which is all zero at creation and in
which a write operation stores, at every cell accepted for a rank `a`, the write-buffer value
of the process of rank `a`, while reads are served from it. Then after every number `n` of
operations the expected-file buffer of every process `r` equals the stored content at every
cell inside the extent of every dataset, and if the next operation is a read, then after it
the read buffer equals `erbuf` over the whole buffer and the comparison of line 516 counts no
error: `nerrors` grows by the status of the read call alone. -/
theorem C2_oracle_sound_against_ideal_store (R : Nat → Nat) (size : Nat)
    (failed : Nat → Nat → Bool) (flags : Nat) (w : Nat → State)
    (hw : ∀ r r', (w r).pos = (w r').pos) (n r : Nat) (hr : r < size) :
    (∀ k x y, (group_run (worker_env R size failed) flags size w 0).store k x y = 0) ∧
    ((op_begin (worker_env R size failed r)
        ((group_run (worker_env R size failed) flags size w n).worker r)).2 = false →
      ∀ a k x y, (x, y) ∈ accepted_for (op_accepted (worker_env R size failed r) flags
          ((group_run (worker_env R size failed) flags size w n).worker r)) k a →
        (group_run (worker_env R size failed) flags size w (n + 1)).store k x y =
          ((group_run (worker_env R size failed) flags size w n).worker a).wbuf (idx k x y)) ∧
    (∀ k x y, k < ((group_run (worker_env R size failed) flags size w n).worker r).ndsets →
      x < ((group_run (worker_env R size failed) flags size w n).worker r).dset_dims k 0 →
      y < ((group_run (worker_env R size failed) flags size w n).worker r).dset_dims k 1 →
      ((group_run (worker_env R size failed) flags size w n).worker r).efbuf (idx k x y) =
        (group_run (worker_env R size failed) flags size w n).store k x y) ∧
    ((op_begin (worker_env R size failed r)
        ((group_run (worker_env R size failed) flags size w n).worker r)).2 = true →
      (∀ p, p < buf_len flags →
        ((group_run (worker_env R size failed) flags size w (n + 1)).worker r).rbuf p =
          ((group_run (worker_env R size failed) flags size w (n + 1)).worker r).erbuf p) ∧
      memcmp_ne ((group_run (worker_env R size failed) flags size w (n + 1)).worker r).rbuf
        ((group_run (worker_env R size failed) flags size w (n + 1)).worker r).erbuf
        (buf_len flags) = false ∧
      ((group_run (worker_env R size failed) flags size w (n + 1)).worker r).nerrors =
        (op_selected (worker_env R size failed r) flags
          ((group_run (worker_env R size failed) flags size w n).worker r)).nerrors +
        (if failed r (op_selected (worker_env R size failed r) flags
          ((group_run (worker_env R size failed) flags size w n).worker r)).log.length = true
          then 1 else 0)) := by
  obtain ⟨t, ht⟩ := group_run_inv R size failed flags w hw n
  have ht' := group_op_inv R size failed flags t _ ht
  generalize hg : group_run (worker_env R size failed) flags size w n = g at ht ht'
  have hg' : group_run (worker_env R size failed) flags size w (n + 1) =
      group_op (worker_env R size failed) flags size g := by
    rw [← hg]; rfl
  rw [hg']
  refine ⟨fun _ _ _ => rfl, ?_, ht.2.2.2.1 r hr, ?_⟩
  · intro hwr a k x y hmem
    unfold accepted_for op_accepted at hmem
    rw [hwr] at hmem
    exact (group_store_write R size failed flags t g ht r a k x y hr hwr
      ((mem_op_cells_getD _ k a x y).2 hmem)).2
  · intro hrd
    have heq := ht'.2.2.2.2.1 r hr
    refine ⟨heq, memcmp_ne_false _ _ _ heq, ?_⟩
    rw [group_op_worker] at heq ⊢
    unfold op_selected
    rw [hrd]
    exact operation_read_errors (worker_env R size failed r) flags g.store (g.worker r) hrd heq

/-- Witness for C2: rank 1 of the sample group of two processes after the first operation of
a lifetime. -/
theorem C2_oracle_sound_against_ideal_store_witness :
    (∀ r r' : Nat, (sample_blank r).pos = (sample_blank r').pos) ∧
    1 < 2 ∧
    ∀ k x y,
      k < ((group_run (worker_env sample_random 2 sample_ok) 0 2 sample_blank 1).worker 1).ndsets →
      x < ((group_run (worker_env sample_random 2 sample_ok) 0 2 sample_blank 1).worker
        1).dset_dims k 0 →
      y < ((group_run (worker_env sample_random 2 sample_ok) 0 2 sample_blank 1).worker
        1).dset_dims k 1 →
      ((group_run (worker_env sample_random 2 sample_ok) 0 2 sample_blank 1).worker 1).efbuf
          (idx k x y) =
        (group_run (worker_env sample_random 2 sample_ok) 0 2 sample_blank 1).store k x y :=
  ⟨fun _ _ => rfl, by decide,
    (C2_oracle_sound_against_ideal_store sample_random 2 sample_ok 0 sample_blank
      (fun _ _ => rfl) 1 1 (by decide)).2.2.1⟩

/-- C4 (oracle agreement with the writer): in a group whose processes have all executed the
same `n` operations of the lifetime, when the next operation is a write, the value the
observing process `r` stores in its oracle `efbuf` for a cell accepted for the acting rank `l`
equals the write-buffer value of the process of rank `l` at that cell at the time of the
write, which is `l * buf_len + p + t * (buf_len * size)` as an `unsigned` for the number `t` of
writes done so far (the model computes `int` modulo `2 ^ 32`, so no no-wrap proviso is
needed); the rank difference of a process with itself is zero, so for `l = r` the oracle
holds the own write-buffer value; and the oracles of all processes are identical. -/
theorem C4_oracle_agrees_with_writer (R : Nat → Nat) (size : Nat) (failed : Nat → Nat → Bool)
    (flags : Nat) (w : Nat → State) (hw : ∀ r r', (w r).pos = (w r').pos) (n r l k x y : Nat)
    (hr : r < size)
    (hwr : (op_begin (worker_env R size failed r)
      ((group_run (worker_env R size failed) flags size w n).worker r)).2 = false)
    (hmem : (x, y) ∈ accepted_for (op_accepted (worker_env R size failed r) flags
      ((group_run (worker_env R size failed) flags size w n).worker r)) k l) :
    l < size ∧
    ((group_run (worker_env R size failed) flags size w (n + 1)).worker r).efbuf (idx k x y) =
      ((group_run (worker_env R size failed) flags size w n).worker l).wbuf (idx k x y) ∧
    (∃ t, ((group_run (worker_env R size failed) flags size w n).worker l).wbuf (idx k x y) =
      wbuf_value flags size l t (idx k x y)) ∧
    rank_data_diff (worker_env R size failed r) flags r = 0 ∧
    efbuf_value (worker_env R size failed r) flags r
      ((group_run (worker_env R size failed) flags size w n).worker r).wbuf (idx k x y) =
      ((group_run (worker_env R size failed) flags size w n).worker r).wbuf (idx k x y) ∧
    (∀ m r' p, r' < size → p < buf_len flags →
      ((group_run (worker_env R size failed) flags size w m).worker r).efbuf p =
        ((group_run (worker_env R size failed) flags size w m).worker r').efbuf p) := by
  obtain ⟨t, ht⟩ := group_run_inv R size failed flags w hw n
  generalize hg : group_run (worker_env R size failed) flags size w n = g at ht hwr hmem
  have hg' : group_run (worker_env R size failed) flags size w (n + 1) =
      group_op (worker_env R size failed) flags size g := by
    rw [← hg]; rfl
  rw [hg']
  unfold accepted_for op_accepted at hmem
  rw [hwr] at hmem
  have hm := (mem_op_cells_getD _ k l x y).2 hmem
  have hl : l < size := (op_cells_rank_lt _ flags false _ _ hm).2
  obtain ⟨o1, o2, hlt⟩ := group_oracle_write R size failed flags t g ht r l k x y hr hwr hm
  refine ⟨hl, o1, ⟨t, o2⟩, rank_data_diff_self (worker_env R size failed r) flags, ?_, ?_⟩
  · apply efbuf_value_self (worker_env R size failed r) flags
    rw [ht.2.2.1 r hr _ hlt]
    exact to_unsigned_lt _
  · intro m r' p hr' hp
    obtain ⟨t', ht'⟩ := group_run_inv R size failed flags w hw m
    exact ht'.2.2.2.2.2 r r' hr hr' p hp

/-- Witness for C4: in the first operation of the sample lifetime, a write, rank 1 observes the
cell `(3, 0)` of dataset 0 accepted for rank 0. -/
theorem C4_oracle_agrees_with_writer_witness :
    (∀ r r' : Nat, (sample_blank r).pos = (sample_blank r').pos) ∧ 1 < 2 ∧
    (op_begin (worker_env sample_random 2 sample_ok 1)
      ((group_run (worker_env sample_random 2 sample_ok) 0 2 sample_blank 0).worker 1)).2 = false ∧
    (3, 0) ∈ accepted_for (op_accepted (worker_env sample_random 2 sample_ok 1) 0
      ((group_run (worker_env sample_random 2 sample_ok) 0 2 sample_blank 0).worker 1)) 0 0 ∧
    ((group_run (worker_env sample_random 2 sample_ok) 0 2 sample_blank (0 + 1)).worker 1).efbuf
        (idx 0 3 0) =
      ((group_run (worker_env sample_random 2 sample_ok) 0 2 sample_blank 0).worker 0).wbuf
        (idx 0 3 0) :=
  ⟨fun _ _ => rfl, by decide, by decide, by decide,
    (C4_oracle_agrees_with_writer sample_random 2 sample_ok 0 sample_blank (fun _ _ => rfl)
      0 1 0 0 3 0 (by decide) (by decide) (by decide)).2.1⟩

/-- C5 (increment invariant): `op_data_incr` is `max_dsets * MAX_DSET_X * MAX_DSET_Y * mpi_size`
as an `unsigned`; a write operation adds it (modulo `2 ^ 32`) to every one of the
`max_dsets * 15 * 10` elements of the write buffer, whatever was selected and whatever `ndsets`
is, and changes no other element; a read operation leaves the write buffer unchanged; hence
after `n` operations of a lifetime, `t` of them writes, `wbuf[d][x][y]` is
`rank * max_dsets * 150 + d * 150 + x * 10 + y + t * (max_dsets * 150 * mpi_size)` modulo
`2 ^ 32`. -/
theorem C5_increment_invariant (E : Env) (flags : Nat) (file : Nat → Nat → Nat → Nat → Nat)
    (s0 : State) (n d x y : Nat) (hd : d < max_dsets flags) (hx : x < MAX_DSET_X)
    (hy : y < MAX_DSET_Y) :
    op_data_incr E flags =
      to_unsigned ((max_dsets flags * MAX_DSET_X * MAX_DSET_Y * E.mpi_size : Nat) : Int) ∧
    (∀ (f : Nat → Nat → Nat → Nat) (s : State), (op_begin E s).2 = false →
      (operation E flags f s).wbuf (idx d x y) =
        to_unsigned ((s.wbuf (idx d x y) : Int) + (op_data_incr E flags : Int)) ∧
      ∀ p, max_dsets flags * MAX_DSET_X * MAX_DSET_Y ≤ p →
        (operation E flags f s).wbuf p = s.wbuf p) ∧
    (∀ (f : Nat → Nat → Nat → Nat) (s : State), (op_begin E s).2 = true →
      (operation E flags f s).wbuf = s.wbuf) ∧
    (run_ops E flags file n (lifetime_init E flags s0)).wbuf (idx d x y) =
      to_unsigned ((E.mpi_rank * max_dsets flags * 150 + d * 150 + x * 10 + y +
        writes_done E flags file (lifetime_init E flags s0) n *
          (max_dsets flags * 150 * E.mpi_size) : Nat) : Int) ∧
    (run_ops E flags file n (lifetime_init E flags s0)).wbuf (idx d x y) =
      to_unsigned ((E.mpi_rank * max_dsets flags * 150 + d * 150 + x * 10 + y +
        writes_done E flags file (lifetime_init E flags s0) n * op_data_incr E flags : Nat) :
          Int) := by
  have hlt := idx_lt flags d x y hd hx hy
  have hform : (run_ops E flags file n (lifetime_init E flags s0)).wbuf (idx d x y) =
      to_unsigned ((E.mpi_rank * max_dsets flags * 150 + d * 150 + x * 10 + y +
        writes_done E flags file (lifetime_init E flags s0) n *
          (max_dsets flags * 150 * E.mpi_size) : Nat) : Int) := by
    rw [run_ops_wbuf E flags file s0 n _ hlt]
    unfold wbuf_value
    rw [buf_len_eq, idx_eq]
    congr 2
    ring
  refine ⟨rfl, ?_, ?_, hform, ?_⟩
  · intro f s hw
    rw [operation_wbuf, if_neg (by rw [hw]; decide)]
    refine ⟨by simp only [hlt, if_true], fun p hp => ?_⟩
    have : ¬ p < buf_len flags := by
      unfold buf_len
      omega
    simp only [this, if_false]
  · intro f s hr
    rw [operation_wbuf, if_pos hr]
  · rw [hform]
    apply to_unsigned_congr
    have hm : ((op_data_incr E flags : Nat) : Int) ≡
        ((max_dsets flags * 150 * E.mpi_size : Nat) : Int) [ZMOD 4294967296] := by
      rw [op_data_incr_eq, buf_len_eq]
      exact to_unsigned_modEq _
    push_cast at hm ⊢
    exact (Int.ModEq.refl _).add ((Int.ModEq.refl _).mul hm.symm)

/-- Witness for C5: the element `[0][3][4]` of rank 1 of the sample group after the first two
operations of a lifetime. -/
theorem C5_increment_invariant_witness :
    0 < max_dsets 0 ∧ 3 < MAX_DSET_X ∧ 4 < MAX_DSET_Y ∧
    (run_ops (worker_env sample_random 2 sample_ok 1) 0 sample_file 2
        (lifetime_init (worker_env sample_random 2 sample_ok 1) 0 blank)).wbuf (idx 0 3 4) =
      to_unsigned (((worker_env sample_random 2 sample_ok 1).mpi_rank * max_dsets 0 * 150 +
        0 * 150 + 3 * 10 + 4 +
        writes_done (worker_env sample_random 2 sample_ok 1) 0 sample_file
          (lifetime_init (worker_env sample_random 2 sample_ok 1) 0 blank) 2 *
          (max_dsets 0 * 150 * (worker_env sample_random 2 sample_ok 1).mpi_size) : Nat) : Int) :=
  ⟨by decide, by decide, by decide,
    (C5_increment_invariant (worker_env sample_random 2 sample_ok 1) 0 sample_file blank 2 0 3 4
      (by decide) (by decide) (by decide)).2.2.2.1⟩

/-- C6 (value uniqueness): take two processes of one group (ranks below the common group size)
at any two points of a lifetime, after `t1` and `t2` writes, and two elements `[d1][x1][y1]`,
`[d2][x2][y2]` of their write buffers. If neither value has wrapped 32 bits and the tuples
`(rank, t, d, x, y)` differ, the two write-buffer values differ; in particular two different
(rank, write index) pairs never give the same value for the same cell. -/
theorem C6_value_uniqueness (E1 E2 : Env) (flags : Nat)
    (file1 file2 : Nat → Nat → Nat → Nat → Nat) (s1 s2 : State)
    (n1 n2 d1 x1 y1 d2 x2 y2 : Nat)
    (hsize : E1.mpi_size = E2.mpi_size)
    (hr1 : E1.mpi_rank < E1.mpi_size) (hr2 : E2.mpi_rank < E2.mpi_size)
    (hd1 : d1 < max_dsets flags) (hx1 : x1 < MAX_DSET_X) (hy1 : y1 < MAX_DSET_Y)
    (hd2 : d2 < max_dsets flags) (hx2 : x2 < MAX_DSET_X) (hy2 : y2 < MAX_DSET_Y)
    (hv1 : E1.mpi_rank * (max_dsets flags * MAX_DSET_X * MAX_DSET_Y) + idx d1 x1 y1 +
      writes_done E1 flags file1 (lifetime_init E1 flags s1) n1 *
        (max_dsets flags * MAX_DSET_X * MAX_DSET_Y * E1.mpi_size) < 4294967296)
    (hv2 : E2.mpi_rank * (max_dsets flags * MAX_DSET_X * MAX_DSET_Y) + idx d2 x2 y2 +
      writes_done E2 flags file2 (lifetime_init E2 flags s2) n2 *
        (max_dsets flags * MAX_DSET_X * MAX_DSET_Y * E2.mpi_size) < 4294967296)
    (hne : (E1.mpi_rank, writes_done E1 flags file1 (lifetime_init E1 flags s1) n1, d1, x1, y1) ≠
      (E2.mpi_rank, writes_done E2 flags file2 (lifetime_init E2 flags s2) n2, d2, x2, y2)) :
    (run_ops E1 flags file1 n1 (lifetime_init E1 flags s1)).wbuf (idx d1 x1 y1) ≠
      (run_ops E2 flags file2 n2 (lifetime_init E2 flags s2)).wbuf (idx d2 x2 y2) := by
  intro h
  have hl1 := idx_lt flags d1 x1 y1 hd1 hx1 hy1
  have hl2 := idx_lt flags d2 x2 y2 hd2 hx2 hy2
  rw [run_ops_wbuf E1 flags file1 s1 n1 _ hl1, run_ops_wbuf E2 flags file2 s2 n2 _ hl2,
    hsize] at h
  rw [hsize] at hr1 hv1
  obtain ⟨e1, e2, e3⟩ := wbuf_value_inj flags E2.mpi_size _ _ _ _ _ _ hr1 hr2 hl1 hl2 hv1 hv2 h
  obtain ⟨e4, e5, e6⟩ := idx_inj d1 x1 y1 d2 x2 y2 hx1 hy1 hx2 hy2 e3
  apply hne
  rw [e1, e2, e4, e5, e6]

/-- Witness for C6: element `[0][3][4]` of rank 0 after the first operation of the sample
lifetime (a write) against the same element of rank 1 at the start of the lifetime. -/
theorem C6_value_uniqueness_witness :
    (run_ops (worker_env sample_random 2 sample_ok 0) 0 sample_file 1
        (lifetime_init (worker_env sample_random 2 sample_ok 0) 0 blank)).wbuf (idx 0 3 4) ≠
      (run_ops (worker_env sample_random 2 sample_ok 1) 0 sample_file 0
        (lifetime_init (worker_env sample_random 2 sample_ok 1) 0 blank)).wbuf (idx 0 3 4) :=
  C6_value_uniqueness (worker_env sample_random 2 sample_ok 0)
    (worker_env sample_random 2 sample_ok 1) 0 sample_file sample_file blank blank
    1 0 0 3 4 0 3 4 rfl (by decide) (by decide) (by decide) (by decide) (by decide)
    (by decide) (by decide) (by decide) (by decide) (by decide) (by decide)

/-- C7 (frame of a read operation): in a read operation, `erbuf` receives at every cell
accepted for the own rank of the process the current value of `efbuf` at that cell, every
other element of `erbuf` keeps its value, a pass of the loop over processes for another rank
changes nothing in `erbuf`, and `efbuf`, `wbuf` and the usage mask are left as they were. -/
theorem C7_capture_read_frame (E : Env) (flags : Nat) (file : Nat → Nat → Nat → Nat)
    (s : State) (hrd : (op_begin E s).2 = true) :
    (∀ k c, c ∈ accepted_for (op_accepted E flags s) k E.mpi_rank →
      (operation E flags file s).erbuf (idx k c.1 c.2) = s.efbuf (idx k c.1 c.2)) ∧
    (∀ j, (∀ k c, c ∈ accepted_for (op_accepted E flags s) k E.mpi_rank → j ≠ idx k c.1 c.2) →
      (operation E flags file s).erbuf j = s.erbuf j) ∧
    (∀ k l (q : State), l ≠ E.mpi_rank → (rank_iter E flags true k l q).1.erbuf = q.erbuf) ∧
    (operation E flags file s).efbuf = s.efbuf ∧
    (operation E flags file s).wbuf = s.wbuf ∧
    (operation E flags file s).dset_usage = s.dset_usage := by
  obtain ⟨h1, h2, h3, h4⟩ := operation_read_frame E flags file s hrd
  have hacc : ∀ k c, c ∈ accepted_for (op_accepted E flags s) k E.mpi_rank ↔
      (k, E.mpi_rank, c.1, c.2) ∈ op_cells 0 (op_select E flags true (op_begin E s).1).2 := by
    intro k c
    unfold accepted_for op_accepted
    rw [hrd, mem_op_cells_getD]
  refine ⟨?_, ?_, ?_, h2, h3, h4⟩
  · intro k c hc
    exact (h1 (idx k c.1 c.2)).1 ⟨_, (hacc k c).1 hc, rfl, rfl⟩
  · intro j hj
    apply (h1 j).2
    intro t ht hr he
    apply hj t.1 (t.2.2.1, t.2.2.2) _ he
    rw [hacc, ← hr]
    exact ht
  · intro k l q hl
    obtain ⟨-, -, -, -, -, h6, -⟩ := rank_iter_spec E flags true k l q
    rw [h6, if_neg (fun h => hl h.2)]

/-- Witness for C7: rank 0 of the sample group at a point of the stream where the operation
is a read. -/
theorem C7_capture_read_frame_witness :
    (op_begin (worker_env sample_random 2 sample_ok 0) sample_read_state).2 = true ∧
    (operation (worker_env sample_random 2 sample_ok 0) 0 (sample_file 0)
      sample_read_state).efbuf = sample_read_state.efbuf :=
  ⟨by decide,
    (C7_capture_read_frame (worker_env sample_random 2 sample_ok 0) 0 (sample_file 0)
      sample_read_state (by decide)).2.2.2.1⟩

/-- C8 (durability cycle): within a lifetime the calls of operation `j` are the barrier, then
the close/reopen cycle of all datasets and the file exactly when `j ≥ 1` and operation `j - 1`
was a write, then selection calls, then the I/O call; so `H5Fclose` and `H5Fopen` occur in
operation `j` if and only if `j ≥ 1` and operation `j - 1` was a write, never in operation 0,
and in the calls of any number of operations of the lifetime no read is issued after a write
without an `H5Fopen` in between. -/
theorem C8_durability_cycle (E : Env) (flags : Nat) (file : Nat → Nat → Nat → Nat → Nat)
    (s0 : State) (j n : Nat) :
    (∃ L, (∀ c ∈ L, Call.is_select c = true) ∧
      op_calls E flags file (lifetime_init E flags s0) j =
        Call.MPI_Barrier ::
          ((if 1 ≤ j ∧ op_is_read E flags file (lifetime_init E flags s0) (j - 1) = false
            then reopen_calls (lifetime_init E flags s0).ndsets else []) ++ L ++
          [io_call flags (op_is_read E flags file (lifetime_init E flags s0) j)])) ∧
    (Call.H5Fclose ∈ op_calls E flags file (lifetime_init E flags s0) j ↔
      1 ≤ j ∧ op_is_read E flags file (lifetime_init E flags s0) (j - 1) = false) ∧
    (Call.H5Fopen ∈ op_calls E flags file (lifetime_init E flags s0) j ↔
      1 ≤ j ∧ op_is_read E flags file (lifetime_init E flags s0) (j - 1) = false) ∧
    Call.H5Fclose ∉ op_calls E flags file (lifetime_init E flags s0) 0 ∧
    flushed_reads false
      ((run_ops E flags file n (lifetime_init E flags s0)).log.drop
        (lifetime_init E flags s0).log.length) = true := by
  have hs : (lifetime_init E flags s0).last_read = true :=
    (lifetime_init_spec E flags s0).2.2.2.2.2.2.2.1
  obtain ⟨c1, c2, c3⟩ := op_calls_cycle E flags file _ hs j
  refine ⟨c1, c2, c3, ?_, run_ops_flushed E flags file _ hs n⟩
  rw [(op_calls_cycle E flags file _ hs 0).2.1]
  omega

/-- C9 (truncation): in a write operation, when the first `m` regions of a rank were accepted
and all `MAX_SEL_RETRIES` candidates for region `m` overlap the usage mask, generation for the
rank stops: what is accepted are the `m` regions accepted before, their number `m` is below
the drawn number `hs_draw_count` (and may be 0), and the usage mask and the oracle `efbuf`
are changed on exactly the cells of those `m` regions, so the rejected candidate touches
neither. The same holds for points, with `pt_draw_count`. -/
theorem C9_truncation (E : Env) (flags k l : Nat) (s : State) (m n : Nat) :
    (m < hs_draw_count E s → (hs_first E flags k l s m).2 = m →
      hs_exhausted E flags k l s m = true →
      (hs_branch E flags false k l s).2 =
        Accepted.hyperslabs (regions_of (hs_first E flags k l s m).1 0 m) ∧
      (hs_branch E flags false k l s).2.num = m ∧
      (hs_branch E flags false k l s).2.num < hs_draw_count E s ∧
      (hs_branch E flags false k l s).1.dset_usage =
        fill k ((regions_of (hs_first E flags k l s m).1 0 m).flatMap region_cells)
          (fun _ => 1) s.dset_usage ∧
      (hs_branch E flags false k l s).1.efbuf =
        fill k ((regions_of (hs_first E flags k l s m).1 0 m).flatMap region_cells)
          (efbuf_value E flags l s.wbuf) s.efbuf) ∧
    (n < pt_draw_count E s → (pt_first E k s n).2 = n → pt_exhausted E k s n = true →
      (pt_branch E flags false k l s).2 = Accepted.points (points_of (pt_first E k s n).1 0 n) ∧
      (pt_branch E flags false k l s).2.num = n ∧
      (pt_branch E flags false k l s).2.num < pt_draw_count E s ∧
      (pt_branch E flags false k l s).1.dset_usage =
        fill k (points_of (pt_first E k s n).1 0 n) (fun _ => 1) s.dset_usage ∧
      (pt_branch E flags false k l s).1.efbuf =
        fill k (points_of (pt_first E k s n).1 0 n) (efbuf_value E flags l s.wbuf) s.efbuf) := by
  constructor
  · intro hm hacc hexh
    have ht := hs_branch_trunc E flags k l s m hm hacc hexh
    obtain ⟨-, -, -, h4, h5, -⟩ := hs_branch_spec E flags false k l s
    rw [if_neg (by decide)] at h4 h5
    rw [ht] at h4 h5
    have hnum : (hs_branch E flags false k l s).2.num = m := by
      rw [ht]
      exact regions_of_length _ 0 m
    exact ⟨ht, hnum, by rw [hnum]; exact hm, h4, h5⟩
  · intro hn hacc hexh
    have ht := pt_branch_trunc E flags k l s n hn hacc hexh
    obtain ⟨-, -, -, h4, h5, -⟩ := pt_branch_spec E flags false k l s
    rw [if_neg (by decide)] at h4 h5
    rw [ht] at h4 h5
    have hnum : (pt_branch E flags false k l s).2.num = n := by
      rw [ht]
      exact points_of_length _ 0 n
    exact ⟨ht, hnum, by rw [hnum]; exact hn, h4, h5⟩

/-- Witness for C9: with the cells `(2, 0)`, `(3, 0)`, `(4, 0)` taken, the hyperslab branch
draws two regions, accepts `(0, 0, 2, 1)` and exhausts the retries for the second; the point
branch draws two points and exhausts the retries for the first. -/
theorem C9_truncation_witness :
    (1 < hs_draw_count (worker_env trunc_random 2 sample_ok 0) trunc_state ∧
      (hs_first (worker_env trunc_random 2 sample_ok 0) 0 0 1 trunc_state 1).2 = 1 ∧
      hs_exhausted (worker_env trunc_random 2 sample_ok 0) 0 0 1 trunc_state 1 = true ∧
      regions_of (hs_first (worker_env trunc_random 2 sample_ok 0) 0 0 1 trunc_state 1).1 0 1 =
        [(0, 0, 2, 1)] ∧
      (hs_branch (worker_env trunc_random 2 sample_ok 0) 0 false 0 1 trunc_state).2 =
        Accepted.hyperslabs
          (regions_of (hs_first (worker_env trunc_random 2 sample_ok 0) 0 0 1 trunc_state 1).1
            0 1)) ∧
    (0 < pt_draw_count (worker_env trunc_random 2 sample_ok 0) trunc_state ∧
      (pt_first (worker_env trunc_random 2 sample_ok 0) 0 trunc_state 0).2 = 0 ∧
      pt_exhausted (worker_env trunc_random 2 sample_ok 0) 0 trunc_state 0 = true ∧
      (pt_branch (worker_env trunc_random 2 sample_ok 0) 0 false 0 1 trunc_state).2.num = 0) :=
  ⟨⟨by decide, by decide, by decide, by decide,
      ((C9_truncation (worker_env trunc_random 2 sample_ok 0) 0 0 1 trunc_state 1 0).1
        (by decide) (by decide) (by decide)).1⟩,
    ⟨by decide, by decide, by decide,
      ((C9_truncation (worker_env trunc_random 2 sample_ok 0) 0 0 1 trunc_state 1 0).2
        (by decide) (by decide) (by decide)).2.1⟩⟩

/-- C10 (selections fit the dataset): on a dataset of extent `(X, Y)` with `1 ≤ X ≤ MAX_DSET_X`
and `1 ≤ Y ≤ MAX_DSET_Y`, every candidate region has `1 ≤ count0 ≤ min(MAX_HS_X, X)`,
`1 ≤ count1 ≤ min(MAX_HS_Y, Y)`, `start0 + count0 ≤ X` and `start1 + count1 ≤ Y`, and so has
every accepted region; every candidate point and every accepted point has `coord0 < X` and
`coord1 < Y`; the drawn number of regions is in `1..MAX_HS` and the drawn number of points in
`1..MAX_POINTS`. -/
theorem C10_selections_fit (E : Env) (flags : Nat) (do_read : Bool) (k l m : Nat) (s : State)
    (hd : dims_ok s k) :
    ((1 ≤ (hs_candidate E do_read k m
          (if MAX_HS_X ≤ s.dset_dims k 0 then MAX_HS_X else s.dset_dims k 0)
          (if MAX_HS_Y ≤ s.dset_dims k 1 then MAX_HS_Y else s.dset_dims k 1) s).1.count m 0 ∧
      (hs_candidate E do_read k m
          (if MAX_HS_X ≤ s.dset_dims k 0 then MAX_HS_X else s.dset_dims k 0)
          (if MAX_HS_Y ≤ s.dset_dims k 1 then MAX_HS_Y else s.dset_dims k 1) s).1.count m 0 ≤
        min MAX_HS_X (s.dset_dims k 0)) ∧
     (1 ≤ (hs_candidate E do_read k m
          (if MAX_HS_X ≤ s.dset_dims k 0 then MAX_HS_X else s.dset_dims k 0)
          (if MAX_HS_Y ≤ s.dset_dims k 1 then MAX_HS_Y else s.dset_dims k 1) s).1.count m 1 ∧
      (hs_candidate E do_read k m
          (if MAX_HS_X ≤ s.dset_dims k 0 then MAX_HS_X else s.dset_dims k 0)
          (if MAX_HS_Y ≤ s.dset_dims k 1 then MAX_HS_Y else s.dset_dims k 1) s).1.count m 1 ≤
        min MAX_HS_Y (s.dset_dims k 1)) ∧
     (hs_candidate E do_read k m
          (if MAX_HS_X ≤ s.dset_dims k 0 then MAX_HS_X else s.dset_dims k 0)
          (if MAX_HS_Y ≤ s.dset_dims k 1 then MAX_HS_Y else s.dset_dims k 1) s).1.start m 0 +
       (hs_candidate E do_read k m
          (if MAX_HS_X ≤ s.dset_dims k 0 then MAX_HS_X else s.dset_dims k 0)
          (if MAX_HS_Y ≤ s.dset_dims k 1 then MAX_HS_Y else s.dset_dims k 1) s).1.count m 0 ≤
        s.dset_dims k 0 ∧
     (hs_candidate E do_read k m
          (if MAX_HS_X ≤ s.dset_dims k 0 then MAX_HS_X else s.dset_dims k 0)
          (if MAX_HS_Y ≤ s.dset_dims k 1 then MAX_HS_Y else s.dset_dims k 1) s).1.start m 1 +
       (hs_candidate E do_read k m
          (if MAX_HS_X ≤ s.dset_dims k 0 then MAX_HS_X else s.dset_dims k 0)
          (if MAX_HS_Y ≤ s.dset_dims k 1 then MAX_HS_Y else s.dset_dims k 1) s).1.count m 1 ≤
        s.dset_dims k 1) ∧
    (∀ regs, (hs_branch E flags do_read k l s).2 = Accepted.hyperslabs regs →
      ∀ reg ∈ regs, region_fits (s.dset_dims k 0) (s.dset_dims k 1) reg) ∧
    ((pt_candidate E do_read k m s).1.points (2 * m) < s.dset_dims k 0 ∧
      (pt_candidate E do_read k m s).1.points (2 * m + 1) < s.dset_dims k 1) ∧
    (∀ c ∈ (pt_branch E flags do_read k l s).2.cells,
      c.1 < s.dset_dims k 0 ∧ c.2 < s.dset_dims k 1) ∧
    (1 ≤ hs_draw_count E s ∧ hs_draw_count E s ≤ MAX_HS) ∧
    (1 ≤ pt_draw_count E s ∧ pt_draw_count E s ≤ MAX_POINTS) := by
  refine ⟨?_, ?_, ?_, ?_, ?_, ?_⟩
  · have h := hs_candidate_fits E do_read k m _ _ s hd rfl rfl _
      (by rw [regions_of_one]; exact List.mem_singleton.2 rfl)
    exact h
  · intro regs h reg hreg
    rw [hs_branch_acc] at h
    injection h with h
    rw [← h] at hreg
    exact hs_loop_fits E flags do_read k l _ _ _ 0 { s with pos := s.pos + 1 } hd rfl rfl reg hreg
  · have h := pt_candidate_fits E do_read k m s hd _
      (by rw [points_of_one]; exact List.mem_singleton.2 rfl)
    exact h
  · intro c hc
    rw [pt_branch_acc] at hc
    exact pt_loop_fits E do_read k _ 0 { s with pos := s.pos + 1 } hd c hc
  · unfold hs_draw_count
    have := Nat.mod_lt (E.random s.pos) (show 0 < MAX_HS by decide)
    simp only [MAX_HS] at *
    omega
  · unfold pt_draw_count
    have := Nat.mod_lt (E.random s.pos) (show 0 < MAX_POINTS by decide)
    simp only [MAX_POINTS] at *
    omega

/-- Witness for C10: dataset 0 of the sample state, of extent 3 x 3. -/
theorem C10_selections_fit_witness :
    dims_ok sample_state 0 ∧
    ∀ c ∈ (pt_branch (worker_env sample_random 2 sample_ok 0) 0 false 0 1 sample_state).2.cells,
      c.1 < sample_state.dset_dims 0 0 ∧ c.2 < sample_state.dset_dims 0 1 :=
  ⟨⟨⟨by decide, by decide⟩, ⟨by decide, by decide⟩⟩,
    (C10_selections_fit (worker_env sample_random 2 sample_ok 0) 0 false 0 1 0 sample_state
      ⟨⟨by decide, by decide⟩, ⟨by decide, by decide⟩⟩).2.2.2.1⟩

/-- C12 (exit status): with the reduction of line 649 delivering the maximum of the local error
counters, the value `main` returns on the process of rank `r` is 1 exactly when the counter of
some rank of the group is non-zero at the reduction, and 0 exactly when all are zero; it is
always 0 or 1, and it is the same on every process. -/
theorem C12_exit_status (env : Nat → Env) (size : Nat)
    (file : Nat → Nat → Nat → Nat → Nat → Nat → Nat → Nat) (w : Nat → State) (r : Nat) :
    ((main env size file w r).2 = 1 ↔
      ∃ a, a < size ∧ (main_local (env a) (file a) (w a)).1.nerrors ≠ 0) ∧
    ((main env size file w r).2 = 0 ↔
      ∀ a, a < size → (main_local (env a) (file a) (w a)).1.nerrors = 0) ∧
    ((main env size file w r).2 = 0 ∨ (main env size file w r).2 = 1) ∧
    (∀ q, (main env size file w q).2 = (main env size file w r).2) := by
  have hq : ∀ q, (main env size file w q).2 = (main env size file w r).2 := by
    intro q
    rw [main_exit_eq, main_exit_eq]
  suffices hmain : ((main env size file w r).2 = 1 ↔
        ∃ a, a < size ∧ (main_local (env a) (file a) (w a)).1.nerrors ≠ 0) ∧
      ((main env size file w r).2 = 0 ↔
        ∀ a, a < size → (main_local (env a) (file a) (w a)).1.nerrors = 0) ∧
      ((main env size file w r).2 = 0 ∨ (main env size file w r).2 = 1) from
    ⟨hmain.1, hmain.2.1, hmain.2.2, hq⟩
  clear hq
  have h := allreduce_max_ne_zero size (fun a => (main_local (env a) (file a) (w a)).1.nerrors)
  have e := main_exit_eq env size file w r
  generalize (main env size file w r).2 = x at e ⊢
  generalize allreduce_max size (fun a => (main_local (env a) (file a) (w a)).1.nerrors) = M
    at h e
  by_cases hm : M ≠ 0
  · rw [if_pos hm] at e
    obtain ⟨a, ha, hv⟩ := h.1 hm
    subst e
    refine ⟨⟨fun _ => ⟨a, ha, hv⟩, fun _ => rfl⟩, ⟨fun h1 => absurd h1 (by decide), fun h0 =>
      absurd (h0 a ha) hv⟩, Or.inr rfl⟩
  · rw [if_neg hm] at e
    subst e
    have hall : ∀ a, a < size → (main_local (env a) (file a) (w a)).1.nerrors = 0 := by
      intro a ha
      by_contra hv
      exact hm (h.2 ⟨a, ha, hv⟩)
    refine ⟨⟨fun h1 => absurd h1 (by decide), fun ⟨a, ha, hv⟩ => absurd (hall a ha) hv⟩,
      ⟨fun _ => hall, fun _ => rfl⟩, Or.inl rfl⟩

/-- C16 (fresh oracle per lifetime): at the start of every lifetime of `test_pmdset`, that is
in the state `lifetime_init` returns for lifetime `i`, whatever the state `q` the previous
lifetimes left, the expected-file buffer, the read buffer and the read-expectation buffer are
zero in every one of their `max_dsets * MAX_DSET_X * MAX_DSET_Y` elements. -/
theorem C16_fresh_oracle_per_lifetime (E : Env) (flags : Nat)
    (file : Nat → Nat → Nat → Nat → Nat → Nat) (s q : State) (i p : Nat)
    (hp : p < max_dsets flags * MAX_DSET_X * MAX_DSET_Y) :
    ((lifetime_init E flags q).efbuf p = 0 ∧ (lifetime_init E flags q).rbuf p = 0 ∧
      (lifetime_init E flags q).erbuf p = 0) ∧
    ((lifetime_init E flags (lifetimes E flags file i (setup E flags s))).efbuf p = 0 ∧
      (lifetime_init E flags (lifetimes E flags file i (setup E flags s))).rbuf p = 0 ∧
      (lifetime_init E flags (lifetimes E flags file i (setup E flags s))).erbuf p = 0) ∧
    lifetimes E flags file (i + 1) (setup E flags s) =
      close_lifetime E (run_ops E flags (file i) OPS_PER_FILE
        (lifetime_init E flags (lifetimes E flags file i (setup E flags s)))) := by
  have h := fun t => ((lifetime_init_ok E flags t).2.2 p hp).2
  exact ⟨h q, h _, by rw [lifetimes_succ, lifetime_eq]⟩

/-- Witness for C16: element 149 of the buffers of a single-dataset configuration, with a
previous state whose buffers hold 7 everywhere. -/
theorem C16_fresh_oracle_per_lifetime_witness :
    149 < max_dsets 0 * MAX_DSET_X * MAX_DSET_Y ∧
    (lifetime_init (worker_env sample_random 2 sample_ok 0) 0 dirty_state).efbuf 149 = 0 ∧
    (lifetime_init (worker_env sample_random 2 sample_ok 0) 0 dirty_state).rbuf 149 = 0 ∧
    (lifetime_init (worker_env sample_random 2 sample_ok 0) 0 dirty_state).erbuf 149 = 0 :=
  ⟨by decide,
    (C16_fresh_oracle_per_lifetime (worker_env sample_random 2 sample_ok 0) 0
      (fun _ => sample_file) blank dirty_state 0 149 (by decide)).1⟩

/-- C17 (one error per mismatching read): in a read operation the error counter after the
verification step is the counter after the read call plus exactly 1 when the read buffer and
`erbuf` differ in at least one of the `max_dsets * 15 * 10` elements, however many differ, and
plus 0 when they agree on all of them. -/
theorem C17_one_error_per_mismatching_read (E : Env) (flags : Nat)
    (file : Nat → Nat → Nat → Nat) (s : State) :
    (op_io E flags true file s).nerrors =
      (s.nerrors + (if E.failed s.log.length = true then 1 else 0)) +
        (if memcmp_ne (op_io E flags true file s).rbuf (op_io E flags true file s).erbuf
          (buf_len flags) = true then 1 else 0) ∧
    (memcmp_ne (op_io E flags true file s).rbuf (op_io E flags true file s).erbuf
        (buf_len flags) = true ↔
      ∃ p, p < max_dsets flags * 15 * 10 ∧
        (op_io E flags true file s).rbuf p ≠ (op_io E flags true file s).erbuf p) ∧
    ((∃ p, p < max_dsets flags * 15 * 10 ∧
        (op_io E flags true file s).rbuf p ≠ (op_io E flags true file s).erbuf p) →
      (op_io E flags true file s).nerrors =
        s.nerrors + (if E.failed s.log.length = true then 1 else 0) + 1) ∧
    ((∀ p, p < max_dsets flags * 15 * 10 →
        (op_io E flags true file s).rbuf p = (op_io E flags true file s).erbuf p) →
      (op_io E flags true file s).nerrors =
        s.nerrors + (if E.failed s.log.length = true then 1 else 0)) := by
  obtain ⟨w1, -, -, -, w5, -, -, -, -, -, -, w12⟩ := op_io_read E flags file s
  have hform : (op_io E flags true file s).nerrors =
      (s.nerrors + (if E.failed s.log.length = true then 1 else 0)) +
        (if memcmp_ne (op_io E flags true file s).rbuf (op_io E flags true file s).erbuf
          (buf_len flags) = true then 1 else 0) := by
    rw [w12, w1, w5]
  have hiff := memcmp_ne_iff (op_io E flags true file s).rbuf (op_io E flags true file s).erbuf
    (buf_len flags)
  refine ⟨hform, hiff, ?_, ?_⟩
  · intro h
    rw [hform, if_pos (hiff.2 h)]
  · intro h
    have hb : buf_len flags = max_dsets flags * 15 * 10 := rfl
    rw [hform, memcmp_ne_false _ _ _ (by rw [hb]; exact h)]
    simp only [Bool.false_eq_true, if_false, Nat.add_zero]

/-- C13 (failing input): the barrier of line 280 is the first boundary call of an operation.
In a process all of whose boundary calls fail, `op_begin` on the sample state (no reopen
pending) makes exactly that call and leaves `nerrors` as it was: the failure of the barrier is
not counted, while the same failure is counted where the status is tested, as `main` does for
its own barrier (line 640). -/
theorem C13_barrier_failure_not_counted :
    (worker_env sample_random 2 all_fail 0).failed sample_state.log.length = true ∧
    (op_begin (worker_env sample_random 2 all_fail 0) sample_state).1.log = [Call.MPI_Barrier] ∧
    (op_begin (worker_env sample_random 2 all_fail 0) sample_state).1.nerrors =
      sample_state.nerrors ∧
    (checked (worker_env sample_random 2 all_fail 0) Call.MPI_Barrier sample_state).nerrors =
      sample_state.nerrors + 1 := by
  refine ⟨rfl, by decide, by decide, by decide⟩

/-- What lines 463-481 do for the own rank when at least one point was accepted. -/
theorem pt_select_mem_own (E : Env) (flags k npoints : Nat) (s : State) (hn : 0 < npoints) :
    (has_flag flags MDSET_FLAG_SHAPESAME = false →
      (pt_select_mem E flags k E.mpi_rank npoints s).points =
        set (pt_convert_loop (npoints - 1) s.points) 2 0 ∧
      (pt_select_mem E flags k E.mpi_rank npoints s).mem_space k =
        s.mem_space k ++ [Sel.elements npoints ((List.range (3 * npoints)).map
          (pt_select_mem E flags k E.mpi_rank npoints s).points)]) ∧
    (has_flag flags MDSET_FLAG_SHAPESAME = true →
      (pt_select_mem E flags k E.mpi_rank npoints s).points = s.points ∧
      (pt_select_mem E flags k E.mpi_rank npoints s).mem_space k =
        s.mem_space k ++ [Sel.elements npoints ((List.range (2 * npoints)).map s.points)]) := by
  unfold pt_select_mem
  rw [if_pos ⟨rfl, hn⟩]
  constructor
  · intro hf
    simp [hf, checked, set_at]
  · intro hf
    simp [hf, checked, set_at]

/-- C15 (memory-side point conversion): when the points of the own rank are selected in memory
with `SHAPESAME` off and `npoints ≥ 1`, the rewrite of lines 468-474 leaves, for every
`m < npoints`, `points[3m]` and `points[3m + 1]` equal to the old `points[2m]` and
`points[2m + 1]` and `points[3m + 2] = 0`, changes no element from `3 * npoints` on, so that
with `npoints ≤ MAX_POINTS` every index used is below `3 * MAX_POINTS`, and selects the first
`3 * npoints` elements; the `npoints` reaching this step is at most `MAX_POINTS`. With
`SHAPESAME` on, `points` is unchanged and its first `2 * npoints` elements are selected. -/
theorem C15_memory_point_conversion (E : Env) (flags k npoints : Nat) (s : State) (m : Nat)
    (hn : 0 < npoints) (hm : m < npoints) :
    (has_flag flags MDSET_FLAG_SHAPESAME = false →
      (pt_select_mem E flags k E.mpi_rank npoints s).points (3 * m) = s.points (2 * m) ∧
      (pt_select_mem E flags k E.mpi_rank npoints s).points (3 * m + 1) = s.points (2 * m + 1) ∧
      (pt_select_mem E flags k E.mpi_rank npoints s).points (3 * m + 2) = 0 ∧
      (∀ j, 3 * npoints ≤ j →
        (pt_select_mem E flags k E.mpi_rank npoints s).points j = s.points j) ∧
      (pt_select_mem E flags k E.mpi_rank npoints s).mem_space k =
        s.mem_space k ++ [Sel.elements npoints ((List.range (3 * npoints)).map
          (pt_select_mem E flags k E.mpi_rank npoints s).points)]) ∧
    (has_flag flags MDSET_FLAG_SHAPESAME = true →
      (pt_select_mem E flags k E.mpi_rank npoints s).points = s.points ∧
      (pt_select_mem E flags k E.mpi_rank npoints s).mem_space k =
        s.mem_space k ++ [Sel.elements npoints ((List.range (2 * npoints)).map s.points)]) ∧
    (npoints ≤ MAX_POINTS → 3 * m + 2 < 3 * MAX_POINTS) ∧
    (∀ (d : Bool) (q : State),
      (pt_loop E d k (pt_draw_count E q) 0 { q with pos := q.pos + 1 }).2 ≤ MAX_POINTS) := by
  obtain ⟨h3, h2⟩ := pt_select_mem_own E flags k npoints s hn
  obtain ⟨c1, c2⟩ := pt_convert_spec npoints s.points hn
  refine ⟨?_, h2, ?_, ?_⟩
  · intro hf
    obtain ⟨p1, p2⟩ := h3 hf
    rw [p1] at p2 ⊢
    exact ⟨(c1 m hm).1, (c1 m hm).2.1, (c1 m hm).2.2, c2, p2⟩
  · intro hle
    simp only [MAX_POINTS] at *
    omega
  · intro d q
    have h := (pt_loop_shape E d k (pt_draw_count E q) 0 { q with pos := q.pos + 1 }).1.2
    have hq : pt_draw_count E q ≤ MAX_POINTS := by
      unfold pt_draw_count
      have := Nat.mod_lt (E.random q.pos) (show 0 < MAX_POINTS by decide)
      simp only [MAX_POINTS] at *
      omega
    omega

/-- Witness for C15: the second of two points held by rank 0, `SHAPESAME` off. -/
theorem C15_memory_point_conversion_witness :
    0 < 2 ∧ 1 < 2 ∧ has_flag 0 MDSET_FLAG_SHAPESAME = false ∧
    (pt_select_mem (worker_env sample_random 2 sample_ok 0) 0 0
      (worker_env sample_random 2 sample_ok 0).mpi_rank 2 two_points_state).points (3 * 1) =
        two_points_state.points (2 * 1) :=
  ⟨by decide, by decide, by decide,
    ((C15_memory_point_conversion (worker_env sample_random 2 sample_ok 0) 0 0 2
      two_points_state 1 (by decide) (by decide)).1 (by decide)).1⟩

/-- C11 (lockstep replay): take two processes with the same random stream and group size,
whatever their ranks and whichever of their calls fail, that enter a lifetime at the same
position of the stream. After every number `n` of operations of the lifetime, whatever the
storage delivered to their reads, they are at the same position of the stream and hold the
same dataset count and extents and, with chunked layout, the same chunk extents; they take the
same read/write decision for the next operation, and in it they accept the same geometry and
the same regions or points for every dataset and every rank. -/
theorem C11_lockstep_replay (E E' : Env) (flags : Nat)
    (file file' : Nat → Nat → Nat → Nat → Nat) (s s' : State) (n : Nat)
    (hR : E.random = E'.random) (hS : E.mpi_size = E'.mpi_size) (hp : s.pos = s'.pos) :
    (run_ops E flags file n (lifetime_init E flags s)).pos =
      (run_ops E' flags file' n (lifetime_init E' flags s')).pos ∧
    (run_ops E flags file n (lifetime_init E flags s)).ndsets =
      (run_ops E' flags file' n (lifetime_init E' flags s')).ndsets ∧
    (∀ k, k < (run_ops E flags file n (lifetime_init E flags s)).ndsets →
      (run_ops E flags file n (lifetime_init E flags s)).dset_dims k 0 =
        (run_ops E' flags file' n (lifetime_init E' flags s')).dset_dims k 0 ∧
      (run_ops E flags file n (lifetime_init E flags s)).dset_dims k 1 =
        (run_ops E' flags file' n (lifetime_init E' flags s')).dset_dims k 1) ∧
    (has_flag flags MDSET_FLAG_CHUNK = true →
      (run_ops E flags file n (lifetime_init E flags s)).chunk_dims 0 =
        (run_ops E' flags file' n (lifetime_init E' flags s')).chunk_dims 0 ∧
      (run_ops E flags file n (lifetime_init E flags s)).chunk_dims 1 =
        (run_ops E' flags file' n (lifetime_init E' flags s')).chunk_dims 1) ∧
    op_is_read E flags file (lifetime_init E flags s) n =
      op_is_read E' flags file' (lifetime_init E' flags s') n ∧
    op_accepted E flags (run_ops E flags file n (lifetime_init E flags s)) =
      op_accepted E' flags (run_ops E' flags file' n (lifetime_init E' flags s')) := by
  have h0 := lifetime_init_lock E E' flags s s' hR hp
  have hn := run_ops_lock E E' flags file file' _ _ hR hS h0 n
  obtain ⟨d1, d2, -⟩ := operation_lock E E' flags (file n) (file' n) _ _ hR hS hn
  refine ⟨hn.1, hn.2.1, fun k hk => ⟨(hn.2.2.2 k hk).1, (hn.2.2.2 k hk).2.1⟩, ?_, d1, d2⟩
  intro hc
  rw [run_ops_chunk, run_ops_chunk, (lifetime_init_chunk E flags s hc).1,
    (lifetime_init_chunk E flags s hc).2, (lifetime_init_chunk E' flags s' hc).1,
    (lifetime_init_chunk E' flags s' hc).2, h0.1, hR]
  exact ⟨rfl, rfl⟩

/-- Witness for C11: ranks 0 and 1 of the sample group, rank 0 with every call failing, at the
first operation of a lifetime. -/
theorem C11_lockstep_replay_witness :
    (worker_env sample_random 2 all_fail 0).random =
      (worker_env sample_random 2 sample_ok 1).random ∧
    (worker_env sample_random 2 all_fail 0).mpi_size =
      (worker_env sample_random 2 sample_ok 1).mpi_size ∧
    dirty_state.pos = blank.pos ∧
    op_accepted (worker_env sample_random 2 all_fail 0) 0
        (run_ops (worker_env sample_random 2 all_fail 0) 0 sample_file 0
          (lifetime_init (worker_env sample_random 2 all_fail 0) 0 dirty_state)) =
      op_accepted (worker_env sample_random 2 sample_ok 1) 0
        (run_ops (worker_env sample_random 2 sample_ok 1) 0 sample_file 0
          (lifetime_init (worker_env sample_random 2 sample_ok 1) 0 blank)) :=
  ⟨rfl, rfl, rfl,
    (C11_lockstep_replay (worker_env sample_random 2 all_fail 0)
      (worker_env sample_random 2 sample_ok 1) 0 sample_file sample_file dirty_state blank 0
      rfl rfl rfl).2.2.2.2.2⟩

/-- C18 (errors do not perturb the scenario): compare the run of a process in which boundary
calls fail in any pattern `E.failed` and the storage delivers any content `file` to the reads
with the run `quiet E` of the same process in which every call succeeds, on any content
`file'`. After every number `j` of operations of every lifetime `i` of `test_pmdset` the two
states agree in everything but the error counter and the read buffer; in particular the
position in the random stream, the calls made so far, the oracle `efbuf`, the read
expectation `erbuf` and the write buffer `wbuf` are the same. From agreeing states an
operation takes the same read/write decision and accepts the same selections. The same holds
at the end of `test_pmdset` and of the configuration loop of `main`, which runs the same
configurations. No operation and no call of `test_pmdset` decreases the error counter. -/
theorem C18_errors_do_not_perturb (E : Env) (niter flags : Nat)
    (file file' : Nat → Nat → Nat → Nat → Nat → Nat)
    (F F' : Nat → Nat → Nat → Nat → Nat → Nat → Nat) (s : State) :
    (∀ n, (quiet E).failed n = false) ∧
    (quiet E).random = E.random ∧ (quiet E).mpi_size = E.mpi_size ∧
    (quiet E).mpi_rank = E.mpi_rank ∧
    (∀ i j,
      erase (run_ops E flags (file i) j
          (lifetime_init E flags (lifetimes E flags file i (setup E flags s)))) =
        erase (run_ops (quiet E) flags (file' i) j
          (lifetime_init (quiet E) flags
            (lifetimes (quiet E) flags file' i (setup (quiet E) flags s))))) ∧
    (∀ t t', erase t = erase t' →
      (op_begin E t).2 = (op_begin (quiet E) t').2 ∧
      ∀ d, (op_select E flags d t).2 = (op_select (quiet E) flags d t').2) ∧
    (∀ t t' f f', erase t = erase t' →
      erase (operation E flags f t) = erase (operation (quiet E) flags f' t')) ∧
    erase (test_pmdset E niter flags file s) = erase (test_pmdset (quiet E) niter flags file' s) ∧
    (test_pmdset E niter flags file s).pos = (test_pmdset (quiet E) niter flags file' s).pos ∧
    (test_pmdset E niter flags file s).log = (test_pmdset (quiet E) niter flags file' s).log ∧
    (test_pmdset E niter flags file s).efbuf = (test_pmdset (quiet E) niter flags file' s).efbuf ∧
    (test_pmdset E niter flags file s).erbuf = (test_pmdset (quiet E) niter flags file' s).erbuf ∧
    (test_pmdset E niter flags file s).wbuf = (test_pmdset (quiet E) niter flags file' s).wbuf ∧
    (main_local E F s).2 = (main_local (quiet E) F' s).2 ∧
    erase (main_local E F s).1 = erase (main_local (quiet E) F' s).1 ∧
    (∀ t f, t.nerrors ≤ (operation E flags f t).nerrors) ∧
    (∀ t, t.nerrors ≤ (test_pmdset E niter flags file t).nerrors) := by
  have hE : quiet E = quiet (quiet E) := rfl
  have ht := test_pmdset_agree E (quiet E) hE niter flags file file' s s rfl
  obtain ⟨h1, h2, -, -, -, h6, h7, h8, -⟩ := erase_fields ht
  obtain ⟨m2, m1⟩ := main_local_agree E (quiet E) hE F F' s s rfl
  refine ⟨fun _ => rfl, rfl, rfl, rfl, ?_, ?_, ?_, ht, h1, h2, h8, h6, h7, m2, m1,
    fun t f => operation_errors_le E flags f t,
    fun t => test_pmdset_errors_le E niter flags file t⟩
  · intro i j
    exact run_ops_agree E (quiet E) hE flags _ _ j _ _
      (lifetime_init_agree E (quiet E) hE flags _ _
        (lifetimes_agree E (quiet E) hE flags file file' i _ _
          (setup_agree E (quiet E) hE flags s s rfl)))
  · intro t t' h
    exact ⟨(op_begin_agree E (quiet E) hE t t' h).1,
      fun d => (op_select_agree E (quiet E) hE flags d t t' h).1⟩
  · intro t t' f f' h
    exact operation_agree E (quiet E) hE flags f f' t t' h

/-- C19 (own-rank registration): in one pass of the loop over processes (loop rank `l`,
dataset `k`, from any state `s`) a rank other than the own one registers nothing: the memory
and file dataspaces and the calls made are unchanged; the same holds when nothing was
accepted. Otherwise the file dataspace of dataset `k` grows by exactly the accepted cells when
`l` is the own rank, and so does its memory dataspace, each cell `(x, y)` at `(x, y, 0)`,
when the third entries of `start` and `count` are as the set-up leaves them; the oracle
`efbuf` (write) and the read expectation `erbuf` (read, own rank) are filled on these same
cells. In every operation of every lifetime of a run of `test_pmdset`, when the selections
are complete the file dataspace of every dataset holds exactly the cells accepted for the own
rank and the memory dataspace the same cells. -/
theorem C19_own_rank_registration (E : Env) (flags : Nat)
    (file : Nat → Nat → Nat → Nat → Nat → Nat) (s0 : State) :
    (∀ (d : Bool) (k l : Nat) (s : State),
      (l ≠ E.mpi_rank →
        (rank_iter E flags d k l s).1.mem_space = s.mem_space ∧
        (rank_iter E flags d k l s).1.dset_space = s.dset_space ∧
        (rank_iter E flags d k l s).1.log = s.log) ∧
      ((rank_iter E flags d k l s).2.num = 0 →
        (rank_iter E flags d k l s).1.mem_space = s.mem_space ∧
        (rank_iter E flags d k l s).1.dset_space = s.dset_space ∧
        (rank_iter E flags d k l s).1.log = s.log) ∧
      (∀ k', sel_cells ((rank_iter E flags d k l s).1.dset_space k') =
        if l = E.mpi_rank ∧ k' = k then
          sel_cells (s.dset_space k) ++ (rank_iter E flags d k l s).2.cells
        else sel_cells (s.dset_space k')) ∧
      (third_ok s →
        ∀ k', mem_sel_cells (mem_rank flags) ((rank_iter E flags d k l s).1.mem_space k') =
          if l = E.mpi_rank ∧ k' = k then
            mem_sel_cells (mem_rank flags) (s.mem_space k) ++
              (rank_iter E flags d k l s).2.cells.map lift_cell
          else mem_sel_cells (mem_rank flags) (s.mem_space k')) ∧
      (rank_iter E flags d k l s).1.efbuf =
        (if d = true then s.efbuf
         else fill k (rank_iter E flags d k l s).2.cells (efbuf_value E flags l s.wbuf) s.efbuf) ∧
      (rank_iter E flags d k l s).1.erbuf =
        (if d = true ∧ l = E.mpi_rank then
          fill k (rank_iter E flags d k l s).2.cells s.efbuf s.erbuf
         else s.erbuf)) ∧
    (∀ i j k,
      k < (run_ops E flags (file i) j
        (lifetime_init E flags (lifetimes E flags file i (setup E flags s0)))).ndsets →
      sel_cells ((op_select E flags
          (op_begin E (run_ops E flags (file i) j
            (lifetime_init E flags (lifetimes E flags file i (setup E flags s0))))).2
          (op_begin E (run_ops E flags (file i) j
            (lifetime_init E flags (lifetimes E flags file i (setup E flags s0))))).1).1.dset_space
          k) =
        own_accepted E ((op_select E flags
          (op_begin E (run_ops E flags (file i) j
            (lifetime_init E flags (lifetimes E flags file i (setup E flags s0))))).2
          (op_begin E (run_ops E flags (file i) j
            (lifetime_init E flags (lifetimes E flags file i (setup E flags s0))))).1).2.getD
          k []) ∧
      mem_sel_cells (mem_rank flags) ((op_select E flags
          (op_begin E (run_ops E flags (file i) j
            (lifetime_init E flags (lifetimes E flags file i (setup E flags s0))))).2
          (op_begin E (run_ops E flags (file i) j
            (lifetime_init E flags (lifetimes E flags file i (setup E flags s0))))).1).1.mem_space
          k) =
        (own_accepted E ((op_select E flags
          (op_begin E (run_ops E flags (file i) j
            (lifetime_init E flags (lifetimes E flags file i (setup E flags s0))))).2
          (op_begin E (run_ops E flags (file i) j
            (lifetime_init E flags (lifetimes E flags file i (setup E flags s0))))).1).2.getD
          k [])).map lift_cell) := by
  constructor
  · intro d k l s
    obtain ⟨-, -, -, -, a5, a6, a7, -⟩ := rank_iter_spec E flags d k l s
    obtain ⟨-, b2, b3, b4⟩ := rank_iter_reg E flags d k l s
    exact ⟨b2, b3, a7, b4, a5, a6⟩
  · intro i j k hk
    have h0 := reach_third E flags file s0 i j
    generalize run_ops E flags (file i) j
      (lifetime_init E flags (lifetimes E flags file i (setup E flags s0))) = t at *
    obtain ⟨b1, b2⟩ := op_begin_shape E t
    have hn : (op_begin E t).1.ndsets = t.ndsets := (op_begin_spec E t).2.2.2.1
    have hb : third_ok (op_begin E t).1 := third_ok_of_same (SameThird.third_of_eq b1 b2) h0
    exact (op_select_reg E flags (op_begin E t).2 (op_begin E t).1 hb).2 k (by rw [hn]; exact hk)

/-- C21 (dataset generation bounds): at the start of a lifetime from any state `s`, with the
`MDSET` flag clear `ndsets` is 1 and the draw at `s.pos` already gives the first extent; with
the flag set `ndsets` is the first draw modulo `MAX_DSETS` plus 1, hence in `1..MAX_DSETS`.
The draws consumed are one for `ndsets` if `MDSET` is set, and per dataset two for the extent
and two more for the chunk extents only if `CHUNK` is set. Every created dataset `j < ndsets`
has an extent `(X, Y)` with `1 ≤ X ≤ MAX_DSET_X` and `1 ≤ Y ≤ MAX_DSET_Y`, which is the extent
of its file dataspace. For every dataset created, with `CHUNK` set the chunk extents are the
third and fourth draw, in `1..MAX_CHUNK_X` and `1..MAX_CHUNK_Y`, and `H5Pset_chunk` is called;
with `CHUNK` clear `chunk_dims` is not assigned, only two draws are made and `H5Pset_chunk` is
not called. -/
theorem C21_dataset_generation_bounds (E : Env) (flags : Nat) (s : State) :
    (has_flag flags MDSET_FLAG_MDSET = false →
      (lifetime_init E flags s).ndsets = 1 ∧
      (lifetime_init E flags s).dset_dims 0 0 = E.random s.pos % MAX_DSET_X + 1) ∧
    (has_flag flags MDSET_FLAG_MDSET = true →
      (lifetime_init E flags s).ndsets = E.random s.pos % MAX_DSETS + 1 ∧
      1 ≤ (lifetime_init E flags s).ndsets ∧ (lifetime_init E flags s).ndsets ≤ MAX_DSETS ∧
      (lifetime_init E flags s).dset_dims 0 0 = E.random (s.pos + 1) % MAX_DSET_X + 1) ∧
    (lifetime_init E flags s).pos =
      s.pos + (if has_flag flags MDSET_FLAG_MDSET = true then 1 else 0) +
        (lifetime_init E flags s).ndsets *
          (if has_flag flags MDSET_FLAG_CHUNK = true then 4 else 2) ∧
    (∀ j, j < (lifetime_init E flags s).ndsets →
      (1 ≤ (lifetime_init E flags s).dset_dims j 0 ∧
        (lifetime_init E flags s).dset_dims j 0 ≤ MAX_DSET_X) ∧
      (1 ≤ (lifetime_init E flags s).dset_dims j 1 ∧
        (lifetime_init E flags s).dset_dims j 1 ≤ MAX_DSET_Y) ∧
      (lifetime_init E flags s).dset_space j =
        [.all [(lifetime_init E flags s).dset_dims j 0,
          (lifetime_init E flags s).dset_dims j 1]]) ∧
    (∀ j q, has_flag flags MDSET_FLAG_CHUNK = true →
      (create_dset E flags j q).chunk_dims 0 = E.random (q.pos + 2) % MAX_CHUNK_X + 1 ∧
      (create_dset E flags j q).chunk_dims 1 = E.random (q.pos + 3) % MAX_CHUNK_Y + 1 ∧
      (1 ≤ (create_dset E flags j q).chunk_dims 0 ∧
        (create_dset E flags j q).chunk_dims 0 ≤ MAX_CHUNK_X) ∧
      (1 ≤ (create_dset E flags j q).chunk_dims 1 ∧
        (create_dset E flags j q).chunk_dims 1 ≤ MAX_CHUNK_Y) ∧
      (create_dset E flags j q).pos = q.pos + 4 ∧
      (create_dset E flags j q).log =
        q.log ++ [Call.H5Screate_simple j, Call.H5Pset_chunk, Call.H5Dcreate2 j]) ∧
    (∀ j q, has_flag flags MDSET_FLAG_CHUNK = false →
      (create_dset E flags j q).chunk_dims = q.chunk_dims ∧
      (create_dset E flags j q).pos = q.pos + 2 ∧
      (create_dset E flags j q).log =
        q.log ++ [Call.H5Screate_simple j, Call.H5Dcreate2 j]) := by
  obtain ⟨a1, a2, a3, -⟩ := lifetime_init_spec E flags s
  obtain ⟨⟨b1, b2⟩, b3, -⟩ := lifetime_init_ok E flags s
  have hlay := lifetime_init_layout E flags s
  generalize lifetime_init E flags s = t at *
  refine ⟨?_, ?_, ?_, ?_, ?_, ?_⟩
  · intro hm
    have hn : t.ndsets = 1 := by
      rw [a1, hm]
      rfl
    refine ⟨hn, ?_⟩
    have h0 := (a3 0 (by omega)).1
    rw [hm] at h0
    simpa using h0
  · intro hm
    have hmax : max_dsets flags = MAX_DSETS := by
      unfold max_dsets
      rw [hm]
      rfl
    have hn : t.ndsets = E.random s.pos % MAX_DSETS + 1 := by
      rw [a1, if_pos hm, hmax]
    refine ⟨hn, b1, by rw [← hmax]; exact b2, ?_⟩
    have h0 := (a3 0 (by omega)).1
    rw [if_pos hm] at h0
    simpa using h0
  · rw [a2]
    by_cases hm : has_flag flags MDSET_FLAG_MDSET = true
    · rw [if_pos hm, if_pos hm]
    · rw [if_neg hm, if_neg hm, Nat.add_zero]
  · intro j hj
    exact ⟨(b3 j hj).1, (b3 j hj).2, hlay j hj⟩
  · intro j q hc
    obtain ⟨c1, -⟩ := create_dset_spec E flags j q
    obtain ⟨-, -, d3, -⟩ := create_dset_layout E flags j q
    obtain ⟨e1, e2, e3⟩ := d3 hc
    rw [if_pos hc] at c1
    have m1 := Nat.mod_lt (E.random (q.pos + 2)) (show 0 < MAX_CHUNK_X by decide)
    have m2 := Nat.mod_lt (E.random (q.pos + 3)) (show 0 < MAX_CHUNK_Y by decide)
    refine ⟨e1, e2, ⟨by omega, by omega⟩, ⟨by omega, by omega⟩, c1, e3⟩
  · intro j q hc
    obtain ⟨c1, -⟩ := create_dset_spec E flags j q
    obtain ⟨-, -, -, d4⟩ := create_dset_layout E flags j q
    obtain ⟨e1, e2⟩ := d4 hc
    have hc' : ¬ has_flag flags MDSET_FLAG_CHUNK = true := by simp [hc]
    rw [if_neg hc'] at c1
    exact ⟨e1, c1, e2⟩

/-- C22 (in-bounds indexing): for every random stream, group size and rank `E`, every
`flags`, every storage content and every start state, in every operation of every lifetime
of a run of `test_pmdset` each access the selection generation and the buffer updates make to
the usage mask, the oracle, the read expectation and the write buffer has a dataset index
below `max_dsets`, a row index below `MAX_DSET_X` and a column index below `MAX_DSET_Y`, each
index into `start`/`count` is below `MAX_HS` and each index into `points` is below
`3 * MAX_POINTS`; such a table element lies inside the allocated buffer of
`max_dsets * MAX_DSET_X * MAX_DSET_Y` elements. The same holds for the initialisation of the
write buffer at the start of a lifetime and of the buffer indices. Every pass of the loop over
processes does make accesses. The accesses listed are those the code makes: whatever an
operation, one pass of the loop over processes or the start of a lifetime changes in the
usage mask, the oracle, the read expectation, the write buffer, `start`, `count` or `points`
is addressed by a listed access, from any state. Hence in a run no operation and no start of
a lifetime changes an element at or beyond `max_dsets * MAX_DSET_X * MAX_DSET_Y` of these
buffers, an entry of `start`/`count` outside `[MAX_HS][2]`, or an entry of `points` at or
beyond `3 * MAX_POINTS`. What is read is listed too: the overlap test of a candidate hyperslab
or point reports an overlap exactly when the usage mask is set at a listed cell, and each
value stored at an offset (the mark, the oracle value, the read expectation, the updated write
buffer element) is computed from the buffers at that same offset. -/
theorem C22_in_bounds_indexing (E : Env) (flags : Nat)
    (file : Nat → Nat → Nat → Nat → Nat → Nat) (s0 : State) :
    (∀ i j, ∀ a ∈ operation_trace E flags
        (run_ops E flags (file i) j
          (lifetime_init E flags (lifetimes E flags file i (setup E flags s0)))),
      a.in_bounds flags = true) ∧
    (∀ a ∈ wbuf_trace flags, a.in_bounds flags = true) ∧
    (∀ a ∈ bufi_trace flags, a.in_bounds flags = true) ∧
    (∀ k x y, (Access.cell k x y).in_bounds flags = true ↔
      k < max_dsets flags ∧ x < MAX_DSET_X ∧ y < MAX_DSET_Y) ∧
    (∀ k x, (Access.row k x).in_bounds flags = true ↔ k < max_dsets flags ∧ x < MAX_DSET_X) ∧
    (∀ m, (Access.slab m).in_bounds flags = true ↔ m < MAX_HS) ∧
    (∀ j, (Access.point j).in_bounds flags = true ↔ j < 3 * MAX_POINTS) ∧
    (∀ k x y, (Access.cell k x y).in_bounds flags = true → idx k x y < buf_len flags) ∧
    (∀ (d : Bool) (k l : Nat) (s : State), rank_iter_trace E flags d k l s ≠ []) ∧
    (∀ n, (Access.block n).in_bounds flags = true ↔ n ≤ buf_len flags) ∧
    (∀ a ∈ lifetime_init_trace flags, a.in_bounds flags = true) ∧
    (∀ (f : Nat → Nat → Nat → Nat) (t : State),
      Covers (operation_trace E flags t) t (operation E flags f t)) ∧
    (∀ (d : Bool) (k l : Nat) (t : State),
      Covers (rank_iter_trace E flags d k l t) t (rank_iter E flags d k l t).1) ∧
    (∀ t : State, Covers (lifetime_init_trace flags) t (lifetime_init E flags t)) ∧
    (∀ i j p,
      ((run_ops E flags (file i) (j + 1)
          (lifetime_init E flags (lifetimes E flags file i (setup E flags s0)))).dset_usage p ≠
        (run_ops E flags (file i) j
          (lifetime_init E flags (lifetimes E flags file i (setup E flags s0)))).dset_usage p ∨
       (run_ops E flags (file i) (j + 1)
          (lifetime_init E flags (lifetimes E flags file i (setup E flags s0)))).efbuf p ≠
        (run_ops E flags (file i) j
          (lifetime_init E flags (lifetimes E flags file i (setup E flags s0)))).efbuf p ∨
       (run_ops E flags (file i) (j + 1)
          (lifetime_init E flags (lifetimes E flags file i (setup E flags s0)))).erbuf p ≠
        (run_ops E flags (file i) j
          (lifetime_init E flags (lifetimes E flags file i (setup E flags s0)))).erbuf p ∨
       (run_ops E flags (file i) (j + 1)
          (lifetime_init E flags (lifetimes E flags file i (setup E flags s0)))).wbuf p ≠
        (run_ops E flags (file i) j
          (lifetime_init E flags (lifetimes E flags file i (setup E flags s0)))).wbuf p) →
      p < buf_len flags) ∧
    (∀ i j m d,
      ((run_ops E flags (file i) (j + 1)
          (lifetime_init E flags (lifetimes E flags file i (setup E flags s0)))).start m d ≠
        (run_ops E flags (file i) j
          (lifetime_init E flags (lifetimes E flags file i (setup E flags s0)))).start m d ∨
       (run_ops E flags (file i) (j + 1)
          (lifetime_init E flags (lifetimes E flags file i (setup E flags s0)))).count m d ≠
        (run_ops E flags (file i) j
          (lifetime_init E flags (lifetimes E flags file i (setup E flags s0)))).count m d) →
      m < MAX_HS ∧ d < 2) ∧
    (∀ i j q,
      (run_ops E flags (file i) (j + 1)
          (lifetime_init E flags (lifetimes E flags file i (setup E flags s0)))).points q ≠
        (run_ops E flags (file i) j
          (lifetime_init E flags (lifetimes E flags file i (setup E flags s0)))).points q →
      q < 3 * MAX_POINTS) ∧
    (∀ (t : State) p,
      ((lifetime_init E flags t).dset_usage p ≠ t.dset_usage p ∨
       (lifetime_init E flags t).efbuf p ≠ t.efbuf p ∨
       (lifetime_init E flags t).erbuf p ≠ t.erbuf p ∨
       (lifetime_init E flags t).wbuf p ≠ t.wbuf p) → p < buf_len flags) ∧
    (∀ (d : Bool) (k m mx my : Nat) (t : State),
      (hs_candidate E d k m mx my t).2 = true ↔
        ∃ x y, Access.cell k x y ∈ hs_candidate_trace E d k m mx my t ∧
          t.dset_usage (idx k x y) ≠ 0) ∧
    (∀ (d : Bool) (k m : Nat) (t : State),
      (pt_candidate E d k m t).2 = true ↔
        ∃ x y, Access.cell k x y ∈ pt_candidate_trace E d k m t ∧
          t.dset_usage (idx k x y) ≠ 0) ∧
    (∀ (d : Bool) (k l : Nat) (t : State) (p : Nat),
      ((rank_iter E flags d k l t).1.dset_usage p ≠ t.dset_usage p →
        (rank_iter E flags d k l t).1.dset_usage p = 1) ∧
      ((rank_iter E flags d k l t).1.efbuf p ≠ t.efbuf p →
        (rank_iter E flags d k l t).1.efbuf p = efbuf_value E flags l t.wbuf p) ∧
      ((rank_iter E flags d k l t).1.erbuf p ≠ t.erbuf p →
        (rank_iter E flags d k l t).1.erbuf p = t.efbuf p)) ∧
    (∀ (f : Nat → Nat → Nat → Nat) (t : State) (p : Nat),
      (op_io E flags false f t).wbuf p ≠ t.wbuf p →
        (op_io E flags false f t).wbuf p =
          to_unsigned ((t.wbuf p : Int) + (op_data_incr E flags : Int))) := by
  have hreach : ∀ i j, InBounds flags (operation_trace E flags
      (run_ops E flags (file i) j
        (lifetime_init E flags (lifetimes E flags file i (setup E flags s0))))) := by
    intro i j
    obtain ⟨h1, h2⟩ := reach_dims E flags file s0 i j
    exact operation_trace_ok E flags _ h1 h2
  have hstep : ∀ i j, _ := fun i j => covers_in_bounds flags _ _ _
    (operation_covers E flags (file i j)
      (run_ops E flags (file i) j
        (lifetime_init E flags (lifetimes E flags file i (setup E flags s0)))))
    (hreach i j)
  refine ⟨hreach, wbuf_trace_ok flags, bufi_trace_ok flags, ?_, ?_, ?_, ?_, ?_, ?_, ?_,
    lifetime_init_trace_ok flags, fun f t => operation_covers E flags f t,
    fun d k l t => rank_iter_covers E flags d k l t,
    fun t => lifetime_init_covers E flags t,
    fun i j p h => (hstep i j).1 p h, fun i j m d h => (hstep i j).2.1 m d h,
    fun i j q h => (hstep i j).2.2 q h,
    fun t p h => (covers_in_bounds flags _ _ _ (lifetime_init_covers E flags t)
      (lifetime_init_trace_ok flags)).1 p h,
    fun d k m mx my t => hs_candidate_reads E d k m mx my t,
    fun d k m t => pt_candidate_reads E d k m t,
    fun d k l t p => rank_iter_values E flags d k l t p,
    fun f t p h => op_io_value E flags f t p h⟩
  · intro k x y
    simp only [Access.in_bounds, decide_eq_true_eq]
  · intro k x
    simp only [Access.in_bounds, decide_eq_true_eq]
  · intro m
    simp only [Access.in_bounds, decide_eq_true_eq]
  · intro j
    simp only [Access.in_bounds, decide_eq_true_eq]
  · intro k x y h
    simp only [Access.in_bounds, decide_eq_true_eq] at h
    exact idx_lt flags k x y h.1 h.2.1 h.2.2
  · intro d k l s h
    obtain ⟨T, hT⟩ := rank_iter_trace_first E flags d k l s
    rw [hT] at h
    exact List.cons_ne_nil _ _ h
  · intro n
    simp only [Access.in_bounds, decide_eq_true_eq]

/-- C14 (configuration matrix): `main` calls `test_pmdset` exactly 16 times, with `niter = 10`
and the flag values 0, 1, ..., 15 in ascending order, and every combination of the four flags
`CHUNK`, `SHAPESAME`, `MDSET`, `COLLECTIVE` occurs in exactly one of the calls. The state
`main` reaches is the one these calls produce: `test_pmdset` applied for each recorded call,
in order, to the state after the start of `main`, followed by the barrier and the file
deletion. The calls are visible in the log: every call of `test_pmdset` adds exactly one
`H5Pset_dxpl_mpio` call, with the mode of its `COLLECTIVE` flag, and the log of `main` holds
16 more of them than the log it started from, one per recorded call and in the same order. -/
theorem C14_configuration_matrix (E : Env) (file : Nat → Nat → Nat → Nat → Nat → Nat → Nat)
    (s : State) :
    (main_local E file s).2 =
      [(10, 0), (10, 1), (10, 2), (10, 3), (10, 4), (10, 5), (10, 6), (10, 7), (10, 8), (10, 9),
        (10, 10), (10, 11), (10, 12), (10, 13), (10, 14), (10, 15)] ∧
    (main_local E file s).2.length = 16 ∧
    (∀ c h m o : Bool,
      (main_local E file s).2.countP (fun p =>
        has_flag p.2 MDSET_FLAG_CHUNK == c && has_flag p.2 MDSET_FLAG_SHAPESAME == h &&
        has_flag p.2 MDSET_FLAG_MDSET == m && has_flag p.2 MDSET_FLAG_COLLECTIVE == o) = 1) ∧
    (main_local E file s).1 =
      (fun t => if E.mpi_rank = 0 then checked E .MPI_File_delete (checked E .MPI_Barrier t)
        else checked E .MPI_Barrier t)
      ((main_local E file s).2.foldl (fun st p => test_pmdset E p.1 p.2 (file p.2) st)
        (fill_dset_names
          { checked E .MPI_Bcast (unchecked .MPI_Comm_rank (unchecked .MPI_Comm_size
            (unchecked .MPI_Init (unchecked .h5_reset { s with nerrors := 0 })))) with
            pos := 0 })) ∧
    (∀ (niter flags : Nat) (f : Nat → Nat → Nat → Nat → Nat → Nat) (t : State),
      (test_pmdset E niter flags f t).log.filter Call.is_dxpl =
        t.log.filter Call.is_dxpl ++
          [Call.H5Pset_dxpl_mpio (has_flag flags MDSET_FLAG_COLLECTIVE)]) ∧
    (main_local E file s).1.log.filter Call.is_dxpl =
      s.log.filter Call.is_dxpl ++
        (main_local E file s).2.map
          (fun p => Call.H5Pset_dxpl_mpio (has_flag p.2 MDSET_FLAG_COLLECTIVE)) ∧
    ((main_local E file s).1.log.filter Call.is_dxpl).length =
      (s.log.filter Call.is_dxpl).length + 16 := by
  have hcalls := main_local_calls E file s
  have hdx := main_local_dxpl E file s
  have hstate : (main_local E file s).1 =
      (fun t => if E.mpi_rank = 0 then checked E .MPI_File_delete (checked E .MPI_Barrier t)
        else checked E .MPI_Barrier t)
      (((List.range' 0 (MDSET_ALL_FLAGS + 1)).map (fun j => (10, j))).foldl
        (fun st (p : Nat × Nat) => test_pmdset E p.1 p.2 (file p.2) st)
        (fill_dset_names
          { checked E .MPI_Bcast (unchecked .MPI_Comm_rank (unchecked .MPI_Comm_size
            (unchecked .MPI_Init (unchecked .h5_reset { s with nerrors := 0 })))) with
            pos := 0 })) := by
    rw [main_local_fst, main_loop_state, List.foldl_map]
  generalize (main_local E file s).1 = r1 at *
  generalize (main_local E file s).2 = r2 at *
  subst hcalls
  refine ⟨by decide, by decide, by decide, hstate,
    fun niter flags f t => test_pmdset_dxpl E niter flags f t, ?_, ?_⟩
  · rw [hdx, List.map_map]
    rfl
  · rw [hdx, List.length_append, List.length_map]
    rfl

end PMultiDset
